import Mathlib

/-! # WebSynth D-77 host: the custom image loader

A shallow embedding of the relocation, binding and life-cycle code of
`src/websynth/indirect/functions-32bit.c` (and of its sibling
`src/websynth/llasm/indirect/functions-32bit.c`), of the address-space search
of `src/websynth/ptrofs/functions-32bit.c`, of the per-thread execution
contexts of `asm-cpu.c` and of the `D77_*` facade of `functions-llasm.c` and
`functions-x64.c`, with the properties of the host stated and proved over it.

Conventions of the embedding

* Process memory is a function from byte addresses to bytes.  Multi-byte
  fields are little-endian, as on every target of the loader.
* Pointers and `uint64_t` values are naturals below `2 ^ 64`; every C
  addition on them is written with an explicit `% 2 ^ 64`.
* `NULL` is the address `0`.
* A C loop whose trip count is not bounded by its syntax is run with fuel;
  running out of fuel is a result of its own (`Outcome.timeout`), distinct
  from failure.
-/

namespace WebSynth

/-! ## Memory -/

/-- Byte-addressed memory.  Only the low eight bits of a cell are observable. -/
abbrev Mem := Nat → Nat

/-- Read of a `uint8_t`. -/
def rd8 (m : Mem) (a : Nat) : Nat := m a % 256

/-- Read of a little-endian `uint16_t`. -/
def rd16 (m : Mem) (a : Nat) : Nat := rd8 m a + 256 * rd8 m (a + 1)

/-- Read of a little-endian `uint32_t`. -/
def rd32 (m : Mem) (a : Nat) : Nat := rd16 m a + 65536 * rd16 m (a + 2)

/-- Read of a little-endian `uint64_t`. -/
def rd64 (m : Mem) (a : Nat) : Nat := rd32 m a + 4294967296 * rd32 m (a + 4)

/-- Store of a `uint8_t`. -/
def wr8 (m : Mem) (a v : Nat) : Mem := fun x => if x = a then v % 256 else m x

/-- Store of a little-endian `uint16_t`. -/
def wr16 (m : Mem) (a v : Nat) : Mem := wr8 (wr8 m a v) (a + 1) (v / 256)

/-- Store of a little-endian `uint32_t` (the value is truncated to 32 bits). -/
def wr32 (m : Mem) (a v : Nat) : Mem := wr16 (wr16 m a v) (a + 2) (v / 65536)

/-- Store of a little-endian `uint64_t` (the value is truncated to 64 bits). -/
def wr64 (m : Mem) (a v : Nat) : Mem := wr32 (wr32 m a v) (a + 4) (v / 4294967296)

/-- Pointer (and `uint64_t`) addition: wraps at `2 ^ 64`. -/
def padd (p n : Nat) : Nat := (p + n) % 2 ^ 64

/-- Pointer (and `uint64_t`) subtraction: wraps at `2 ^ 64`. -/
def psub (p n : Nat) : Nat := (p + (2 ^ 64 - n % 2 ^ 64)) % 2 ^ 64

/-! ## Loops, outcomes and observable events -/

/-- Result of running a piece of the loader: it ran out of fuel, it took the
error exit (`goto error1`), or it ran to its normal end.  Both exits carry the
state they were taken in. -/
inductive Outcome (α : Type) where
  | timeout : Outcome α
  | fail : α → Outcome α
  | done : α → Outcome α

/-- What one trip through a loop body decides: go round again, leave the loop
normally, or jump to the error exit; `hang` is a trip that did not end because
a loop nested in it ran out of fuel. -/
inductive Ctl (σ α : Type) where
  | next : σ → Ctl σ α
  | stop : α → Ctl σ α
  | abort : α → Ctl σ α
  | hang : Ctl σ α

/-- Run a loop body until it leaves the loop, for at most `fuel` trips. -/
def iter {σ α : Type} (body : σ → Ctl σ α) : Nat → σ → Outcome α
  | 0, _ => Outcome.timeout
  | fuel + 1, s =>
    match body s with
    | Ctl.next s' => iter body fuel s'
    | Ctl.stop a => Outcome.done a
    | Ctl.abort a => Outcome.fail a
    | Ctl.hang => Outcome.timeout

/-- The loop state at the start of trip number `n` (counting from `0`), when the
loop gets that far. -/
def reach {σ α : Type} (body : σ → Ctl σ α) : Nat → σ → Option σ
  | 0, s => some s
  | n + 1, s =>
    match body s with
    | Ctl.next s' => reach body n s'
    | Ctl.stop _ => none
    | Ctl.abort _ => none
    | Ctl.hang => none

/-- Effects of the loader that are visible outside the image's memory. -/
inductive Event where
  /-- A call through a function pointer into the image (constructor or destructor). -/
  | call (addr : Nat)
  /-- A call of `munmap (addr, len)`. -/
  | munmap (addr len : Nat)
  /-- A call of `VirtualFree (addr, 0, MEM_RELEASE)`. -/
  | virtualFree (addr : Nat)
  /-- A successful reservation of `len` bytes of address space at `addr`. -/
  | reserve (addr len : Nat)
deriving DecidableEq, Repr

/-- Memory together with the events so far, oldest first. -/
structure World where
  mem : Mem
  trace : List Event

/-- What `load_library_32bit` hands back: the returned pointer (`0` is `NULL`),
the memory and the events of the call. -/
structure Loaded where
  ret : Nat
  mem : Mem
  trace : List Event

/-- A call of the code at `addr`; `exec addr` is what that code does to memory. -/
def callFn (exec : Nat → Mem → Mem) (addr : Nat) (w : World) : World :=
  { mem := exec addr w.mem, trace := w.trace ++ [Event.call addr] }

/-- The constructors (and destructors) called in a trace, in call order. -/
def callsOf : List Event → List Nat
  | [] => []
  | Event.call a :: es => a :: callsOf es
  | _ :: es => callsOf es

/-! ## The host symbol table -/

/-- The compiled-in table `symbol_table_32bit[]` (`symbol_table[]` in the llasm
variant): the `(name, value)` pairs in table order, names as their bytes, up to
the terminating entry. -/
abbrev SymbolTable := List (List Nat × Nat)

/-- The test `0 == strcmp (p, name)` for a string `p` in memory and a host
string `name`. -/
def strEq (m : Mem) (p : Nat) : List Nat → Bool
  | [] => rd8 m p == 0
  | c :: cs => if c = 0 then rd8 m p == 0 else (rd8 m p == c && strEq m (p + 1) cs)

/-- The C string at address `p` is `name`: the bytes of `name`, then a NUL. -/
def isCString (m : Mem) (p : Nat) (name : List Nat) : Prop :=
  (∀ i : Nat, i < name.length → rd8 m (p + i) = name.getD i 0) ∧ rd8 m (p + name.length) = 0

/-- A host string holds no NUL byte. -/
def nulFree (name : List Nat) : Prop := ∀ c ∈ name, c ≠ 0

/-- The scan of the symbol table for the string at `p`: the `value` of the first
entry whose name compares equal, `0` (`NULL`) when the scan ends without one. -/
def symbol_lookup (tbl : SymbolTable) (m : Mem) (p : Nat) : Nat :=
  match tbl with
  | [] => 0
  | (name, value) :: rest => if strEq m p name then value else symbol_lookup rest m p

/-! ## ELF: constants of `<elf.h>` and the relocation loop -/

/-- The two sibling sources of the ELF loader. -/
inductive Variant where
  /-- The file `src/websynth/indirect/functions-32bit.c`. -/
  | indirect
  /-- The file `src/websynth/llasm/indirect/functions-32bit.c`. -/
  | llasm
deriving DecidableEq, Repr

def EM_X86_64 : Nat := 62
def EM_AARCH64 : Nat := 183
def EM_RISCV : Nat := 243
def R_X86_64_JUMP_SLOT : Nat := 7
def R_X86_64_RELATIVE : Nat := 8
def R_AARCH64_JUMP_SLOT : Nat := 1026
def R_AARCH64_RELATIVE : Nat := 1027
def R_RISCV_JUMP_SLOT : Nat := 5
def R_RISCV_RELATIVE : Nat := 3
def PT_LOAD : Nat := 1
def PT_DYNAMIC : Nat := 2
def ET_EXEC : Nat := 2
def ET_DYN : Nat := 3
def DT_PLTRELSZ : Nat := 2
def DT_STRTAB : Nat := 5
def DT_SYMTAB : Nat := 6
def DT_RELA : Nat := 7
def DT_RELASZ : Nat := 8
def DT_RELAENT : Nat := 9
def DT_STRSZ : Nat := 10
def DT_SYMENT : Nat := 11
def DT_INIT : Nat := 12
def DT_FINI : Nat := 13
def DT_RELSZ : Nat := 18
def DT_JMPREL : Nat := 23
def DT_INIT_ARRAY : Nat := 25
def DT_FINI_ARRAY : Nat := 26
def DT_INIT_ARRAYSZ : Nat := 27
def DT_FINI_ARRAYSZ : Nat := 28
def DT_NUM : Nat := 38

/-- Field `e_machine` of the `Elf64_Ehdr` at `library`. -/
def e_machine (m : Mem) (library : Nat) : Nat := rd16 m (library + 18)

/-- The test that selects the jump-slot branch of the relocation loop. -/
def isJumpSlot (v : Variant) (machine rtype : Nat) : Bool :=
  match v with
  | Variant.indirect =>
    (machine == EM_X86_64 && rtype == R_X86_64_JUMP_SLOT) ||
    (machine == EM_AARCH64 && rtype == R_AARCH64_JUMP_SLOT) ||
    (machine == EM_RISCV && rtype == R_RISCV_JUMP_SLOT)
  | Variant.llasm => rtype == R_X86_64_JUMP_SLOT || rtype == R_AARCH64_JUMP_SLOT

/-- The test that selects the relative branch of the relocation loop. -/
def isRelative (v : Variant) (machine rtype : Nat) : Bool :=
  match v with
  | Variant.indirect =>
    (machine == EM_X86_64 && rtype == R_X86_64_RELATIVE) ||
    (machine == EM_AARCH64 && rtype == R_AARCH64_RELATIVE) ||
    (machine == EM_RISCV && rtype == R_RISCV_RELATIVE)
  | Variant.llasm => rtype == R_X86_64_RELATIVE || rtype == R_AARCH64_RELATIVE

/-- Field `r_offset` of the `Elf64_Rela` at `relocation`. -/
def r_offset (m : Mem) (relocation : Nat) : Nat := rd64 m relocation

/-- Field `r_info` of the `Elf64_Rela` at `relocation`. -/
def r_info (m : Mem) (relocation : Nat) : Nat := rd64 m (relocation + 8)

/-- Field `r_addend` of the `Elf64_Rela` at `relocation`. -/
def r_addend (m : Mem) (relocation : Nat) : Nat := rd64 m (relocation + 16)

/-- Field `st_name` of the `Elf64_Sym` at `symbol`. -/
def st_name (m : Mem) (symbol : Nat) : Nat := rd32 m symbol

/-- Field `st_info` of the `Elf64_Sym` at `symbol`. -/
def st_info (m : Mem) (symbol : Nat) : Nat := rd8 m (symbol + 4)

/-- Field `st_shndx` of the `Elf64_Sym` at `symbol`. -/
def st_shndx (m : Mem) (symbol : Nat) : Nat := rd16 m (symbol + 6)

/-- Field `st_value` of the `Elf64_Sym` at `symbol`. -/
def st_value (m : Mem) (symbol : Nat) : Nat := rd64 m (symbol + 8)

/-- The relocation type `r_info & 0xffffffff`. -/
def relType (info : Nat) : Nat := info % 2 ^ 32

/-- The pointer `library + dynamic_entries[DT_SYMTAB] +
((uint32_t)(r_info >> 32)) * dynamic_entries[DT_SYMENT]`. -/
def elf_symbol (library : Nat) (dyn : Nat → Nat) (info : Nat) : Nat :=
  padd (padd library (dyn DT_SYMTAB)) ((info / 2 ^ 32) * dyn DT_SYMENT % 2 ^ 64)

/-- The pointer `library + dynamic_entries[DT_STRTAB] + symbol->st_name`. -/
def elf_symbname (library : Nat) (dyn : Nat → Nat) (m : Mem) (symbol : Nat) : Nat :=
  padd (padd library (dyn DT_STRTAB)) (st_name m symbol)

/-- The body of the inner relocation loop of `load_library_32bit` for the
`Elf64_Rela` at address `relocation`: `none` is `goto error1`, `some` the memory
after the entry.  `dyn` is the local array `dynamic_entries`. -/
def elf_apply_rela (v : Variant) (tbl : SymbolTable) (library : Nat) (dyn : Nat → Nat)
    (relocation : Nat) (m : Mem) : Option Mem :=
  if isJumpSlot v (e_machine m library) (relType (r_info m relocation)) then
    if dyn DT_SYMTAB = 0 ∨ dyn DT_SYMENT = 0 then none
    else
      let symbol := elf_symbol library dyn (r_info m relocation)
      if st_shndx m symbol = 0 then
        if st_name m symbol ≠ 0 then
          if dyn DT_STRTAB = 0 then none
          else
            let symbvalue := symbol_lookup tbl m (elf_symbname library dyn m symbol)
            if symbvalue = 0 then none
            else some (wr64 m (padd library (r_offset m relocation)) symbvalue)
        else some m
      else some (wr64 m (padd library (r_offset m relocation)) (padd library (st_value m symbol)))
  else if isRelative v (e_machine m library) (relType (r_info m relocation)) then
    some (wr64 m (padd library (r_offset m relocation)) (padd library (r_addend m relocation)))
  else none

/-- One trip of `for (section_offset = 0; section_offset < relsize;
section_offset += dynamic_entries[DT_RELAENT])`; the loop state is
`(section_offset, memory)`. -/
def elf_reloc_body (v : Variant) (tbl : SymbolTable) (library : Nat) (dyn : Nat → Nat)
    (relsize reladdr : Nat) (s : Nat × Mem) : Ctl (Nat × Mem) Mem :=
  if s.1 < relsize then
    match elf_apply_rela v tbl library dyn (padd (padd library reladdr) s.1) s.2 with
    | none => Ctl.abort s.2
    | some m' => Ctl.next (padd s.1 (dyn DT_RELAENT), m')
  else Ctl.stop s.2

/-- The local `relsize` in trip `indrel` of `for (indrel = 0; indrel < 2; indrel++)`. -/
def elf_relsize (dyn : Nat → Nat) (indrel : Nat) : Nat :=
  if indrel = 0 then dyn DT_RELASZ else dyn DT_PLTRELSZ

/-- The local `reladdr` in trip `indrel` of `for (indrel = 0; indrel < 2; indrel++)`. -/
def elf_reladdr (dyn : Nat → Nat) (indrel : Nat) : Nat :=
  if indrel = 0 then dyn DT_RELA else dyn DT_JMPREL

/-- One trip of `for (indrel = 0; indrel < 2; indrel++)`: the `DT_RELA` table
for `indrel = 0`, the `DT_JMPREL` table otherwise. -/
def elf_reloc_pass (v : Variant) (tbl : SymbolTable) (fuel library : Nat) (dyn : Nat → Nat)
    (indrel : Nat) (m : Mem) : Outcome Mem :=
  if elf_relsize dyn indrel = 0 then Outcome.done m
  else if elf_reladdr dyn indrel = 0 ∨ dyn DT_RELAENT = 0 then Outcome.fail m
  else
    iter (elf_reloc_body v tbl library dyn (elf_relsize dyn indrel) (elf_reladdr dyn indrel)) fuel (0, m)

/-- The relocation part of `load_library_32bit` (ELF): the `DT_RELSZ` test and
the two passes. -/
def elf_relocate (v : Variant) (tbl : SymbolTable) (fuel library : Nat) (dyn : Nat → Nat)
    (m : Mem) : Outcome Mem :=
  if dyn DT_RELSZ ≠ 0 then Outcome.fail m
  else
    match elf_reloc_pass v tbl fuel library dyn 0 m with
    | Outcome.done m1 => elf_reloc_pass v tbl fuel library dyn 1 m1
    | o => o

/-! ## ELF: the rest of `load_library_32bit` -/

/-- The test on `e_machine` at the head of the ELF branch of `load_library_32bit`. -/
def supportedMachine (v : Variant) (machine : Nat) : Bool :=
  match v with
  | Variant.indirect => machine == EM_X86_64 || machine == EM_AARCH64 || machine == EM_RISCV
  | Variant.llasm => machine == EM_X86_64 || machine == EM_AARCH64

/-- One trip of the loop over the `Elf64_Dyn` entries of a `PT_DYNAMIC` segment;
the loop state is `(section_offset, dynamic_entries)`. -/
def elf_dyn_body (library p_vaddr p_memsz : Nat) (m : Mem) (s : Nat × (Nat → Nat)) :
    Ctl (Nat × (Nat → Nat)) (Nat → Nat) :=
  if s.1 < p_memsz then
    let dynamic_entry := padd (padd library p_vaddr) s.1
    let d_tag := rd64 m dynamic_entry
    let d_val := rd64 m (dynamic_entry + 8)
    Ctl.next (padd s.1 16,
      if d_tag < DT_NUM + 1 then (fun t => if t = d_tag then d_val else s.2 t) else s.2)
  else Ctl.stop s.2

/-- The loop over the program headers that fills `dynamic_entries`: `n` headers
are still to be visited, the next one has number `index`. -/
def elf_read_dynamic_from (fuel library : Nat) (m : Mem) :
    Nat → Nat → (Nat → Nat) → Outcome (Nat → Nat)
  | 0, _, dyn => Outcome.done dyn
  | n + 1, index, dyn =>
    let program_header := padd (padd library (rd64 m (library + 32))) (index * rd16 m (library + 54))
    if rd32 m program_header ≠ PT_DYNAMIC then elf_read_dynamic_from fuel library m n (index + 1) dyn
    else
      match iter (elf_dyn_body library (rd64 m (program_header + 16)) (rd64 m (program_header + 40)) m)
          fuel (0, dyn) with
      | Outcome.done dyn' => elf_read_dynamic_from fuel library m n (index + 1) dyn'
      | o => o

/-- The block of `load_library_32bit` headed `read dynamic entries`: the array
starts zeroed and every program header `0 .. e_phnum - 1` is visited. -/
def elf_read_dynamic (fuel library : Nat) (m : Mem) : Outcome (Nat → Nat) :=
  elf_read_dynamic_from fuel library m (rd16 m (library + 56)) 0 (fun _ => 0)

/-- One trip of the loop over `DT_INIT_ARRAY`; the loop state is
`(section_offset, world)`. -/
def elf_init_array_body (exec : Nat → Mem → Mem) (library : Nat) (dyn : Nat → Nat)
    (s : Nat × World) : Ctl (Nat × World) World :=
  if s.1 < dyn DT_INIT_ARRAYSZ then
    Ctl.next (padd s.1 8,
      callFn exec (rd64 s.2.mem (padd (padd library (dyn DT_INIT_ARRAY)) s.1)) s.2)
  else Ctl.stop s.2

/-- The block of `load_library_32bit` headed `run constructors` (ELF). -/
def elf_constructors (exec : Nat → Mem → Mem) (fuel library : Nat) (dyn : Nat → Nat)
    (w : World) : Outcome World :=
  let w1 := if dyn DT_INIT ≠ 0 then callFn exec (padd library (dyn DT_INIT)) w else w
  if dyn DT_INIT_ARRAYSZ ≠ 0 then
    if dyn DT_INIT_ARRAY = 0 then Outcome.fail w1
    else iter (elf_init_array_body exec library dyn) fuel (0, w1)
  else Outcome.done w1

/-- The exit `error1` of the ELF branch and of the macOS branch:
`munmap (library, libsize); return NULL`. -/
def elf_error1 (library libsize : Nat) (w : World) : Loaded :=
  { ret := 0, mem := w.mem, trace := w.trace ++ [Event.munmap library libsize] }

/-- The ELF branch of `load_library_32bit` from the point where the image has
been mapped at `library` (a non-null pointer) with `*libsize = libsize`:
relocation and constructors, given the array `dynamic_entries`. -/
def elf_link (v : Variant) (tbl : SymbolTable) (exec : Nat → Mem → Mem) (fuel library libsize : Nat)
    (dyn : Nat → Nat) (m : Mem) : Option Loaded :=
  match elf_relocate v tbl fuel library dyn m with
  | Outcome.timeout => none
  | Outcome.fail m' => some (elf_error1 library libsize { mem := m', trace := [] })
  | Outcome.done m' =>
    match elf_constructors exec fuel library dyn { mem := m', trace := [] } with
    | Outcome.timeout => none
    | Outcome.fail w => some (elf_error1 library libsize w)
    | Outcome.done w => some { ret := library, mem := w.mem, trace := w.trace }

/-- The ELF branch of `load_library_32bit` after `library` has been mapped:
machine test, dynamic entries, relocation, constructors.  `none` means that a
loop did not end within `fuel` trips. -/
def load_library_32bit_elf (v : Variant) (tbl : SymbolTable) (exec : Nat → Mem → Mem)
    (fuel library libsize : Nat) (m : Mem) : Option Loaded :=
  if supportedMachine v (e_machine m library) then
    match elf_read_dynamic fuel library m with
    | Outcome.timeout => none
    | Outcome.fail _ => some (elf_error1 library libsize { mem := m, trace := [] })
    | Outcome.done dyn => elf_link v tbl exec fuel library libsize dyn m
  else some (elf_error1 library libsize { mem := m, trace := [] })

/-! ## ELF: mapping the image (`load_library_from_memory_linux`)

The file is mapped read-only at `mem`.  An `Elf64_Ehdr` has `e_type` at `+16`,
`e_phoff` at `+32`, `e_shoff` at `+40`, `e_phentsize` at `+54`, `e_phnum` at
`+56`, `e_shentsize` at `+58`, `e_shnum` at `+60`, `e_shstrndx` at `+62`; an
`Elf64_Phdr` has `p_type` at `+0`, `p_offset` at `+8`, `p_vaddr` at `+16`,
`p_filesz` at `+32`, `p_memsz` at `+40`; an `Elf64_Shdr` has `sh_type` at `+4`,
`sh_offset` at `+24`, `sh_size` at `+32`, `sh_entsize` at `+56`. -/

def SHT_SYMTAB : Nat := 2
def SHT_STRTAB : Nat := 3

def e_type (m : Mem) (mem : Nat) : Nat := rd16 m (mem + 16)
def e_phoff (m : Mem) (mem : Nat) : Nat := rd64 m (mem + 32)
def e_shoff (m : Mem) (mem : Nat) : Nat := rd64 m (mem + 40)
def e_phentsize (m : Mem) (mem : Nat) : Nat := rd16 m (mem + 54)
def e_phnum (m : Mem) (mem : Nat) : Nat := rd16 m (mem + 56)
def e_shentsize (m : Mem) (mem : Nat) : Nat := rd16 m (mem + 58)
def e_shnum (m : Mem) (mem : Nat) : Nat := rd16 m (mem + 60)
def e_shstrndx (m : Mem) (mem : Nat) : Nat := rd16 m (mem + 62)
def p_type (m : Mem) (ph : Nat) : Nat := rd32 m ph
def p_offset (m : Mem) (ph : Nat) : Nat := rd64 m (ph + 8)
def p_vaddr (m : Mem) (ph : Nat) : Nat := rd64 m (ph + 16)
def p_filesz (m : Mem) (ph : Nat) : Nat := rd64 m (ph + 32)
def p_memsz (m : Mem) (ph : Nat) : Nat := rd64 m (ph + 40)
def sh_type (m : Mem) (sh : Nat) : Nat := rd32 m (sh + 4)
def sh_offset (m : Mem) (sh : Nat) : Nat := rd64 m (sh + 24)
def sh_size (m : Mem) (sh : Nat) : Nat := rd64 m (sh + 32)
def sh_entsize (m : Mem) (sh : Nat) : Nat := rd64 m (sh + 56)

/-- What the operating system answers to the calls of the mapping code. -/
structure Os where
  /-- Result of `sysconf (_SC_PAGESIZE)`. -/
  sysconf_pagesize : Int
  /-- Result of `mmap (maddr, size, PROT_NONE, MAP_FIXED_NOREPLACE | flags, -1, 0)`:
  the address of the new mapping, `none` for `MAP_FAILED`. -/
  mmap_noreplace : Nat → Nat → Option Nat
  /-- Result of `map_memory_32bit (size, 1)`: the start of `size` bytes of
  address space that the call has reserved, `0` for `NULL`. -/
  map_memory_32bit : Nat → Nat
  /-- Whether `mmap (start, length, prot, MAP_PRIVATE | MAP_FIXED ..)` succeeds. -/
  mmap_fixed : Nat → Nat → Bool
  /-- Whether `mprotect (addr, len, prot)` succeeds. -/
  mprotect : Nat → Nat → Bool

/-- The local `page_size`: `sysconf (_SC_PAGESIZE)`, or 4096 when that is not
positive. -/
def page_size (os : Os) : Nat :=
  if os.sysconf_pagesize ≤ 0 then 4096 else os.sysconf_pagesize.toNat

/-- The C expression `x & ~(page_size - 1)` on `uint64_t`. -/
def page_floor (page_size x : Nat) : Nat := x &&& (2 ^ 64 - page_size)

/-- The C expression `(x + (page_size - 1)) & ~(page_size - 1)` on `uint64_t`. -/
def page_ceil (page_size x : Nat) : Nat := page_floor page_size ((x + (page_size - 1)) % 2 ^ 64)

/-- The call `memcpy (dst, src, n)`. -/
def memcpy (m : Mem) (dst src n : Nat) : Mem :=
  fun x => if dst ≤ x ∧ x < dst + n then m (src + (x - dst)) else m x

/-- The memory after a successful anonymous `mmap` of `length` bytes at `start`:
the new pages read as zero. -/
def mmap_anon (m : Mem) (start length : Nat) : Mem :=
  fun x => if start ≤ x ∧ x < start + length then 0 else m x

/-- The function `reserve_address_space` (its `#else` branch): the returned
pointer (`0` is `NULL`) and the events of the call.  The parameter `size` is an
`unsigned int`. -/
def reserve_address_space (os : Os) (maddr size : Nat) : Nat × List Event :=
  match os.mmap_noreplace maddr (size % 2 ^ 32) with
  | none => (0, [])
  | some mem =>
    if mem = maddr then (mem, [Event.reserve mem (size % 2 ^ 32)])
    else (0, [Event.reserve mem (size % 2 ^ 32), Event.munmap mem (size % 2 ^ 32)])

/-- The locals `min_addr`, `max_addr` and `image_base` of
`load_library_from_memory_linux`. -/
structure Extent where
  min_addr : Nat
  max_addr : Nat
  image_base : Nat

/-- The loop headed `get minimum and maximum address for loading`: `n` program
headers are still to be visited, the next one has number `index`. -/
def elf_extent_from (m : Mem) (mem : Nat) : Nat → Nat → Extent → Extent
  | 0, _, e => e
  | n + 1, index, e =>
    let program_header := padd (padd mem (e_phoff m mem)) (index * e_phentsize m mem)
    if p_type m program_header ≠ PT_LOAD then elf_extent_from m mem n (index + 1) e
    else
      let min_addr :=
        if p_vaddr m program_header < e.min_addr then p_vaddr m program_header else e.min_addr
      let max_addr :=
        if (p_vaddr m program_header + p_memsz m program_header) % 2 ^ 64 > e.max_addr then
          (p_vaddr m program_header + p_memsz m program_header) % 2 ^ 64
        else e.max_addr
      let image_base :=
        if p_offset m program_header = 0 then p_vaddr m program_header else e.image_base
      elf_extent_from m mem n (index + 1)
        { min_addr := min_addr, max_addr := max_addr, image_base := image_base }

/-- The locals `sym_offset` .. `str_size` of the `ET_EXEC` branch. -/
structure SymTables where
  sym_offset : Nat
  sym_size : Nat
  sym_entsize : Nat
  str_offset : Nat
  str_size : Nat

/-- The loop headed `find symbol and string tables in section headers`. -/
def elf_find_tables (m : Mem) (mem : Nat) : Nat → Nat → SymTables → SymTables
  | 0, _, t => t
  | n + 1, index, t =>
    let section_header := padd (padd mem (e_shoff m mem)) (index * e_shentsize m mem)
    if sh_type m section_header = SHT_SYMTAB then
      elf_find_tables m mem n (index + 1)
        { sym_offset := sh_offset m section_header, sym_size := sh_size m section_header,
          sym_entsize := sh_entsize m section_header, str_offset := t.str_offset,
          str_size := t.str_size }
    else if sh_type m section_header = SHT_STRTAB ∧ index ≠ e_shstrndx m mem then
      elf_find_tables m mem n (index + 1)
        { sym_offset := t.sym_offset, sym_size := t.sym_size, sym_entsize := t.sym_entsize,
          str_offset := sh_offset m section_header, str_size := sh_size m section_header }
    else elf_find_tables m mem n (index + 1) t

/-- The loop headed `map segments into memory`: the memory after it, `none` for
`goto error2`.  A file-backed mapping shows the pages of the file, which are
the pages at `mem + p_offset`.  On the copy path the fields `p_filesz`,
`p_memsz` and `p_offset` are read after the anonymous `mmap`, as in the
source. -/
def elf_map_segments (os : Os) (mem base_addr min_addr : Nat) : Nat → Nat → Mem → Option Mem
  | 0, _, m => some m
  | n + 1, index, m =>
    let program_header := padd (padd mem (e_phoff m mem)) (index * e_phentsize m mem)
    if p_type m program_header ≠ PT_LOAD then
      elf_map_segments os mem base_addr min_addr n (index + 1) m
    else
      let page_offset := p_vaddr m program_header &&& (page_size os - 1)
      let start := psub (padd base_addr (psub (p_vaddr m program_header) min_addr)) page_offset
      let length := page_ceil (page_size os) ((page_offset + p_memsz m program_header) % 2 ^ 64)
      if page_offset = 0 ∧ p_filesz m program_header = p_memsz m program_header ∧
          p_offset m program_header &&& (page_size os - 1) = 0 then
        if os.mmap_fixed start (p_filesz m program_header) then
          elf_map_segments os mem base_addr min_addr n (index + 1)
            (memcpy m start (padd mem (p_offset m program_header))
              (page_ceil (page_size os) (p_filesz m program_header)))
        else none
      else
        if os.mmap_fixed start length then
          let segment := start
          let m1 := mmap_anon m segment length
          let filesz :=
            if p_memsz m1 program_header < p_filesz m1 program_header then
              p_memsz m1 program_header
            else p_filesz m1 program_header
          let m2 :=
            if filesz ≠ 0 then
              memcpy m1 (padd segment page_offset) (padd mem (p_offset m1 program_header)) filesz
            else m1
          if os.mprotect segment length then
            elf_map_segments os mem base_addr min_addr n (index + 1) m2
          else none
        else none

/-- What `load_library_from_memory_linux` hands back: the returned pointer (`0`
is `NULL`), the value stored to `*libsize` (meaningful when the pointer is not
null), the memory and the events of the call. -/
structure Mapped where
  base_addr : Nat
  libsize : Nat
  mem : Mem
  trace : List Event

/-- The tail of `load_library_from_memory_linux` from the loop headed
`map segments into memory`: on success `*libsize = max_addr; return base_addr`,
otherwise the exit `error2`, `munmap (base_addr, max_addr); return NULL`. -/
def elf_map_finish (os : Os) (mem base_addr min_addr max_addr : Nat) (trace : List Event)
    (m : Mem) : Mapped :=
  match elf_map_segments os mem base_addr min_addr (e_phnum m mem) 0 m with
  | some m' => { base_addr := base_addr, libsize := max_addr, mem := m', trace := trace }
  | none =>
    { base_addr := 0, libsize := 0, mem := m,
      trace := trace ++ [Event.munmap base_addr max_addr] }

/-- The memory after the block headed `copy symbol and string tables into
memory` has filled the fresh mapping `segment`. -/
def elf_copy_tables (mem orig_max_addr segment length : Nat) (t : SymTables) (m : Mem) : Mem :=
  let m1 := mmap_anon m segment length
  let m2 := wr64 m1 segment ((orig_max_addr + 32) % 2 ^ 64)
  let m3 := wr64 m2 (segment + 8) t.sym_entsize
  let m4 := wr64 m3 (segment + 16) ((orig_max_addr + 32 + t.sym_size) % 2 ^ 64)
  let m5 := wr64 m4 (segment + 24) t.str_size
  let m6 := memcpy m5 (segment + 32) (padd mem t.sym_offset) t.sym_size
  memcpy m6 (padd (segment + 32) t.sym_size) (padd mem t.str_offset) t.str_size

/-- The `ET_EXEC` branch of `load_library_from_memory_linux` after a successful
`reserve_address_space`, which returned `base_addr` with the events `trace`:
the symbol and string tables are copied behind the image at `orig_max_addr`,
then the segments are mapped. -/
def elf_map_exec_reserved (os : Os) (mem base_addr min_addr orig_max_addr max_addr : Nat)
    (t : SymTables) (trace : List Event) (m : Mem) : Mapped :=
  if os.mmap_fixed orig_max_addr (psub max_addr orig_max_addr) = false then
    { base_addr := 0, libsize := 0, mem := m,
      trace := trace ++ [Event.munmap base_addr max_addr] }
  else if os.mprotect orig_max_addr (psub max_addr orig_max_addr) = false then
    { base_addr := 0, libsize := 0,
      mem := elf_copy_tables mem orig_max_addr orig_max_addr (psub max_addr orig_max_addr) t m,
      trace := trace ++ [Event.munmap base_addr max_addr] }
  else
    elf_map_finish os mem base_addr min_addr max_addr trace
      (elf_copy_tables mem orig_max_addr orig_max_addr (psub max_addr orig_max_addr) t m)

/-- The local `max_addr` of the `ET_EXEC` branch after room for the four header
words and the two tables has been added behind `orig_max_addr`. -/
def exec_max_addr (os : Os) (orig_max_addr : Nat) (t : SymTables) : Nat :=
  page_ceil (page_size os) ((orig_max_addr + 32 + t.sym_size + t.str_size) % 2 ^ 64)

/-- The `ET_EXEC` branch of `load_library_from_memory_linux`, entered with the
aligned `min_addr` and `max_addr`. -/
def elf_map_exec (os : Os) (mem image_base min_addr max_addr : Nat) (m : Mem) : Mapped :=
  if image_base = 0 ∨ min_addr ≠ image_base then
    { base_addr := 0, libsize := 0, mem := m, trace := [] }
  else if (elf_find_tables m mem (e_shnum m mem) 0
      { sym_offset := 0, sym_size := 0, sym_entsize := 0, str_offset := 0,
        str_size := 0 }).sym_offset = 0 ∨
      (elf_find_tables m mem (e_shnum m mem) 0
      { sym_offset := 0, sym_size := 0, sym_entsize := 0, str_offset := 0,
        str_size := 0 }).str_offset = 0 then
    { base_addr := 0, libsize := 0, mem := m, trace := [] }
  else
    let t := elf_find_tables m mem (e_shnum m mem) 0
      { sym_offset := 0, sym_size := 0, sym_entsize := 0, str_offset := 0, str_size := 0 }
    let r := reserve_address_space os min_addr (psub (exec_max_addr os max_addr t) min_addr)
    if r.1 = 0 then { base_addr := 0, libsize := 0, mem := m, trace := r.2 }
    else elf_map_exec_reserved os mem r.1 min_addr max_addr (exec_max_addr os max_addr t) t r.2 m

/-- The `ET_DYN` branch of `load_library_from_memory_linux`. -/
def elf_map_dyn (os : Os) (mem min_addr max_addr : Nat) (m : Mem) : Mapped :=
  if min_addr ≠ 0 then { base_addr := 0, libsize := 0, mem := m, trace := [] }
  else if os.map_memory_32bit (max_addr % 2 ^ 32) = 0 then
    { base_addr := 0, libsize := 0, mem := m, trace := [] }
  else
    elf_map_finish os mem (os.map_memory_32bit (max_addr % 2 ^ 32)) min_addr max_addr
      [Event.reserve (os.map_memory_32bit (max_addr % 2 ^ 32)) (max_addr % 2 ^ 32)] m

/-- The function `load_library_from_memory_linux` of `websynth/indirect` on the
file mapped at `mem`. -/
def load_library_from_memory_linux (os : Os) (mem : Nat) (m : Mem) : Mapped :=
  if rd8 m mem ≠ 0x7f ∨ rd8 m (mem + 1) ≠ 69 ∨ rd8 m (mem + 2) ≠ 76 ∨ rd8 m (mem + 3) ≠ 70 ∨
      rd8 m (mem + 4) ≠ 2 ∨ rd8 m (mem + 6) ≠ 1 ∨
      (e_type m mem ≠ ET_DYN ∧ e_type m mem ≠ ET_EXEC) ∨
      e_phentsize m mem = 0 ∨ e_phnum m mem = 0 then
    { base_addr := 0, libsize := 0, mem := m, trace := [] }
  else
    let e := elf_extent_from m mem (e_phnum m mem) 0
      { min_addr := 2 ^ 64 - 1, max_addr := 0, image_base := 0 }
    if e_type m mem = ET_EXEC then
      elf_map_exec os mem e.image_base (page_floor (page_size os) e.min_addr)
        (page_ceil (page_size os) e.max_addr) m
    else
      elf_map_dyn os mem (page_floor (page_size os) e.min_addr)
        (page_ceil (page_size os) e.max_addr) m

/-- The ELF branch of `load_library_32bit` of `websynth/indirect` from the point
where the file of `len` bytes has been mapped at `mem`: the image is mapped,
the file mapping is removed (`munmap (mem, len)`), then the image is linked. -/
def load_library_32bit_linux (os : Os) (tbl : SymbolTable) (exec : Nat → Mem → Mem)
    (fuel mem len : Nat) (m : Mem) : Option Loaded :=
  let r := load_library_from_memory_linux os mem m
  if r.base_addr = 0 then
    some { ret := 0, mem := r.mem, trace := r.trace ++ [Event.munmap mem len] }
  else
    match load_library_32bit_elf Variant.indirect tbl exec fuel r.base_addr r.libsize r.mem with
    | none => none
    | some l =>
      some { ret := l.ret, mem := l.mem, trace := r.trace ++ [Event.munmap mem len] ++ l.trace }

/-! ## PE: the Windows branch of `load_library_32bit`

The headers at `library` are an `IMAGE_NT_HEADERS64` as laid out by `<winnt.h>`:
`FileHeader` at `+4`, `OptionalHeader` at `+24`, `DataDirectory` at `+136`,
eight bytes per directory (`VirtualAddress`, then `Size`). -/

def IMAGE_DIRECTORY_ENTRY_IMPORT : Nat := 1
def IMAGE_DIRECTORY_ENTRY_BASERELOC : Nat := 5
def IMAGE_DIRECTORY_ENTRY_IAT : Nat := 12
def IMAGE_REL_BASED_ABSOLUTE : Nat := 0
def IMAGE_REL_BASED_HIGHLOW : Nat := 3
def IMAGE_REL_BASED_DIR64 : Nat := 10
def IMAGE_SIZEOF_BASE_RELOCATION : Nat := 8

/-- Field `OptionalHeader.DataDirectory[i].VirtualAddress`. -/
def dirVA (m : Mem) (library i : Nat) : Nat := rd32 m (library + 136 + 8 * i)

/-- Field `OptionalHeader.DataDirectory[i].Size`. -/
def dirSize (m : Mem) (library i : Nat) : Nat := rd32 m (library + 136 + 8 * i + 4)

/-- Field `OptionalHeader.AddressOfEntryPoint`. -/
def AddressOfEntryPoint (m : Mem) (library : Nat) : Nat := rd32 m (library + 40)

/-- Field `OptionalHeader.ImageBase`. -/
def ImageBase (m : Mem) (library : Nat) : Nat := rd64 m (library + 48)

/-- The local `base_addr = library - DataDirectory[15].VirtualAddress`. -/
def pe_base_addr (m : Mem) (library : Nat) : Nat := psub library (dirVA m library 15)

/-- The relocation type of a 16-bit entry, `entry >> 12`. -/
def pe_reloc_type (e : Nat) : Nat := e / 4096

/-- The offset of a 16-bit entry, `entry & 0x0fff`. -/
def pe_page_offset (e : Nat) : Nat := e % 4096

/-- The address `base_addr + base_reloc->VirtualAddress + page_offset` patched
by the entry at `base_reloc + reloc_offset2`. -/
def pe_reloc_target (base_addr base_reloc reloc_offset2 : Nat) (m : Mem) : Nat :=
  padd (padd base_addr (rd32 m base_reloc)) (pe_page_offset (rd16 m (padd base_reloc reloc_offset2)))

/-- The body of the inner `while (reloc_offset2 < base_reloc->SizeOfBlock)` loop
without its increment: `none` is `goto error1`. -/
def pe_apply_reloc (library base_addr base_reloc reloc_offset2 : Nat) (m : Mem) : Option Mem :=
  let reloc_type := pe_reloc_type (rd16 m (padd base_reloc reloc_offset2))
  let target := pe_reloc_target base_addr base_reloc reloc_offset2 m
  let delta := psub base_addr (ImageBase m library)
  if reloc_type = IMAGE_REL_BASED_HIGHLOW then
    some (wr32 m target ((rd32 m target + delta % 2 ^ 32) % 2 ^ 32))
  else if reloc_type = IMAGE_REL_BASED_DIR64 then
    some (wr64 m target ((rd64 m target + delta) % 2 ^ 64))
  else if reloc_type ≠ IMAGE_REL_BASED_ABSOLUTE then none
  else some m

/-- Where the two nested relocation loops stand: at the test of the outer loop
with `reloc_offset1`, or at the test of the inner loop with `reloc_offset1`,
the pointer `base_reloc` and `reloc_offset2`. -/
inductive PeRelocPc where
  | block (reloc_offset1 : Nat)
  | entry (reloc_offset1 base_reloc reloc_offset2 : Nat)
deriving DecidableEq, Repr

/-- One step of the block headed `apply relocations`: the two nested `while`
loops as one machine over `(position, memory)`. -/
def pe_reloc_body (library base_addr : Nat) (s : PeRelocPc × Mem) :
    Ctl (PeRelocPc × Mem) Mem :=
  match s.1 with
  | PeRelocPc.block reloc_offset1 =>
    if reloc_offset1 < dirSize s.2 library IMAGE_DIRECTORY_ENTRY_BASERELOC then
      let base_reloc :=
        padd (padd base_addr (dirVA s.2 library IMAGE_DIRECTORY_ENTRY_BASERELOC)) reloc_offset1
      if rd32 s.2 (base_reloc + 4) = 0 then Ctl.stop s.2
      else Ctl.next (PeRelocPc.entry reloc_offset1 base_reloc IMAGE_SIZEOF_BASE_RELOCATION, s.2)
    else Ctl.stop s.2
  | PeRelocPc.entry reloc_offset1 base_reloc reloc_offset2 =>
    if reloc_offset2 < rd32 s.2 (base_reloc + 4) then
      match pe_apply_reloc library base_addr base_reloc reloc_offset2 s.2 with
      | none => Ctl.abort s.2
      | some m' => Ctl.next (PeRelocPc.entry reloc_offset1 base_reloc ((reloc_offset2 + 2) % 2 ^ 32), m')
    else Ctl.next (PeRelocPc.block ((reloc_offset1 + rd32 s.2 (base_reloc + 4)) % 2 ^ 32), s.2)

/-- The host string `(null)`. -/
def nullName : List Nat := [40, 110, 117, 108, 108, 41]

/-- The host string `.(null)`. -/
def dotNullName : List Nat := [46, 40, 110, 117, 108, 108, 41]

/-- Where the two nested import loops stand: at the test of the loop over the
descriptors, or at the test of the loop over the lookup entries of one. -/
inductive PeImportPc where
  | desc (import_desc : Nat)
  | thunk (import_desc import_lookup import_address : Nat)
deriving DecidableEq, Repr

/-- One step of the loops inside the block headed `apply external symbols`. -/
def pe_import_body (tbl : SymbolTable) (base_addr : Nat) (s : PeImportPc × Mem) :
    Ctl (PeImportPc × Mem) Mem :=
  match s.1 with
  | PeImportPc.desc import_desc =>
    if rd32 s.2 import_desc ≠ 0 then
      if rd32 s.2 (import_desc + 8) ≠ 0 then Ctl.abort s.2
      else
        let dll_name := padd base_addr (rd32 s.2 (import_desc + 12))
        if rd8 s.2 dll_name ≠ 0 ∧ strEq s.2 dll_name nullName = false ∧
            strEq s.2 dll_name dotNullName = false then Ctl.abort s.2
        else
          Ctl.next (PeImportPc.thunk import_desc (padd base_addr (rd32 s.2 import_desc))
            (padd base_addr (rd32 s.2 (import_desc + 16))), s.2)
    else Ctl.stop s.2
  | PeImportPc.thunk import_desc import_lookup import_address =>
    if rd64 s.2 import_lookup ≠ 0 then
      if 2 ^ 63 ≤ rd64 s.2 import_lookup then Ctl.abort s.2
      else
        let import_name := padd base_addr (rd64 s.2 import_lookup % 2 ^ 31) + 2
        let import_value := symbol_lookup tbl s.2 import_name
        if import_value = 0 then Ctl.abort s.2
        else
          Ctl.next (PeImportPc.thunk import_desc (padd import_lookup 8) (padd import_address 8),
            wr64 s.2 import_address import_value)
    else Ctl.next (PeImportPc.desc (padd import_desc 20), s.2)

/-- The block headed `apply external symbols`, with its guard on the sizes of
the import directory and of the import address table. -/
def pe_imports (tbl : SymbolTable) (fuel library base_addr : Nat) (m : Mem) : Outcome Mem :=
  if dirSize m library IMAGE_DIRECTORY_ENTRY_IMPORT ≠ 0 ∧
      dirSize m library IMAGE_DIRECTORY_ENTRY_IAT ≠ 0 then
    iter (pe_import_body tbl base_addr) fuel
      (PeImportPc.desc (padd base_addr (dirVA m library IMAGE_DIRECTORY_ENTRY_IMPORT)), m)
  else Outcome.done m

/-- Whether the loop headed `discard unneeded pages / set protection on pages`
gets through sections `index .. index + n - 1`.  `protectOk i` is the result of
`VirtualProtect` for section `i`, asked only when the section is not
discardable and its protection is not `PAGE_READWRITE`. -/
def pe_protect_sections (protectOk : Nat → Bool) (library : Nat) (m : Mem) : Nat → Nat → Bool
  | 0, _ => true
  | n + 1, index =>
    let characteristics := rd32 m (library + 24 + rd16 m (library + 20) + 40 * index + 36)
    let discardable := characteristics / 2 ^ 25 % 2 = 1
    let execute := characteristics / 2 ^ 29 % 2 = 1
    let write := characteristics / 2 ^ 31 % 2 = 1
    if discardable then pe_protect_sections protectOk library m n (index + 1)
    else if (execute ∨ ¬ write) ∧ protectOk index = false then false
    else pe_protect_sections protectOk library m n (index + 1)

/-- The exit `error1` of the Windows branch: `VirtualFree (library, 0,
MEM_RELEASE); return NULL`. -/
def pe_error1 (library : Nat) (m : Mem) : Loaded :=
  { ret := 0, mem := m, trace := [Event.virtualFree library] }

/-- The Windows branch of `load_library_32bit` from the point where the image
has been mapped and its headers copied to `library` (a non-null pointer). -/
def load_library_32bit_pe (tbl : SymbolTable) (protectOk : Nat → Bool) (fuel library : Nat)
    (m : Mem) : Option Loaded :=
  if AddressOfEntryPoint m library ≠ 0 then some (pe_error1 library m)
  else
    match iter (pe_reloc_body library (pe_base_addr m library)) fuel (PeRelocPc.block 0, m) with
    | Outcome.timeout => none
    | Outcome.fail m' => some (pe_error1 library m')
    | Outcome.done m1 =>
      match pe_imports tbl fuel library (pe_base_addr m library) m1 with
      | Outcome.timeout => none
      | Outcome.fail m' => some (pe_error1 library m')
      | Outcome.done m2 =>
        if pe_protect_sections protectOk library m2 (rd16 m2 (library + 6)) 0 then
          some { ret := library, mem := m2, trace := [] }
        else some (pe_error1 library m2)

/-! ## Mach-O: the opcode interpreters

Layouts of `<mach-o/loader.h>`: a `mach_header_64` is 32 bytes with `cputype`
at `+4` and `ncmds` at `+16`; a `segment_command_64` has `cmd` at `+0`,
`cmdsize` at `+4`, `vmaddr` at `+24`, `vmsize` at `+32`, `fileoff` at `+40`,
`filesize` at `+48`, `initprot` at `+60`, `nsects` at `+64`, `flags` at `+68`
and is followed by its `section_64` records of 80 bytes (`addr` at `+32`,
`size` at `+40`, `flags` at `+64`). -/

def LC_SEGMENT_64 : Nat := 0x19
def LC_SYMTAB : Nat := 0x2
def LC_DYSYMTAB : Nat := 0xb
def LC_DYLD_INFO_ONLY : Nat := 0x80000022
def LC_REQ_DYLD : Nat := 0x80000000
def CPU_TYPE_X86_64 : Nat := 0x01000007
def S_MOD_INIT_FUNC_POINTERS : Nat := 0x9
def SG_READ_ONLY : Nat := 0x10
def REBASE_TYPE_POINTER : Nat := 1
def REBASE_OPCODE_DONE : Nat := 0x00
def REBASE_OPCODE_SET_TYPE_IMM : Nat := 0x10
def REBASE_OPCODE_SET_SEGMENT_AND_OFFSET_ULEB : Nat := 0x20
def REBASE_OPCODE_ADD_ADDR_ULEB : Nat := 0x30
def REBASE_OPCODE_ADD_ADDR_IMM_SCALED : Nat := 0x40
def REBASE_OPCODE_DO_REBASE_IMM_TIMES : Nat := 0x50
def REBASE_OPCODE_DO_REBASE_ULEB_TIMES : Nat := 0x60
def REBASE_OPCODE_DO_REBASE_ADD_ADDR_ULEB : Nat := 0x70
def REBASE_OPCODE_DO_REBASE_ULEB_TIMES_SKIPPING_ULEB : Nat := 0x80
def BIND_TYPE_POINTER : Nat := 1
def BIND_SPECIAL_DYLIB_FLAT_LOOKUP : Int := -2
def BIND_OPCODE_DONE : Nat := 0x00
def BIND_OPCODE_SET_DYLIB_ORDINAL_IMM : Nat := 0x10
def BIND_OPCODE_SET_DYLIB_ORDINAL_ULEB : Nat := 0x20
def BIND_OPCODE_SET_DYLIB_SPECIAL_IMM : Nat := 0x30
def BIND_OPCODE_SET_SYMBOL_TRAILING_FLAGS_IMM : Nat := 0x40
def BIND_OPCODE_SET_TYPE_IMM : Nat := 0x50
def BIND_OPCODE_SET_ADDEND_SLEB : Nat := 0x60
def BIND_OPCODE_SET_SEGMENT_AND_OFFSET_ULEB : Nat := 0x70
def BIND_OPCODE_ADD_ADDR_ULEB : Nat := 0x80
def BIND_OPCODE_DO_BIND : Nat := 0x90
def BIND_OPCODE_DO_BIND_ADD_ADDR_ULEB : Nat := 0xA0
def BIND_OPCODE_DO_BIND_ADD_ADDR_IMM_SCALED : Nat := 0xB0
def BIND_OPCODE_DO_BIND_ULEB_TIMES_SKIPPING_ULEB : Nat := 0xC0

/-- The high nibble of an opcode byte, `value & 0xF0`. -/
def opcodeOf (value : Nat) : Nat := value / 16 * 16

/-- The low nibble of an opcode byte, `value & 0x0F`. -/
def immOf (value : Nat) : Nat := value % 16

/-- The C expression `x << s` on `unsigned int`.  For `s >= 32` the C standard
leaves the result undefined; `ub x s` stands for whatever the platform yields. -/
def shl32 (ub : Nat → Nat → Nat) (x s : Nat) : Nat :=
  if s < 32 then x * 2 ^ s % 2 ^ 32 else ub x s % 2 ^ 32

/-- The `do ... while (value & 0x80)` loop of `read_uleb128`, from the state
`(ptr, result, shift)`; `none` when it has not ended after `fuel` bytes. -/
def read_uleb128_loop (ub : Nat → Nat → Nat) (m : Mem) : Nat → Nat → Nat → Nat → Option (Nat × Nat)
  | 0, _, _, _ => none
  | fuel + 1, ptr, result, shift =>
    let value := rd8 m ptr
    let result' := result ||| shl32 ub (value % 128) shift
    if 128 ≤ value then read_uleb128_loop ub m fuel (ptr + 1) result' ((shift + 7) % 2 ^ 32)
    else some (result', ptr + 1)

/-- The function `read_uleb128`: the value returned and the new `*pptr`. -/
def read_uleb128 (ub : Nat → Nat → Nat) (fuel : Nat) (m : Mem) (ptr : Nat) : Option (Nat × Nat) :=
  read_uleb128_loop ub m fuel ptr 0 0

/-- The walk of `get_segment_address` over the load commands: the address of
the `LC_SEGMENT_64` command number `seg_num` (from `0`) among the `n` commands
that start at `seg_cmd`. -/
def find_segment (m : Mem) : Nat → Nat → Nat → Option Nat
  | 0, _, _ => none
  | n + 1, seg_cmd, seg_num =>
    if rd32 m seg_cmd ≠ LC_SEGMENT_64 then
      find_segment m n (padd (rd32 m (seg_cmd + 4)) seg_cmd) seg_num
    else if seg_num = 0 then some seg_cmd
    else find_segment m n (padd (rd32 m (seg_cmd + 4)) seg_cmd) (seg_num - 1)

/-- The function `get_segment_address`. -/
def get_segment_address (m : Mem) (library seg_num offset : Nat) : Nat :=
  match find_segment m (rd32 m (library + 16)) (library + 32) seg_num with
  | some seg_cmd => padd (padd library (rd64 m (seg_cmd + 24))) offset
  | none => 0

/-- The loop of `get_file_address` over the `n` load commands that start at
`seg_cmd`. -/
def get_file_address_from (m : Mem) (library offset : Nat) : Nat → Nat → Nat
  | 0, _ => 0
  | n + 1, seg_cmd =>
    if rd32 m seg_cmd ≠ LC_SEGMENT_64 then
      get_file_address_from m library offset n (padd (rd32 m (seg_cmd + 4)) seg_cmd)
    else if rd64 m (seg_cmd + 40) ≤ offset ∧
        offset < padd (rd64 m (seg_cmd + 40)) (rd64 m (seg_cmd + 48)) then
      psub (padd (padd library offset) (rd64 m (seg_cmd + 24))) (rd64 m (seg_cmd + 40))
    else get_file_address_from m library offset n (padd (rd32 m (seg_cmd + 4)) seg_cmd)

/-- The function `get_file_address` (`0` is `NULL`). -/
def get_file_address (m : Mem) (library offset : Nat) : Nat :=
  get_file_address_from m library offset (rd32 m (library + 16)) (library + 32)

/-- The function `rebase_address`: `none` is `return 0`, `some` the memory after
`return 1`. -/
def rebase_address (library address type : Nat) (m : Mem) : Option Mem :=
  if address = 0 then none
  else if type ≠ REBASE_TYPE_POINTER then none
  else some (wr64 m address ((rd64 m address + library) % 2 ^ 64))

/-- The host string `dyld_stub_binder`. -/
def dyldStubBinder : List Nat :=
  [100, 121, 108, 100, 95, 115, 116, 117, 98, 95, 98, 105, 110, 100, 101, 114]

/-- The function `bind_address`: `none` is `return 0`, `some` the memory after
`return 1`.  `symbol = 0` is the null pointer, `ordinal` an `int64_t`. -/
def bind_address (tbl : SymbolTable) (address type addend symbol flags : Nat) (ordinal : Int)
    (m : Mem) : Option Mem :=
  if symbol = 0 then none
  else if flags ≠ 0 then none
  else if ordinal ≠ BIND_SPECIAL_DYLIB_FLAT_LOOKUP then none
  else if address = 0 then none
  else if type ≠ BIND_TYPE_POINTER then none
  else if rd8 m symbol ≠ 95 then
    if strEq m symbol dyldStubBinder = false then none else some m
  else
    let symbvalue := symbol_lookup tbl m (symbol + 1)
    if symbvalue = 0 then none
    else some (wr64 m address ((addend + symbvalue) % 2 ^ 64))

/-- The locals of `rebase_library` at the head of its `for (;;)` loop. -/
structure RebaseState where
  rebase : Nat
  type : Nat
  address : Nat
  mem : Mem

/-- A loop `for (times = n; times != 0; times--) { if (!rebase_address (...))
return 0; address += skip + 8; }`: whether it ran to its end, and the address
and memory it stopped with. -/
def rebase_times (library type skip : Nat) : Nat → Nat → Mem → Bool × Nat × Mem
  | 0, address, m => (true, address, m)
  | times + 1, address, m =>
    match rebase_address library address type m with
    | none => (false, address, m)
    | some m' => rebase_times library type skip times (padd address (padd skip 8)) m'

/-- How a `times` loop of the rebase interpreter ends one trip of `for (;;)`. -/
def rebase_after (s : RebaseState) (rebase : Nat) (r : Bool × Nat × Mem) : Ctl RebaseState Mem :=
  if r.1 then Ctl.next { rebase := rebase, type := s.type, address := r.2.1, mem := r.2.2 }
  else Ctl.abort r.2.2

/-- One trip of the `for (;;)` loop of `rebase_library`. -/
def rebase_body (ub : Nat → Nat → Nat) (fuel library : Nat) (s : RebaseState) :
    Ctl RebaseState Mem :=
  let value := rd8 s.mem s.rebase
  let rebase := s.rebase + 1
  let op := opcodeOf value
  if op = REBASE_OPCODE_DONE then Ctl.stop s.mem
  else if op = REBASE_OPCODE_SET_TYPE_IMM then Ctl.next { s with rebase := rebase, type := immOf value }
  else if op = REBASE_OPCODE_SET_SEGMENT_AND_OFFSET_ULEB then
    match read_uleb128 ub fuel s.mem rebase with
    | none => Ctl.hang
    | some (offset, rebase') =>
      Ctl.next { s with rebase := rebase',
                        address := get_segment_address s.mem library (immOf value) offset }
  else if op = REBASE_OPCODE_ADD_ADDR_ULEB then
    match read_uleb128 ub fuel s.mem rebase with
    | none => Ctl.hang
    | some (n, rebase') => Ctl.next { s with rebase := rebase', address := padd s.address n }
  else if op = REBASE_OPCODE_ADD_ADDR_IMM_SCALED then
    Ctl.next { s with rebase := rebase, address := padd s.address (8 * immOf value) }
  else if op = REBASE_OPCODE_DO_REBASE_IMM_TIMES then
    rebase_after s rebase (rebase_times library s.type 0 (immOf value) s.address s.mem)
  else if op = REBASE_OPCODE_DO_REBASE_ULEB_TIMES then
    match read_uleb128 ub fuel s.mem rebase with
    | none => Ctl.hang
    | some (times, rebase') =>
      rebase_after s rebase' (rebase_times library s.type 0 times s.address s.mem)
  else if op = REBASE_OPCODE_DO_REBASE_ADD_ADDR_ULEB then
    match rebase_address library s.address s.type s.mem with
    | none => Ctl.abort s.mem
    | some m' =>
      match read_uleb128 ub fuel m' rebase with
      | none => Ctl.hang
      | some (n, rebase') =>
        Ctl.next { rebase := rebase', type := s.type, address := padd s.address (padd n 8), mem := m' }
  else if op = REBASE_OPCODE_DO_REBASE_ULEB_TIMES_SKIPPING_ULEB then
    match read_uleb128 ub fuel s.mem rebase with
    | none => Ctl.hang
    | some (times, rebase') =>
      match read_uleb128 ub fuel s.mem rebase' with
      | none => Ctl.hang
      | some (skip, rebase'') =>
        rebase_after s rebase'' (rebase_times library s.type skip times s.address s.mem)
  else Ctl.abort s.mem

/-- The locals of `rebase_library` on entry to its loop, `rebase` being the
result of `get_file_address`. -/
def rebase_init (m : Mem) (library rebase_offset : Nat) : RebaseState :=
  { rebase := get_file_address m library rebase_offset, type := REBASE_TYPE_POINTER,
    address := 0, mem := m }

/-- The function `rebase_library`: `Outcome.done` is `return 1`, `Outcome.fail`
is `return 0`. -/
def rebase_library (ub : Nat → Nat → Nat) (fuel library rebase_offset : Nat) (m : Mem) :
    Outcome Mem :=
  if get_file_address m library rebase_offset = 0 then Outcome.fail m
  else iter (rebase_body ub fuel library) fuel (rebase_init m library rebase_offset)

/-- The locals of `bind_library_symbols` at the head of its `for (;;)` loop. -/
structure BindState where
  bind : Nat
  type : Nat
  flags : Nat
  ordinal : Int
  address : Nat
  addend : Nat
  symbol : Nat
  mem : Mem

/-- Conversion of a `uint64_t` to `int64_t`. -/
def toInt64 (v : Nat) : Int := if v % 2 ^ 64 < 2 ^ 63 then (v % 2 ^ 64 : Nat) else (v % 2 ^ 64 : Nat) - 2 ^ 64

/-- The loop `while (*bind != 0) bind++; bind++;`: the pointer after the NUL,
`none` when no NUL is met within `fuel` bytes. -/
def skip_cstring (m : Mem) : Nat → Nat → Option Nat
  | 0, _ => none
  | fuel + 1, bind => if rd8 m bind ≠ 0 then skip_cstring m fuel (bind + 1) else some (bind + 1)

/-- The call `bind_address (address, type, addend, symbol, flags, ordinal)` with
the locals of state `s`, at address `address`, on memory `m`. -/
def bind_here (tbl : SymbolTable) (s : BindState) (address : Nat) (m : Mem) : Option Mem :=
  bind_address tbl address s.type s.addend s.symbol s.flags s.ordinal m

/-- The loop of `BIND_OPCODE_DO_BIND_ULEB_TIMES_SKIPPING_ULEB`. -/
def bind_times (tbl : SymbolTable) (s : BindState) (skip : Nat) : Nat → Nat → Mem → Bool × Nat × Mem
  | 0, address, m => (true, address, m)
  | times + 1, address, m =>
    match bind_here tbl s address m with
    | none => (false, address, m)
    | some m' => bind_times tbl s skip times (padd address (padd skip 8)) m'

/-- One trip of the `for (;;)` loop of `bind_library_symbols`. -/
def bind_body (ub : Nat → Nat → Nat) (tbl : SymbolTable) (fuel library bind_end : Nat)
    (s : BindState) : Ctl BindState Mem :=
  let value := rd8 s.mem s.bind
  let bind := s.bind + 1
  let op := opcodeOf value
  if op = BIND_OPCODE_DONE then
    if bind_end ≤ bind then Ctl.stop s.mem else Ctl.next { s with bind := bind }
  else if op = BIND_OPCODE_SET_DYLIB_ORDINAL_IMM then
    Ctl.next { s with bind := bind, ordinal := (immOf value : Nat) }
  else if op = BIND_OPCODE_SET_DYLIB_ORDINAL_ULEB then
    match read_uleb128 ub fuel s.mem bind with
    | none => Ctl.hang
    | some (n, bind') => Ctl.next { s with bind := bind', ordinal := toInt64 n }
  else if op = BIND_OPCODE_SET_DYLIB_SPECIAL_IMM then
    Ctl.next { s with bind := bind,
                      ordinal := if immOf value ≠ 0 then (immOf value : Int) - 16 else 0 }
  else if op = BIND_OPCODE_SET_SYMBOL_TRAILING_FLAGS_IMM then
    match skip_cstring s.mem fuel bind with
    | none => Ctl.hang
    | some bind' => Ctl.next { s with bind := bind', symbol := bind, flags := immOf value }
  else if op = BIND_OPCODE_SET_TYPE_IMM then Ctl.next { s with bind := bind, type := immOf value }
  else if op = BIND_OPCODE_SET_ADDEND_SLEB then
    match read_uleb128 ub fuel s.mem bind with
    | none => Ctl.hang
    | some (n, bind') => Ctl.next { s with bind := bind', addend := n }
  else if op = BIND_OPCODE_SET_SEGMENT_AND_OFFSET_ULEB then
    match read_uleb128 ub fuel s.mem bind with
    | none => Ctl.hang
    | some (offset, bind') =>
      Ctl.next { s with bind := bind',
                        address := get_segment_address s.mem library (immOf value) offset }
  else if op = BIND_OPCODE_ADD_ADDR_ULEB then
    match read_uleb128 ub fuel s.mem bind with
    | none => Ctl.hang
    | some (n, bind') => Ctl.next { s with bind := bind', address := padd s.address n }
  else if op = BIND_OPCODE_DO_BIND then
    match bind_here tbl s s.address s.mem with
    | none => Ctl.abort s.mem
    | some m' => Ctl.next { s with bind := bind, address := padd s.address 8, mem := m' }
  else if op = BIND_OPCODE_DO_BIND_ADD_ADDR_ULEB then
    match bind_here tbl s s.address s.mem with
    | none => Ctl.abort s.mem
    | some m' =>
      match read_uleb128 ub fuel m' bind with
      | none => Ctl.hang
      | some (n, bind') =>
        Ctl.next { s with bind := bind', address := padd s.address (padd n 8), mem := m' }
  else if op = BIND_OPCODE_DO_BIND_ADD_ADDR_IMM_SCALED then
    match bind_here tbl s s.address s.mem with
    | none => Ctl.abort s.mem
    | some m' =>
      Ctl.next { s with bind := bind, address := padd s.address (immOf value * 8), mem := m' }
  else if op = BIND_OPCODE_DO_BIND_ULEB_TIMES_SKIPPING_ULEB then
    match read_uleb128 ub fuel s.mem bind with
    | none => Ctl.hang
    | some (times, bind') =>
      match read_uleb128 ub fuel s.mem bind' with
      | none => Ctl.hang
      | some (skip, bind'') =>
        let r := bind_times tbl s skip times s.address s.mem
        if r.1 then Ctl.next { s with bind := bind'', address := r.2.1, mem := r.2.2 }
        else Ctl.abort r.2.2
  else Ctl.abort s.mem

/-- The locals of `bind_library_symbols` on entry to its loop. -/
def bind_init (m : Mem) (library bind_offset : Nat) : BindState :=
  { bind := get_file_address m library bind_offset, type := BIND_TYPE_POINTER, flags := 0,
    ordinal := 0, address := 0, addend := 0, symbol := 0, mem := m }

/-- The local `bind_end = bind + bind_size`. -/
def bind_end_of (m : Mem) (library bind_offset bind_size : Nat) : Nat :=
  padd (get_file_address m library bind_offset) bind_size

/-- The function `bind_library_symbols`: `Outcome.done` is `return 1`,
`Outcome.fail` is `return 0`. -/
def bind_library_symbols (ub : Nat → Nat → Nat) (tbl : SymbolTable) (fuel library bind_offset
    bind_size : Nat) (m : Mem) : Outcome Mem :=
  if get_file_address m library bind_offset = 0 then Outcome.fail m
  else
    iter (bind_body ub tbl fuel library (bind_end_of m library bind_offset bind_size)) fuel
      (bind_init m library bind_offset)

/-! ## Mach-O: the macOS branch of `load_library_32bit` -/

/-- The pointers `dyld_info_cmd`, `symtab_cmd` and `dsymtab_cmd` (`0` is `NULL`). -/
structure MachoCmds where
  dyld_info_cmd : Nat
  symtab_cmd : Nat
  dsymtab_cmd : Nat

/-- The loop headed `find commands and check for required commands`, over the
`n` load commands that start at `load_cmd`; `none` is the exit through
`unsuported command`. -/
def macho_find_commands (m : Mem) : Nat → Nat → MachoCmds → Option MachoCmds
  | 0, _, c => some c
  | n + 1, load_cmd, c =>
    let cmd := rd32 m load_cmd
    let next := padd (rd32 m (load_cmd + 4)) load_cmd
    if cmd = LC_DYLD_INFO_ONLY then macho_find_commands m n next { c with dyld_info_cmd := load_cmd }
    else if cmd = LC_SYMTAB then macho_find_commands m n next { c with symtab_cmd := load_cmd }
    else if cmd = LC_DYSYMTAB then macho_find_commands m n next { c with dsymtab_cmd := load_cmd }
    else if LC_REQ_DYLD ≤ cmd ∨ cmd < LC_SEGMENT_64 then none
    else macho_find_commands m n next c

/-- The statement `if (dyld_info_cmd->rebase_size != 0) { if (!rebase_library
(...)) goto error1; }`. -/
def macho_rebase_phase (ub : Nat → Nat → Nat) (fuel library dyld_info_cmd : Nat) (m : Mem) :
    Outcome Mem :=
  if rd32 m (dyld_info_cmd + 12) ≠ 0 then
    rebase_library ub fuel library (rd32 m (dyld_info_cmd + 8)) m
  else Outcome.done m

/-- The address of the field `bind_off` (for `lazy = false`) or `lazy_bind_off`
(for `lazy = true`) of the `dyld_info_command`; the size field follows it. -/
def bind_fields (dyld_info_cmd : Nat) (lazy : Bool) : Nat :=
  dyld_info_cmd + (if lazy then 32 else 16)

/-- The statement `if (dyld_info_cmd->bind_size != 0) ...` for `lazy = false`,
the statement `if (dyld_info_cmd->lazy_bind_size != 0) ...` for `lazy = true`. -/
def macho_bind_phase (ub : Nat → Nat → Nat) (tbl : SymbolTable) (fuel library dyld_info_cmd : Nat)
    (lazy : Bool) (m : Mem) : Outcome Mem :=
  if rd32 m (bind_fields dyld_info_cmd lazy + 4) ≠ 0 then
    bind_library_symbols ub tbl fuel library (rd32 m (bind_fields dyld_info_cmd lazy))
      (rd32 m (bind_fields dyld_info_cmd lazy + 4)) m
  else Outcome.done m

/-- The three statements that follow the test for missing commands: rebase,
bind, lazy bind. -/
def macho_relocate (ub : Nat → Nat → Nat) (tbl : SymbolTable) (fuel library dyld_info_cmd : Nat)
    (m : Mem) : Outcome Mem :=
  match macho_rebase_phase ub fuel library dyld_info_cmd m with
  | Outcome.done m1 =>
    match macho_bind_phase ub tbl fuel library dyld_info_cmd false m1 with
    | Outcome.done m2 => macho_bind_phase ub tbl fuel library dyld_info_cmd true m2
    | o => o
  | o => o

/-- Whether the loop headed `make segments read-only` gets through the `n`
commands that start at `seg_cmd`; `mprotectOk i` is the result of `mprotect`
for command number `i`. -/
def macho_protect (mprotectOk : Nat → Bool) (m : Mem) : Nat → Nat → Nat → Bool
  | 0, _, _ => true
  | n + 1, index, seg_cmd =>
    let next := padd (rd32 m (seg_cmd + 4)) seg_cmd
    if rd32 m seg_cmd ≠ LC_SEGMENT_64 then macho_protect mprotectOk m n (index + 1) next
    else if rd32 m (seg_cmd + 68) / SG_READ_ONLY % 2 = 0 then
      macho_protect mprotectOk m n (index + 1) next
    else if mprotectOk index = false then false
    else macho_protect mprotectOk m n (index + 1) next

/-- Where the three nested constructor loops stand: at the test of the loop
over the load commands, over the sections of one, or over the entries of one
`S_MOD_INIT_FUNC_POINTERS` section. -/
inductive MachoInitPc where
  | seg (index seg_cmd : Nat)
  | sect (index seg_cmd index2 : Nat)
  | entry (index seg_cmd index2 section_offset : Nat)
deriving DecidableEq, Repr

/-- One step of the block headed `run constructors` (Mach-O). -/
def macho_init_body (exec : Nat → Mem → Mem) (library : Nat) (s : MachoInitPc × World) :
    Ctl (MachoInitPc × World) World :=
  let m := s.2.mem
  match s.1 with
  | MachoInitPc.seg index seg_cmd =>
    if index < rd32 m (library + 16) then
      if rd32 m seg_cmd ≠ LC_SEGMENT_64 then
        Ctl.next (MachoInitPc.seg ((index + 1) % 2 ^ 32) (padd (rd32 m (seg_cmd + 4)) seg_cmd), s.2)
      else Ctl.next (MachoInitPc.sect index seg_cmd 0, s.2)
    else Ctl.stop s.2
  | MachoInitPc.sect index seg_cmd index2 =>
    if index2 < rd32 m (seg_cmd + 64) then
      if rd32 m (seg_cmd + 72 + 80 * index2 + 64) % 256 ≠ S_MOD_INIT_FUNC_POINTERS then
        Ctl.next (MachoInitPc.sect index seg_cmd ((index2 + 1) % 2 ^ 32), s.2)
      else Ctl.next (MachoInitPc.entry index seg_cmd index2 0, s.2)
    else Ctl.next (MachoInitPc.seg ((index + 1) % 2 ^ 32) (padd (rd32 m (seg_cmd + 4)) seg_cmd), s.2)
  | MachoInitPc.entry index seg_cmd index2 section_offset =>
    if section_offset < rd64 m (seg_cmd + 72 + 80 * index2 + 40) then
      Ctl.next (MachoInitPc.entry index seg_cmd index2 (padd section_offset 8),
        callFn exec
          (rd64 m (padd (padd library (rd64 m (seg_cmd + 72 + 80 * index2 + 32))) section_offset)) s.2)
    else Ctl.next (MachoInitPc.sect index seg_cmd ((index2 + 1) % 2 ^ 32), s.2)

/-- The macOS branch of `load_library_32bit` from the point where the image has
been mapped at `library` (a non-null pointer) with `*libsize = libsize`. -/
def load_library_32bit_macho (ub : Nat → Nat → Nat) (tbl : SymbolTable) (exec : Nat → Mem → Mem)
    (mprotectOk : Nat → Bool) (fuel library libsize : Nat) (m : Mem) : Option Loaded :=
  if rd32 m (library + 4) ≠ CPU_TYPE_X86_64 then
    some (elf_error1 library libsize { mem := m, trace := [] })
  else
    match macho_find_commands m (rd32 m (library + 16)) (library + 32)
        { dyld_info_cmd := 0, symtab_cmd := 0, dsymtab_cmd := 0 } with
    | none => some (elf_error1 library libsize { mem := m, trace := [] })
    | some c =>
      if c.dyld_info_cmd = 0 ∨ c.symtab_cmd = 0 ∨ c.dsymtab_cmd = 0 then
        some (elf_error1 library libsize { mem := m, trace := [] })
      else
        match macho_relocate ub tbl fuel library c.dyld_info_cmd m with
        | Outcome.timeout => none
        | Outcome.fail m' => some (elf_error1 library libsize { mem := m', trace := [] })
        | Outcome.done m' =>
          if macho_protect mprotectOk m' (rd32 m' (library + 16)) 0 (library + 32) then
            match iter (macho_init_body exec library) fuel
                (MachoInitPc.seg 0 (library + 32), { mem := m', trace := [] }) with
            | Outcome.timeout => none
            | Outcome.fail w => some (elf_error1 library libsize w)
            | Outcome.done w => some { ret := library, mem := w.mem, trace := w.trace }
          else some (elf_error1 library libsize { mem := m', trace := [] })

/-! ## `map_memory_32bit`: the Linux path

The function exists twice: in `websynth/indirect` (which first tries `MAP_32BIT`
where the platform has it, and searches below `0x80000000`) and in
`websynth/ptrofs` (which searches the 2 GB above the global `pointer_offset`).
The two texts agree once `pointer_offset` is put to `0` in the first, so one
definition with the parameters `map32bit` and `pointer_offset` stands for
both. -/

/-- The value `MAP_FAILED`, `(void *) -1`. -/
def MAP_FAILED : Nat := 2 ^ 64 - 1

/-- The system calls of `map_memory_32bit`, in call order. -/
inductive MapEvent where
  /-- A call `mmap (addr, size, ..)` and the pointer it returned. -/
  | mmap (addr size result : Nat)
  /-- A call `munmap (addr, size)`. -/
  | munmap (addr size : Nat)
deriving DecidableEq, Repr

/-- What the operating system answers to `map_memory_32bit`. -/
structure MapEnv where
  /-- Result of `sysconf (_SC_PAGESIZE)`. -/
  pagesize : Int
  /-- The memory-map listing: `none` when neither `/proc/self/maps` nor
  `/proc/<pid>/map` can be opened, otherwise the pairs `(num1, num2)` that the
  successive calls of `fscanf` deliver, up to the first call that does not
  deliver two numbers. -/
  listing : Option (List (Nat × Nat))
  /-- Result of call number `k` of `mmap` (counted from `0`), made with address
  `addr`, length `size` and the flag `only_address_space`. -/
  mmap : Nat → Nat → Nat → Nat → Nat

/-- The local `page_size` of `map_memory_32bit`. -/
def map_page_size (env : MapEnv) : Nat :=
  if env.pagesize ≤ 0 then 4096 else env.pagesize.toNat

/-- The locals of `map_memory_32bit` when its `while` loop is left: `mem`,
`num0`, whether the loop was left by `goto error2`, the number of `mmap` calls
made so far and the system calls so far. -/
structure Scan where
  mem : Nat
  num0 : Nat
  wrong : Bool
  calls : Nat
  trace : List MapEvent

/-- One attempt `mem = mmap (start, size, prot, MAP_FIXED_NOREPLACE | flags, -1, 0)`
as call number `calls`. -/
def map_try (env : MapEnv) (calls start size only_address_space : Nat) : Nat :=
  env.mmap calls start size only_address_space % 2 ^ 64

/-- The `while (num0 < pointer_offset + 0x80000000)` loop of `map_memory_32bit`
over the lines of the listing that are still to be read. -/
def map_scan (env : MapEnv) (pointer_offset size only_address_space : Nat) :
    List (Nat × Nat) → Nat → Nat → List MapEvent → Scan
  | [], num0, calls, trace =>
    { mem := 0, num0 := num0, wrong := false, calls := calls, trace := trace }
  | (n1, n2) :: rest, num0, calls, trace =>
    if num0 < (pointer_offset + 0x80000000) % 2 ^ 64 then
      let num1 :=
        if n1 % 2 ^ 64 > (pointer_offset + 0x80000000) % 2 ^ 64 then
          (pointer_offset + 0x80000000) % 2 ^ 64
        else n1 % 2 ^ 64
      let next := if n2 % 2 ^ 64 > num0 then n2 % 2 ^ 64 else num0
      if num0 < num1 ∧ num1 - num0 ≥ size then
        let mem1 := map_try env calls num0 size only_address_space
        if mem1 = num0 then
          { mem := mem1, num0 := num0, wrong := false, calls := calls + 1,
            trace := trace ++ [MapEvent.mmap num0 size mem1] }
        else if mem1 ≠ MAP_FAILED then
          { mem := mem1, num0 := num0, wrong := true, calls := calls + 1,
            trace := trace ++ [MapEvent.mmap num0 size mem1, MapEvent.munmap num0 size] }
        else if page_floor (map_page_size env) (num1 - size) ≠ num0 then
          let start := page_floor (map_page_size env) (num1 - size)
          let mem2 := map_try env (calls + 1) start size only_address_space
          if mem2 = start then
            { mem := mem2, num0 := num0, wrong := false, calls := calls + 2,
              trace := trace ++ [MapEvent.mmap num0 size mem1, MapEvent.mmap start size mem2] }
          else if mem2 ≠ MAP_FAILED then
            { mem := mem2, num0 := num0, wrong := true, calls := calls + 2,
              trace := trace ++ [MapEvent.mmap num0 size mem1, MapEvent.mmap start size mem2,
                MapEvent.munmap start size] }
          else
            map_scan env pointer_offset size only_address_space rest next (calls + 2)
              (trace ++ [MapEvent.mmap num0 size mem1, MapEvent.mmap start size mem2])
        else
          map_scan env pointer_offset size only_address_space rest next (calls + 1)
            (trace ++ [MapEvent.mmap num0 size mem1])
      else map_scan env pointer_offset size only_address_space rest next calls trace
    else { mem := 0, num0 := num0, wrong := false, calls := calls, trace := trace }

/-- What `map_memory_32bit` hands back: the returned pointer (`0` is `NULL`) and
its system calls. -/
structure MapResult where
  ret : Nat
  trace : List MapEvent
deriving DecidableEq

/-- The part of `map_memory_32bit` behind `fclose (f); if (mem != NULL) return
mem;`: the two attempts after the end of the last block of the listing. -/
def map_tail (env : MapEnv) (pointer_offset size only_address_space num0 calls : Nat)
    (trace : List MapEvent) : MapResult :=
  if num0 < (pointer_offset + 0x80000000) % 2 ^ 64 ∧
      (num0 + size) % 2 ^ 64 ≤ (pointer_offset + 0x80000000) % 2 ^ 64 then
    let mem1 := map_try env calls num0 size only_address_space
    if mem1 = num0 then { ret := mem1, trace := trace ++ [MapEvent.mmap num0 size mem1] }
    else if mem1 ≠ MAP_FAILED then
      { ret := 0, trace := trace ++ [MapEvent.mmap num0 size mem1, MapEvent.munmap num0 size] }
    else if page_floor (map_page_size env)
        (psub ((pointer_offset + 0x80000000) % 2 ^ 64) size) ≠ num0 then
      let start := page_floor (map_page_size env)
        (psub ((pointer_offset + 0x80000000) % 2 ^ 64) size)
      let mem2 := map_try env (calls + 1) start size only_address_space
      if mem2 = start then
        { ret := mem2,
          trace := trace ++ [MapEvent.mmap num0 size mem1, MapEvent.mmap start size mem2] }
      else if mem2 ≠ MAP_FAILED then
        { ret := 0,
          trace := trace ++ [MapEvent.mmap num0 size mem1, MapEvent.mmap start size mem2,
            MapEvent.munmap start size] }
      else
        { ret := 0,
          trace := trace ++ [MapEvent.mmap num0 size mem1, MapEvent.mmap start size mem2] }
    else { ret := 0, trace := trace ++ [MapEvent.mmap num0 size mem1] }
  else { ret := 0, trace := trace }

/-- The part of `map_memory_32bit` from `fopen` on, entered after `calls` calls
of `mmap` with the system calls `trace`. -/
def map_search (env : MapEnv) (pointer_offset size only_address_space calls : Nat)
    (trace : List MapEvent) : MapResult :=
  match env.listing with
  | none => { ret := 0, trace := trace }
  | some lines =>
    let s := map_scan env pointer_offset size only_address_space lines
      (page_ceil (map_page_size env) ((pointer_offset + 1024 * 1024 + 65536) % 2 ^ 64))
      calls trace
    if s.wrong then { ret := 0, trace := s.trace }
    else if s.mem ≠ 0 then { ret := s.mem, trace := s.trace }
    else map_tail env pointer_offset size only_address_space s.num0 s.calls s.trace

/-- The function `map_memory_32bit (size, only_address_space)`, Linux path.
`map32bit` says whether the block under `#if defined(MAP_32BIT)` is compiled
in; it is not in `websynth/ptrofs`.  `pointer_offset` is the global of that
name in `websynth/ptrofs` and `0` in `websynth/indirect`. -/
def map_memory_32bit (map32bit : Bool) (pointer_offset : Nat) (env : MapEnv)
    (size only_address_space : Nat) : MapResult :=
  if size = 0 then { ret := 0, trace := [] }
  else if map32bit then
    let mem := map_try env 0 0 size only_address_space
    if mem ≠ MAP_FAILED then
      if mem ≥ 0x80000000 ∨ size + mem > 0x80000000 then
        map_search env pointer_offset size only_address_space 1
          [MapEvent.mmap 0 size mem, MapEvent.munmap mem size]
      else { ret := mem, trace := [MapEvent.mmap 0 size mem] }
    else map_search env pointer_offset size only_address_space 1 [MapEvent.mmap 0 size mem]
  else map_search env pointer_offset size only_address_space 0 []

/-- The function `map_memory_32bit` of `websynth/indirect`. -/
def map_memory_32bit_indirect (map32bit : Bool) (env : MapEnv)
    (size only_address_space : Nat) : MapResult :=
  map_memory_32bit map32bit 0 env size only_address_space

/-- The function `map_memory_32bit` of `websynth/ptrofs`. -/
def map_memory_32bit_ptrofs (pointer_offset : Nat) (env : MapEnv)
    (size only_address_space : Nat) : MapResult :=
  map_memory_32bit false pointer_offset env size only_address_space

/-- What the claim on the placement needs to know of the `while` loop of
`map_memory_32bit` entered with `num0`: `num0` does not decrease, and a
mapping the loop ends with (`mem` not null, no `goto error2`) ends at or below
`pointer_offset + 0x80000000`, and starts at or above `pointer_offset` when
`num0` was at least `page_size - 1` above it. -/
def ScanBound (pointer_offset size page_size num0 : Nat) (s : Scan) : Prop :=
  num0 ≤ s.num0 ∧
  (s.wrong = false → s.mem ≠ 0 →
    s.mem + size ≤ pointer_offset + 0x80000000 ∧
    (pointer_offset + (page_size - 1) ≤ num0 → pointer_offset ≤ s.mem))

/-! ## ELF: `unload_library_32bit` and `find_symbol_32bit`

Both functions read the dynamic section with a `switch (dynamic_entry->d_tag)`
that stores `d_val` for a few tags; the variables so filled are the values of
a function on tags, `0` where nothing was stored. -/

def STB_GLOBAL : Nat := 1

/-- One trip of the loop over the `Elf64_Dyn` entries of a `PT_DYNAMIC` segment
with a `switch` on the tags `tags`; the loop state is `(section_offset,
values)`. -/
def elf_switch_body (tags : List Nat) (library p_vaddr p_memsz : Nat) (m : Mem)
    (s : Nat × (Nat → Nat)) : Ctl (Nat × (Nat → Nat)) (Nat → Nat) :=
  if s.1 < p_memsz then
    let dynamic_entry := (p_vaddr + s.1 + library) % 2 ^ 64
    let d_tag := rd64 m dynamic_entry
    let d_val := rd64 m (dynamic_entry + 8)
    Ctl.next (padd s.1 16,
      if d_tag ∈ tags then (fun t => if t = d_tag then d_val else s.2 t) else s.2)
  else Ctl.stop s.2

/-- The loop over the program headers around it: `n` headers are still to be
visited, the next one has number `index`. -/
def elf_read_tags_from (tags : List Nat) (fuel library : Nat) (m : Mem) :
    Nat → Nat → (Nat → Nat) → Outcome (Nat → Nat)
  | 0, _, d => Outcome.done d
  | n + 1, index, d =>
    let program_header := (e_phoff m library + index * e_phentsize m library + library) % 2 ^ 64
    if p_type m program_header ≠ PT_DYNAMIC then
      elf_read_tags_from tags fuel library m n (index + 1) d
    else
      match iter (elf_switch_body tags library (p_vaddr m program_header)
          (p_memsz m program_header) m) fuel (0, d) with
      | Outcome.done d' => elf_read_tags_from tags fuel library m n (index + 1) d'
      | o => o

/-- The block headed `read dynamic entries` of `unload_library_32bit` and of
`find_symbol_32bit`, for the tags of its `switch`. -/
def elf_read_tags (tags : List Nat) (fuel library : Nat) (m : Mem) : Outcome (Nat → Nat) :=
  elf_read_tags_from tags fuel library m (e_phnum m library) 0 (fun _ => 0)

/-- One trip of the loop over `DT_FINI_ARRAY`; the loop state is
`(section_offset, world)`. -/
def elf_fini_array_body (exec : Nat → Mem → Mem) (library fini_array fini_arraysz : Nat)
    (s : Nat × World) : Ctl (Nat × World) World :=
  if s.1 < fini_arraysz then
    Ctl.next (padd s.1 8,
      callFn exec (rd64 s.2.mem ((fini_array + s.1 + library) % 2 ^ 64)) s.2)
  else Ctl.stop s.2

/-- The block headed `run destructors` of `unload_library_32bit` (ELF). -/
def elf_destructors (exec : Nat → Mem → Mem) (fuel library fini fini_array fini_arraysz : Nat)
    (w : World) : Outcome World :=
  let w1 := if fini ≠ 0 then callFn exec ((fini + library) % 2 ^ 64) w else w
  if fini_arraysz ≠ 0 ∧ fini_array ≠ 0 then
    iter (elf_fini_array_body exec library fini_array fini_arraysz) fuel (0, w1)
  else Outcome.done w1

/-- The loop headed `get minimum and maximum address for unloading`: the state
is `(min_addr, max_addr)`. -/
def elf_unload_extent_from (m : Mem) (library : Nat) : Nat → Nat → Nat × Nat → Nat × Nat
  | 0, _, e => e
  | n + 1, index, e =>
    let program_header := (e_phoff m library + index * e_phentsize m library + library) % 2 ^ 64
    if p_type m program_header ≠ PT_LOAD then elf_unload_extent_from m library n (index + 1) e
    else
      let min_addr :=
        if p_vaddr m program_header < e.1 then p_vaddr m program_header else e.1
      let max_addr :=
        if (p_vaddr m program_header + p_memsz m program_header) % 2 ^ 64 > e.2 then
          (p_vaddr m program_header + p_memsz m program_header) % 2 ^ 64
        else e.2
      elf_unload_extent_from m library n (index + 1) (min_addr, max_addr)

/-- The length that `unload_library_32bit` passes to `munmap`, computed from
the memory `m` that its destructors have left. -/
def elf_unmap_length (os : Os) (library : Nat) (m : Mem) : Nat :=
  let e := elf_unload_extent_from m library (e_phnum m library) 0 (2 ^ 64 - 1, 0)
  let min_addr := page_floor (page_size os) e.1
  let max_addr := page_ceil (page_size os) e.2
  if e_type m library = ET_EXEC then
    psub (page_ceil (page_size os)
      ((rd64 m (padd max_addr 16) + rd64 m (padd max_addr 24)) % 2 ^ 64)) min_addr
  else psub max_addr min_addr

/-- The ELF branch of `unload_library_32bit` of `websynth/indirect`: the memory
and the events of the call, `none` when a loop did not end within `fuel`
trips. -/
def unload_library_32bit_elf (os : Os) (exec : Nat → Mem → Mem) (fuel library : Nat) (m : Mem) :
    Option World :=
  if library = 0 then some { mem := m, trace := [] }
  else
    match (if e_type m library = ET_DYN then
        elf_read_tags [DT_FINI, DT_FINI_ARRAY, DT_FINI_ARRAYSZ] fuel library m
      else Outcome.done (fun _ => 0)) with
    | Outcome.done d =>
      match elf_destructors exec fuel library (d DT_FINI) (d DT_FINI_ARRAY) (d DT_FINI_ARRAYSZ)
          { mem := m, trace := [] } with
      | Outcome.done w =>
        some { mem := w.mem,
               trace := w.trace ++ [Event.munmap library (elf_unmap_length os library w.mem)] }
      | _ => none
    | _ => none

/-- One trip of the loop `for (section_offset = 0; 1; section_offset += syment)`
of `find_symbol_32bit`; the loop state is `section_offset`, the result the
returned pointer.  `base` is `library` for a shared object and `0` for an
executable, whose tables hold absolute addresses.  The test on the binding is
present in `websynth/indirect` only. -/
def find_symbol_body (v : Variant) (base : Nat) (name : List Nat)
    (strtab symtab strsz syment : Nat) (m : Mem) (section_offset : Nat) : Ctl Nat Nat :=
  let symbol := (symtab + section_offset + base) % 2 ^ 64
  if st_name m symbol ≥ strsz then Ctl.stop 0
  else if st_value m symbol = 0 then Ctl.next (padd section_offset syment)
  else if v = Variant.indirect ∧ st_info m symbol / 16 ≠ STB_GLOBAL then
    Ctl.next (padd section_offset syment)
  else if strEq m ((strtab + st_name m symbol + base) % 2 ^ 64) name then
    Ctl.stop ((st_value m symbol + base) % 2 ^ 64)
  else Ctl.next (padd section_offset syment)

/-- The loop headed `get maximum address` of the `ET_EXEC` branch of
`find_symbol_32bit`. -/
def elf_max_addr_from (m : Mem) (library : Nat) : Nat → Nat → Nat → Nat
  | 0, _, max_addr => max_addr
  | n + 1, index, max_addr =>
    let program_header := (e_phoff m library + index * e_phentsize m library + library) % 2 ^ 64
    if p_type m program_header ≠ PT_LOAD then elf_max_addr_from m library n (index + 1) max_addr
    else if (p_vaddr m program_header + p_memsz m program_header) % 2 ^ 64 > max_addr then
      elf_max_addr_from m library n (index + 1)
        ((p_vaddr m program_header + p_memsz m program_header) % 2 ^ 64)
    else elf_max_addr_from m library n (index + 1) max_addr

/-- The shared-object branch of `find_symbol_32bit`. -/
def find_symbol_dyn (v : Variant) (fuel library : Nat) (name : List Nat) (m : Mem) :
    Option Nat :=
  match elf_read_tags [DT_STRTAB, DT_SYMTAB, DT_STRSZ, DT_SYMENT] fuel library m with
  | Outcome.done d =>
    if d DT_STRTAB = 0 ∨ d DT_SYMTAB = 0 ∨ d DT_STRSZ = 0 ∨ d DT_SYMENT = 0 then some 0
    else
      match iter (find_symbol_body v library name (d DT_STRTAB) (d DT_SYMTAB) (d DT_STRSZ)
          (d DT_SYMENT) m) fuel 0 with
      | Outcome.done r => some r
      | _ => none
  | _ => none

/-- The executable branch of `find_symbol_32bit` (`websynth/indirect`). -/
def find_symbol_exec (os : Os) (fuel library : Nat) (name : List Nat) (m : Mem) : Option Nat :=
  let max_addr := page_ceil (page_size os) (elf_max_addr_from m library (e_phnum m library) 0 0)
  match iter (find_symbol_body Variant.indirect 0 name (rd64 m (padd max_addr 16))
      (rd64 m max_addr) (rd64 m (padd max_addr 24)) (rd64 m (padd max_addr 8)) m) fuel 0 with
  | Outcome.done r => some r
  | _ => none

/-- The ELF branch of `find_symbol_32bit (library, name)`: the returned pointer
(`0` is `NULL`), `none` when a loop did not end within `fuel` trips.  A null
`name` is `none`; a name is given by its bytes up to the terminating NUL. -/
def find_symbol_32bit_elf (v : Variant) (os : Os) (fuel library : Nat) (name : Option (List Nat))
    (m : Mem) : Option Nat :=
  match name with
  | none => some 0
  | some nm =>
    if library = 0 ∨ nm.headD 0 = 0 then some 0
    else
      match v with
      | Variant.llasm => find_symbol_dyn v fuel library nm m
      | Variant.indirect =>
        if e_type m library = ET_EXEC then find_symbol_exec os fuel library nm m
        else if e_type m library = ET_DYN then find_symbol_dyn v fuel library nm m
        else some 0

/-- The world after the calls of `n` successive 8-byte entries of a function
pointer array, the first at `addr off`; each entry is read when its turn
comes. -/
def run_entries (exec : Nat → Mem → Mem) (addr : Nat → Nat) : Nat → Nat → World → World
  | 0, _, w => w
  | n + 1, off, w => run_entries exec addr n (off + 8) (callFn exec (rd64 w.mem (addr off)) w)

/-- The functions called by `run_entries`, in call order, starting from
memory `m`. -/
def entry_calls (exec : Nat → Mem → Mem) (addr : Nat → Nat) : Nat → Nat → Mem → List Nat
  | 0, _, _ => []
  | n + 1, off, m =>
    rd64 m (addr off) :: entry_calls exec addr n (off + 8) (exec (rd64 m (addr off)) m)

/-- Follows the words of the specification ("destructors in the mirror order"
of construction, which is `DT_INIT` and then the `DT_INIT_ARRAY` entries in
ascending order): the entries of `DT_FINI_ARRAY` in descending order, then
the `DT_FINI` function. -/
def mirror_destructors (library fini : Nat) (fini_array : List Nat) : List Nat :=
  fini_array.reverse ++ (if fini ≠ 0 then [(fini + library) % 2 ^ 64] else [])

/-- The address of entry number `k` of the symbol table that the loop of
`find_symbol_32bit` walks. -/
def symbolAt (base symtab syment k : Nat) : Nat :=
  (symtab + (k * syment) % 2 ^ 64 + base) % 2 ^ 64

/-- The symbol at address `symbol` is what `find_symbol_32bit` is asked to
look for: defined (`st_value != 0`), of global binding when the variant tests
the binding, and named `name`. -/
def symbolHit (v : Variant) (base : Nat) (name : List Nat) (strtab : Nat) (m : Mem)
    (symbol : Nat) : Prop :=
  st_value m symbol ≠ 0 ∧
  (v = Variant.indirect → st_info m symbol / 16 = STB_GLOBAL) ∧
  isCString m ((strtab + st_name m symbol + base) % 2 ^ 64) name

/-! ## Segments that are copied

The loaders that read the file through a descriptor
(`load_library_from_file_linux`, `load_library_from_file_macos`) copy every
segment; the loaders that have the file mapped
(`load_library_from_memory_linux`, `load_library_from_memory_macos`) copy a
segment unless it can be mapped from the file as it is.  A
`segment_command_64` has `cmd` at `+0`, `cmdsize` at `+4`, `vmaddr` at `+24`,
`vmsize` at `+32`, `fileoff` at `+40` and `filesize` at `+48`. -/

/-- Modelled from the spec: the type `_cpu` of the header `llasm_cpu.h`, which is not
among the sources. The members kept are the ones the functions translated below name:
the two stack pointers, the three FPU words, and the emulated registers that the
functions write as `eax`, `ecx`, `edx`, `esp` and `eflags`. -/
structure Cpu where
  stack_bottom : Nat
  stack_top : Nat
  st_top : Nat
  st_sw_cond : Nat
  st_cw : Nat
  eax : Nat
  ecx : Nat
  edx : Nat
  esp : Nat
  eflags : Nat
deriving DecidableEq

/-- Modelled from the spec: the type `_stack` of the header `x64_stack.h`, which is not
among the sources, with the three members `x86_initialize_stack` assigns. -/
structure Stack where
  stack_bottom : Nat
  stack_top : Nat
  esp : Nat
deriving DecidableEq

/-- The functions of the image that the facade calls: `c_ValidateSettings_asm`, ... in
`functions-llasm.c`, and `c_ValidateSettings`, ... in `functions-x64.c`. -/
inductive ImageFn where
  | ValidateSettings
  | InitializeDataFile
  | InitializeSynth
  | InitializeUnknown
  | InitializeEffect
  | InitializeCpuLoad
  | InitializeParameters
  | InitializeMasterVolume
  | MidiMessageShort
  | MidiMessageLong
  | RenderSamples
deriving DecidableEq

/-- One call into the image, as the callee finds the machine on entry: the function,
the context pointer it is given, the context and the memory at that moment, and the
arguments that follow the context pointer (none in `functions-llasm.c`, where
everything travels in the context). -/
structure Invocation (κ : Type) where
  fn : ImageFn
  ctx : Nat
  regs : κ
  mem : Mem
  args : List Nat

/-- The twelve names `D77_LoadLibrary` resolves in the image, in the order of its
assignments: the eleven functions (`c_ValidateSettings_asm`, ... in
`functions-llasm.c`, `c_ValidateSettings`, ... in `functions-x64.c`) and the variable
`dwRenderedSamplesPerCall_asm`. -/
inductive FacadeSymbol where
  | fn (f : ImageFn)
  | dwRenderedSamplesPerCall_asm
deriving DecidableEq

/-- A call of the loader made by the facade, with its result. -/
inductive LoaderCall where
  | load (libpath result : Nat)
  | find (library : Nat) (sym : FacadeSymbol) (result : Nat)
  | unload (library : Nat)
deriving DecidableEq

/-- What the two facade files and the two `asm-cpu.c` work on, for one thread:
`thread_ctx` is the thread-local `thread_cpu` (`thread_stack` in `x64/`), `0` for
`NULL`; `ctx_at` is the context object stored at an address; `mem` is the rest of
memory; `library` is the static handle of the facade (`0` for `NULL`); `allocated`
lists the blocks `map_memory_32bit(1024 * 1024, 0)` (or `malloc(1024 * 1024)`) has
returned so far; `interrupt_flag` is the variable `X86_InterruptFlag`; `invoked` lists
the calls into the image; `resolved` holds the twelve static pointers that
`D77_LoadLibrary` assigns; `loader` lists the calls of `load_library_32bit`,
`find_symbol_32bit` and `unload_library_32bit` made so far. The context objects are
kept apart from `mem`: they lie above `stack_top`, and the stack grows downwards from
there. -/
structure Host (κ : Type) where
  thread_ctx : Nat
  ctx_at : Nat → κ
  mem : Mem
  library : Nat
  allocated : List Nat
  interrupt_flag : Nat
  invoked : List (Invocation κ)
  resolved : FacadeSymbol → Nat
  loader : List LoaderCall

/-- The end of the process by `exit (status)`, with the state it is called in. -/
structure Exit (κ : Type) where
  status : Nat
  host : Host κ

/-- What the functions take from outside the translated files: whether
`INDIRECT_64BIT` is defined; the result of the call of `map_memory_32bit(1024 * 1024, 0)`
(or of `malloc(1024 * 1024)` without `INDIRECT_64BIT`) by the number of earlier calls;
the macro `REG2PTR` of `llasm_cpu.h`, which is not among the sources; the address
of the variable `dwRenderedSamplesPerCall_asm` of the image; the pointer
`load_library_32bit (libpath)` returns, by the number of earlier calls of the loader
and the path; and the pointer `find_symbol_32bit (library, name)` returns. -/
structure Build where
  indirect64 : Bool
  alloc : Nat → Nat
  reg2ptr : Nat → Nat
  dwRenderedSamplesPerCall_asm : Nat
  load_library_32bit : Nat → Nat → Nat
  find_symbol_32bit : Nat → FacadeSymbol → Nat

/-- The functions of the image in `functions-llasm.c`: each takes the pointer to the
context and works on the context and on memory. -/
abbrev ImageAsm := ImageFn → Nat → Cpu → Mem → Cpu × Mem

/-- The functions of the image in `functions-x64.c`: each takes the pointer to the
stack object and its arguments, and returns a value (`0` stands for `void`). -/
abbrev ImageX64 := ImageFn → Nat → List Nat → Stack → Mem → Nat × Stack × Mem

/-- The state "Ready" of a thread: it has an execution context. -/
def Ready {κ : Type} (s : Host κ) : Prop := s.thread_ctx ≠ 0

instance {κ : Type} (s : Host κ) : Decidable (Ready s) := by
  unfold Ready; infer_instance

/-- Assignment to members of the context object at `p`. -/
def ctx_update {κ : Type} (s : Host κ) (p : Nat) (f : κ → κ) : Host κ :=
  { s with ctx_at := fun a => if a = p then f (s.ctx_at a) else s.ctx_at a }

/-- Function `x86_initialize_cpu` of `llasm/asm-cpu.c`. Pointers are 64 bits wide. -/
def x86_initialize_cpu (b : Build) (s : Host Cpu) : Except (Exit Cpu) (Nat × Host Cpu) :=
  let cpu := s.thread_ctx
  if cpu ≠ 0 then Except.ok (cpu, s)
  else
    let stack_bottom := b.alloc s.allocated.length
    let s := { s with allocated := s.allocated ++ [stack_bottom] }
    if stack_bottom = 0 then Except.error { status := 2, host := s }
    else
      let cpu := (1024 * 1022 + stack_bottom) % 2 ^ 64
      let s := ctx_update s cpu (fun c => { c with stack_bottom := stack_bottom })
      let s := ctx_update s cpu
        (fun c => { c with stack_top := (1024 * 1020 + stack_bottom) % 2 ^ 64 })
      let s := ctx_update s cpu (fun c => { c with st_top := 0 })
      let s := ctx_update s cpu (fun c => { c with st_sw_cond := 0 })
      let s := ctx_update s cpu (fun c => { c with st_cw := 0x037f })
      let s := ctx_update s cpu (fun c => { c with esp := c.stack_top % 2 ^ 32 })
      let s := ctx_update s cpu (fun c => { c with eflags := 0x3202 })
      let s := if b.indirect64 = true then s else { s with interrupt_flag := 1 }
      Except.ok (cpu, { s with thread_ctx := cpu })

/-- Function `x86_initialize_stack` of `x64/asm-cpu.c`. -/
def x86_initialize_stack (b : Build) (s : Host Stack) :
    Except (Exit Stack) (Nat × Host Stack) :=
  let stack := s.thread_ctx
  if stack ≠ 0 then Except.ok (stack, s)
  else
    let stack_bottom := b.alloc s.allocated.length
    let s := { s with allocated := s.allocated ++ [stack_bottom] }
    if stack_bottom = 0 then Except.error { status := 2, host := s }
    else
      let stack := (1024 * 1022 + stack_bottom) % 2 ^ 64
      let s := ctx_update s stack (fun c => { c with stack_bottom := stack_bottom })
      let s := ctx_update s stack
        (fun c => { c with stack_top := (1024 * 1020 + stack_bottom) % 2 ^ 64 })
      let s := ctx_update s stack (fun c => { c with esp := c.stack_top })
      Except.ok (stack, { s with thread_ctx := stack })

/-- The test of the macro `CHECK_LIBRARY` of both facade files: `true`, which leads to
`exit(3)`, when `INDIRECT_64BIT` is defined and no library is loaded. -/
def CHECK_LIBRARY {κ : Type} (b : Build) (s : Host κ) : Bool :=
  b.indirect64 && decide (s.library = 0)

/-- A call `c_..._asm(cpu)` of `functions-llasm.c`. -/
def call_asm (img : ImageAsm) (fn : ImageFn) (cpu : Nat) (s : Host Cpu) : Host Cpu :=
  let r := img fn cpu (s.ctx_at cpu) s.mem
  { s with
    ctx_at := fun a => if a = cpu then r.1 else s.ctx_at a
    mem := r.2
    invoked := s.invoked ++
      [{ fn := fn, ctx := cpu, regs := s.ctx_at cpu, mem := s.mem, args := [] }] }

/-- A call `c_...(stack, ...)` of `functions-x64.c`, with the value it returns. -/
def call_x64 (img : ImageX64) (fn : ImageFn) (stack : Nat) (args : List Nat)
    (s : Host Stack) : Nat × Host Stack :=
  let r := img fn stack args (s.ctx_at stack) s.mem
  (r.1,
   { s with
     ctx_at := fun a => if a = stack then r.2.1 else s.ctx_at a
     mem := r.2.2
     invoked := s.invoked ++
       [{ fn := fn, ctx := stack, regs := s.ctx_at stack, mem := s.mem, args := args }] })

/-- The statements `esp -= 4; *((uint32_t *)REG2PTR(esp)) = value;` of
`functions-llasm.c`. -/
def push32 (b : Build) (cpu value : Nat) (s : Host Cpu) : Host Cpu :=
  let s := ctx_update s cpu (fun c => { c with esp := (c.esp + (2 ^ 32 - 4)) % 2 ^ 32 })
  { s with mem := wr32 s.mem (b.reg2ptr (s.ctx_at cpu).esp) value }

/-- Function `D77_ValidateSettings` of `functions-llasm.c`. -/
def D77_ValidateSettings (b : Build) (img : ImageAsm) (lpSettings : Nat) (s : Host Cpu) :
    Except (Exit Cpu) (Host Cpu) :=
  if CHECK_LIBRARY b s then Except.error { status := 3, host := s }
  else
    match x86_initialize_cpu b s with
    | Except.error e => Except.error e
    | Except.ok (cpu, s) =>
      let s := ctx_update s cpu (fun c => { c with ecx := lpSettings % 2 ^ 32 })
      Except.ok (call_asm img ImageFn.ValidateSettings cpu s)

/-- Function `D77_InitializeDataFile` of `functions-llasm.c`. -/
def D77_InitializeDataFile (b : Build) (img : ImageAsm) (lpDataFile dwLength : Nat)
    (s : Host Cpu) : Except (Exit Cpu) (Nat × Host Cpu) :=
  if CHECK_LIBRARY b s then Except.error { status := 3, host := s }
  else
    match x86_initialize_cpu b s with
    | Except.error e => Except.error e
    | Except.ok (cpu, s) =>
      let s := ctx_update s cpu (fun c => { c with ecx := lpDataFile % 2 ^ 32 })
      let s := ctx_update s cpu (fun c => { c with edx := dwLength % 2 ^ 32 })
      let s := call_asm img ImageFn.InitializeDataFile cpu s
      Except.ok ((s.ctx_at cpu).eax, s)

/-- Function `D77_InitializeSynth` of `functions-llasm.c`. -/
def D77_InitializeSynth (b : Build) (img : ImageAsm)
    (dwSamplingFrequency dwPolyphony dwTimeReso_unused : Nat) (s : Host Cpu) :
    Except (Exit Cpu) (Nat × Host Cpu) :=
  if CHECK_LIBRARY b s then Except.error { status := 3, host := s }
  else
    match x86_initialize_cpu b s with
    | Except.error e => Except.error e
    | Except.ok (cpu, s) =>
      let s := ctx_update s cpu (fun c => { c with ecx := dwSamplingFrequency % 2 ^ 32 })
      let s := ctx_update s cpu (fun c => { c with edx := dwPolyphony % 2 ^ 32 })
      let s := push32 b cpu dwTimeReso_unused s
      let s := call_asm img ImageFn.InitializeSynth cpu s
      Except.ok ((s.ctx_at cpu).eax, s)

/-- Function `D77_InitializeUnknown` of `functions-llasm.c`. -/
def D77_InitializeUnknown (b : Build) (img : ImageAsm) (dwUnknown_unused : Nat)
    (s : Host Cpu) : Except (Exit Cpu) (Host Cpu) :=
  if CHECK_LIBRARY b s then Except.error { status := 3, host := s }
  else
    match x86_initialize_cpu b s with
    | Except.error e => Except.error e
    | Except.ok (cpu, s) =>
      let s := ctx_update s cpu (fun c => { c with ecx := dwUnknown_unused % 2 ^ 32 })
      Except.ok (call_asm img ImageFn.InitializeUnknown cpu s)

/-- Function `D77_InitializeEffect` of `functions-llasm.c`. -/
def D77_InitializeEffect (b : Build) (img : ImageAsm) (dwEffect bEnabled : Nat)
    (s : Host Cpu) : Except (Exit Cpu) (Host Cpu) :=
  if CHECK_LIBRARY b s then Except.error { status := 3, host := s }
  else
    match x86_initialize_cpu b s with
    | Except.error e => Except.error e
    | Except.ok (cpu, s) =>
      let s := ctx_update s cpu (fun c => { c with ecx := dwEffect % 2 ^ 32 })
      let s := ctx_update s cpu (fun c => { c with edx := bEnabled % 2 ^ 32 })
      Except.ok (call_asm img ImageFn.InitializeEffect cpu s)

/-- Function `D77_InitializeCpuLoad` of `functions-llasm.c`. -/
def D77_InitializeCpuLoad (b : Build) (img : ImageAsm) (dwCpuLoadLow dwCpuLoadHigh : Nat)
    (s : Host Cpu) : Except (Exit Cpu) (Host Cpu) :=
  if CHECK_LIBRARY b s then Except.error { status := 3, host := s }
  else
    match x86_initialize_cpu b s with
    | Except.error e => Except.error e
    | Except.ok (cpu, s) =>
      let s := ctx_update s cpu (fun c => { c with ecx := dwCpuLoadLow % 2 ^ 32 })
      let s := ctx_update s cpu (fun c => { c with edx := dwCpuLoadHigh % 2 ^ 32 })
      Except.ok (call_asm img ImageFn.InitializeCpuLoad cpu s)

/-- Function `D77_InitializeParameters` of `functions-llasm.c`. -/
def D77_InitializeParameters (b : Build) (img : ImageAsm) (lpParameters : Nat)
    (s : Host Cpu) : Except (Exit Cpu) (Host Cpu) :=
  if CHECK_LIBRARY b s then Except.error { status := 3, host := s }
  else
    match x86_initialize_cpu b s with
    | Except.error e => Except.error e
    | Except.ok (cpu, s) =>
      let s := ctx_update s cpu (fun c => { c with ecx := lpParameters % 2 ^ 32 })
      Except.ok (call_asm img ImageFn.InitializeParameters cpu s)

/-- Function `D77_InitializeMasterVolume` of `functions-llasm.c`. -/
def D77_InitializeMasterVolume (b : Build) (img : ImageAsm) (dwMasterVolume : Nat)
    (s : Host Cpu) : Except (Exit Cpu) (Host Cpu) :=
  if CHECK_LIBRARY b s then Except.error { status := 3, host := s }
  else
    match x86_initialize_cpu b s with
    | Except.error e => Except.error e
    | Except.ok (cpu, s) =>
      let s := ctx_update s cpu (fun c => { c with ecx := dwMasterVolume % 2 ^ 32 })
      Except.ok (call_asm img ImageFn.InitializeMasterVolume cpu s)

/-- Function `D77_GetRenderedSamplesPerCall`, the same text in `functions-llasm.c`
and in `functions-x64.c`: the value of the variable of the image, read after
`CHECK_LIBRARY`. -/
def D77_GetRenderedSamplesPerCall {κ : Type} (b : Build) (s : Host κ) :
    Except (Exit κ) (Nat × Host κ) :=
  if CHECK_LIBRARY b s then Except.error { status := 3, host := s }
  else Except.ok (rd32 s.mem b.dwRenderedSamplesPerCall_asm, s)

/-- Function `D77_MidiMessageShort` of `functions-llasm.c`. -/
def D77_MidiMessageShort (b : Build) (img : ImageAsm) (dwMessage : Nat) (s : Host Cpu) :
    Except (Exit Cpu) (Nat × Host Cpu) :=
  if CHECK_LIBRARY b s then Except.error { status := 3, host := s }
  else
    match x86_initialize_cpu b s with
    | Except.error e => Except.error e
    | Except.ok (cpu, s) =>
      let s := ctx_update s cpu (fun c => { c with ecx := dwMessage % 2 ^ 32 })
      let s := ctx_update s cpu (fun c => { c with edx := 0 })
      let s := call_asm img ImageFn.MidiMessageShort cpu s
      Except.ok ((s.ctx_at cpu).eax, s)

/-- Function `D77_MidiMessageLong` of `functions-llasm.c`. -/
def D77_MidiMessageLong (b : Build) (img : ImageAsm) (lpMessage dwLength : Nat)
    (s : Host Cpu) : Except (Exit Cpu) (Nat × Host Cpu) :=
  if CHECK_LIBRARY b s then Except.error { status := 3, host := s }
  else
    match x86_initialize_cpu b s with
    | Except.error e => Except.error e
    | Except.ok (cpu, s) =>
      let s := ctx_update s cpu (fun c => { c with ecx := lpMessage % 2 ^ 32 })
      let s := ctx_update s cpu (fun c => { c with edx := dwLength % 2 ^ 32 })
      let s := push32 b cpu 0 s
      let s := call_asm img ImageFn.MidiMessageLong cpu s
      Except.ok ((s.ctx_at cpu).eax, s)

/-- Function `D77_RenderSamples` of `functions-llasm.c`. -/
def D77_RenderSamples (b : Build) (img : ImageAsm) (lpSamples : Nat) (s : Host Cpu) :
    Except (Exit Cpu) (Nat × Host Cpu) :=
  if CHECK_LIBRARY b s then Except.error { status := 3, host := s }
  else
    match x86_initialize_cpu b s with
    | Except.error e => Except.error e
    | Except.ok (cpu, s) =>
      let s := ctx_update s cpu (fun c => { c with ecx := lpSamples % 2 ^ 32 })
      let s := call_asm img ImageFn.RenderSamples cpu s
      Except.ok ((s.ctx_at cpu).eax, s)

/-- The shape every function of `functions-x64.c` but `D77_GetRenderedSamplesPerCall`
has: `CHECK_LIBRARY`, `stack = x86_initialize_stack();`, and the call of the function
of the image with the stack and the arguments, whose value is returned. -/
def x64_enter (b : Build) (img : ImageX64) (fn : ImageFn) (args : List Nat)
    (s : Host Stack) : Except (Exit Stack) (Nat × Host Stack) :=
  if CHECK_LIBRARY b s then Except.error { status := 3, host := s }
  else
    match x86_initialize_stack b s with
    | Except.error e => Except.error e
    | Except.ok (stack, s) => Except.ok (call_x64 img fn stack args s)

/-- A call of one of the twelve functions of the facade, with its arguments. -/
inductive FacadeCall where
  | ValidateSettings (lpSettings : Nat)
  | InitializeDataFile (lpDataFile dwLength : Nat)
  | InitializeSynth (dwSamplingFrequency dwPolyphony dwTimeReso_unused : Nat)
  | InitializeUnknown (dwUnknown_unused : Nat)
  | InitializeEffect (dwEffect bEnabled : Nat)
  | InitializeCpuLoad (dwCpuLoadLow dwCpuLoadHigh : Nat)
  | InitializeParameters (lpParameters : Nat)
  | InitializeMasterVolume (dwMasterVolume : Nat)
  | GetRenderedSamplesPerCall
  | MidiMessageShort (dwMessage : Nat)
  | MidiMessageLong (lpMessage dwLength : Nat)
  | RenderSamples (lpSamples : Nat)
deriving DecidableEq

/-- The state a call of a function of `functions-llasm.c` leaves. -/
def facade_llasm (b : Build) (img : ImageAsm) (call : FacadeCall) (s : Host Cpu) :
    Except (Exit Cpu) (Host Cpu) :=
  match call with
  | .ValidateSettings p => D77_ValidateSettings b img p s
  | .InitializeDataFile p n => (D77_InitializeDataFile b img p n s).map Prod.snd
  | .InitializeSynth f p t => (D77_InitializeSynth b img f p t s).map Prod.snd
  | .InitializeUnknown u => D77_InitializeUnknown b img u s
  | .InitializeEffect e enabled => D77_InitializeEffect b img e enabled s
  | .InitializeCpuLoad lo hi => D77_InitializeCpuLoad b img lo hi s
  | .InitializeParameters p => D77_InitializeParameters b img p s
  | .InitializeMasterVolume v => D77_InitializeMasterVolume b img v s
  | .GetRenderedSamplesPerCall => (D77_GetRenderedSamplesPerCall b s).map Prod.snd
  | .MidiMessageShort msg => (D77_MidiMessageShort b img msg s).map Prod.snd
  | .MidiMessageLong p n => (D77_MidiMessageLong b img p n s).map Prod.snd
  | .RenderSamples p => (D77_RenderSamples b img p s).map Prod.snd

/-- The state a call of a function of `functions-x64.c` leaves. -/
def facade_x64 (b : Build) (img : ImageX64) (call : FacadeCall) (s : Host Stack) :
    Except (Exit Stack) (Host Stack) :=
  match call with
  | .ValidateSettings p => (x64_enter b img ImageFn.ValidateSettings [p] s).map Prod.snd
  | .InitializeDataFile p n =>
    (x64_enter b img ImageFn.InitializeDataFile [p, n] s).map Prod.snd
  | .InitializeSynth f p t =>
    (x64_enter b img ImageFn.InitializeSynth [f, p, t] s).map Prod.snd
  | .InitializeUnknown u => (x64_enter b img ImageFn.InitializeUnknown [u] s).map Prod.snd
  | .InitializeEffect e enabled =>
    (x64_enter b img ImageFn.InitializeEffect [e, enabled] s).map Prod.snd
  | .InitializeCpuLoad lo hi =>
    (x64_enter b img ImageFn.InitializeCpuLoad [lo, hi] s).map Prod.snd
  | .InitializeParameters p =>
    (x64_enter b img ImageFn.InitializeParameters [p] s).map Prod.snd
  | .InitializeMasterVolume v =>
    (x64_enter b img ImageFn.InitializeMasterVolume [v] s).map Prod.snd
  | .GetRenderedSamplesPerCall => (D77_GetRenderedSamplesPerCall b s).map Prod.snd
  | .MidiMessageShort msg =>
    (x64_enter b img ImageFn.MidiMessageShort [msg] s).map Prod.snd
  | .MidiMessageLong p n =>
    (x64_enter b img ImageFn.MidiMessageLong [p, n] s).map Prod.snd
  | .RenderSamples p => (x64_enter b img ImageFn.RenderSamples [p] s).map Prod.snd


/-- The twelve static pointers of the facade, in the order in which `D77_LoadLibrary`
assigns and tests them. -/
def facadeSymbols : List FacadeSymbol :=
  [FacadeSymbol.fn ImageFn.ValidateSettings, FacadeSymbol.fn ImageFn.InitializeDataFile,
   FacadeSymbol.fn ImageFn.InitializeSynth, FacadeSymbol.fn ImageFn.InitializeUnknown,
   FacadeSymbol.fn ImageFn.InitializeEffect, FacadeSymbol.fn ImageFn.InitializeCpuLoad,
   FacadeSymbol.fn ImageFn.InitializeParameters,
   FacadeSymbol.fn ImageFn.InitializeMasterVolume,
   FacadeSymbol.dwRenderedSamplesPerCall_asm,
   FacadeSymbol.fn ImageFn.MidiMessageShort, FacadeSymbol.fn ImageFn.MidiMessageLong,
   FacadeSymbol.fn ImageFn.RenderSamples]

/-- Function `D77_LoadLibrary`, the same text in `functions-llasm.c` and in
`functions-x64.c` up to the names looked up: the value returned and the state left. -/
def D77_LoadLibrary {κ : Type} (b : Build) (libpath : Nat) (s : Host κ) : Nat × Host κ :=
  if s.library ≠ 0 then (0, s)
  else
    let library := b.load_library_32bit s.loader.length libpath
    let s := { s with library := library
                      loader := s.loader ++ [LoaderCall.load libpath library] }
    if library = 0 then (0, s)
    else
      let s := { s with
        resolved := fun sym => b.find_symbol_32bit library sym
        loader := s.loader ++
          facadeSymbols.map (fun sym => LoaderCall.find library sym
            (b.find_symbol_32bit library sym)) }
      if facadeSymbols.any (fun sym => decide (s.resolved sym = 0)) then
        (0, { s with library := 0, loader := s.loader ++ [LoaderCall.unload library] })
      else (1, s)

/-- Function `D77_FreeLibrary` of both facade files. -/
def D77_FreeLibrary {κ : Type} (s : Host κ) : Host κ :=
  if s.library ≠ 0 then
    { s with library := 0, loader := s.loader ++ [LoaderCall.unload s.library] }
  else s

/-- A call of `D77_LoadLibrary (libpath)` or of `D77_FreeLibrary ()`. -/
inductive LibraryCall where
  | load (libpath : Nat)
  | free
deriving DecidableEq

/-- The state after a sequence of calls of `D77_LoadLibrary` and `D77_FreeLibrary`. -/
def library_calls {κ : Type} (b : Build) : List LibraryCall → Host κ → Host κ
  | [], s => s
  | LibraryCall.load libpath :: rest, s => library_calls b rest (D77_LoadLibrary b libpath s).2
  | LibraryCall.free :: rest, s => library_calls b rest (D77_FreeLibrary s)

/-! ## PE: mapping the image (`load_library_from_memory_windows`)

Layouts of `<winnt.h>`: an `IMAGE_DOS_HEADER` has `e_magic` at `+0` and `e_lfanew` at
`+60`; an `IMAGE_NT_HEADERS64` is 264 bytes, with `Signature` at `+0`,
`FileHeader.Machine` at `+4`, `NumberOfSections` at `+6`, `SizeOfOptionalHeader` at
`+20`, `Characteristics` at `+22`, and the optional header at `+24`: `Magic` at `+24`,
`ImageBase` at `+48`, `Subsystem` at `+92`, `NumberOfRvaAndSizes` at `+132`,
`DataDirectory` at `+136`; an `IMAGE_SECTION_HEADER` is 40 bytes with `VirtualSize` at
`+8`, `VirtualAddress` at `+12`, `SizeOfRawData` at `+16`, `PointerToRawData` at
`+20`. -/

def IMAGE_DOS_SIGNATURE : Nat := 0x5A4D
def IMAGE_NT_SIGNATURE : Nat := 0x00004550
def IMAGE_FILE_MACHINE_AMD64 : Nat := 0x8664
def IMAGE_FILE_MACHINE_ARM64 : Nat := 0xAA64
def IMAGE_SIZEOF_NT_OPTIONAL64_HEADER : Nat := 240
def IMAGE_FILE_RELOCS_STRIPPED : Nat := 0x0001
def IMAGE_FILE_EXECUTABLE_IMAGE : Nat := 0x0002
def IMAGE_FILE_DLL : Nat := 0x2000
def IMAGE_NT_OPTIONAL_HDR64_MAGIC : Nat := 0x20b
def IMAGE_SUBSYSTEM_WINDOWS_CUI : Nat := 3
def IMAGE_NUMBEROF_DIRECTORY_ENTRIES : Nat := 16

/-- What Windows answers to the calls of `load_library_from_memory_windows`. -/
structure Win where
  /-- Field `dwAllocationGranularity` of the `SYSTEM_INFO`. -/
  dwAllocationGranularity : Nat
  /-- Field `dwPageSize` of the `SYSTEM_INFO`. -/
  dwPageSize : Nat
  /-- Result of `reserve_address_space (maddr, size)`, `0` for `NULL`. -/
  reserve_address_space : Nat → Nat → Nat
  /-- Result of `map_memory_32bit (size, only_address_space)`, `0` for `NULL`. -/
  map_memory_32bit : Nat → Nat → Nat
  /-- Result of call number `k` of `VirtualAlloc (addr, size, MEM_COMMIT,
  PAGE_READWRITE)`, `0` for `NULL`. -/
  VirtualAlloc : Nat → Nat → Nat → Nat
  /-- The memory after a successful `VirtualAlloc (addr, size, MEM_COMMIT, ..)`. -/
  commit : Nat → Nat → Mem → Mem

/-- Conversion of a `LONG` to `intptr_t`, as a 64-bit pattern. -/
def sext32 (v : Nat) : Nat :=
  if v % 2 ^ 32 < 2 ^ 31 then v % 2 ^ 32 else v % 2 ^ 32 + (2 ^ 64 - 2 ^ 32)

/-- The C expression `~x` on a 32-bit unsigned value. -/
def not32 (x : Nat) : Nat := 2 ^ 32 - 1 - x % 2 ^ 32

/-- The C expression `x & ~(a - 1)` on 32-bit unsigned values. -/
def align_down32 (x a : Nat) : Nat := x &&& not32 ((a + (2 ^ 32 - 1)) % 2 ^ 32)

/-- The pointer `nt_headers = mem + dos_header->e_lfanew`. -/
def pe_nt_headers (m : Mem) (mem : Nat) : Nat := padd mem (sext32 (rd32 m (mem + 60)))

/-- Field `FileHeader.NumberOfSections`. -/
def NumberOfSections (m : Mem) (nt_headers : Nat) : Nat := rd16 m (nt_headers + 6)

/-- Field `FileHeader.SizeOfOptionalHeader`. -/
def SizeOfOptionalHeader (m : Mem) (nt_headers : Nat) : Nat := rd16 m (nt_headers + 20)

/-- Field `FileHeader.Characteristics`. -/
def Characteristics (m : Mem) (nt_headers : Nat) : Nat := rd16 m (nt_headers + 22)

/-- The pointer `sec_headers`. -/
def pe_sec_headers (m : Mem) (nt_headers : Nat) : Nat :=
  (nt_headers + 24 + SizeOfOptionalHeader m nt_headers) % 2 ^ 64

/-- The address of `sec_headers[index]`. -/
def pe_section (sec_headers index : Nat) : Nat := padd sec_headers (40 * index)

/-- Field `Misc.VirtualSize` of a section header. -/
def VirtualSize (m : Mem) (sh : Nat) : Nat := rd32 m (sh + 8)

/-- Field `VirtualAddress` of a section header. -/
def VirtualAddress (m : Mem) (sh : Nat) : Nat := rd32 m (sh + 12)

/-- Field `SizeOfRawData` of a section header. -/
def SizeOfRawData (m : Mem) (sh : Nat) : Nat := rd32 m (sh + 16)

/-- Field `PointerToRawData` of a section header. -/
def PointerToRawData (m : Mem) (sh : Nat) : Nat := rd32 m (sh + 20)

/-- The test on the NT headers at the head of `load_library_from_memory_windows`:
`true` when none of the conditions for `return NULL` holds. -/
def pe_headers_ok (m : Mem) (nt_headers : Nat) : Bool :=
  !(decide (rd32 m nt_headers ≠ IMAGE_NT_SIGNATURE) ||
    (decide (rd16 m (nt_headers + 4) ≠ IMAGE_FILE_MACHINE_AMD64) &&
      decide (rd16 m (nt_headers + 4) ≠ IMAGE_FILE_MACHINE_ARM64)) ||
    decide (NumberOfSections m nt_headers = 0) ||
    decide (SizeOfOptionalHeader m nt_headers < IMAGE_SIZEOF_NT_OPTIONAL64_HEADER) ||
    decide ((Characteristics m nt_headers &&& IMAGE_FILE_EXECUTABLE_IMAGE) = 0) ||
    decide ((Characteristics m nt_headers &&& IMAGE_FILE_DLL) = 0) ||
    decide ((Characteristics m nt_headers &&& IMAGE_FILE_RELOCS_STRIPPED) ≠ 0) ||
    decide (rd16 m (nt_headers + 24) ≠ IMAGE_NT_OPTIONAL_HDR64_MAGIC) ||
    decide (rd16 m (nt_headers + 92) ≠ IMAGE_SUBSYSTEM_WINDOWS_CUI) ||
    decide (rd32 m (nt_headers + 132) < IMAGE_NUMBEROF_DIRECTORY_ENTRIES))

/-- The loop headed `get minimum and maximum address for loading` of the Windows
loader, on the `uint32_t` variables `(min_addr, max_addr)`, for the `n` sections from
`index` on. -/
def pe_extent_from (m : Mem) (sec_headers : Nat) : Nat → Nat → Nat × Nat → Nat × Nat
  | 0, _, e => e
  | n + 1, index, e =>
    let sh := pe_section sec_headers index
    let min_addr := if VirtualAddress m sh < e.1 then VirtualAddress m sh else e.1
    let max_addr :=
      if (VirtualAddress m sh + VirtualSize m sh) % 2 ^ 32 > e.2 then
        (VirtualAddress m sh + VirtualSize m sh) % 2 ^ 32
      else e.2
    pe_extent_from m sec_headers n (index + 1) (min_addr, max_addr)

/-- The values of `min_addr` and `max_addr` behind that loop. -/
def pe_extent (m : Mem) (mem : Nat) : Nat × Nat :=
  pe_extent_from m (pe_sec_headers m (pe_nt_headers m mem))
    (NumberOfSections m (pe_nt_headers m mem)) 0 (0xffffffff, 0)

/-- The C expression `sizeof (IMAGE_NT_HEADERS64) + NumberOfSections * sizeof
(IMAGE_SECTION_HEADER)`. -/
def pe_header_size (m : Mem) (mem : Nat) : Nat :=
  264 + NumberOfSections m (pe_nt_headers m mem) * 40

/-- The variable `min_addr` after `make space for headers` and the rounding down to
the allocation granularity. -/
def pe_min_addr (w : Win) (m : Mem) (mem : Nat) : Nat :=
  align_down32 (((pe_extent m mem).1 - pe_header_size m mem) % 2 ^ 32)
    w.dwAllocationGranularity

/-- The variable `max_addr` after the rounding up to a page boundary. -/
def pe_max_addr (w : Win) (m : Mem) (mem : Nat) : Nat :=
  align_down32 (((pe_extent m mem).2 + (w.dwPageSize + (2 ^ 32 - 1)) % 2 ^ 32) % 2 ^ 32)
    w.dwPageSize

/-- The C expression `max_addr - min_addr` on `uint32_t`. -/
def pe_map_size (w : Win) (m : Mem) (mem : Nat) : Nat :=
  (pe_max_addr w m mem + (2 ^ 32 - pe_min_addr w m mem)) % 2 ^ 32

/-- The pointer `mapped_addr`. -/
def pe_mapped_addr (w : Win) (m : Mem) (mem : Nat) : Nat :=
  if dirSize m (pe_nt_headers m mem) IMAGE_DIRECTORY_ENTRY_BASERELOC = 0 then
    w.reserve_address_space
      (padd (ImageBase m (pe_nt_headers m mem)) (pe_min_addr w m mem)) (pe_map_size w m mem)
  else w.map_memory_32bit (pe_map_size w m mem) 1

/-- The loop headed `map sections into memory` of the Windows loader, for the `n`
sections from `index` on: whether it got through, and the memory it leaves. -/
def pe_map_sections (w : Win) (mem sec_headers base_addr : Nat) : Nat → Nat → Mem → Bool × Mem
  | 0, _, m => (true, m)
  | n + 1, index, m =>
    let sh := pe_section sec_headers index
    let sect :=
      w.VirtualAlloc index (padd base_addr (VirtualAddress m sh)) (VirtualSize m sh)
    if sect = 0 then (false, m)
    else
      let m1 := w.commit (padd base_addr (VirtualAddress m sh)) (VirtualSize m sh) m
      let filesz :=
        if VirtualSize m1 sh < SizeOfRawData m1 sh then VirtualSize m1 sh
        else SizeOfRawData m1 sh
      let m2 :=
        if filesz ≠ 0 then
          memcpy m1 (padd base_addr (VirtualAddress m1 sh))
            (padd mem (PointerToRawData m1 sh)) filesz
        else m1
      pe_map_sections w mem sec_headers base_addr n (index + 1) m2

/-- The statements of the Windows loader from the first `CopyMemory` of the block
headed `copy headers` on: the headers are copied to `section` (here `sect`) and four
fields of the copy are set. -/
def pe_copy_headers (nt_headers sec_headers n sect min_addr size : Nat) (m : Mem) : Mem :=
  let m1 := memcpy m sect nt_headers 264
  let m2 := memcpy m1 (padd sect 264) sec_headers (n * 40)
  let m3 := wr16 m2 (sect + 20) IMAGE_SIZEOF_NT_OPTIONAL64_HEADER
  let m4 := wr32 m3 (sect + 132) IMAGE_NUMBEROF_DIRECTORY_ENTRIES
  let m5 := wr32 m4 (sect + 136 + 8 * 15) min_addr
  wr32 m5 (sect + 136 + 8 * 15 + 4) size

/-- The memory the section loop of the Windows loader leaves, and whether it got
through. -/
def pe_sections_mapped (w : Win) (mem : Nat) (m : Mem) : Bool × Mem :=
  pe_map_sections w mem (pe_sec_headers m (pe_nt_headers m mem))
    (psub (pe_mapped_addr w m mem) (pe_min_addr w m mem))
    (NumberOfSections m (pe_nt_headers m mem)) 0 m

/-- The function `load_library_from_memory_windows`: the pointer returned (`0` for
`NULL`), the memory and the events of the call. -/
def load_library_from_memory_windows (w : Win) (mem : Nat) (m : Mem) : Loaded :=
  if rd16 m mem ≠ IMAGE_DOS_SIGNATURE then { ret := 0, mem := m, trace := [] }
  else
    let nt_headers := pe_nt_headers m mem
    if pe_headers_ok m nt_headers = false then { ret := 0, mem := m, trace := [] }
    else
      let sec_headers := pe_sec_headers m nt_headers
      let n := NumberOfSections m nt_headers
      if (pe_extent m mem).1 < pe_header_size m mem then { ret := 0, mem := m, trace := [] }
      else
        let first_addr := (pe_extent m mem).1
        let min_addr := pe_min_addr w m mem
        let size := pe_map_size w m mem
        let mapped_addr := pe_mapped_addr w m mem
        if mapped_addr = 0 then { ret := 0, mem := m, trace := [] }
        else
          let r := pe_sections_mapped w mem m
          if r.1 = false then
            { ret := 0, mem := r.2,
              trace := [Event.reserve mapped_addr size, Event.virtualFree mapped_addr] }
          else if (first_addr + (2 ^ 32 - min_addr)) % 2 ^ 32 ≥ w.dwPageSize then
            let sect := w.VirtualAlloc n mapped_addr (pe_header_size m mem)
            if sect = 0 then
              { ret := 0, mem := r.2,
                trace := [Event.reserve mapped_addr size, Event.virtualFree mapped_addr] }
            else
              { ret := mapped_addr,
                mem := pe_copy_headers nt_headers sec_headers n sect min_addr size
                  (w.commit mapped_addr (pe_header_size m mem) r.2),
                trace := [Event.reserve mapped_addr size] }
          else
            { ret := mapped_addr,
              mem := pe_copy_headers nt_headers sec_headers n mapped_addr min_addr size r.2,
              trace := [Event.reserve mapped_addr size] }

/-- The pointer `section` to which the Windows loader copies the headers: the result
of the `VirtualAlloc` of the block headed `copy headers` when the first section lies a
page or more above the start of the reservation, and `mapped_addr` otherwise. -/
def pe_header_dest (w : Win) (mem : Nat) (m : Mem) : Nat :=
  if ((pe_extent m mem).1 + (2 ^ 32 - pe_min_addr w m mem)) % 2 ^ 32 ≥ w.dwPageSize then
    w.VirtualAlloc (NumberOfSections m (pe_nt_headers m mem)) (pe_mapped_addr w m mem)
      (pe_header_size m mem)
  else pe_mapped_addr w m mem

/-- The memory in which the Windows loader copies the headers: the one the section
loop leaves, after the `VirtualAlloc` of the block headed `copy headers` if that is
called. -/
def pe_before_headers (w : Win) (mem : Nat) (m : Mem) : Mem :=
  if ((pe_extent m mem).1 + (2 ^ 32 - pe_min_addr w m mem)) % 2 ^ 32 ≥ w.dwPageSize then
    w.commit (pe_mapped_addr w m mem) (pe_header_size m mem) (pe_sections_mapped w mem m).2
  else (pe_sections_mapped w mem m).2

/-- The globals of `d77_alsadrv.c` that the event buffer consists of. The memory
`event_buffer` is addressed by the byte offset from `&event_buffer[0]`; the indices are
of type `int` and stay in `0 .. 32767`, where arithmetic on `int` is exact. -/
structure EventRing where
  event_buffer : Mem
  event_read_index : Nat
  event_write_index : Nat
  midi_event_written : Nat

/-- A call of `D77_MidiMessageShort (dwMessage)` or of `D77_MidiMessageLong (lpMessage,
dwLength)`, the latter with the `dwLength` bytes that stand at `lpMessage`. -/
inductive MidiCall where
  | short (dwMessage : Nat)
  | long (message : List Nat)
deriving DecidableEq

/-- The local `free_space` of `write_short_events` and of `write_long_event`, an
`unsigned int`. -/
def free_space (read_index write_index : Nat) : Nat :=
  if write_index ≥ read_index then (32767 + 2 ^ 32 - (write_index - read_index)) % 2 ^ 32
  else (read_index - write_index - 1) % 2 ^ 32

/-- The loop headed `write events to event buffer` of `write_short_events`: the
`write_index` and the buffer it leaves. -/
def write_words : List Nat → Nat → Mem → Nat × Mem
  | [], write_index, b => (write_index, b)
  | e :: es, write_index, b =>
    write_words es ((write_index + 1) &&& 0x7fff) (wr32 b (4 * write_index) e)

/-- Function `write_short_events (events, length)`, with the `length` words at `events`
as a list. -/
def write_short_events (events : List Nat) (s : EventRing) : EventRing :=
  let read_index := s.event_read_index
  let write_index := s.event_write_index
  if events.length % 2 ^ 32 > free_space read_index write_index then s
  else
    let r := write_words events write_index s.event_buffer
    { event_buffer := r.2, event_read_index := s.event_read_index, event_write_index := r.1,
      midi_event_written := 1 }

/-- The call `memcpy (dst, event, length)` with the `length` bytes at `event` as a
list. -/
def write_bytes (b : Mem) (dst : Nat) (event : List Nat) : Mem :=
  fun x => if dst ≤ x ∧ x < dst + event.length then event.getD (x - dst) 0 % 256 else b x

/-- Function `write_long_event (event, length)`, with the `length` bytes at `event` as a
list. -/
def write_long_event (event : List Nat) (s : EventRing) : EventRing :=
  let read_index := s.event_read_index
  let write_index := s.event_write_index
  let length := event.length % 2 ^ 32
  let len2 := (1 + (length + 3) % 2 ^ 32 / 4) % 2 ^ 32
  if len2 > free_space read_index write_index ∨ length ≥ 65536 then s
  else
    let b := wr32 s.event_buffer (4 * write_index) (0xff000000 ||| length)
    let write_index := (write_index + 1) &&& 0x7fff
    if write_index ≥ read_index ∧ length > (32768 - write_index) * 4 then
      { event_buffer := write_bytes b (4 * write_index) event,
        event_read_index := s.event_read_index, event_write_index := 0,
        midi_event_written := 1 }
    else
      { event_buffer := write_bytes b (4 * write_index) event,
        event_read_index := s.event_read_index,
        event_write_index := ((write_index + (length + 3) % 2 ^ 32 / 4) % 2 ^ 32) &&& 0x7fff,
        midi_event_written := 1 }

/-- The `length` bytes that stand in the buffer from the byte offset `p` on. -/
def bytes_at (b : Mem) (p length : Nat) : List Nat :=
  (List.range length).map (fun k => rd8 b (p + k))

/-- The body of the `do ... while (read_index != write_index)` loop of
`render_subbuffer`: the `read_index` after it and the call it makes. -/
def render_step (b : Mem) (write_index read_index : Nat) : Nat × MidiCall :=
  let word := rd32 b (4 * read_index)
  if word &&& 0xff000000 ≠ 0 then
    let length := word &&& 0x00ffffff
    let read_index := (read_index + 1) &&& 0x7fff
    if read_index ≥ write_index ∧ length > (32768 - read_index) * 4 then
      (0, MidiCall.long (bytes_at b (4 * read_index) length))
    else
      ((read_index + (length + 3) / 4) &&& 0x7fff,
        MidiCall.long (bytes_at b (4 * read_index) length))
  else ((read_index + 1) &&& 0x7fff, MidiCall.short word)

/-- The `do ... while (read_index != write_index)` loop of `render_subbuffer`, from the
state `read_index`, for at most `fuel` trips: the `read_index` it ends with and the
calls it makes, `none` when it has not ended. -/
def render_loop (b : Mem) (write_index : Nat) : Nat → Nat → Option (Nat × List MidiCall)
  | 0, _ => none
  | fuel + 1, read_index =>
    let step := render_step b write_index read_index
    if step.1 ≠ write_index then
      match render_loop b write_index fuel step.1 with
      | none => none
      | some r => some (r.1, step.2 :: r.2)
    else some (step.1, [step.2])

/-- Function `render_subbuffer` up to the call of `D77_RenderSamples`: the state it
leaves and the calls of `D77_MidiMessageShort` and `D77_MidiMessageLong` it makes;
`none` when the loop has not ended after `fuel` trips. -/
def render_subbuffer (fuel : Nat) (s : EventRing) : Option (EventRing × List MidiCall) :=
  let read_index := s.event_read_index
  let write_index := s.event_write_index
  if read_index ≠ write_index then
    match render_loop s.event_buffer write_index fuel read_index with
    | none => none
    | some r => some ({ s with event_read_index := r.1 }, r.2)
  else some (s, [])

/-- A call of `write_short_events` or of `write_long_event`, with its payload. -/
inductive MidiWrite where
  | short (events : List Nat)
  | long (event : List Nat)
deriving DecidableEq

/-- The state after a call of one of the two writers. -/
def write_event (e : MidiWrite) (s : EventRing) : EventRing :=
  match e with
  | MidiWrite.short events => write_short_events events s
  | MidiWrite.long event => write_long_event event s

/-- Whether a call of a writer is rejected as an overflow: the test before
`fprintf (stderr, "Event buffer overflow\n"); return;`. -/
def overflows (e : MidiWrite) (s : EventRing) : Prop :=
  match e with
  | MidiWrite.short events =>
    events.length % 2 ^ 32 > free_space s.event_read_index s.event_write_index
  | MidiWrite.long event =>
    (1 + (event.length % 2 ^ 32 + 3) % 2 ^ 32 / 4) % 2 ^ 32 >
        free_space s.event_read_index s.event_write_index ∨
      event.length % 2 ^ 32 ≥ 65536

instance (e : MidiWrite) (s : EventRing) : Decidable (overflows e s) := by
  cases e <;> unfold overflows <;> infer_instance

/-- The calls that deliver the payload of a write: one `D77_MidiMessageShort` for each
word of a short write, one `D77_MidiMessageLong` with all the bytes of a long one. -/
def calls_of (e : MidiWrite) : List MidiCall :=
  match e with
  | MidiWrite.short events => events.map MidiCall.short
  | MidiWrite.long event => [MidiCall.long event]

/-- The state after a sequence of calls of the writers. -/
def write_events : List MidiWrite → EventRing → EventRing
  | [], s => s
  | e :: es, s => write_events es (write_event e s)

/-- The calls that deliver the writes of a sequence that were not rejected, in order. -/
def accepted_calls : List MidiWrite → EventRing → List MidiCall
  | [], _ => []
  | e :: es, s =>
    (if overflows e s then [] else calls_of e) ++ accepted_calls es (write_event e s)

/-- The payload of a write is well formed: the words of a short write are 32-bit words
with a zero top byte and their number is an `unsigned int`, the bytes of a long event
are bytes and their number is an `unsigned int`. -/
def well_formed (e : MidiWrite) : Prop :=
  match e with
  | MidiWrite.short events => events.length < 2 ^ 32 ∧ ∀ w ∈ events, w < 2 ^ 24
  | MidiWrite.long event => event.length < 2 ^ 32 ∧ ∀ x ∈ event, x < 256

instance (e : MidiWrite) : Decidable (well_formed e) := by
  cases e <;> unfold well_formed <;> infer_instance

/-- The position after the item that starts at the position `P`. A position counts the
words of the ring from `&event_buffer[0]` on without the reduction `& 0x7fff`: the
positions `32768 ..` are those of the second pass over the ring. A long event whose
bytes would cross the end of the ring is followed by the position `32768`. -/
def next_pos (P : Nat) (c : MidiCall) : Nat :=
  match c with
  | MidiCall.short _ => P + 1
  | MidiCall.long message =>
    if P + 1 < 32768 ∧ 32768 < P + 1 + (message.length + 3) / 4 then 32768
    else P + 1 + (message.length + 3) / 4

/-- The item `c` stands in the buffer at the position `P`: a short event as its word, a
long event as the header word followed by its bytes in one piece. -/
def Stored (b : Mem) (P : Nat) (c : MidiCall) : Prop :=
  match c with
  | MidiCall.short w => rd32 b (4 * (P % 32768)) = w ∧ w < 2 ^ 24
  | MidiCall.long message =>
    rd32 b (4 * (P % 32768)) = 0xff000000 + message.length ∧ message.length < 65536 ∧
      bytes_at b (4 * ((P + 1) % 32768)) message.length = message

/-- The items `cs` stand in the buffer one after the other from the position `P` up to
the position `W`. -/
def Chain (b : Mem) : Nat → List MidiCall → Nat → Prop
  | P, [], W => P = W
  | P, c :: cs, W => Stored b P c ∧ next_pos P c ≤ W ∧ Chain b (next_pos P c) cs W

/-- The byte offset `x` may belong to an item that stands between the read position
`r` and the write position `W`. -/
def Occ (r W x : Nat) : Prop :=
  (4 * r ≤ x ∧ (x < 4 * W ∨ 32768 ≤ W)) ∨ x + 131072 < 4 * W

/-- The byte offset `x` belongs to one of the ring words of the positions `A .. B - 1`. -/
def Reg (A B x : Nat) : Prop :=
  (4 * A ≤ x ∧ x < 4 * B ∧ x < 131072) ∨ (4 * A ≤ x + 131072 ∧ x + 131072 < 4 * B)

/-- The state of the ring when the reader stands at the index `r`, the writer at the
position `W`, and the items `cs` have been written and not yet read. -/
def RingInv (r W : Nat) (s : EventRing) (cs : List MidiCall) : Prop :=
  s.event_read_index = r ∧ r < 32768 ∧ r ≤ W ∧ W ≤ r + 32767 ∧
    s.event_write_index = W % 32768 ∧ Chain s.event_buffer r cs W

/-- The write position after a call of a writer that is not rejected. -/
def pos_after (W : Nat) (e : MidiWrite) : Nat :=
  match e with
  | MidiWrite.short events => W + events.length
  | MidiWrite.long event => next_pos W (MidiCall.long event)

/-! ## Byte streams -/

/-- The bytes `bs` stand in memory from address `p` on. -/
def holdsBytes (m : Mem) (p : Nat) : List Nat → Prop
  | [] => True
  | b :: bs => rd8 m p = b ∧ holdsBytes m (p + 1) bs

/-- The ULEB128 encoding of `v` in at most `n + 1` bytes: seven bits per byte,
low bits first, bit 7 set on every byte but the last. -/
def ulebBytes : Nat → Nat → List Nat
  | 0, v => [v % 128]
  | n + 1, v => if v < 128 then [v] else (v % 128 + 128) :: ulebBytes n (v / 128)

/-- The ULEB128 encoding of a value below `2 ^ 64` (at most ten bytes). -/
def uleb128 (v : Nat) : List Nat := ulebBytes 9 v

/-- The value carried by `Outcome.done`. -/
def Outcome.val {α : Type} : Outcome α → Option α
  | Outcome.done a => some a
  | _ => none

/-- Every name of the table is a C string literal: it holds no NUL. -/
def tableWF (tbl : SymbolTable) : Prop := ∀ e ∈ tbl, nulFree e.1

/-- The C string at `p` is the name of no entry of the table. -/
def notInTable (tbl : SymbolTable) (m : Mem) (p : Nat) : Prop := ∀ e ∈ tbl, ¬ isCString m p e.1

/-- In the ELF call with dynamic entries `dyn` on memory `m`, the relocation loop
over table `indrel` (`0` is `DT_RELA`, `1` is `DT_JMPREL`) arrives at the entry
at `section_offset` with memory `mcur`. -/
def ElfReaches (v : Variant) (tbl : SymbolTable) (fuel library : Nat) (dyn : Nat → Nat) (m : Mem)
    (indrel section_offset : Nat) (mcur : Mem) : Prop :=
  dyn DT_RELSZ = 0 ∧ elf_reladdr dyn indrel ≠ 0 ∧ dyn DT_RELAENT ≠ 0 ∧
  section_offset < elf_relsize dyn indrel ∧
  ∃ (mstart : Mem) (n : Nat), n < fuel ∧
    ((indrel = 0 ∧ mstart = m) ∨
      (indrel = 1 ∧ elf_reloc_pass v tbl fuel library dyn 0 m = Outcome.done mstart)) ∧
    reach (elf_reloc_body v tbl library dyn (elf_relsize dyn indrel) (elf_reladdr dyn indrel)) n
      (0, mstart) = some (section_offset, mcur)

/-- The address of the `Elf64_Rela` at `section_offset` of table `indrel`. -/
def elf_relocation (library : Nat) (dyn : Nat → Nat) (indrel section_offset : Nat) : Nat :=
  padd (padd library (elf_reladdr dyn indrel)) section_offset

/-- In the PE call on memory `m`, the relocation loops arrive at position `pc`
with memory `mcur`. -/
def PeRelocReaches (fuel library : Nat) (m : Mem) (pc : PeRelocPc) (mcur : Mem) : Prop :=
  AddressOfEntryPoint m library = 0 ∧
  ∃ n : Nat, n < fuel ∧
    reach (pe_reloc_body library (pe_base_addr m library)) n (PeRelocPc.block 0, m) = some (pc, mcur)

/-- In the PE call on memory `m`, the import loops are entered (both directory
sizes are non-zero after relocation) and arrive at position `pc` with memory
`mcur`. -/
def PeImportReaches (tbl : SymbolTable) (fuel library : Nat) (m : Mem) (pc : PeImportPc)
    (mcur : Mem) : Prop :=
  AddressOfEntryPoint m library = 0 ∧
  ∃ (m1 : Mem) (n : Nat), n < fuel ∧
    iter (pe_reloc_body library (pe_base_addr m library)) fuel (PeRelocPc.block 0, m) =
      Outcome.done m1 ∧
    dirSize m1 library IMAGE_DIRECTORY_ENTRY_IMPORT ≠ 0 ∧
    dirSize m1 library IMAGE_DIRECTORY_ENTRY_IAT ≠ 0 ∧
    reach (pe_import_body tbl (pe_base_addr m library)) n
      (PeImportPc.desc (padd (pe_base_addr m library) (dirVA m1 library IMAGE_DIRECTORY_ENTRY_IMPORT)),
        m1) = some (pc, mcur)

/-- In the Mach-O call on memory `m` with `dyld_info_cmd`, the rebase interpreter
is run and arrives at the head of its loop in state `s`. -/
def MachoRebaseReaches (ub : Nat → Nat → Nat) (fuel library dyld_info_cmd : Nat) (m : Mem)
    (s : RebaseState) : Prop :=
  rd32 m (dyld_info_cmd + 12) ≠ 0 ∧
  get_file_address m library (rd32 m (dyld_info_cmd + 8)) ≠ 0 ∧
  ∃ n : Nat, n < fuel ∧
    reach (rebase_body ub fuel library) n (rebase_init m library (rd32 m (dyld_info_cmd + 8))) = some s

/-- In the Mach-O call on memory `m` with `dyld_info_cmd`, the bind interpreter is
run on the bind stream (`lazy = false`) or on the lazy-bind stream
(`lazy = true`) and arrives at the head of its loop in state `s`. -/
def MachoBindReaches (ub : Nat → Nat → Nat) (tbl : SymbolTable) (fuel library dyld_info_cmd : Nat)
    (m : Mem) (lazy : Bool) (s : BindState) : Prop :=
  ∃ (m1 m2 : Mem) (n : Nat), n < fuel ∧
    macho_rebase_phase ub fuel library dyld_info_cmd m = Outcome.done m1 ∧
    ((lazy = false ∧ m2 = m1) ∨
      (lazy = true ∧ macho_bind_phase ub tbl fuel library dyld_info_cmd false m1 = Outcome.done m2)) ∧
    rd32 m2 (bind_fields dyld_info_cmd lazy + 4) ≠ 0 ∧
    get_file_address m2 library (rd32 m2 (bind_fields dyld_info_cmd lazy)) ≠ 0 ∧
    reach (bind_body ub tbl fuel library
        (bind_end_of m2 library (rd32 m2 (bind_fields dyld_info_cmd lazy))
          (rd32 m2 (bind_fields dyld_info_cmd lazy + 4)))) n
      (bind_init m2 library (rd32 m2 (bind_fields dyld_info_cmd lazy))) = some s

/-- The opcode at the head of state `s` of the bind interpreter starts with a
call of `bind_address` at `s.address` with the locals of `s`: one of the three
single-bind opcodes, or the counted opcode with operands that decode and a
count that is not zero. -/
def bindsNow (ub : Nat → Nat → Nat) (fuel : Nat) (s : BindState) : Prop :=
  opcodeOf (rd8 s.mem s.bind) = BIND_OPCODE_DO_BIND ∨
  opcodeOf (rd8 s.mem s.bind) = BIND_OPCODE_DO_BIND_ADD_ADDR_ULEB ∨
  opcodeOf (rd8 s.mem s.bind) = BIND_OPCODE_DO_BIND_ADD_ADDR_IMM_SCALED ∨
  (opcodeOf (rd8 s.mem s.bind) = BIND_OPCODE_DO_BIND_ULEB_TIMES_SKIPPING_ULEB ∧
    ∃ times b skip b', read_uleb128 ub fuel s.mem (s.bind + 1) = some (times, b) ∧
      read_uleb128 ub fuel s.mem b = some (skip, b') ∧ times ≠ 0)

/-- The opcode at the head of state `s` of the rebase interpreter starts with a
call of `rebase_address` at `s.address` with type `s.type`. -/
def rebasesNow (ub : Nat → Nat → Nat) (fuel : Nat) (s : RebaseState) : Prop :=
  (opcodeOf (rd8 s.mem s.rebase) = REBASE_OPCODE_DO_REBASE_IMM_TIMES ∧ immOf (rd8 s.mem s.rebase) ≠ 0) ∨
  (opcodeOf (rd8 s.mem s.rebase) = REBASE_OPCODE_DO_REBASE_ULEB_TIMES ∧
    ∃ times b, read_uleb128 ub fuel s.mem (s.rebase + 1) = some (times, b) ∧ times ≠ 0) ∨
  opcodeOf (rd8 s.mem s.rebase) = REBASE_OPCODE_DO_REBASE_ADD_ADDR_ULEB ∨
  (opcodeOf (rd8 s.mem s.rebase) = REBASE_OPCODE_DO_REBASE_ULEB_TIMES_SKIPPING_ULEB ∧
    ∃ times b skip b', read_uleb128 ub fuel s.mem (s.rebase + 1) = some (times, b) ∧
      read_uleb128 ub fuel s.mem b = some (skip, b') ∧ times ≠ 0)

/-! ## A small ELF image, used to exercise the model -/

/-- A run of equally wide little-endian values in memory: `vals`, each `width`
bytes wide, from address `start` on. -/
structure Seg where
  start : Nat
  width : Nat
  vals : List Nat

/-- The byte of the run `s` at address `x`, when `x` lies inside the run. -/
def segByte (s : Seg) (x : Nat) : Option Nat :=
  if s.start ≤ x ∧ x < s.start + s.width * s.vals.length then
    some (s.vals.getD ((x - s.start) / s.width) 0 / 256 ^ ((x - s.start) % s.width) % 256)
  else none

/-- The memory that holds the given runs (the first run that covers an address
decides) and zero everywhere else. -/
def memOfSegs : List Seg → Mem
  | [], _ => 0
  | s :: ss, x =>
    match segByte s x with
    | some b => b
    | none => memOfSegs ss x

/-- The host table of the example: the one name `foo`, at address `0x7000`. -/
def demoTable : SymbolTable := [([102, 111, 111], 0x7000)]

/-- The array `dynamic_entries` of the example image. -/
def demoDyn (t : Nat) : Nat :=
  if t = DT_STRTAB then 0x200
  else if t = DT_SYMTAB then 0x100
  else if t = DT_SYMENT then 24
  else if t = DT_RELA then 0x300
  else if t = DT_RELASZ then 96
  else if t = DT_RELAENT then 24
  else 0

/-- An x86-64 shared object mapped at `0x10000`.  Its one program header (at
`+0x40`) is the `PT_DYNAMIC` segment at `+0x600`, which gives the string table
(`+0x200`), the symbol table (`+0x100`, 24 bytes per entry) and the `DT_RELA`
table (`+0x300`, `relasz` bytes, 24 per entry) whose words are `rela`.  The
symbol table holds the null symbol, the undefined symbol `foo`, a symbol
defined at `+0x500`, an undefined symbol without a name and the undefined
symbol `nope`. -/
def elfImage (relasz : Nat) (rela : List Nat) : Mem :=
  memOfSegs
    [{ start := 0x10000 + 16, width := 2, vals := [ET_DYN, EM_X86_64] },
     { start := 0x10000 + 32, width := 8, vals := [0x40] },
     { start := 0x10000 + 54, width := 2, vals := [56, 1] },
     { start := 0x10040, width := 8, vals := [PT_DYNAMIC, 0x600, 0x600, 0x600, 112, 112, 8] },
     { start := 0x10118, width := 8, vals := [1, 0, 0] },
     { start := 0x10130, width := 8, vals := [0x0001000000000005, 0x500, 0] },
     { start := 0x10160, width := 8, vals := [6, 0, 0] },
     { start := 0x10200, width := 1, vals := [0, 102, 111, 111, 0, 0, 110, 111, 112, 101, 0] },
     { start := 0x10300, width := 8, vals := rela },
     { start := 0x10600, width := 8,
       vals := [DT_STRTAB, 0x200, DT_SYMTAB, 0x100, DT_SYMENT, 24, DT_RELA, 0x300,
                DT_RELASZ, relasz, DT_RELAENT, 24, 0, 0] }]

/-- The example image with six relocation entries: a RELATIVE entry with addend
`0x1234`, jump slots for symbols 1 to 4, and an entry of type
`R_AARCH64_RELATIVE`. -/
def demoElf : Mem :=
  elfImage 144
    [0x400, 8, 0x1234,
     0x408, 0x100000007, 0x99,
     0x410, 0x200000007, 0x77,
     0x418, 0x300000007, 0,
     0x420, 0x400000007, 0,
     0x428, 1027, 0x10]

/-! ## A small PE image and a small Mach-O image -/

/-- A PE image whose headers are at `0x20000` and whose `DataDirectory[15]`
holds `0`, so that `base_addr` is `0x20000` too.  It has one writable data
section at RVA `0x1000`, preferred base `0x180000000`, an import directory at
`0x1100` (one descriptor: DLL name `dll` at `0x1170`, lookup table `lookups` at
`0x1128`, address table at `0x1180`, `ForwarderChain = forwarder`), an import
address table directory of size `iatSize`, and one relocation block at `0x1200`
for page `0x1000` with the two entries `reloc0` and `reloc1`.  The names at
`0x1152` and `0x1162` are `foo` and `nope`; the words at `0x1300` and `0x1310`
are the fields the relocation block points at. -/
def peImage (entry iatSize forwarder : Nat) (dll lookups : List Nat) (reloc0 reloc1 : Nat) : Mem :=
  memOfSegs
    [{ start := 0x20000 + 6, width := 2, vals := [1] },
     { start := 0x20000 + 20, width := 2, vals := [240] },
     { start := 0x20000 + 40, width := 4, vals := [entry] },
     { start := 0x20000 + 48, width := 8, vals := [0x180000000] },
     { start := 0x20000 + 144, width := 4, vals := [0x1100, 40] },
     { start := 0x20000 + 176, width := 4, vals := [0x1200, 12] },
     { start := 0x20000 + 232, width := 4, vals := [0x1180, iatSize] },
     { start := 0x20000 + 264 + 8, width := 4, vals := [0x1000, 0x1000] },
     { start := 0x20000 + 264 + 36, width := 4, vals := [0xC0000040] },
     { start := 0x21100, width := 4, vals := [0x1128, 0, forwarder, 0x1170, 0x1180] },
     { start := 0x21128, width := 8, vals := lookups },
     { start := 0x21152, width := 1, vals := [102, 111, 111, 0] },
     { start := 0x21162, width := 1, vals := [110, 111, 112, 101, 0] },
     { start := 0x21170, width := 1, vals := dll },
     { start := 0x21200, width := 4, vals := [0x1000, 12] },
     { start := 0x21208, width := 2, vals := [reloc0, reloc1] },
     { start := 0x21300, width := 8, vals := [0x180001234] },
     { start := 0x21310, width := 4, vals := [0x80001238] }]

/-- A Mach-O bundle mapped at `0x30000` with six load commands: the segments
`__TEXT` (at `0`), `__DATA` (at `0x1000`, with one `S_MOD_INIT_FUNC_POINTERS`
section of one entry at `0x1800`) and `__LINKEDIT` (at `0x2000`), then
`LC_DYLD_INFO_ONLY`, `LC_SYMTAB` and `LC_DYSYMTAB`.  The rebase stream `rebase`
is at `0x2000`, the bind stream `bind` at `0x2100`, there is no lazy-bind
stream.  The words at `0x1000`, `0x1008` and `0x1010` hold `0x111`, `0x222` and
`0x333`, the constructor entry holds `0x500`. -/
def machoImage (rebase bind : List Nat) : Mem :=
  memOfSegs
    [{ start := 0x30000 + 4, width := 4, vals := [CPU_TYPE_X86_64] },
     { start := 0x30000 + 16, width := 4, vals := [6] },
     { start := 0x30020, width := 4, vals := [LC_SEGMENT_64, 72] },
     { start := 0x30020 + 24, width := 8, vals := [0, 0x1000, 0, 0x1000] },
     { start := 0x30068, width := 4, vals := [LC_SEGMENT_64, 152] },
     { start := 0x30068 + 24, width := 8, vals := [0x1000, 0x1000, 0x1000, 0x1000] },
     { start := 0x30068 + 64, width := 4, vals := [1] },
     { start := 0x30068 + 72 + 32, width := 8, vals := [0x1800, 8] },
     { start := 0x30068 + 72 + 64, width := 4, vals := [S_MOD_INIT_FUNC_POINTERS] },
     { start := 0x30100, width := 4, vals := [LC_SEGMENT_64, 72] },
     { start := 0x30100 + 24, width := 8, vals := [0x2000, 0x1000, 0x2000, 0x1000] },
     { start := 0x30148, width := 4,
       vals := [LC_DYLD_INFO_ONLY, 48, 0x2000, rebase.length, 0x2100, bind.length] },
     { start := 0x30178, width := 4, vals := [LC_SYMTAB, 24] },
     { start := 0x30190, width := 4, vals := [LC_DYSYMTAB, 80] },
     { start := 0x31000, width := 8, vals := [0x111, 0x222, 0x333] },
     { start := 0x31800, width := 8, vals := [0x500] },
     { start := 0x32000, width := 1, vals := rebase },
     { start := 0x32100, width := 1, vals := bind }]

/-! ## States of a concrete run

The functions below compute, for a concrete image, the values that the
predicates of the previous section speak about. -/

/-- The array `dynamic_entries` that the ELF call reads from `m`. -/
def elfDynOf (fuel library : Nat) (m : Mem) : Nat → Nat :=
  (elf_read_dynamic fuel library m).val.getD (fun _ => 0)

/-- The state of the relocation loop over `DT_RELA` at the start of trip `n`. -/
def elfStateAt (v : Variant) (tbl : SymbolTable) (fuel library : Nat) (m : Mem) (n : Nat) :
    Nat × Mem :=
  (reach (elf_reloc_body v tbl library (elfDynOf fuel library m)
    (elf_relsize (elfDynOf fuel library m) 0) (elf_reladdr (elfDynOf fuel library m) 0)) n
    (0, m)).getD (0, m)

/-- The state of the PE relocation loops after `n` steps. -/
def peRelocAt (library : Nat) (m : Mem) (n : Nat) : PeRelocPc × Mem :=
  (reach (pe_reloc_body library (pe_base_addr m library)) n (PeRelocPc.block 0, m)).getD
    (PeRelocPc.block 0, m)

/-- The memory of the PE call after its relocation loops. -/
def peRelocated (fuel library : Nat) (m : Mem) : Mem :=
  (iter (pe_reloc_body library (pe_base_addr m library)) fuel (PeRelocPc.block 0, m)).val.getD m

/-- The state of the PE import loops after `n` steps. -/
def peImportAt (tbl : SymbolTable) (fuel library : Nat) (m : Mem) (n : Nat) : PeImportPc × Mem :=
  (reach (pe_import_body tbl (pe_base_addr m library)) n
    (PeImportPc.desc (padd (pe_base_addr m library)
      (dirVA (peRelocated fuel library m) library IMAGE_DIRECTORY_ENTRY_IMPORT)),
      peRelocated fuel library m)).getD (PeImportPc.desc 0, m)

/-- The load commands that the Mach-O call finds in `m`. -/
def machoCmdsOf (m : Mem) (library : Nat) : MachoCmds :=
  (macho_find_commands m (rd32 m (library + 16)) (library + 32)
    { dyld_info_cmd := 0, symtab_cmd := 0, dsymtab_cmd := 0 }).getD
    { dyld_info_cmd := 0, symtab_cmd := 0, dsymtab_cmd := 0 }

/-- The state of the rebase interpreter of the Mach-O call at the start of trip `n`. -/
def machoRebaseAt (ub : Nat → Nat → Nat) (fuel library : Nat) (m : Mem) (n : Nat) : RebaseState :=
  (reach (rebase_body ub fuel library) n
    (rebase_init m library (rd32 m ((machoCmdsOf m library).dyld_info_cmd + 8)))).getD
    (rebase_init m library 0)

/-- The memory of the Mach-O call after its rebase statement. -/
def machoRebased (ub : Nat → Nat → Nat) (fuel library : Nat) (m : Mem) : Mem :=
  (macho_rebase_phase ub fuel library (machoCmdsOf m library).dyld_info_cmd m).val.getD m

/-- The state of the bind interpreter (bind stream) of the Mach-O call at the
start of trip `n`. -/
def machoBindAt (ub : Nat → Nat → Nat) (tbl : SymbolTable) (fuel library : Nat) (m : Mem)
    (n : Nat) : BindState :=
  (reach (bind_body ub tbl fuel library
      (bind_end_of (machoRebased ub fuel library m) library
        (rd32 (machoRebased ub fuel library m)
          (bind_fields (machoCmdsOf m library).dyld_info_cmd false))
        (rd32 (machoRebased ub fuel library m)
          (bind_fields (machoCmdsOf m library).dyld_info_cmd false + 4)))) n
    (bind_init (machoRebased ub fuel library m) library
      (rd32 (machoRebased ub fuel library m)
        (bind_fields (machoCmdsOf m library).dyld_info_cmd false)))).getD
    (bind_init m library 0)

/-- The PE example with a well-formed import directory: imports `foo`, then `nope`. -/
def demoPe : Mem := peImage 0 16 0 [] [0x1150, 0x1160, 0] 0xA300 0x3310

/-- The Mach-O example whose bind stream binds `_nope` at `__DATA + 0x10`:
flat lookup, symbol `_nope`, segment 1 offset `0x10`, `DO_BIND`, `DONE`. -/
def demoMachoNope : Mem :=
  machoImage [] [0x3E, 0x40, 95, 110, 111, 112, 101, 0, 0x71, 0x10, 0x90, 0x00]

/-- The PE example with a relocation block whose first entry has type
`IMAGE_REL_BASED_HIGH` (1), which the loader does not support, and whose second
entry has type `IMAGE_REL_BASED_ABSOLUTE`. -/
def demoPeHigh : Mem := peImage 0 16 0 [] [0x1150, 0] 0x1300 0x0000

/-- The Mach-O example whose bind stream binds `_foo` at `__DATA + 0x10` with
addend 5: flat lookup, symbol `_foo`, addend 5, segment 1 offset `0x10`,
`DO_BIND`, then symbol `dyld_stub_binder`, `DO_BIND`, `DONE`. -/
def demoMachoFoo : Mem :=
  machoImage []
    [0x3E, 0x40, 95, 102, 111, 111, 0, 0x60, 0x05, 0x71, 0x10, 0x90,
     0x40, 100, 121, 108, 100, 95, 115, 116, 117, 98, 95, 98, 105, 110, 100, 101, 114, 0,
     0x90, 0x00]

/-- The Mach-O example whose bind stream executes a bind with no symbol name
set: flat lookup, segment 1 offset `0x10`, `DO_BIND`, `DONE`. -/
def demoMachoNoSym : Mem := machoImage [] [0x3E, 0x71, 0x10, 0x90, 0x00]

/-- An x86-64 image whose only relocation entry has type `R_AARCH64_RELATIVE`
(1027), offset `0x428` and addend `0x10`. -/
def demoElfForeign : Mem := elfImage 24 [0x428, 1027, 0x10]

/-- The PE example with a non-zero `AddressOfEntryPoint`. -/
def demoPeEntry : Mem := peImage 5 16 0 [] [0x1150, 0] 0xA300 0x3310

/-- The PE example whose import descriptor has `ForwarderChain = 7`. -/
def demoPeForwarder : Mem := peImage 0 16 7 [] [0x1150, 0] 0xA300 0x3310

/-- The PE example whose import descriptor names the DLL `k`. -/
def demoPeDll : Mem := peImage 0 16 0 [107, 0] [0x1150, 0] 0xA300 0x3310

/-- The PE example whose first lookup entry imports by ordinal (bit 63 set). -/
def demoPeOrdinal : Mem := peImage 0 16 0 [] [0x8000000000000001, 0] 0xA300 0x3310

/-- The PE example with `ForwarderChain = 7` and an import-address-table
directory of size `0`. -/
def demoPeSkipped : Mem := peImage 0 0 7 [] [0x1150, 0] 0xA300 0x3310

/-- The Mach-O example whose rebase stream sets rebase type 2 and then rebases
one word of `__DATA`. -/
def demoMachoRebaseType : Mem := machoImage [0x12, 0x21, 0x08, 0x51, 0x00] []

/-- The Mach-O example whose bind stream binds `_foo` with dylib ordinal 1
instead of the flat-lookup ordinal. -/
def demoMachoOrdinal : Mem :=
  machoImage [] [0x11, 0x40, 95, 102, 111, 111, 0, 0x71, 0x10, 0x90, 0x00]

/-- An ELF file of `0x1000` bytes mapped at `0x100000`: type `etype`, machine
`machine`, one `PT_LOAD` program header (at `+0x40`) for the whole file at
`p_vaddr = vaddr`, and two section headers (at `+0x200`): a symbol table at
`+0x300` (48 bytes, 24 per entry) and a string table at `+0x340` (16 bytes). -/
def elfFile (etype machine vaddr : Nat) : Mem :=
  memOfSegs
    [{ start := 0x100000, width := 1, vals := [0x7f, 69, 76, 70, 2, 1, 1] },
     { start := 0x100000 + 16, width := 2, vals := [etype, machine] },
     { start := 0x100000 + 32, width := 8, vals := [0x40, 0x200] },
     { start := 0x100000 + 54, width := 2, vals := [56, 1, 64, 2, 0] },
     { start := 0x100040, width := 8,
       vals := [0x500000001, 0, vaddr, vaddr, 0x1000, 0x1000, 0x1000] },
     { start := 0x100200, width := 8, vals := [0x200000000, 0, 0, 0x300, 48, 0, 8, 24] },
     { start := 0x100240, width := 8, vals := [0x300000000, 0, 0, 0x340, 16, 0, 1, 0] },
     { start := 0x100340, width := 1, vals := [0, 102, 111, 111, 0] }]

/-- An operating system with pages of 4096 bytes on which every request
succeeds; `map_memory_32bit` answers `0x500000`. -/
def demoOs : Os :=
  { sysconf_pagesize := 4096,
    mmap_noreplace := fun maddr _ => some maddr,
    map_memory_32bit := fun _ => 0x500000,
    mmap_fixed := fun _ _ => true,
    mprotect := fun _ _ => true }

/-- The operating system `demoOs`, except that the mapping of a segment at
`start` fails. -/
def demoOsNoSegment (start : Nat) : Os :=
  { sysconf_pagesize := 4096,
    mmap_noreplace := fun maddr _ => some maddr,
    map_memory_32bit := fun _ => 0x500000,
    mmap_fixed := fun a _ => a != start,
    mprotect := fun _ _ => true }

/-- An operating system whose listing shows one block in use,
`[0x200000, 0x300000)`, and whose `mmap` fails for `MAP_32BIT` (call 0) and
answers every later call with a mapping at `0x7f0000000000`. -/
def demoMapEnv : MapEnv :=
  { pagesize := 4096,
    listing := some [(0x200000, 0x300000)],
    mmap := fun k _ _ _ => if k = 0 then MAP_FAILED else 0x7f0000000000 }

/-- An operating system with the listing of `demoMapEnv` whose every `mmap`
answers with a mapping at `0x7f0000000000`. -/
def demoMapEnvHigh : MapEnv :=
  { pagesize := 4096,
    listing := some [(0x200000, 0x300000)],
    mmap := fun _ _ _ _ => 0x7f0000000000 }

/-- An operating system with the listing of `demoMapEnv` that maps where it is
asked to, except that the first request fails. -/
def demoMapEnvGood : MapEnv :=
  { pagesize := 4096,
    listing := some [(0x200000, 0x300000)],
    mmap := fun k addr _ _ => if k = 0 then MAP_FAILED else addr }

/-- An x86-64 shared object mapped at `0x10000` with one `PT_LOAD` header for
`[0, 0x1000)` and a `PT_DYNAMIC` header for the dynamic section at `+0x600`,
which gives the string table (`+0x200`, 9 bytes), the symbol table (`+0x100`,
24 bytes per entry), `DT_INIT = 0x500`, a `DT_INIT_ARRAY` of two entries at
`+0x700`, `DT_FINI = 0x520` and a `DT_FINI_ARRAY` of two entries at `+0x710`.
The symbol table holds the null symbol, a local symbol `foo` at `+0x510`, a
global symbol `foo` at `+0x530`, an undefined global symbol `bar`, and then an
entry whose `st_name` lies outside the string table. -/
def elfLifeImage : Mem :=
  memOfSegs
    [{ start := 0x10000 + 16, width := 2, vals := [ET_DYN, EM_X86_64] },
     { start := 0x10000 + 32, width := 8, vals := [0x40] },
     { start := 0x10000 + 54, width := 2, vals := [56, 2] },
     { start := 0x10040, width := 8, vals := [0x500000000 + PT_LOAD, 0, 0, 0, 0x1000, 0x1000, 0x1000] },
     { start := 0x10078, width := 8,
       vals := [0x600000000 + PT_DYNAMIC, 0x600, 0x600, 0x600, 176, 176, 8] },
     { start := 0x10118, width := 8, vals := [0x0001000200000001, 0x510, 0] },
     { start := 0x10130, width := 8, vals := [0x0001001200000001, 0x530, 0] },
     { start := 0x10148, width := 8, vals := [0x0000001000000005, 0, 0] },
     { start := 0x10160, width := 8, vals := [0xffffffff, 0, 0] },
     { start := 0x10200, width := 1, vals := [0, 102, 111, 111, 0, 98, 97, 114, 0] },
     { start := 0x10600, width := 8,
       vals := [DT_STRTAB, 0x200, DT_SYMTAB, 0x100, DT_STRSZ, 9, DT_SYMENT, 24,
                DT_INIT, 0x500, DT_INIT_ARRAY, 0x700, DT_INIT_ARRAYSZ, 16,
                DT_FINI, 0x520, DT_FINI_ARRAY, 0x710, DT_FINI_ARRAYSZ, 16, 0, 0] },
     { start := 0x10700, width := 8, vals := [0x10540, 0x10550, 0x10560, 0x10570] }]

/-- The variables `fini`, `fini_array` and `fini_arraysz` of
`unload_library_32bit`, as values on their tags, behind the block headed
`read dynamic entries`. -/
def elfFiniOf (fuel library : Nat) (m : Mem) : Nat → Nat :=
  (if e_type m library = ET_DYN then
      elf_read_tags [DT_FINI, DT_FINI_ARRAY, DT_FINI_ARRAYSZ] fuel library m
    else Outcome.done (fun _ => 0)).val.getD (fun _ => 0)

/-- What `unload_library_32bit` leaves of the image `elfLifeImage`. -/
def demoLifeUnloaded : World :=
  (unload_library_32bit_elf demoOs (fun _ m => m) 100 0x10000 elfLifeImage).getD
    { mem := elfLifeImage, trace := [] }

/-- Example build: `INDIRECT_64BIT`, every allocation answered with the block at
`0x20000000`, `REG2PTR` the identity, every library loaded at `0x10000` and every name
found at `0x10800`. -/
def demoBuild : Build :=
  { indirect64 := true
    alloc := fun _ => 0x20000000
    reg2ptr := fun r => r
    dwRenderedSamplesPerCall_asm := 0x10800
    load_library_32bit := fun _ _ => 0x10000
    find_symbol_32bit := fun library _ => library + 0x800 }

/-- Example thread: a library is loaded at `0x10000`, the thread has no context yet. -/
def demoHost (κ : Type) (c : κ) : Host κ :=
  { thread_ctx := 0
    ctx_at := fun _ => c
    mem := fun _ => 0
    library := 0x10000
    allocated := []
    interrupt_flag := 0
    invoked := []
    resolved := fun _ => 0x10800
    loader := [] }

/-- Example context: every member zero. -/
def demoCpu : Cpu :=
  { stack_bottom := 0, stack_top := 0, st_top := 0, st_sw_cond := 0, st_cw := 0,
    eax := 0, ecx := 0, edx := 0, esp := 0, eflags := 0 }

/-- Example image for `functions-llasm.c`: every function leaves `ecx + edx` in
`eax`. -/
def demoImageAsm : ImageAsm :=
  fun _ _ c m => ({ c with eax := (c.ecx + c.edx) % 2 ^ 32 }, m)

/-- Example image for `functions-x64.c`: every function returns `0`. -/
def demoImageX64 : ImageX64 :=
  fun _ _ _ st m => (0, st, m)

/-- The example thread after a first call of `x86_initialize_cpu`. -/
def demoHostReady : Host Cpu :=
  ((x86_initialize_cpu demoBuild (demoHost Cpu demoCpu)).toOption.getD
    (0, demoHost Cpu demoCpu)).2

/-- The example thread after a first call of `x86_initialize_stack`. -/
def demoHostReadyX64 : Host Stack :=
  ((x86_initialize_stack demoBuild (demoHost Stack ⟨0, 0, 0⟩)).toOption.getD
    (0, demoHost Stack ⟨0, 0, 0⟩)).2


/-- Example build in which the image lacks the name `c_RenderSamples_asm`. -/
def demoBuildMissing : Build :=
  { demoBuild with
    find_symbol_32bit := fun library sym =>
      if sym = FacadeSymbol.fn ImageFn.RenderSamples then 0 else library + 0x800 }

/-- Example thread on which no library is loaded and no pointer is resolved. -/
def demoHostUnloaded (κ : Type) (c : κ) : Host κ :=
  { demoHost κ c with library := 0, resolved := fun _ => 0 }

/-- Example image whose `c_MidiMessageShort_asm` copies `ecx` into `eax`; the other
functions do nothing. -/
def demoImageStub : ImageAsm :=
  fun fn _ c m => if fn = ImageFn.MidiMessageShort then ({ c with eax := c.ecx }, m) else (c, m)

/-- The Mach-O example whose bind stream binds twice: flat lookup, symbol `_foo`,
segment 1 offset `0x10`, `DO_BIND_ADD_ADDR_IMM_SCALED` with immediate 0, addend 5,
`DO_BIND`, `DONE`. -/
def demoMachoScaled : Mem :=
  machoImage []
    [0x3E, 0x40, 95, 102, 111, 111, 0, 0x71, 0x10, 0xB0, 0x60, 0x05, 0x90, 0x00]

/-- The Mach-O example with a negative addend: flat lookup, symbol `_foo`,
`SET_ADDEND_SLEB` with the operand `0x7f` (the signed LEB128 encoding of `-1`),
segment 1 offset `0x10`, `DO_BIND`, `DONE`. -/
def demoMachoAddend : Mem :=
  machoImage [] [0x3E, 0x40, 95, 102, 111, 111, 0, 0x60, 0x7f, 0x71, 0x10, 0x90, 0x00]

/-- An x86-64 shared object mapped at `0x10000` whose dynamic section has `DT_INIT`
(`+0x500`) and `DT_INIT_ARRAYSZ` (8) but no `DT_INIT_ARRAY`, and no relocations. -/
def demoElfInitOnly : Mem :=
  memOfSegs
    [{ start := 0x10000 + 16, width := 2, vals := [ET_DYN, EM_X86_64] },
     { start := 0x10000 + 32, width := 8, vals := [0x40] },
     { start := 0x10000 + 54, width := 2, vals := [56, 1] },
     { start := 0x10040, width := 8, vals := [PT_DYNAMIC, 0x600, 0x600, 0x600, 96, 96, 8] },
     { start := 0x10200, width := 1, vals := [0, 102, 111, 111, 0] },
     { start := 0x10600, width := 8,
       vals := [DT_STRTAB, 0x200, DT_SYMTAB, 0x100, DT_SYMENT, 24, DT_INIT, 0x500,
                DT_INIT_ARRAYSZ, 8, 0, 0] }]

/-- A PE file mapped at `0x50000`: the NT headers at `+0x80`, two sections at the
virtual addresses `0x11000` (size `0x800`, `0x200` bytes of the file from `0x400`) and
`0x13000` (size `0x100`, all of it in the file from `0x600`), a relocation directory
of 12 bytes. -/
def demoPeFile : Mem :=
  memOfSegs
    [{ start := 0x50000, width := 2, vals := [IMAGE_DOS_SIGNATURE] },
     { start := 0x50000 + 60, width := 4, vals := [0x80] },
     { start := 0x50080, width := 4, vals := [IMAGE_NT_SIGNATURE] },
     { start := 0x50080 + 4, width := 2, vals := [IMAGE_FILE_MACHINE_AMD64, 2] },
     { start := 0x50080 + 20, width := 2, vals := [240, 0x2022, IMAGE_NT_OPTIONAL_HDR64_MAGIC] },
     { start := 0x50080 + 48, width := 8, vals := [0x180000000] },
     { start := 0x50080 + 92, width := 2, vals := [IMAGE_SUBSYSTEM_WINDOWS_CUI] },
     { start := 0x50080 + 132, width := 4, vals := [16] },
     { start := 0x50080 + 136 + 40, width := 4, vals := [0x13000, 12] },
     { start := 0x50188 + 8, width := 4, vals := [0x800, 0x11000, 0x200, 0x400] },
     { start := 0x501b0 + 8, width := 4, vals := [0x100, 0x13000, 0x100, 0x600] },
     { start := 0x50400, width := 1, vals := [0xC3, 0x90] },
     { start := 0x50600, width := 4, vals := [0x1000, 12, 0] }]

/-- Example Windows: 64 KiB allocation granularity, 4 KiB pages; address space is
handed out at `0x400000`, every commit succeeds at the address asked for and shows
zeroes. -/
def demoWin : Win :=
  { dwAllocationGranularity := 0x10000
    dwPageSize := 0x1000
    reserve_address_space := fun maddr _ => maddr
    map_memory_32bit := fun _ _ => 0x400000
    VirtualAlloc := fun _ addr _ => addr
    commit := fun addr size m => mmap_anon m addr size }

/-- An empty ring whose reader and writer stand at the index 32765, three words before
the end of the ring. -/
def demoRing : EventRing :=
  { event_buffer := fun _ => 0, event_read_index := 32765, event_write_index := 32765,
    midi_event_written := 0 }

/-- Four calls of the writers: a note-on; a system-exclusive message of six bytes, whose
header goes to the index 32766 and whose bytes run on into the extra area; a message of
65536 bytes, which is rejected; and two more short events, which go to the indices 0
and 1. -/
def demoWrites : List MidiWrite :=
  [MidiWrite.short [0x7f3c90], MidiWrite.long [0xf0, 0x41, 0x10, 0x42, 0x12, 0xf7],
    MidiWrite.long (List.replicate 65536 0), MidiWrite.short [0x3c80, 0x7f3e90]]

/-- The image `elfLifeImage` with `DT_INIT_ARRAYSZ = 12` instead of 16: the array at
`+0x700` ends in the middle of its second entry. -/
def demoElfInitOdd : Mem :=
  memOfSegs
    [{ start := 0x10000 + 16, width := 2, vals := [ET_DYN, EM_X86_64] },
     { start := 0x10000 + 32, width := 8, vals := [0x40] },
     { start := 0x10000 + 54, width := 2, vals := [56, 2] },
     { start := 0x10040, width := 8,
       vals := [0x500000000 + PT_LOAD, 0, 0, 0, 0x1000, 0x1000, 0x1000] },
     { start := 0x10078, width := 8,
       vals := [0x600000000 + PT_DYNAMIC, 0x600, 0x600, 0x600, 176, 176, 8] },
     { start := 0x10118, width := 8, vals := [0x0001000200000001, 0x510, 0] },
     { start := 0x10130, width := 8, vals := [0x0001001200000001, 0x530, 0] },
     { start := 0x10148, width := 8, vals := [0x0000001000000005, 0, 0] },
     { start := 0x10160, width := 8, vals := [0xffffffff, 0, 0] },
     { start := 0x10200, width := 1, vals := [0, 102, 111, 111, 0, 98, 97, 114, 0] },
     { start := 0x10600, width := 8,
       vals := [DT_STRTAB, 0x200, DT_SYMTAB, 0x100, DT_STRSZ, 9, DT_SYMENT, 24,
                DT_INIT, 0x500, DT_INIT_ARRAY, 0x700, DT_INIT_ARRAYSZ, 12,
                DT_FINI, 0x520, DT_FINI_ARRAY, 0x710, DT_FINI_ARRAYSZ, 16, 0, 0] },
     { start := 0x10700, width := 8, vals := [0x10540, 0x10550, 0x10560, 0x10570] }]

end WebSynth

/-! # Properties -/

namespace WebSynth

theorem wr8_same (m : Mem) (a v : Nat) : wr8 m a v a = v % 256 := by
  simp [wr8]

theorem wr8_other (m : Mem) (a v x : Nat) (h : x ≠ a) : wr8 m a v x = m x := by
  simp [wr8, h]

theorem wr32_outside (m : Mem) (a v x : Nat) (h : x < a ∨ a + 4 ≤ x) :
    wr32 m a v x = m x := by
  unfold wr32 wr16 wr8
  have h0 : x ≠ a := by omega
  have h1 : x ≠ a + 1 := by omega
  have h2 : x ≠ a + 2 := by omega
  have h3 : x ≠ a + 2 + 1 := by omega
  simp [h0, h1, h2, h3]

theorem wr64_outside (m : Mem) (a v x : Nat) (h : x < a ∨ a + 8 ≤ x) :
    wr64 m a v x = m x := by
  unfold wr64
  rw [wr32_outside _ _ _ _ (by omega), wr32_outside _ _ _ _ (by omega)]

theorem wr32_inside (m : Mem) (a v : Nat) :
    wr32 m a v a = v % 256 ∧ wr32 m a v (a + 1) = v / 256 % 256 ∧
    wr32 m a v (a + 2) = v / 65536 % 256 ∧ wr32 m a v (a + 2 + 1) = v / 65536 / 256 % 256 := by
  unfold wr32 wr16 wr8
  have e1 : a ≠ a + 1 := by omega
  have e2 : a ≠ a + 2 := by omega
  have e3 : a ≠ a + 2 + 1 := by omega
  have e4 : a + 1 ≠ a + 2 := by omega
  have e5 : a + 1 ≠ a + 2 + 1 := by omega
  have e6 : a + 2 ≠ a + 2 + 1 := by omega
  simp [e1, e2, e3, e4, e5, e6]

theorem rd32_wr32 (m : Mem) (a v : Nat) : rd32 (wr32 m a v) a = v % 2 ^ 32 := by
  obtain ⟨h0, h1, h2, h3⟩ := wr32_inside m a v
  unfold rd32 rd16 rd8
  rw [h0, h1, h2, h3]
  omega

theorem rd64_wr64 (m : Mem) (a v : Nat) : rd64 (wr64 m a v) a = v % 2 ^ 64 := by
  unfold rd64 wr64
  rw [show a + 4 = a + 4 from rfl, rd32_wr32]
  have h : rd32 (wr32 (wr32 m a v) (a + 4) (v / 4294967296)) a = rd32 (wr32 m a v) a := by
    unfold rd32 rd16 rd8
    rw [wr32_outside _ _ _ a (by omega), wr32_outside _ _ _ (a + 1) (by omega),
      wr32_outside _ _ _ (a + 2) (by omega), wr32_outside _ _ _ (a + 2 + 1) (by omega)]
  rw [h, rd32_wr32]
  omega

/-! ## Loops -/

theorem iter_reach {σ α : Type} (body : σ → Ctl σ α) (n : Nat) :
    ∀ (s0 s : σ) (fuel : Nat), reach body n s0 = some s →
      iter body (n + fuel) s0 = iter body fuel s := by
  induction n with
  | zero =>
    intro s0 s fuel h
    simp [reach] at h
    simp [h]
  | succ k ih =>
    intro s0 s fuel h
    have e : k + 1 + fuel = (k + fuel) + 1 := by omega
    rw [e]
    simp only [reach] at h
    simp only [iter]
    cases hb : body s0 with
    | next s' =>
      rw [hb] at h
      exact ih s' s fuel h
    | stop a => rw [hb] at h; cases h
    | abort a => rw [hb] at h; cases h
    | hang => rw [hb] at h; cases h

theorem iter_abort_of_reach {σ α : Type} (body : σ → Ctl σ α) (n : Nat) (s0 s : σ) (a : α)
    (fuel : Nat) (h : reach body n s0 = some s) (hb : body s = Ctl.abort a) (hf : n < fuel) :
    iter body fuel s0 = Outcome.fail a := by
  obtain ⟨k, rfl⟩ : ∃ k, fuel = n + (k + 1) := ⟨fuel - n - 1, by omega⟩
  rw [iter_reach body n s0 s (k + 1) h]
  simp [iter, hb]

theorem iter_stop_of_reach {σ α : Type} (body : σ → Ctl σ α) (n : Nat) (s0 s : σ) (a : α)
    (fuel : Nat) (h : reach body n s0 = some s) (hb : body s = Ctl.stop a) (hf : n < fuel) :
    iter body fuel s0 = Outcome.done a := by
  obtain ⟨k, rfl⟩ : ∃ k, fuel = n + (k + 1) := ⟨fuel - n - 1, by omega⟩
  rw [iter_reach body n s0 s (k + 1) h]
  simp [iter, hb]

/-! ## Strings and the symbol table -/

theorem isCString_nil (m : Mem) (p : Nat) : isCString m p [] ↔ rd8 m p = 0 := by
  simp [isCString]

theorem isCString_cons (m : Mem) (p c : Nat) (cs : List Nat) :
    isCString m p (c :: cs) ↔ rd8 m p = c ∧ isCString m (p + 1) cs := by
  unfold isCString
  constructor
  · rintro ⟨h1, h2⟩
    refine ⟨?_, ?_, ?_⟩
    · have := h1 0 (by simp)
      simpa using this
    · intro i hi
      have := h1 (i + 1) (by simpa using hi)
      have e : p + 1 + i = p + (i + 1) := by omega
      rw [e, this]
      simp
    · have e : p + 1 + cs.length = p + (c :: cs).length := by simp; omega
      rw [e]; exact h2
  · rintro ⟨h0, h1, h2⟩
    refine ⟨?_, ?_⟩
    · intro i hi
      cases i with
      | zero => simpa using h0
      | succ j =>
        have := h1 j (by simpa using hi)
        have e : p + (j + 1) = p + 1 + j := by omega
        rw [e, this]
        simp
    · have e : p + (c :: cs).length = p + 1 + cs.length := by simp; omega
      rw [e]; exact h2

theorem strEq_iff (m : Mem) : ∀ (name : List Nat) (p : Nat), nulFree name →
    (strEq m p name = true ↔ isCString m p name) := by
  intro name
  induction name with
  | nil =>
    intro p _
    rw [isCString_nil]
    simp [strEq]
  | cons c cs ih =>
    intro p hn
    have hc : c ≠ 0 := hn c (by simp)
    have hcs : nulFree cs := fun d hd => hn d (by simp [hd])
    rw [isCString_cons, ← ih (p + 1) hcs]
    simp [strEq, hc]

theorem symbol_lookup_first (m : Mem) (p : Nat) (name : List Nat) (value : Nat) (post : SymbolTable) :
    ∀ pre : SymbolTable, (∀ e ∈ pre, strEq m p e.1 = false) → strEq m p name = true →
      symbol_lookup (pre ++ (name, value) :: post) m p = value := by
  intro pre
  induction pre with
  | nil =>
    intro _ h
    simp [symbol_lookup, h]
  | cons e es ih =>
    intro hpre h
    obtain ⟨n, v⟩ := e
    have h1 : strEq m p n = false := hpre (n, v) (by simp)
    have h2 : ∀ e ∈ es, strEq m p e.1 = false := fun e he => hpre e (by simp [he])
    simp [symbol_lookup, h1, ih h2 h]

theorem symbol_lookup_none (m : Mem) (p : Nat) :
    ∀ tbl : SymbolTable, (∀ e ∈ tbl, strEq m p e.1 = false) → symbol_lookup tbl m p = 0 := by
  intro tbl
  induction tbl with
  | nil => intro _; simp [symbol_lookup]
  | cons e es ih =>
    intro h
    obtain ⟨n, v⟩ := e
    have h1 : strEq m p n = false := h (n, v) (by simp)
    have h2 : ∀ e ∈ es, strEq m p e.1 = false := fun e he => h e (by simp [he])
    simp [symbol_lookup, h1, ih h2]

/-! ## ELF relocation -/

theorem padd_lt (a b : Nat) : padd a b < 2 ^ 64 := by
  unfold padd
  exact Nat.mod_lt _ (by norm_num)

/-- **C2** (ELF, `R_*_JUMP_SLOT`).  At every state of the relocation loop, for a
jump-slot entry `relocation` of the image's machine that refers to the dynamic
symbol `symbol` (the image has `DT_SYMTAB` and `DT_SYMENT`): when
`st_shndx != 0` the word at `library + r_offset` becomes
`(library + st_value) mod 2^64`; when `st_shndx == 0`, `st_name != 0`, the image
has `DT_STRTAB` and the name of the symbol is the name of a table entry, the
word becomes the (non-null) address of the first entry with that name.  The
loop goes on in both cases, and `r_addend` does not occur in either result. -/
theorem C2_elf_jump_slot (tbl : SymbolTable) (library : Nat) (dyn : Nat → Nat)
    (relsize reladdr section_offset : Nat) (m : Mem) (relocation symbol : Nat)
    (hrelocation : relocation = padd (padd library reladdr) section_offset)
    (hsymbol : symbol = elf_symbol library dyn (r_info m relocation))
    (hin : section_offset < relsize)
    (hjs : isJumpSlot Variant.indirect (e_machine m library) (relType (r_info m relocation)) = true)
    (hsymtab : dyn DT_SYMTAB ≠ 0) (hsyment : dyn DT_SYMENT ≠ 0) :
    (st_shndx m symbol ≠ 0 →
      ∃ m' : Mem,
        elf_reloc_body Variant.indirect tbl library dyn relsize reladdr (section_offset, m) =
          Ctl.next (padd section_offset (dyn DT_RELAENT), m') ∧
        rd64 m' (padd library (r_offset m relocation)) = (library + st_value m symbol) % 2 ^ 64) ∧
    (st_shndx m symbol = 0 → st_name m symbol ≠ 0 → dyn DT_STRTAB ≠ 0 →
      ∀ (pre post : SymbolTable) (name : List Nat) (value : Nat),
        tbl = pre ++ (name, value) :: post →
        (∀ e ∈ pre, nulFree e.1 ∧ ¬ isCString m (elf_symbname library dyn m symbol) e.1) →
        nulFree name → isCString m (elf_symbname library dyn m symbol) name → value ≠ 0 →
        ∃ m' : Mem,
          elf_reloc_body Variant.indirect tbl library dyn relsize reladdr (section_offset, m) =
            Ctl.next (padd section_offset (dyn DT_RELAENT), m') ∧
          rd64 m' (padd library (r_offset m relocation)) = value % 2 ^ 64) := by
  subst hrelocation
  subst hsymbol
  constructor
  · intro hsh
    refine ⟨wr64 m (padd library (r_offset m (padd (padd library reladdr) section_offset)))
      (padd library (st_value m (elf_symbol library dyn
        (r_info m (padd (padd library reladdr) section_offset))))), ?_, ?_⟩
    · simp [elf_reloc_body, hin, elf_apply_rela, hjs, hsymtab, hsyment, hsh]
    · rw [rd64_wr64]
      unfold padd
      simp
  · intro hsh hname hstr pre post name value htbl hpre hnf hcs hval
    have hlook : symbol_lookup tbl m (elf_symbname library dyn m (elf_symbol library dyn
        (r_info m (padd (padd library reladdr) section_offset)))) = value := by
      rw [htbl]
      apply symbol_lookup_first
      · intro e he
        have := hpre e he
        have h2 := (strEq_iff m e.1 _ this.1).not.mpr this.2
        simpa using h2
      · exact (strEq_iff m name _ hnf).mpr hcs
    refine ⟨wr64 m (padd library (r_offset m (padd (padd library reladdr) section_offset))) value,
      ?_, ?_⟩
    · simp [elf_reloc_body, hin, elf_apply_rela, hjs, hsymtab, hsyment, hsh, hname, hstr, hlook, hval]
    · rw [rd64_wr64]

theorem nulFree_foo : nulFree [102, 111, 111] := by
  unfold nulFree
  decide

/-- Witness of `C2_elf_jump_slot`: entry 2 of the example image refers to the
symbol defined at `+0x500`, entry 1 to the undefined symbol `foo`. -/
theorem C2_elf_jump_slot_witness :
    (∃ m' : Mem,
      elf_reloc_body Variant.indirect demoTable 0x10000 demoDyn 96 0x300 (48, demoElf) =
        Ctl.next (padd 48 (demoDyn DT_RELAENT), m') ∧
      rd64 m' (padd 0x10000 (r_offset demoElf 0x10330)) =
        (0x10000 + st_value demoElf 0x10130) % 2 ^ 64) ∧
    (∃ m' : Mem,
      elf_reloc_body Variant.indirect demoTable 0x10000 demoDyn 96 0x300 (24, demoElf) =
        Ctl.next (padd 24 (demoDyn DT_RELAENT), m') ∧
      rd64 m' (padd 0x10000 (r_offset demoElf 0x10318)) = 0x7000 % 2 ^ 64) :=
  ⟨(C2_elf_jump_slot demoTable 0x10000 demoDyn 96 0x300 48 demoElf 0x10330 0x10130
      (by decide) (by decide!) (by decide) (by decide!) (by decide) (by decide)).1 (by decide!),
   (C2_elf_jump_slot demoTable 0x10000 demoDyn 96 0x300 24 demoElf 0x10318 0x10118
      (by decide) (by decide!) (by decide) (by decide!) (by decide) (by decide)).2
      (by decide!) (by decide!) (by decide) [] [] [102, 111, 111] 0x7000 rfl
      (by simp) nulFree_foo ((strEq_iff demoElf _ _ nulFree_foo).mp (by decide!)) (by decide)⟩

/-! ## ELF: failure of the relocation loop is failure of the load -/

theorem symbol_lookup_notInTable (tbl : SymbolTable) (m : Mem) (p : Nat) (hwf : tableWF tbl)
    (h : notInTable tbl m p) : symbol_lookup tbl m p = 0 := by
  apply symbol_lookup_none
  intro e he
  have h2 := (strEq_iff m e.1 p (hwf e he)).not.mpr (h e he)
  simpa using h2

theorem callsOf_append (a b : List Event) : callsOf (a ++ b) = callsOf a ++ callsOf b := by
  induction a with
  | nil => simp [callsOf]
  | cons e es ih => cases e <;> simp [callsOf, ih]

theorem elf_relocate_fail_of_reaches (v : Variant) (tbl : SymbolTable) (fuel library : Nat)
    (dyn : Nat → Nat) (m : Mem) (indrel off : Nat) (mcur a : Mem)
    (hr : ElfReaches v tbl fuel library dyn m indrel off mcur)
    (hb : elf_reloc_body v tbl library dyn (elf_relsize dyn indrel) (elf_reladdr dyn indrel)
      (off, mcur) = Ctl.abort a) :
    elf_relocate v tbl fuel library dyn m = Outcome.fail a := by
  obtain ⟨hrelsz, haddr, hent, hlt, mstart, n, hn, hstart, hreach⟩ := hr
  have hsz : elf_relsize dyn indrel ≠ 0 := by omega
  have hit := iter_abort_of_reach _ n (0, mstart) (off, mcur) a fuel hreach hb hn
  have hpass : elf_reloc_pass v tbl fuel library dyn indrel mstart = Outcome.fail a := by
    simp [elf_reloc_pass, hsz, haddr, hent, hit]
  rcases hstart with ⟨h0, hm⟩ | ⟨h1, hp0⟩
  · subst h0; subst hm
    simp [elf_relocate, hrelsz, hpass]
  · subst h1
    simp [elf_relocate, hrelsz, hp0, hpass]

theorem elf_link_of_relocate_fail (v : Variant) (tbl : SymbolTable) (exec : Nat → Mem → Mem)
    (fuel library libsize : Nat) (dyn : Nat → Nat) (m a : Mem)
    (h : elf_relocate v tbl fuel library dyn m = Outcome.fail a) :
    elf_link v tbl exec fuel library libsize dyn m =
      some (elf_error1 library libsize { mem := a, trace := [] }) := by
  simp [elf_link, h]

theorem elf_load_null_of_relocate_fail (v : Variant) (tbl : SymbolTable) (exec : Nat → Mem → Mem)
    (fuel library libsize : Nat) (dyn : Nat → Nat) (m a : Mem)
    (hdyn : elf_read_dynamic fuel library m = Outcome.done dyn)
    (h : elf_relocate v tbl fuel library dyn m = Outcome.fail a) :
    ∃ r : Loaded, load_library_32bit_elf v tbl exec fuel library libsize m = some r ∧
      r.ret = 0 ∧ callsOf r.trace = [] := by
  unfold load_library_32bit_elf
  by_cases hm : supportedMachine v (e_machine m library) = true
  · simp only [hm, if_true, hdyn]
    rw [elf_link_of_relocate_fail _ _ _ _ _ _ _ _ _ h]
    exact ⟨_, rfl, rfl, by simp [elf_error1, callsOf]⟩
  · simp only [hm]
    exact ⟨_, rfl, rfl, by simp [elf_error1, callsOf]⟩

theorem elf_body_abort_missing (v : Variant) (tbl : SymbolTable) (library : Nat) (dyn : Nat → Nat)
    (relsize reladdr off : Nat) (m : Mem) (hin : off < relsize)
    (hjs : isJumpSlot v (e_machine m library)
      (relType (r_info m (padd (padd library reladdr) off))) = true)
    (hsh : st_shndx m (elf_symbol library dyn (r_info m (padd (padd library reladdr) off))) = 0)
    (hname : st_name m (elf_symbol library dyn (r_info m (padd (padd library reladdr) off))) ≠ 0)
    (hwf : tableWF tbl)
    (hmiss : notInTable tbl m (elf_symbname library dyn m
      (elf_symbol library dyn (r_info m (padd (padd library reladdr) off))))) :
    elf_reloc_body v tbl library dyn relsize reladdr (off, m) = Ctl.abort m := by
  have hl := symbol_lookup_notInTable tbl m _ hwf hmiss
  simp only [elf_reloc_body, hin, if_true, elf_apply_rela, hjs, hsh, hname, hl]
  by_cases h1 : dyn DT_SYMTAB = 0 ∨ dyn DT_SYMENT = 0
  · simp [h1]
  · by_cases h2 : dyn DT_STRTAB = 0 <;> simp [h1, h2, hname]

theorem elf_body_abort_unsupported (v : Variant) (tbl : SymbolTable) (library : Nat)
    (dyn : Nat → Nat) (relsize reladdr off : Nat) (m : Mem) (hin : off < relsize)
    (hjs : isJumpSlot v (e_machine m library)
      (relType (r_info m (padd (padd library reladdr) off))) = false)
    (hrel : isRelative v (e_machine m library)
      (relType (r_info m (padd (padd library reladdr) off))) = false) :
    elf_reloc_body v tbl library dyn relsize reladdr (off, m) = Ctl.abort m := by
  simp [elf_reloc_body, hin, elf_apply_rela, hjs, hrel]

/-! ## PE and Mach-O: failure of a loop is failure of the load -/

theorem pe_load_null_of_reloc_abort (tbl : SymbolTable) (protectOk : Nat → Bool)
    (fuel library : Nat) (m : Mem) (pc : PeRelocPc) (mcur a : Mem)
    (hr : PeRelocReaches fuel library m pc mcur)
    (hb : pe_reloc_body library (pe_base_addr m library) (pc, mcur) = Ctl.abort a) :
    ∃ r : Loaded, load_library_32bit_pe tbl protectOk fuel library m = some r ∧
      r.ret = 0 ∧ callsOf r.trace = [] := by
  obtain ⟨he, n, hn, hreach⟩ := hr
  have hit := iter_abort_of_reach _ n _ _ a fuel hreach hb hn
  refine ⟨pe_error1 library a, ?_, rfl, by simp [pe_error1, callsOf]⟩
  simp [load_library_32bit_pe, he, hit]

theorem pe_load_null_of_import_abort (tbl : SymbolTable) (protectOk : Nat → Bool)
    (fuel library : Nat) (m : Mem) (pc : PeImportPc) (mcur a : Mem)
    (hr : PeImportReaches tbl fuel library m pc mcur)
    (hb : pe_import_body tbl (pe_base_addr m library) (pc, mcur) = Ctl.abort a) :
    ∃ r : Loaded, load_library_32bit_pe tbl protectOk fuel library m = some r ∧
      r.ret = 0 ∧ callsOf r.trace = [] := by
  obtain ⟨he, m1, n, hn, hrel, hs1, hs2, hreach⟩ := hr
  have hit := iter_abort_of_reach _ n _ _ a fuel hreach hb hn
  refine ⟨pe_error1 library a, ?_, rfl, by simp [pe_error1, callsOf]⟩
  simp [load_library_32bit_pe, he, hrel, pe_imports, hs1, hs2, hit]

theorem macho_load_null_of_relocate_fail (ub : Nat → Nat → Nat) (tbl : SymbolTable)
    (exec : Nat → Mem → Mem) (mprotectOk : Nat → Bool) (fuel library libsize : Nat) (m a : Mem)
    (c : MachoCmds)
    (hc : macho_find_commands m (rd32 m (library + 16)) (library + 32)
      { dyld_info_cmd := 0, symtab_cmd := 0, dsymtab_cmd := 0 } = some c)
    (h : macho_relocate ub tbl fuel library c.dyld_info_cmd m = Outcome.fail a) :
    ∃ r : Loaded, load_library_32bit_macho ub tbl exec mprotectOk fuel library libsize m = some r ∧
      r.ret = 0 ∧ callsOf r.trace = [] := by
  unfold load_library_32bit_macho
  by_cases h1 : rd32 m (library + 4) ≠ CPU_TYPE_X86_64
  · rw [if_pos h1]
    exact ⟨_, rfl, rfl, by simp [elf_error1, callsOf]⟩
  · rw [if_neg h1, hc]
    by_cases h2 : c.dyld_info_cmd = 0 ∨ c.symtab_cmd = 0 ∨ c.dsymtab_cmd = 0
    · simp only [h2, if_true]
      exact ⟨_, rfl, rfl, by simp [elf_error1, callsOf]⟩
    · simp only [h2, if_false, h]
      exact ⟨_, rfl, rfl, by simp [elf_error1, callsOf]⟩

theorem macho_relocate_fail_of_rebase (ub : Nat → Nat → Nat) (tbl : SymbolTable)
    (fuel library dyld : Nat) (m a : Mem) (s : RebaseState)
    (hr : MachoRebaseReaches ub fuel library dyld m s)
    (hb : rebase_body ub fuel library s = Ctl.abort a) :
    macho_relocate ub tbl fuel library dyld m = Outcome.fail a := by
  obtain ⟨hsz, hfa, n, hn, hreach⟩ := hr
  have hit := iter_abort_of_reach _ n _ _ a fuel hreach hb hn
  simp [macho_relocate, macho_rebase_phase, hsz, rebase_library, hfa, hit]

theorem macho_relocate_fail_of_bind (ub : Nat → Nat → Nat) (tbl : SymbolTable)
    (fuel library dyld : Nat) (m a : Mem) (lazy : Bool) (s : BindState)
    (hr : MachoBindReaches ub tbl fuel library dyld m lazy s)
    (hb : ∀ bind_end, bind_body ub tbl fuel library bind_end s = Ctl.abort a) :
    macho_relocate ub tbl fuel library dyld m = Outcome.fail a := by
  obtain ⟨m1, m2, n, hn, hreb, hcase, hsz, hfa, hreach⟩ := hr
  have hit := iter_abort_of_reach _ n _ _ a fuel hreach (hb _) hn
  have hphase : macho_bind_phase ub tbl fuel library dyld lazy m2 = Outcome.fail a := by
    simp [macho_bind_phase, hsz, bind_library_symbols, hfa, hit]
  rcases hcase with ⟨hl, hm⟩ | ⟨hl, hp⟩
  · subst hl; subst hm
    simp [macho_relocate, hreb, hphase]
  · subst hl
    simp [macho_relocate, hreb, hp, hphase]

theorem bind_body_abort_of_bind_fail (ub : Nat → Nat → Nat) (tbl : SymbolTable)
    (fuel library bind_end : Nat) (s : BindState) (hnow : bindsNow ub fuel s)
    (hfail : bind_here tbl s s.address s.mem = none) :
    bind_body ub tbl fuel library bind_end s = Ctl.abort s.mem := by
  rcases hnow with h | h | h | ⟨h, times, b, skip, b', h1, h2, ht⟩
  · simp [bind_body, h, hfail, BIND_OPCODE_DO_BIND, BIND_OPCODE_DONE,
      BIND_OPCODE_SET_DYLIB_ORDINAL_IMM, BIND_OPCODE_SET_DYLIB_ORDINAL_ULEB,
      BIND_OPCODE_SET_DYLIB_SPECIAL_IMM, BIND_OPCODE_SET_SYMBOL_TRAILING_FLAGS_IMM,
      BIND_OPCODE_SET_TYPE_IMM, BIND_OPCODE_SET_ADDEND_SLEB,
      BIND_OPCODE_SET_SEGMENT_AND_OFFSET_ULEB, BIND_OPCODE_ADD_ADDR_ULEB]
  · simp [bind_body, h, hfail, BIND_OPCODE_DO_BIND, BIND_OPCODE_DONE,
      BIND_OPCODE_SET_DYLIB_ORDINAL_IMM, BIND_OPCODE_SET_DYLIB_ORDINAL_ULEB,
      BIND_OPCODE_SET_DYLIB_SPECIAL_IMM, BIND_OPCODE_SET_SYMBOL_TRAILING_FLAGS_IMM,
      BIND_OPCODE_SET_TYPE_IMM, BIND_OPCODE_SET_ADDEND_SLEB,
      BIND_OPCODE_SET_SEGMENT_AND_OFFSET_ULEB, BIND_OPCODE_ADD_ADDR_ULEB,
      BIND_OPCODE_DO_BIND_ADD_ADDR_ULEB]
  · simp [bind_body, h, hfail, BIND_OPCODE_DO_BIND, BIND_OPCODE_DONE,
      BIND_OPCODE_SET_DYLIB_ORDINAL_IMM, BIND_OPCODE_SET_DYLIB_ORDINAL_ULEB,
      BIND_OPCODE_SET_DYLIB_SPECIAL_IMM, BIND_OPCODE_SET_SYMBOL_TRAILING_FLAGS_IMM,
      BIND_OPCODE_SET_TYPE_IMM, BIND_OPCODE_SET_ADDEND_SLEB,
      BIND_OPCODE_SET_SEGMENT_AND_OFFSET_ULEB, BIND_OPCODE_ADD_ADDR_ULEB,
      BIND_OPCODE_DO_BIND_ADD_ADDR_ULEB, BIND_OPCODE_DO_BIND_ADD_ADDR_IMM_SCALED]
  · obtain ⟨t, rfl⟩ : ∃ t, times = t + 1 := ⟨times - 1, by omega⟩
    simp [bind_body, h, h1, h2, bind_times, hfail, BIND_OPCODE_DO_BIND, BIND_OPCODE_DONE,
      BIND_OPCODE_SET_DYLIB_ORDINAL_IMM, BIND_OPCODE_SET_DYLIB_ORDINAL_ULEB,
      BIND_OPCODE_SET_DYLIB_SPECIAL_IMM, BIND_OPCODE_SET_SYMBOL_TRAILING_FLAGS_IMM,
      BIND_OPCODE_SET_TYPE_IMM, BIND_OPCODE_SET_ADDEND_SLEB,
      BIND_OPCODE_SET_SEGMENT_AND_OFFSET_ULEB, BIND_OPCODE_ADD_ADDR_ULEB,
      BIND_OPCODE_DO_BIND_ADD_ADDR_ULEB, BIND_OPCODE_DO_BIND_ADD_ADDR_IMM_SCALED,
      BIND_OPCODE_DO_BIND_ULEB_TIMES_SKIPPING_ULEB]

theorem bind_address_none_of_missing (tbl : SymbolTable) (address type addend symbol flags : Nat)
    (ordinal : Int) (m : Mem) (hu : rd8 m symbol = 95) (hwf : tableWF tbl)
    (hmiss : notInTable tbl m (symbol + 1)) :
    bind_address tbl address type addend symbol flags ordinal m = none := by
  have hl := symbol_lookup_notInTable tbl m _ hwf hmiss
  unfold bind_address
  simp only [hl, hu]
  repeat' split
  all_goals first | rfl | simp_all

theorem pe_thunk_abort_missing (tbl : SymbolTable) (base_addr d lookup address : Nat) (m : Mem)
    (hne : rd64 m lookup ≠ 0) (hwf : tableWF tbl)
    (hmiss : notInTable tbl m (padd base_addr (rd64 m lookup % 2 ^ 31) + 2)) :
    pe_import_body tbl base_addr (PeImportPc.thunk d lookup address, m) = Ctl.abort m := by
  have hl := symbol_lookup_notInTable tbl m _ hwf hmiss
  simp only [Nat.reducePow] at hl
  simp [pe_import_body, hne, hl]

/-! ## Building the predicates on a concrete run -/

theorem Outcome.eq_done_getD {α : Type} (o : Outcome α) (d : α) (h : o.val.isSome = true) :
    o = Outcome.done (o.val.getD d) := by
  cases o <;> simp [Outcome.val] at h ⊢

theorem eq_some_getD {α : Type} (o : Option α) (d : α) (h : o.isSome = true) :
    o = some (o.getD d) := by
  cases o <;> simp at h ⊢

theorem ElfReaches_at (v : Variant) (tbl : SymbolTable) (fuel library : Nat) (m : Mem) (n : Nat)
    (h1 : elfDynOf fuel library m DT_RELSZ = 0)
    (h2 : elf_reladdr (elfDynOf fuel library m) 0 ≠ 0)
    (h3 : elfDynOf fuel library m DT_RELAENT ≠ 0) (hn : n < fuel)
    (h : (reach (elf_reloc_body v tbl library (elfDynOf fuel library m)
      (elf_relsize (elfDynOf fuel library m) 0) (elf_reladdr (elfDynOf fuel library m) 0)) n
      (0, m)).isSome = true)
    (hlt : (elfStateAt v tbl fuel library m n).1 < elf_relsize (elfDynOf fuel library m) 0) :
    ElfReaches v tbl fuel library (elfDynOf fuel library m) m 0
      (elfStateAt v tbl fuel library m n).1 (elfStateAt v tbl fuel library m n).2 :=
  ⟨h1, h2, h3, hlt, m, n, hn, Or.inl ⟨rfl, rfl⟩, eq_some_getD _ _ h⟩

theorem PeRelocReaches_at (fuel library : Nat) (m : Mem) (n : Nat)
    (he : AddressOfEntryPoint m library = 0) (hn : n < fuel)
    (h : (reach (pe_reloc_body library (pe_base_addr m library)) n
      (PeRelocPc.block 0, m)).isSome = true) :
    PeRelocReaches fuel library m (peRelocAt library m n).1 (peRelocAt library m n).2 :=
  ⟨he, n, hn, eq_some_getD _ _ h⟩

theorem PeImportReaches_at (tbl : SymbolTable) (fuel library : Nat) (m : Mem) (n : Nat)
    (he : AddressOfEntryPoint m library = 0) (hn : n < fuel)
    (h1 : (iter (pe_reloc_body library (pe_base_addr m library)) fuel
      (PeRelocPc.block 0, m)).val.isSome = true)
    (hs1 : dirSize (peRelocated fuel library m) library IMAGE_DIRECTORY_ENTRY_IMPORT ≠ 0)
    (hs2 : dirSize (peRelocated fuel library m) library IMAGE_DIRECTORY_ENTRY_IAT ≠ 0)
    (h : (reach (pe_import_body tbl (pe_base_addr m library)) n
      (PeImportPc.desc (padd (pe_base_addr m library)
        (dirVA (peRelocated fuel library m) library IMAGE_DIRECTORY_ENTRY_IMPORT)),
        peRelocated fuel library m)).isSome = true) :
    PeImportReaches tbl fuel library m (peImportAt tbl fuel library m n).1
      (peImportAt tbl fuel library m n).2 :=
  ⟨he, peRelocated fuel library m, n, hn, Outcome.eq_done_getD _ _ h1, hs1, hs2,
    eq_some_getD _ _ h⟩

theorem machoCmdsOf_eq (m : Mem) (library : Nat)
    (h : (macho_find_commands m (rd32 m (library + 16)) (library + 32)
      { dyld_info_cmd := 0, symtab_cmd := 0, dsymtab_cmd := 0 }).isSome = true) :
    macho_find_commands m (rd32 m (library + 16)) (library + 32)
      { dyld_info_cmd := 0, symtab_cmd := 0, dsymtab_cmd := 0 } = some (machoCmdsOf m library) :=
  eq_some_getD _ _ h

theorem MachoRebaseReaches_at (ub : Nat → Nat → Nat) (fuel library : Nat) (m : Mem) (n : Nat)
    (hn : n < fuel)
    (hsz : rd32 m ((machoCmdsOf m library).dyld_info_cmd + 12) ≠ 0)
    (hfa : get_file_address m library (rd32 m ((machoCmdsOf m library).dyld_info_cmd + 8)) ≠ 0)
    (h : (reach (rebase_body ub fuel library) n
      (rebase_init m library (rd32 m ((machoCmdsOf m library).dyld_info_cmd + 8)))).isSome = true) :
    MachoRebaseReaches ub fuel library (machoCmdsOf m library).dyld_info_cmd m
      (machoRebaseAt ub fuel library m n) :=
  ⟨hsz, hfa, n, hn, eq_some_getD _ _ h⟩

theorem MachoBindReaches_at (ub : Nat → Nat → Nat) (tbl : SymbolTable) (fuel library : Nat)
    (m : Mem) (n : Nat) (hn : n < fuel)
    (h1 : (macho_rebase_phase ub fuel library (machoCmdsOf m library).dyld_info_cmd m).val.isSome
      = true)
    (hsz : rd32 (machoRebased ub fuel library m)
      (bind_fields (machoCmdsOf m library).dyld_info_cmd false + 4) ≠ 0)
    (hfa : get_file_address (machoRebased ub fuel library m) library
      (rd32 (machoRebased ub fuel library m)
        (bind_fields (machoCmdsOf m library).dyld_info_cmd false)) ≠ 0)
    (h : (reach (bind_body ub tbl fuel library
        (bind_end_of (machoRebased ub fuel library m) library
          (rd32 (machoRebased ub fuel library m)
            (bind_fields (machoCmdsOf m library).dyld_info_cmd false))
          (rd32 (machoRebased ub fuel library m)
            (bind_fields (machoCmdsOf m library).dyld_info_cmd false + 4)))) n
      (bind_init (machoRebased ub fuel library m) library
        (rd32 (machoRebased ub fuel library m)
          (bind_fields (machoCmdsOf m library).dyld_info_cmd false)))).isSome = true) :
    MachoBindReaches ub tbl fuel library (machoCmdsOf m library).dyld_info_cmd m false
      (machoBindAt ub tbl fuel library m n) :=
  ⟨machoRebased ub fuel library m, machoRebased ub fuel library m, n, hn,
    Outcome.eq_done_getD _ _ h1, Or.inl ⟨rfl, rfl⟩, hsz, hfa, eq_some_getD _ _ h⟩

theorem notInTable_demo (m : Mem) (p : Nat) (h : strEq m p [102, 111, 111] = false) :
    notInTable demoTable m p := by
  intro e he
  simp only [demoTable, List.mem_singleton] at he
  subst he
  intro hc
  have := (strEq_iff m _ p nulFree_foo).mpr hc
  simp [h] at this

theorem tableWF_demo : tableWF demoTable := by
  intro e he
  simp only [demoTable, List.mem_singleton] at he
  subst he
  exact nulFree_foo

/-! ## C3: an import that the table does not hold -/

/-- Counterexample to C3 as stated: a PE image whose import directory is
present (`Size = 40`) and whose descriptor imports `foo` and `nope`, the second
of which the host table does not hold, but whose import-address-table
directory has `Size = 0`.  The guard of the import block skips the whole
directory and `load_library_32bit` returns the image, not null. -/
theorem C3_counterexample :
    dirSize (peImage 0 0 0 [] [0x1150, 0x1160, 0] 0xA300 0x3310) 0x20000
      IMAGE_DIRECTORY_ENTRY_IMPORT = 40 ∧
    rd32 (peImage 0 0 0 [] [0x1150, 0x1160, 0] 0xA300 0x3310) 0x21100 = 0x1128 ∧
    rd64 (peImage 0 0 0 [] [0x1150, 0x1160, 0] 0xA300 0x3310) 0x21130 = 0x1160 ∧
    notInTable demoTable (peImage 0 0 0 [] [0x1150, 0x1160, 0] 0xA300 0x3310) (0x21160 + 2) ∧
    (load_library_32bit_pe demoTable (fun _ => true) 100 0x20000
      (peImage 0 0 0 [] [0x1150, 0x1160, 0] 0xA300 0x3310)).map (fun r => r.ret) = some 0x20000 :=
  ⟨by decide!, by decide!, by decide!, notInTable_demo _ _ (by decide!), by decide!⟩

/-- **C3** (amended).  An import of a name that the host table does not hold
makes `load_library_32bit` return null with no constructor called, in each
format, whenever the loader gets to that import:
* ELF: the relocation loop arrives at a jump-slot entry against an undefined
  (`st_shndx == 0`) named (`st_name != 0`) symbol;
* PE: the loops over the import directory are entered, which needs non-zero
  sizes of both that directory and the import-address-table directory, and
  arrive at a non-zero lookup entry;
* Mach-O: the bind interpreter arrives at a binding opcode with a symbol whose
  first character is `_`.
The table is well formed (no NUL inside a name). -/
theorem C3_missing_import_fails :
    (∀ (v : Variant) (tbl : SymbolTable) (exec : Nat → Mem → Mem) (fuel library libsize : Nat)
        (dyn : Nat → Nat) (m : Mem) (indrel section_offset : Nat) (mcur : Mem),
        tableWF tbl →
        elf_read_dynamic fuel library m = Outcome.done dyn →
        ElfReaches v tbl fuel library dyn m indrel section_offset mcur →
        isJumpSlot v (e_machine mcur library)
          (relType (r_info mcur (elf_relocation library dyn indrel section_offset))) = true →
        st_shndx mcur (elf_symbol library dyn
          (r_info mcur (elf_relocation library dyn indrel section_offset))) = 0 →
        st_name mcur (elf_symbol library dyn
          (r_info mcur (elf_relocation library dyn indrel section_offset))) ≠ 0 →
        notInTable tbl mcur (elf_symbname library dyn mcur (elf_symbol library dyn
          (r_info mcur (elf_relocation library dyn indrel section_offset)))) →
        ∃ r : Loaded, load_library_32bit_elf v tbl exec fuel library libsize m = some r ∧
          r.ret = 0 ∧ callsOf r.trace = []) ∧
    (∀ (tbl : SymbolTable) (protectOk : Nat → Bool) (fuel library : Nat) (m : Mem)
        (import_desc import_lookup import_address : Nat) (mcur : Mem),
        tableWF tbl →
        PeImportReaches tbl fuel library m
          (PeImportPc.thunk import_desc import_lookup import_address) mcur →
        rd64 mcur import_lookup ≠ 0 →
        notInTable tbl mcur (padd (pe_base_addr m library) (rd64 mcur import_lookup % 2 ^ 31) + 2) →
        ∃ r : Loaded, load_library_32bit_pe tbl protectOk fuel library m = some r ∧
          r.ret = 0 ∧ callsOf r.trace = []) ∧
    (∀ (ub : Nat → Nat → Nat) (tbl : SymbolTable) (exec : Nat → Mem → Mem)
        (mprotectOk : Nat → Bool) (fuel library libsize : Nat) (m : Mem) (c : MachoCmds)
        (lazy : Bool) (s : BindState),
        tableWF tbl →
        macho_find_commands m (rd32 m (library + 16)) (library + 32)
          { dyld_info_cmd := 0, symtab_cmd := 0, dsymtab_cmd := 0 } = some c →
        MachoBindReaches ub tbl fuel library c.dyld_info_cmd m lazy s →
        bindsNow ub fuel s →
        rd8 s.mem s.symbol = 95 →
        notInTable tbl s.mem (s.symbol + 1) →
        ∃ r : Loaded,
          load_library_32bit_macho ub tbl exec mprotectOk fuel library libsize m = some r ∧
          r.ret = 0 ∧ callsOf r.trace = []) := by
  refine ⟨?_, ?_, ?_⟩
  · intro v tbl exec fuel library libsize dyn m indrel off mcur hwf hdyn hr hjs hsh hname hmiss
    have hb := elf_body_abort_missing v tbl library dyn (elf_relsize dyn indrel)
      (elf_reladdr dyn indrel) off mcur hr.2.2.2.1 hjs hsh hname hwf hmiss
    exact elf_load_null_of_relocate_fail v tbl exec fuel library libsize dyn m mcur hdyn
      (elf_relocate_fail_of_reaches v tbl fuel library dyn m indrel off mcur mcur hr hb)
  · intro tbl protectOk fuel library m d lookup address mcur hwf hr hne hmiss
    exact pe_load_null_of_import_abort tbl protectOk fuel library m _ mcur mcur hr
      (pe_thunk_abort_missing tbl _ d lookup address mcur hne hwf hmiss)
  · intro ub tbl exec mprotectOk fuel library libsize m c lazy s hwf hc hr hnow hu hmiss
    have hfail : bind_here tbl s s.address s.mem = none :=
      bind_address_none_of_missing tbl _ _ _ _ _ _ _ hu hwf hmiss
    exact macho_load_null_of_relocate_fail ub tbl exec mprotectOk fuel library libsize m s.mem c hc
      (macho_relocate_fail_of_bind ub tbl fuel library c.dyld_info_cmd m s.mem lazy s hr
        (fun be => bind_body_abort_of_bind_fail ub tbl fuel library be s hnow hfail))

theorem demoElf_reaches :
    ElfReaches Variant.indirect demoTable 100 0x10000 (elfDynOf 100 0x10000 demoElf) demoElf 0
      (elfStateAt Variant.indirect demoTable 100 0x10000 demoElf 4).1
      (elfStateAt Variant.indirect demoTable 100 0x10000 demoElf 4).2 :=
  ElfReaches_at Variant.indirect demoTable 100 0x10000 demoElf 4 (by decide!) (by decide!)
    (by decide!) (by decide) (by decide!) (by decide!)

theorem demoPe_reaches :
    PeImportReaches demoTable 100 0x20000 demoPe (PeImportPc.thunk 0x21100 0x21130 0x21188)
      (peImportAt demoTable 100 0x20000 demoPe 2).2 :=
  (by decide! : (peImportAt demoTable 100 0x20000 demoPe 2).1 =
      PeImportPc.thunk 0x21100 0x21130 0x21188) ▸
    PeImportReaches_at demoTable 100 0x20000 demoPe 2 (by decide!) (by decide) (by decide!)
      (by decide!) (by decide!) (by decide!)

theorem demoMachoNope_reaches :
    MachoBindReaches (fun _ _ => 0) demoTable 100 0x30000
      (machoCmdsOf demoMachoNope 0x30000).dyld_info_cmd demoMachoNope false
      (machoBindAt (fun _ _ => 0) demoTable 100 0x30000 demoMachoNope 3) :=
  MachoBindReaches_at (fun _ _ => 0) demoTable 100 0x30000 demoMachoNope 3 (by decide)
    (by decide!) (by decide!) (by decide!) (by decide!)

theorem demoMachoNope_binds :
    bindsNow (fun _ _ => 0) 100 (machoBindAt (fun _ _ => 0) demoTable 100 0x30000 demoMachoNope 3) :=
  Or.inl (by decide!)

theorem demoMachoNope_underscore :
    rd8 (machoBindAt (fun _ _ => 0) demoTable 100 0x30000 demoMachoNope 3).mem
      (machoBindAt (fun _ _ => 0) demoTable 100 0x30000 demoMachoNope 3).symbol = 95 := by
  decide!

theorem demoMachoNope_missing :
    notInTable demoTable (machoBindAt (fun _ _ => 0) demoTable 100 0x30000 demoMachoNope 3).mem
      ((machoBindAt (fun _ _ => 0) demoTable 100 0x30000 demoMachoNope 3).symbol + 1) :=
  notInTable_demo _ _ (by decide!)

/-- Witness of `C3_missing_import_fails`: the ELF example fails at its fifth
relocation entry (symbol `nope`), the PE example at its second lookup entry
(`nope`), the Mach-O example at its `DO_BIND` of `_nope`. -/
theorem C3_missing_import_fails_witness :
    (∃ r : Loaded, load_library_32bit_elf Variant.indirect demoTable (fun _ m => m) 100 0x10000
        0x1000 demoElf = some r ∧ r.ret = 0 ∧ callsOf r.trace = []) ∧
    (∃ r : Loaded, load_library_32bit_pe demoTable (fun _ => true) 100 0x20000 demoPe = some r ∧
        r.ret = 0 ∧ callsOf r.trace = []) ∧
    (∃ r : Loaded, load_library_32bit_macho (fun _ _ => 0) demoTable (fun _ m => m)
        (fun _ => true) 100 0x30000 0x3000 demoMachoNope = some r ∧
        r.ret = 0 ∧ callsOf r.trace = []) :=
  ⟨C3_missing_import_fails.1 Variant.indirect demoTable (fun _ m => m) 100 0x10000 0x1000
      (elfDynOf 100 0x10000 demoElf) demoElf 0
      (elfStateAt Variant.indirect demoTable 100 0x10000 demoElf 4).1
      (elfStateAt Variant.indirect demoTable 100 0x10000 demoElf 4).2
      tableWF_demo (Outcome.eq_done_getD _ _ (by decide!)) demoElf_reaches
      (by decide!) (by decide!) (by decide!) (notInTable_demo _ _ (by decide!)),
   C3_missing_import_fails.2.1 demoTable (fun _ => true) 100 0x20000 demoPe
      0x21100 0x21130 0x21188 (peImportAt demoTable 100 0x20000 demoPe 2).2 tableWF_demo
      demoPe_reaches (by decide!) (notInTable_demo _ _ (by decide!)),
   C3_missing_import_fails.2.2 (fun _ _ => 0) demoTable (fun _ m => m) (fun _ => true) 100
      0x30000 0x3000 demoMachoNope (machoCmdsOf demoMachoNope 0x30000) false
      (machoBindAt (fun _ _ => 0) demoTable 100 0x30000 demoMachoNope 3) tableWF_demo
      (machoCmdsOf_eq _ _ (by decide!)) demoMachoNope_reaches demoMachoNope_binds
      demoMachoNope_underscore demoMachoNope_missing⟩

/-! ## C4: PE base relocations -/

theorem psub_int (a b : Nat) (hb : b < 2 ^ 64) :
    ((psub a b : Nat) : Int) = ((a : Int) - (b : Int)) % 2 ^ 64 := by
  unfold psub
  have h1 : b % 2 ^ 64 = b := Nat.mod_eq_of_lt hb
  rw [h1]
  norm_num at hb ⊢
  omega

theorem rd32_lt (m : Mem) (a : Nat) : rd32 m a < 2 ^ 32 := by
  unfold rd32 rd16 rd8
  omega

theorem rd64_lt (m : Mem) (a : Nat) : rd64 m a < 2 ^ 64 := by
  have h1 := rd32_lt m a
  have h2 := rd32_lt m (a + 4)
  unfold rd64
  norm_num at h1 h2 ⊢
  omega

/-- **C4** (PE base relocations).  For the 16-bit entry at `base_reloc +
reloc_offset2` of a block (`reloc_offset2 < SizeOfBlock`), with
`target = base_addr + VirtualAddress + offset` and `delta = base_addr -
ImageBase`:
* type `HIGHLOW`: the 32-bit field at `target` becomes `(old + delta) mod 2^32`
  and no byte outside it changes;
* type `DIR64`: the 64-bit field at `target` becomes `(old + delta) mod 2^64`
  and no byte outside it changes;
* type `ABSOLUTE`: memory is unchanged;
in these three cases the loop goes on to the next entry.  For any other type,
once the relocation loops of `load_library_32bit` arrive at the entry, the call
returns null. -/
theorem C4_pe_base_relocation (library base_addr reloc_offset1 base_reloc reloc_offset2 : Nat)
    (m : Mem) (hin : reloc_offset2 < rd32 m (base_reloc + 4)) :
    (pe_reloc_type (rd16 m (padd base_reloc reloc_offset2)) = IMAGE_REL_BASED_HIGHLOW →
      ∃ m' : Mem,
        pe_reloc_body library base_addr (PeRelocPc.entry reloc_offset1 base_reloc reloc_offset2, m) =
          Ctl.next (PeRelocPc.entry reloc_offset1 base_reloc ((reloc_offset2 + 2) % 2 ^ 32), m') ∧
        ((rd32 m' (pe_reloc_target base_addr base_reloc reloc_offset2 m) : Nat) : Int) =
          ((rd32 m (pe_reloc_target base_addr base_reloc reloc_offset2 m) : Int) +
            ((base_addr : Int) - (ImageBase m library : Int))) % 2 ^ 32 ∧
        ∀ x : Nat, (x < pe_reloc_target base_addr base_reloc reloc_offset2 m ∨
            pe_reloc_target base_addr base_reloc reloc_offset2 m + 4 ≤ x) → m' x = m x) ∧
    (pe_reloc_type (rd16 m (padd base_reloc reloc_offset2)) = IMAGE_REL_BASED_DIR64 →
      ∃ m' : Mem,
        pe_reloc_body library base_addr (PeRelocPc.entry reloc_offset1 base_reloc reloc_offset2, m) =
          Ctl.next (PeRelocPc.entry reloc_offset1 base_reloc ((reloc_offset2 + 2) % 2 ^ 32), m') ∧
        ((rd64 m' (pe_reloc_target base_addr base_reloc reloc_offset2 m) : Nat) : Int) =
          ((rd64 m (pe_reloc_target base_addr base_reloc reloc_offset2 m) : Int) +
            ((base_addr : Int) - (ImageBase m library : Int))) % 2 ^ 64 ∧
        ∀ x : Nat, (x < pe_reloc_target base_addr base_reloc reloc_offset2 m ∨
            pe_reloc_target base_addr base_reloc reloc_offset2 m + 8 ≤ x) → m' x = m x) ∧
    (pe_reloc_type (rd16 m (padd base_reloc reloc_offset2)) = IMAGE_REL_BASED_ABSOLUTE →
      pe_reloc_body library base_addr (PeRelocPc.entry reloc_offset1 base_reloc reloc_offset2, m) =
        Ctl.next (PeRelocPc.entry reloc_offset1 base_reloc ((reloc_offset2 + 2) % 2 ^ 32), m)) ∧
    (pe_reloc_type (rd16 m (padd base_reloc reloc_offset2)) ≠ IMAGE_REL_BASED_HIGHLOW →
      pe_reloc_type (rd16 m (padd base_reloc reloc_offset2)) ≠ IMAGE_REL_BASED_DIR64 →
      pe_reloc_type (rd16 m (padd base_reloc reloc_offset2)) ≠ IMAGE_REL_BASED_ABSOLUTE →
      ∀ (tbl : SymbolTable) (protectOk : Nat → Bool) (fuel : Nat) (m0 : Mem),
        base_addr = pe_base_addr m0 library →
        PeRelocReaches fuel library m0 (PeRelocPc.entry reloc_offset1 base_reloc reloc_offset2) m →
        ∃ r : Loaded, load_library_32bit_pe tbl protectOk fuel library m0 = some r ∧ r.ret = 0) := by
  have hIB : ImageBase m library < 2 ^ 64 := rd64_lt m _
  have hd := psub_int base_addr (ImageBase m library) hIB
  refine ⟨?_, ?_, ?_, ?_⟩
  · intro ht
    refine ⟨wr32 m (pe_reloc_target base_addr base_reloc reloc_offset2 m)
      ((rd32 m (pe_reloc_target base_addr base_reloc reloc_offset2 m) +
        psub base_addr (ImageBase m library) % 2 ^ 32) % 2 ^ 32), ?_, ?_, ?_⟩
    · simp only [pe_reloc_body, hin, if_true, pe_apply_reloc, ht]
    · rw [rd32_wr32]
      have h1 := rd32_lt m (pe_reloc_target base_addr base_reloc reloc_offset2 m)
      norm_num at h1 hd ⊢
      omega
    · intro x hx
      exact wr32_outside _ _ _ _ hx
  · intro ht
    have hne : IMAGE_REL_BASED_DIR64 ≠ IMAGE_REL_BASED_HIGHLOW := by decide
    refine ⟨wr64 m (pe_reloc_target base_addr base_reloc reloc_offset2 m)
      ((rd64 m (pe_reloc_target base_addr base_reloc reloc_offset2 m) +
        psub base_addr (ImageBase m library)) % 2 ^ 64), ?_, ?_, ?_⟩
    · simp only [pe_reloc_body, hin, if_true, pe_apply_reloc, ht, hne, if_false]
    · rw [rd64_wr64]
      have h1 := rd64_lt m (pe_reloc_target base_addr base_reloc reloc_offset2 m)
      norm_num at h1 hd ⊢
      omega
    · intro x hx
      exact wr64_outside _ _ _ _ hx
  · intro ht
    have hne : IMAGE_REL_BASED_ABSOLUTE ≠ IMAGE_REL_BASED_HIGHLOW := by decide
    have hne2 : IMAGE_REL_BASED_ABSOLUTE ≠ IMAGE_REL_BASED_DIR64 := by decide
    simp [pe_reloc_body, hin, pe_apply_reloc, ht, hne, hne2]
  · intro h1 h2 h3 tbl protectOk fuel m0 hbase hr
    subst hbase
    obtain ⟨r, hr1, hr2, _⟩ := pe_load_null_of_reloc_abort tbl protectOk fuel library m0 _ m m hr
      (by simp [pe_reloc_body, hin, pe_apply_reloc, h1, h2, h3])
    exact ⟨r, hr1, hr2⟩

theorem demoPeHigh_reaches :
    PeRelocReaches 100 0x20000 demoPeHigh (PeRelocPc.entry 0 0x21200 8)
      (peRelocAt 0x20000 demoPeHigh 1).2 :=
  (by decide! : (peRelocAt 0x20000 demoPeHigh 1).1 = PeRelocPc.entry 0 0x21200 8) ▸
    PeRelocReaches_at 100 0x20000 demoPeHigh 1 (by decide!) (by decide) (by decide!)

/-- Witness of `C4_pe_base_relocation`: in the PE example the entry at offset 10
of the block is `HIGHLOW`, the one at offset 8 is `DIR64`; in the second example
the entry at offset 10 is `ABSOLUTE` and the one at offset 8 has the unsupported
type 1. -/
theorem C4_pe_base_relocation_witness :
    (∃ m' : Mem,
      pe_reloc_body 0x20000 0x20000 (PeRelocPc.entry 0 0x21200 10, demoPe) =
        Ctl.next (PeRelocPc.entry 0 0x21200 ((10 + 2) % 2 ^ 32), m') ∧
      ((rd32 m' (pe_reloc_target 0x20000 0x21200 10 demoPe) : Nat) : Int) =
        ((rd32 demoPe (pe_reloc_target 0x20000 0x21200 10 demoPe) : Int) +
          (((0x20000 : Nat) : Int) - (ImageBase demoPe 0x20000 : Int))) % 2 ^ 32 ∧
      ∀ x : Nat, (x < pe_reloc_target 0x20000 0x21200 10 demoPe ∨
          pe_reloc_target 0x20000 0x21200 10 demoPe + 4 ≤ x) → m' x = demoPe x) ∧
    (∃ m' : Mem,
      pe_reloc_body 0x20000 0x20000 (PeRelocPc.entry 0 0x21200 8, demoPe) =
        Ctl.next (PeRelocPc.entry 0 0x21200 ((8 + 2) % 2 ^ 32), m') ∧
      ((rd64 m' (pe_reloc_target 0x20000 0x21200 8 demoPe) : Nat) : Int) =
        ((rd64 demoPe (pe_reloc_target 0x20000 0x21200 8 demoPe) : Int) +
          (((0x20000 : Nat) : Int) - (ImageBase demoPe 0x20000 : Int))) % 2 ^ 64 ∧
      ∀ x : Nat, (x < pe_reloc_target 0x20000 0x21200 8 demoPe ∨
          pe_reloc_target 0x20000 0x21200 8 demoPe + 8 ≤ x) → m' x = demoPe x) ∧
    pe_reloc_body 0x20000 0x20000 (PeRelocPc.entry 0 0x21200 10, demoPeHigh) =
      Ctl.next (PeRelocPc.entry 0 0x21200 ((10 + 2) % 2 ^ 32), demoPeHigh) ∧
    (∃ r : Loaded, load_library_32bit_pe demoTable (fun _ => true) 100 0x20000 demoPeHigh =
      some r ∧ r.ret = 0) :=
  ⟨(C4_pe_base_relocation 0x20000 0x20000 0 0x21200 10 demoPe (by decide!)).1 (by decide!),
   (C4_pe_base_relocation 0x20000 0x20000 0 0x21200 8 demoPe (by decide!)).2.1 (by decide!),
   (C4_pe_base_relocation 0x20000 0x20000 0 0x21200 10 demoPeHigh (by decide!)).2.2.1
     (by decide!),
   (C4_pe_base_relocation 0x20000 0x20000 0 0x21200 8 (peRelocAt 0x20000 demoPeHigh 1).2
     (by decide!)).2.2.2 (by decide!) (by decide!) (by decide!) demoTable (fun _ => true) 100
     demoPeHigh (by decide!) demoPeHigh_reaches⟩

/-! ## C5: the rebase interpreter -/

theorem rd8_congr (m1 m2 : Mem) (a : Nat) (h : m1 a = m2 a) : rd8 m1 a = rd8 m2 a := by
  unfold rd8
  rw [h]

theorem nulFree_dyldStubBinder : nulFree dyldStubBinder := by
  unfold nulFree dyldStubBinder
  decide

/-- **C6** (Mach-O `bind_address`).  For a bind with a symbol name (a non-null
pointer), zero flags, the flat-lookup ordinal, pointer type and a non-null
target `address`:
* a symbol that is exactly `dyld_stub_binder` gives success and leaves memory,
  the eight bytes at the target included, unchanged;
* any other symbol whose first character is not `_` gives failure, nothing
  being written;
* a symbol `_name` where `name` is the name of a table entry gives success, and
  the 64-bit word at the target becomes `addend` plus the (non-null) address of
  the first entry with that name, mod `2^64`. -/
theorem C6_bind_address (tbl : SymbolTable) (address addend symbol : Nat) (m : Mem)
    (hsym : symbol ≠ 0) (haddr : address ≠ 0) :
    (isCString m symbol dyldStubBinder →
      bind_address tbl address BIND_TYPE_POINTER addend symbol 0 BIND_SPECIAL_DYLIB_FLAT_LOOKUP m =
        some m) ∧
    (rd8 m symbol ≠ 95 → ¬ isCString m symbol dyldStubBinder →
      bind_address tbl address BIND_TYPE_POINTER addend symbol 0 BIND_SPECIAL_DYLIB_FLAT_LOOKUP m =
        none) ∧
    (rd8 m symbol = 95 →
      ∀ (pre post : SymbolTable) (name : List Nat) (value : Nat),
        tbl = pre ++ (name, value) :: post →
        (∀ e ∈ pre, nulFree e.1 ∧ ¬ isCString m (symbol + 1) e.1) →
        nulFree name → isCString m (symbol + 1) name → value ≠ 0 →
        ∃ m' : Mem,
          bind_address tbl address BIND_TYPE_POINTER addend symbol 0
            BIND_SPECIAL_DYLIB_FLAT_LOOKUP m = some m' ∧
          rd64 m' address = (addend + value) % 2 ^ 64) := by
  refine ⟨?_, ?_, ?_⟩
  · intro hc
    have hs := (strEq_iff m dyldStubBinder symbol nulFree_dyldStubBinder).mpr hc
    have h0 : rd8 m symbol = 100 := by
      have := hc.1 0 (by decide)
      simpa [dyldStubBinder] using this
    simp [bind_address, hsym, haddr, h0, hs]
  · intro hu hc
    have hs : strEq m symbol dyldStubBinder = false := by
      have := (strEq_iff m dyldStubBinder symbol nulFree_dyldStubBinder).not.mpr hc
      simpa using this
    simp [bind_address, hsym, haddr, hu, hs]
  · intro hu pre post name value htbl hpre hnf hcs hval
    have hlook : symbol_lookup tbl m (symbol + 1) = value := by
      rw [htbl]
      apply symbol_lookup_first
      · intro e he
        have := hpre e he
        have h2 := (strEq_iff m e.1 _ this.1).not.mpr this.2
        simpa using h2
      · exact (strEq_iff m name _ hnf).mpr hcs
    refine ⟨wr64 m address ((addend + value) % 2 ^ 64), ?_, ?_⟩
    · simp [bind_address, hsym, haddr, hu, hlook, hval]
    · rw [rd64_wr64]
      simp

/-- Witness of `C6_bind_address` on the memory of the second Mach-O example:
the string at `0x3210d` is `dyld_stub_binder`, the string at `0x32103` is
`foo` (no underscore, not the stub binder), the string at `0x32102` is
`_foo`. -/
theorem C6_bind_address_witness :
    bind_address demoTable 0x31010 BIND_TYPE_POINTER 5 0x3210d 0 BIND_SPECIAL_DYLIB_FLAT_LOOKUP
      demoMachoFoo = some demoMachoFoo ∧
    bind_address demoTable 0x31010 BIND_TYPE_POINTER 5 0x32103 0 BIND_SPECIAL_DYLIB_FLAT_LOOKUP
      demoMachoFoo = none ∧
    (∃ m' : Mem,
      bind_address demoTable 0x31010 BIND_TYPE_POINTER 5 0x32102 0 BIND_SPECIAL_DYLIB_FLAT_LOOKUP
        demoMachoFoo = some m' ∧
      rd64 m' 0x31010 = (5 + 0x7000) % 2 ^ 64) :=
  ⟨(C6_bind_address demoTable 0x31010 5 0x3210d demoMachoFoo (by decide) (by decide)).1
      ((strEq_iff demoMachoFoo _ _ nulFree_dyldStubBinder).mp (by decide!)),
   (C6_bind_address demoTable 0x31010 5 0x32103 demoMachoFoo (by decide) (by decide)).2.1
      (by decide!)
      (fun h => absurd ((strEq_iff demoMachoFoo _ _ nulFree_dyldStubBinder).mpr h) (by decide!)),
   (C6_bind_address demoTable 0x31010 5 0x32102 demoMachoFoo (by decide) (by decide)).2.2
      (by decide!) [] [] [102, 111, 111] 0x7000 rfl (by simp) nulFree_foo
      ((strEq_iff demoMachoFoo _ _ nulFree_foo).mp (by decide!)) (by decide)⟩

/-! ## C7: references that are themselves absent -/

/-- Counterexample to C7 as stated: a Mach-O image whose bind stream sets the
flat-lookup ordinal and a target in `__DATA` and then executes `DO_BIND` with
no symbol name set.  The interpreter arrives at the `DO_BIND` with
`symbol == NULL`, and `load_library_32bit` fails: it returns null. -/
theorem C7_counterexample :
    (machoBindAt (fun _ _ => 0) demoTable 100 0x30000 demoMachoNoSym 2).symbol = 0 ∧
    opcodeOf (rd8 (machoBindAt (fun _ _ => 0) demoTable 100 0x30000 demoMachoNoSym 2).mem
      (machoBindAt (fun _ _ => 0) demoTable 100 0x30000 demoMachoNoSym 2).bind) =
      BIND_OPCODE_DO_BIND ∧
    (load_library_32bit_macho (fun _ _ => 0) demoTable (fun _ m => m) (fun _ => true) 100
      0x30000 0x3000 demoMachoNoSym).map (fun r => r.ret) = some 0 :=
  ⟨by decide!, by decide!, by decide!⟩

/-- **C7** (amended).  In the ELF relocator a jump-slot entry against an
undefined symbol with `st_name == 0`, and in the PE relocator a null import
lookup entry, are treated as "no relocation needed": the loop goes on with
memory unchanged.  In the Mach-O relocator a bind executed with no symbol name
set (`symbol == NULL`) makes `bind_address` return 0: nothing is written and
`load_library_32bit` returns null. -/
theorem C7_absent_reference :
    (∀ (v : Variant) (tbl : SymbolTable) (library : Nat) (dyn : Nat → Nat)
        (relsize reladdr section_offset : Nat) (m : Mem),
        section_offset < relsize →
        isJumpSlot v (e_machine m library)
          (relType (r_info m (padd (padd library reladdr) section_offset))) = true →
        dyn DT_SYMTAB ≠ 0 → dyn DT_SYMENT ≠ 0 →
        st_shndx m (elf_symbol library dyn
          (r_info m (padd (padd library reladdr) section_offset))) = 0 →
        st_name m (elf_symbol library dyn
          (r_info m (padd (padd library reladdr) section_offset))) = 0 →
        elf_reloc_body v tbl library dyn relsize reladdr (section_offset, m) =
          Ctl.next (padd section_offset (dyn DT_RELAENT), m)) ∧
    (∀ (tbl : SymbolTable) (base_addr import_desc import_lookup import_address : Nat) (m : Mem),
        rd64 m import_lookup = 0 →
        pe_import_body tbl base_addr
            (PeImportPc.thunk import_desc import_lookup import_address, m) =
          Ctl.next (PeImportPc.desc (padd import_desc 20), m)) ∧
    (∀ (ub : Nat → Nat → Nat) (tbl : SymbolTable) (exec : Nat → Mem → Mem)
        (mprotectOk : Nat → Bool) (fuel library libsize : Nat) (m : Mem) (c : MachoCmds)
        (lazy : Bool) (s : BindState),
        macho_find_commands m (rd32 m (library + 16)) (library + 32)
          { dyld_info_cmd := 0, symtab_cmd := 0, dsymtab_cmd := 0 } = some c →
        MachoBindReaches ub tbl fuel library c.dyld_info_cmd m lazy s →
        bindsNow ub fuel s →
        s.symbol = 0 →
        bind_here tbl s s.address s.mem = none ∧
        ∃ r : Loaded,
          load_library_32bit_macho ub tbl exec mprotectOk fuel library libsize m = some r ∧
          r.ret = 0 ∧ callsOf r.trace = []) := by
  refine ⟨?_, ?_, ?_⟩
  · intro v tbl library dyn relsize reladdr off m hin hjs h1 h2 hsh hname
    simp [elf_reloc_body, hin, elf_apply_rela, hjs, h1, h2, hsh, hname]
  · intro tbl base_addr d lookup address m h
    simp [pe_import_body, h]
  · intro ub tbl exec mprotectOk fuel library libsize m c lazy s hc hr hnow hsym
    have hfail : bind_here tbl s s.address s.mem = none := by
      simp [bind_here, bind_address, hsym]
    exact ⟨hfail,
      macho_load_null_of_relocate_fail ub tbl exec mprotectOk fuel library libsize m s.mem c hc
        (macho_relocate_fail_of_bind ub tbl fuel library c.dyld_info_cmd m s.mem lazy s hr
          (fun be => bind_body_abort_of_bind_fail ub tbl fuel library be s hnow hfail))⟩

theorem demoMachoNoSym_reaches :
    MachoBindReaches (fun _ _ => 0) demoTable 100 0x30000
      (machoCmdsOf demoMachoNoSym 0x30000).dyld_info_cmd demoMachoNoSym false
      (machoBindAt (fun _ _ => 0) demoTable 100 0x30000 demoMachoNoSym 2) :=
  MachoBindReaches_at (fun _ _ => 0) demoTable 100 0x30000 demoMachoNoSym 2 (by decide)
    (by decide!) (by decide!) (by decide!) (by decide!)

theorem demoMachoNoSym_binds :
    bindsNow (fun _ _ => 0) 100
      (machoBindAt (fun _ _ => 0) demoTable 100 0x30000 demoMachoNoSym 2) :=
  Or.inl (by decide!)

theorem demoMachoNoSym_symbol :
    (machoBindAt (fun _ _ => 0) demoTable 100 0x30000 demoMachoNoSym 2).symbol = 0 := by
  decide!

/-- Witness of `C7_absent_reference`: entry 3 of the ELF example (at offset 72)
refers to the undefined symbol without a name; the lookup table of the PE
example ends with a null entry at `0x21138`; the third Mach-O example binds
with no symbol name set. -/
theorem C7_absent_reference_witness :
    elf_reloc_body Variant.indirect demoTable 0x10000 demoDyn 96 0x300 (72, demoElf) =
      Ctl.next (padd 72 (demoDyn DT_RELAENT), demoElf) ∧
    pe_import_body demoTable 0x20000 (PeImportPc.thunk 0x21100 0x21138 0x21190, demoPe) =
      Ctl.next (PeImportPc.desc (padd 0x21100 20), demoPe) ∧
    (bind_here demoTable (machoBindAt (fun _ _ => 0) demoTable 100 0x30000 demoMachoNoSym 2)
        (machoBindAt (fun _ _ => 0) demoTable 100 0x30000 demoMachoNoSym 2).address
        (machoBindAt (fun _ _ => 0) demoTable 100 0x30000 demoMachoNoSym 2).mem = none ∧
      ∃ r : Loaded,
        load_library_32bit_macho (fun _ _ => 0) demoTable (fun _ m => m) (fun _ => true) 100
          0x30000 0x3000 demoMachoNoSym = some r ∧ r.ret = 0 ∧ callsOf r.trace = []) :=
  ⟨C7_absent_reference.1 Variant.indirect demoTable 0x10000 demoDyn 96 0x300 72 demoElf
      (by decide) (by decide!) (by decide) (by decide) (by decide!) (by decide!),
   C7_absent_reference.2.1 demoTable 0x20000 0x21100 0x21138 0x21190 demoPe (by decide!),
   C7_absent_reference.2.2 (fun _ _ => 0) demoTable (fun _ m => m) (fun _ => true) 100 0x30000
      0x3000 demoMachoNoSym (machoCmdsOf demoMachoNoSym 0x30000) false
      (machoBindAt (fun _ _ => 0) demoTable 100 0x30000 demoMachoNoSym 2)
      (machoCmdsOf_eq _ _ (by decide!)) demoMachoNoSym_reaches demoMachoNoSym_binds
      demoMachoNoSym_symbol⟩

/-! ## C8: relocation types the loader does not know -/

/-- What the claim C8 asks, in the form in which it holds: once the relocation
loop arrives at an entry that passes neither the jump-slot test nor the
relative test of the variant, the call returns null and no constructor is
run.  In the `indirect` variant these tests pair the type with `e_machine`. -/
theorem elf_unsupported_type_fails (v : Variant) (tbl : SymbolTable) (exec : Nat → Mem → Mem)
    (fuel library libsize : Nat) (dyn : Nat → Nat) (m : Mem) (indrel section_offset : Nat)
    (mcur : Mem)
    (hdyn : elf_read_dynamic fuel library m = Outcome.done dyn)
    (hr : ElfReaches v tbl fuel library dyn m indrel section_offset mcur)
    (hjs : isJumpSlot v (e_machine mcur library)
      (relType (r_info mcur (elf_relocation library dyn indrel section_offset))) = false)
    (hrel : isRelative v (e_machine mcur library)
      (relType (r_info mcur (elf_relocation library dyn indrel section_offset))) = false) :
    ∃ r : Loaded, load_library_32bit_elf v tbl exec fuel library libsize m = some r ∧
      r.ret = 0 ∧ callsOf r.trace = [] :=
  elf_load_null_of_relocate_fail v tbl exec fuel library libsize dyn m mcur hdyn
    (elf_relocate_fail_of_reaches v tbl fuel library dyn m indrel section_offset mcur mcur hr
      (elf_body_abort_unsupported v tbl library dyn (elf_relsize dyn indrel)
        (elf_reladdr dyn indrel) section_offset mcur hr.2.2.2.1 hjs hrel))

/-- **C8** (code defect, llasm variant).  The image `demoElfForeign` is an
x86-64 image whose only relocation entry has type `R_AARCH64_RELATIVE`, which is
neither `R_X86_64_JUMP_SLOT` nor `R_X86_64_RELATIVE`.  The `indirect` variant
returns null and runs no constructor; the `llasm` variant, whose tests do not
look at `e_machine`, applies the entry as a RELATIVE one (the word at
`library + 0x428` becomes `library + 0x10`) and returns the image. -/
theorem C8_llasm_accepts_foreign_type :
    e_machine demoElfForeign 0x10000 = EM_X86_64 ∧
    relType (r_info demoElfForeign 0x10300) = R_AARCH64_RELATIVE ∧
    (load_library_32bit_elf Variant.indirect demoTable (fun _ m => m) 100 0x10000 0x1000
      demoElfForeign).map (fun r => (r.ret, callsOf r.trace)) = some (0, []) ∧
    (load_library_32bit_elf Variant.llasm demoTable (fun _ m => m) 100 0x10000 0x1000
      demoElfForeign).map (fun r => (r.ret, rd64 r.mem 0x10428)) = some (0x10000, 0x10010) :=
  ⟨by decide!, by decide!, by decide!, by decide!⟩

/-! ## C9: constructs the loader rejects -/

theorem rebase_body_abort_of_rebase_fail (ub : Nat → Nat → Nat) (fuel library : Nat)
    (s : RebaseState) (hnow : rebasesNow ub fuel s)
    (hfail : rebase_address library s.address s.type s.mem = none) :
    rebase_body ub fuel library s = Ctl.abort s.mem := by
  rcases hnow with ⟨h, hi⟩ | ⟨h, times, b, h1, ht⟩ | h | ⟨h, times, b, skip, b', h1, h2, ht⟩
  · obtain ⟨t, ht⟩ : ∃ t, immOf (rd8 s.mem s.rebase) = t + 1 :=
      ⟨immOf (rd8 s.mem s.rebase) - 1, by omega⟩
    simp [rebase_body, h, ht, rebase_times, rebase_after, hfail, REBASE_OPCODE_DONE,
      REBASE_OPCODE_SET_TYPE_IMM, REBASE_OPCODE_SET_SEGMENT_AND_OFFSET_ULEB,
      REBASE_OPCODE_ADD_ADDR_ULEB, REBASE_OPCODE_ADD_ADDR_IMM_SCALED,
      REBASE_OPCODE_DO_REBASE_IMM_TIMES]
  · obtain ⟨t, rfl⟩ : ∃ t, times = t + 1 := ⟨times - 1, by omega⟩
    simp [rebase_body, h, h1, rebase_times, rebase_after, hfail, REBASE_OPCODE_DONE,
      REBASE_OPCODE_SET_TYPE_IMM, REBASE_OPCODE_SET_SEGMENT_AND_OFFSET_ULEB,
      REBASE_OPCODE_ADD_ADDR_ULEB, REBASE_OPCODE_ADD_ADDR_IMM_SCALED,
      REBASE_OPCODE_DO_REBASE_IMM_TIMES, REBASE_OPCODE_DO_REBASE_ULEB_TIMES]
  · simp [rebase_body, h, hfail, REBASE_OPCODE_DONE,
      REBASE_OPCODE_SET_TYPE_IMM, REBASE_OPCODE_SET_SEGMENT_AND_OFFSET_ULEB,
      REBASE_OPCODE_ADD_ADDR_ULEB, REBASE_OPCODE_ADD_ADDR_IMM_SCALED,
      REBASE_OPCODE_DO_REBASE_IMM_TIMES, REBASE_OPCODE_DO_REBASE_ULEB_TIMES,
      REBASE_OPCODE_DO_REBASE_ADD_ADDR_ULEB]
  · obtain ⟨t, rfl⟩ : ∃ t, times = t + 1 := ⟨times - 1, by omega⟩
    simp [rebase_body, h, h1, h2, rebase_times, rebase_after, hfail, REBASE_OPCODE_DONE,
      REBASE_OPCODE_SET_TYPE_IMM, REBASE_OPCODE_SET_SEGMENT_AND_OFFSET_ULEB,
      REBASE_OPCODE_ADD_ADDR_ULEB, REBASE_OPCODE_ADD_ADDR_IMM_SCALED,
      REBASE_OPCODE_DO_REBASE_IMM_TIMES, REBASE_OPCODE_DO_REBASE_ULEB_TIMES,
      REBASE_OPCODE_DO_REBASE_ADD_ADDR_ULEB, REBASE_OPCODE_DO_REBASE_ULEB_TIMES_SKIPPING_ULEB]

theorem pe_desc_abort_forwarder (tbl : SymbolTable) (base_addr d : Nat) (m : Mem)
    (h1 : rd32 m d ≠ 0) (h2 : rd32 m (d + 8) ≠ 0) :
    pe_import_body tbl base_addr (PeImportPc.desc d, m) = Ctl.abort m := by
  simp [pe_import_body, h1, h2]

theorem nulFree_nullName : nulFree nullName := by
  unfold nulFree nullName
  decide

theorem nulFree_dotNullName : nulFree dotNullName := by
  unfold nulFree dotNullName
  decide

theorem pe_desc_abort_dll (tbl : SymbolTable) (base_addr d : Nat) (m : Mem)
    (h1 : rd32 m d ≠ 0) (h2 : rd8 m (padd base_addr (rd32 m (d + 12))) ≠ 0)
    (h3 : ¬ isCString m (padd base_addr (rd32 m (d + 12))) nullName)
    (h4 : ¬ isCString m (padd base_addr (rd32 m (d + 12))) dotNullName) :
    pe_import_body tbl base_addr (PeImportPc.desc d, m) = Ctl.abort m := by
  have e3 : strEq m (padd base_addr (rd32 m (d + 12))) nullName = false := by
    have := (strEq_iff m nullName _ nulFree_nullName).not.mpr h3
    simpa using this
  have e4 : strEq m (padd base_addr (rd32 m (d + 12))) dotNullName = false := by
    have := (strEq_iff m dotNullName _ nulFree_dotNullName).not.mpr h4
    simpa using this
  by_cases hf : rd32 m (d + 8) ≠ 0
  · exact pe_desc_abort_forwarder tbl base_addr d m h1 hf
  · simp [pe_import_body, h1, hf, h2, e3, e4]

theorem pe_thunk_abort_ordinal (tbl : SymbolTable) (base_addr d lookup address : Nat) (m : Mem)
    (h : 2 ^ 63 ≤ rd64 m lookup) :
    pe_import_body tbl base_addr (PeImportPc.thunk d lookup address, m) = Ctl.abort m := by
  have hne : rd64 m lookup ≠ 0 := by
    have : 0 < 2 ^ 63 := by norm_num
    omega
  simp only [Nat.reducePow] at h
  simp [pe_import_body, hne, h]

/-- Counterexample to C9 as stated: a PE image whose import directory is
present (`Size = 40`) and whose only import descriptor (at `0x1100`,
`OriginalFirstThunk = 0x1128`) has `ForwarderChain = 7`, but whose directory
of the import address table has `Size = 0`.  The import block is skipped as a
whole, the forwarder is never looked at, and `load_library_32bit` returns the
image. -/
theorem C9_counterexample :
    AddressOfEntryPoint demoPeSkipped 0x20000 = 0 ∧
    dirSize demoPeSkipped 0x20000 IMAGE_DIRECTORY_ENTRY_IMPORT = 40 ∧
    dirVA demoPeSkipped 0x20000 IMAGE_DIRECTORY_ENTRY_IMPORT = 0x1100 ∧
    rd32 demoPeSkipped 0x21100 = 0x1128 ∧
    rd32 demoPeSkipped (0x21100 + 8) = 7 ∧
    (load_library_32bit_pe demoTable (fun _ => true) 100 0x20000 demoPeSkipped).map
      (fun r => r.ret) = some 0x20000 :=
  ⟨by decide!, by decide!, by decide!, by decide!, by decide!, by decide!⟩

/-- **C9** (amended).  Each construct the loader does not support makes
`load_library_32bit` return null, with no constructor called, once the loader
gets to it:
* PE: a non-zero `AddressOfEntryPoint`, for every image;
* PE, when the loops over the import directory are entered (which needs
  non-zero sizes of both the import directory and the import-address-table
  directory) and arrive at a descriptor with `OriginalFirstThunk != 0`: a
  `ForwarderChain != 0`, or a DLL name that is not empty, `(null)` or
  `.(null)`;
* PE, when these loops arrive at a lookup entry: the ordinal bit (bit 63) set;
* Mach-O, when the rebase interpreter arrives at an opcode that rebases: a
  rebase type other than `REBASE_TYPE_POINTER`;
* Mach-O, when the bind interpreter arrives at an opcode that binds: flags
  other than 0, an ordinal other than `BIND_SPECIAL_DYLIB_FLAT_LOOKUP`, or a
  type other than `BIND_TYPE_POINTER`. -/
theorem C9_unsupported_constructs_fail :
    (∀ (tbl : SymbolTable) (protectOk : Nat → Bool) (fuel library : Nat) (m : Mem),
        AddressOfEntryPoint m library ≠ 0 →
        ∃ r : Loaded, load_library_32bit_pe tbl protectOk fuel library m = some r ∧
          r.ret = 0 ∧ callsOf r.trace = []) ∧
    (∀ (tbl : SymbolTable) (protectOk : Nat → Bool) (fuel library : Nat) (m : Mem)
        (import_desc : Nat) (mcur : Mem),
        PeImportReaches tbl fuel library m (PeImportPc.desc import_desc) mcur →
        rd32 mcur import_desc ≠ 0 →
        rd32 mcur (import_desc + 8) ≠ 0 →
        ∃ r : Loaded, load_library_32bit_pe tbl protectOk fuel library m = some r ∧
          r.ret = 0 ∧ callsOf r.trace = []) ∧
    (∀ (tbl : SymbolTable) (protectOk : Nat → Bool) (fuel library : Nat) (m : Mem)
        (import_desc : Nat) (mcur : Mem),
        PeImportReaches tbl fuel library m (PeImportPc.desc import_desc) mcur →
        rd32 mcur import_desc ≠ 0 →
        rd8 mcur (padd (pe_base_addr m library) (rd32 mcur (import_desc + 12))) ≠ 0 →
        ¬ isCString mcur (padd (pe_base_addr m library) (rd32 mcur (import_desc + 12))) nullName →
        ¬ isCString mcur (padd (pe_base_addr m library) (rd32 mcur (import_desc + 12)))
          dotNullName →
        ∃ r : Loaded, load_library_32bit_pe tbl protectOk fuel library m = some r ∧
          r.ret = 0 ∧ callsOf r.trace = []) ∧
    (∀ (tbl : SymbolTable) (protectOk : Nat → Bool) (fuel library : Nat) (m : Mem)
        (import_desc import_lookup import_address : Nat) (mcur : Mem),
        PeImportReaches tbl fuel library m
          (PeImportPc.thunk import_desc import_lookup import_address) mcur →
        2 ^ 63 ≤ rd64 mcur import_lookup →
        ∃ r : Loaded, load_library_32bit_pe tbl protectOk fuel library m = some r ∧
          r.ret = 0 ∧ callsOf r.trace = []) ∧
    (∀ (ub : Nat → Nat → Nat) (tbl : SymbolTable) (exec : Nat → Mem → Mem)
        (mprotectOk : Nat → Bool) (fuel library libsize : Nat) (m : Mem) (c : MachoCmds)
        (s : RebaseState),
        macho_find_commands m (rd32 m (library + 16)) (library + 32)
          { dyld_info_cmd := 0, symtab_cmd := 0, dsymtab_cmd := 0 } = some c →
        MachoRebaseReaches ub fuel library c.dyld_info_cmd m s →
        rebasesNow ub fuel s →
        s.type ≠ REBASE_TYPE_POINTER →
        ∃ r : Loaded,
          load_library_32bit_macho ub tbl exec mprotectOk fuel library libsize m = some r ∧
          r.ret = 0 ∧ callsOf r.trace = []) ∧
    (∀ (ub : Nat → Nat → Nat) (tbl : SymbolTable) (exec : Nat → Mem → Mem)
        (mprotectOk : Nat → Bool) (fuel library libsize : Nat) (m : Mem) (c : MachoCmds)
        (lazy : Bool) (s : BindState),
        macho_find_commands m (rd32 m (library + 16)) (library + 32)
          { dyld_info_cmd := 0, symtab_cmd := 0, dsymtab_cmd := 0 } = some c →
        MachoBindReaches ub tbl fuel library c.dyld_info_cmd m lazy s →
        bindsNow ub fuel s →
        (s.flags ≠ 0 ∨ s.ordinal ≠ BIND_SPECIAL_DYLIB_FLAT_LOOKUP ∨ s.type ≠ BIND_TYPE_POINTER) →
        ∃ r : Loaded,
          load_library_32bit_macho ub tbl exec mprotectOk fuel library libsize m = some r ∧
          r.ret = 0 ∧ callsOf r.trace = []) := by
  refine ⟨?_, ?_, ?_, ?_, ?_, ?_⟩
  · intro tbl protectOk fuel library m he
    exact ⟨pe_error1 library m, by simp [load_library_32bit_pe, he], rfl,
      by simp [pe_error1, callsOf]⟩
  · intro tbl protectOk fuel library m d mcur hr h1 h2
    exact pe_load_null_of_import_abort tbl protectOk fuel library m _ mcur mcur hr
      (pe_desc_abort_forwarder tbl _ d mcur h1 h2)
  · intro tbl protectOk fuel library m d mcur hr h1 h2 h3 h4
    exact pe_load_null_of_import_abort tbl protectOk fuel library m _ mcur mcur hr
      (pe_desc_abort_dll tbl _ d mcur h1 h2 h3 h4)
  · intro tbl protectOk fuel library m d lookup address mcur hr h
    exact pe_load_null_of_import_abort tbl protectOk fuel library m _ mcur mcur hr
      (pe_thunk_abort_ordinal tbl _ d lookup address mcur h)
  · intro ub tbl exec mprotectOk fuel library libsize m c s hc hr hnow hty
    have hfail : rebase_address library s.address s.type s.mem = none := by
      simp [rebase_address, hty]
    exact macho_load_null_of_relocate_fail ub tbl exec mprotectOk fuel library libsize m s.mem c hc
      (macho_relocate_fail_of_rebase ub tbl fuel library c.dyld_info_cmd m s.mem s hr
        (rebase_body_abort_of_rebase_fail ub fuel library s hnow hfail))
  · intro ub tbl exec mprotectOk fuel library libsize m c lazy s hc hr hnow hbad
    have hfail : bind_here tbl s s.address s.mem = none := by
      unfold bind_here bind_address
      rcases hbad with h | h | h
      · simp [h]
      · simp [h]
      · simp [h]
    exact macho_load_null_of_relocate_fail ub tbl exec mprotectOk fuel library libsize m s.mem c hc
      (macho_relocate_fail_of_bind ub tbl fuel library c.dyld_info_cmd m s.mem lazy s hr
        (fun be => bind_body_abort_of_bind_fail ub tbl fuel library be s hnow hfail))

theorem demoPeForwarder_reaches :
    PeImportReaches demoTable 100 0x20000 demoPeForwarder (PeImportPc.desc 0x21100)
      (peImportAt demoTable 100 0x20000 demoPeForwarder 0).2 :=
  (by decide! : (peImportAt demoTable 100 0x20000 demoPeForwarder 0).1 =
      PeImportPc.desc 0x21100) ▸
    PeImportReaches_at demoTable 100 0x20000 demoPeForwarder 0 (by decide!) (by decide)
      (by decide!) (by decide!) (by decide!) (by decide!)

theorem demoPeDll_reaches :
    PeImportReaches demoTable 100 0x20000 demoPeDll (PeImportPc.desc 0x21100)
      (peImportAt demoTable 100 0x20000 demoPeDll 0).2 :=
  (by decide! : (peImportAt demoTable 100 0x20000 demoPeDll 0).1 =
      PeImportPc.desc 0x21100) ▸
    PeImportReaches_at demoTable 100 0x20000 demoPeDll 0 (by decide!) (by decide)
      (by decide!) (by decide!) (by decide!) (by decide!)

theorem demoPeDll_not_null (name : List Nat) (h : name.head? ≠ some 107) :
    ¬ isCString (peImportAt demoTable 100 0x20000 demoPeDll 0).2 0x21170 name := by
  have hb : rd8 (peImportAt demoTable 100 0x20000 demoPeDll 0).2 0x21170 = 107 := by decide!
  have hz : rd8 (peImportAt demoTable 100 0x20000 demoPeDll 0).2 0x21170 ≠ 0 := by
    rw [hb]; decide
  cases name with
  | nil =>
    intro hc
    exact hz (by simpa [isCString] using hc)
  | cons c cs =>
    intro hc
    rw [isCString_cons] at hc
    apply h
    simp only [List.head?_cons]
    rw [← hb]
    exact congrArg some hc.1.symm

theorem demoPeOrdinal_reaches :
    PeImportReaches demoTable 100 0x20000 demoPeOrdinal (PeImportPc.thunk 0x21100 0x21128 0x21180)
      (peImportAt demoTable 100 0x20000 demoPeOrdinal 1).2 :=
  (by decide! : (peImportAt demoTable 100 0x20000 demoPeOrdinal 1).1 =
      PeImportPc.thunk 0x21100 0x21128 0x21180) ▸
    PeImportReaches_at demoTable 100 0x20000 demoPeOrdinal 1 (by decide!) (by decide)
      (by decide!) (by decide!) (by decide!) (by decide!)

theorem demoMachoRebaseType_reaches :
    MachoRebaseReaches (fun _ _ => 0) 100 0x30000
      (machoCmdsOf demoMachoRebaseType 0x30000).dyld_info_cmd demoMachoRebaseType
      (machoRebaseAt (fun _ _ => 0) 100 0x30000 demoMachoRebaseType 2) :=
  MachoRebaseReaches_at (fun _ _ => 0) 100 0x30000 demoMachoRebaseType 2 (by decide)
    (by decide!) (by decide!) (by decide!)

theorem demoMachoRebaseType_rebases :
    rebasesNow (fun _ _ => 0) 100 (machoRebaseAt (fun _ _ => 0) 100 0x30000 demoMachoRebaseType 2) :=
  Or.inl ⟨by decide!, by decide!⟩

theorem demoMachoRebaseType_type :
    (machoRebaseAt (fun _ _ => 0) 100 0x30000 demoMachoRebaseType 2).type ≠
      REBASE_TYPE_POINTER := by
  decide!

theorem demoMachoOrdinal_reaches :
    MachoBindReaches (fun _ _ => 0) demoTable 100 0x30000
      (machoCmdsOf demoMachoOrdinal 0x30000).dyld_info_cmd demoMachoOrdinal false
      (machoBindAt (fun _ _ => 0) demoTable 100 0x30000 demoMachoOrdinal 3) :=
  MachoBindReaches_at (fun _ _ => 0) demoTable 100 0x30000 demoMachoOrdinal 3 (by decide)
    (by decide!) (by decide!) (by decide!) (by decide!)

theorem demoMachoOrdinal_binds :
    bindsNow (fun _ _ => 0) 100
      (machoBindAt (fun _ _ => 0) demoTable 100 0x30000 demoMachoOrdinal 3) :=
  Or.inl (by decide!)

theorem demoMachoOrdinal_ordinal :
    (machoBindAt (fun _ _ => 0) demoTable 100 0x30000 demoMachoOrdinal 3).ordinal ≠
      BIND_SPECIAL_DYLIB_FLAT_LOOKUP := by
  decide!

/-- Witness of `C9_unsupported_constructs_fail`: six images, each with one of
the constructs: entry point 5; `ForwarderChain = 7`; DLL name `k`; a lookup
entry `0x8000000000000001`; a rebase with type 2; a bind with dylib ordinal 1. -/
theorem C9_unsupported_constructs_fail_witness :
    (∃ r : Loaded, load_library_32bit_pe demoTable (fun _ => true) 100 0x20000 demoPeEntry =
        some r ∧ r.ret = 0 ∧ callsOf r.trace = []) ∧
    (∃ r : Loaded, load_library_32bit_pe demoTable (fun _ => true) 100 0x20000 demoPeForwarder =
        some r ∧ r.ret = 0 ∧ callsOf r.trace = []) ∧
    (∃ r : Loaded, load_library_32bit_pe demoTable (fun _ => true) 100 0x20000 demoPeDll =
        some r ∧ r.ret = 0 ∧ callsOf r.trace = []) ∧
    (∃ r : Loaded, load_library_32bit_pe demoTable (fun _ => true) 100 0x20000 demoPeOrdinal =
        some r ∧ r.ret = 0 ∧ callsOf r.trace = []) ∧
    (∃ r : Loaded, load_library_32bit_macho (fun _ _ => 0) demoTable (fun _ m => m)
        (fun _ => true) 100 0x30000 0x3000 demoMachoRebaseType = some r ∧
        r.ret = 0 ∧ callsOf r.trace = []) ∧
    (∃ r : Loaded, load_library_32bit_macho (fun _ _ => 0) demoTable (fun _ m => m)
        (fun _ => true) 100 0x30000 0x3000 demoMachoOrdinal = some r ∧
        r.ret = 0 ∧ callsOf r.trace = []) :=
  ⟨C9_unsupported_constructs_fail.1 demoTable (fun _ => true) 100 0x20000 demoPeEntry
      (by decide!),
   C9_unsupported_constructs_fail.2.1 demoTable (fun _ => true) 100 0x20000 demoPeForwarder
      0x21100 (peImportAt demoTable 100 0x20000 demoPeForwarder 0).2 demoPeForwarder_reaches
      (by decide!) (by decide!),
   C9_unsupported_constructs_fail.2.2.1 demoTable (fun _ => true) 100 0x20000 demoPeDll
      0x21100 (peImportAt demoTable 100 0x20000 demoPeDll 0).2 demoPeDll_reaches
      (by decide!) (by decide!)
      ((by decide! : (0x21170 : Nat) = padd (pe_base_addr demoPeDll 0x20000)
          (rd32 (peImportAt demoTable 100 0x20000 demoPeDll 0).2 (0x21100 + 12))) ▸
        demoPeDll_not_null nullName (by decide))
      ((by decide! : (0x21170 : Nat) = padd (pe_base_addr demoPeDll 0x20000)
          (rd32 (peImportAt demoTable 100 0x20000 demoPeDll 0).2 (0x21100 + 12))) ▸
        demoPeDll_not_null dotNullName (by decide)),
   C9_unsupported_constructs_fail.2.2.2.1 demoTable (fun _ => true) 100 0x20000 demoPeOrdinal
      0x21100 0x21128 0x21180 (peImportAt demoTable 100 0x20000 demoPeOrdinal 1).2
      demoPeOrdinal_reaches (by decide!),
   C9_unsupported_constructs_fail.2.2.2.2.1 (fun _ _ => 0) demoTable (fun _ m => m)
      (fun _ => true) 100 0x30000 0x3000 demoMachoRebaseType
      (machoCmdsOf demoMachoRebaseType 0x30000)
      (machoRebaseAt (fun _ _ => 0) 100 0x30000 demoMachoRebaseType 2)
      (machoCmdsOf_eq _ _ (by decide!)) demoMachoRebaseType_reaches demoMachoRebaseType_rebases
      demoMachoRebaseType_type,
   C9_unsupported_constructs_fail.2.2.2.2.2 (fun _ _ => 0) demoTable (fun _ m => m)
      (fun _ => true) 100 0x30000 0x3000 demoMachoOrdinal
      (machoCmdsOf demoMachoOrdinal 0x30000) false
      (machoBindAt (fun _ _ => 0) demoTable 100 0x30000 demoMachoOrdinal 3)
      (machoCmdsOf_eq _ _ (by decide!)) demoMachoOrdinal_reaches demoMachoOrdinal_binds
      (Or.inr (Or.inl demoMachoOrdinal_ordinal))⟩

/-! ## C10: what a failed load unmaps -/

theorem elf_map_finish_null (os : Os) (mem base_addr min_addr max_addr : Nat)
    (trace : List Event) (m : Mem)
    (h : (elf_map_finish os mem base_addr min_addr max_addr trace m).base_addr = 0) :
    base_addr = 0 ∨
    (elf_map_finish os mem base_addr min_addr max_addr trace m).trace =
      trace ++ [Event.munmap base_addr max_addr] := by
  unfold elf_map_finish at h ⊢
  cases hseg : elf_map_segments os mem base_addr min_addr (e_phnum m mem) 0 m with
  | none => exact Or.inr rfl
  | some m' =>
    rw [hseg] at h
    exact Or.inl h

theorem reserve_address_space_cases (os : Os) (maddr size : Nat) :
    (reserve_address_space os maddr size = (0, [])) ∨
    (reserve_address_space os maddr size = (maddr, [Event.reserve maddr (size % 2 ^ 32)])) ∨
    (∃ a, a ≠ maddr ∧ reserve_address_space os maddr size =
      (0, [Event.reserve a (size % 2 ^ 32), Event.munmap a (size % 2 ^ 32)])) := by
  unfold reserve_address_space
  cases h : os.mmap_noreplace maddr (size % 2 ^ 32) with
  | none => exact Or.inl rfl
  | some a =>
    by_cases ha : a = maddr
    · subst ha
      exact Or.inr (Or.inl (by simp))
    · exact Or.inr (Or.inr ⟨a, ha, by simp [ha]⟩)

theorem elf_map_exec_reserved_null (os : Os) (mem base_addr min_addr orig_max_addr max_addr : Nat)
    (t : SymTables) (trace : List Event) (m : Mem) (hb : base_addr ≠ 0)
    (h : (elf_map_exec_reserved os mem base_addr min_addr orig_max_addr max_addr t trace
      m).base_addr = 0) :
    (elf_map_exec_reserved os mem base_addr min_addr orig_max_addr max_addr t trace m).trace =
      trace ++ [Event.munmap base_addr max_addr] := by
  unfold elf_map_exec_reserved at h ⊢
  by_cases h1 : os.mmap_fixed orig_max_addr (psub max_addr orig_max_addr) = false
  · rw [if_pos h1]
  · rw [if_neg h1] at h ⊢
    by_cases h2 : os.mprotect orig_max_addr (psub max_addr orig_max_addr) = false
    · rw [if_pos h2]
    · rw [if_neg h2] at h ⊢
      rcases elf_map_finish_null _ _ _ _ _ _ _ h with h0 | ht
      · exact absurd h0 hb
      · exact ht

/-- The events of a failed `load_library_from_memory_linux` on an executable
(`ET_EXEC`): none; or a reservation that came out at another address and is
given back as a whole; or the reservation of `max_addr - min_addr` bytes at
`min_addr`, which is not null, followed by `munmap (min_addr, max_addr)`. -/
theorem load_from_memory_exec_failure (os : Os) (mem : Nat) (m : Mem)
    (hexec : e_type m mem = ET_EXEC)
    (hnull : (load_library_from_memory_linux os mem m).base_addr = 0) :
    (load_library_from_memory_linux os mem m).trace = [] ∨
    (∃ a s, (load_library_from_memory_linux os mem m).trace =
      [Event.reserve a s, Event.munmap a s]) ∨
    (∃ min_addr max_addr, min_addr ≠ 0 ∧
      (load_library_from_memory_linux os mem m).trace =
        [Event.reserve min_addr (psub max_addr min_addr % 2 ^ 32),
          Event.munmap min_addr max_addr]) := by
  unfold load_library_from_memory_linux at hnull ⊢
  by_cases hid : rd8 m mem ≠ 0x7f ∨ rd8 m (mem + 1) ≠ 69 ∨ rd8 m (mem + 2) ≠ 76 ∨
      rd8 m (mem + 3) ≠ 70 ∨ rd8 m (mem + 4) ≠ 2 ∨ rd8 m (mem + 6) ≠ 1 ∨
      (e_type m mem ≠ ET_DYN ∧ e_type m mem ≠ ET_EXEC) ∨
      e_phentsize m mem = 0 ∨ e_phnum m mem = 0
  · rw [if_pos hid]
    exact Or.inl rfl
  · rw [if_neg hid] at hnull ⊢
    simp only [hexec, if_true] at hnull ⊢
    generalize (elf_extent_from m mem (e_phnum m mem) 0
      { min_addr := 2 ^ 64 - 1, max_addr := 0, image_base := 0 }).image_base = image_base
      at hnull ⊢
    generalize page_floor (page_size os) (elf_extent_from m mem (e_phnum m mem) 0
      { min_addr := 2 ^ 64 - 1, max_addr := 0, image_base := 0 }).min_addr = min_addr
      at hnull ⊢
    generalize page_ceil (page_size os) (elf_extent_from m mem (e_phnum m mem) 0
      { min_addr := 2 ^ 64 - 1, max_addr := 0, image_base := 0 }).max_addr = max_addr
      at hnull ⊢
    unfold elf_map_exec at hnull ⊢
    by_cases hbase : image_base = 0 ∨ min_addr ≠ image_base
    · rw [if_pos hbase]
      exact Or.inl rfl
    · rw [if_neg hbase] at hnull ⊢
      have hmin : min_addr ≠ 0 := by
        intro h0
        apply hbase
        by_cases hib : image_base = 0
        · exact Or.inl hib
        · exact Or.inr (by rw [h0]; exact fun h => hib h.symm)
      generalize elf_find_tables m mem (e_shnum m mem) 0
        { sym_offset := 0, sym_size := 0, sym_entsize := 0, str_offset := 0,
          str_size := 0 } = t at hnull ⊢
      by_cases htab : t.sym_offset = 0 ∨ t.str_offset = 0
      · rw [if_pos htab]
        exact Or.inl rfl
      · rw [if_neg htab] at hnull ⊢
        simp only at hnull ⊢
        rcases reserve_address_space_cases os min_addr
            (psub (exec_max_addr os max_addr t) min_addr) with hr | hr | ⟨a, ha, hr⟩
        · rw [hr]
          exact Or.inl rfl
        · rw [hr] at hnull ⊢
          simp only at hnull ⊢
          rw [if_neg hmin] at hnull ⊢
          rw [elf_map_exec_reserved_null _ _ _ _ _ _ _ _ _ hmin hnull]
          exact Or.inr (Or.inr ⟨min_addr, exec_max_addr os max_addr t, hmin, rfl⟩)
        · rw [hr]
          exact Or.inr (Or.inl ⟨_, _, rfl⟩)

/-- The events of a failed `load_library_from_memory_linux` on a shared object
(not `ET_EXEC`): none, or the reservation made by `map_memory_32bit` (of
`max_addr` bytes as an `unsigned int`) followed by `munmap (base_addr,
max_addr)`. -/
theorem load_from_memory_dyn_failure (os : Os) (mem : Nat) (m : Mem)
    (hdyn : e_type m mem ≠ ET_EXEC)
    (hnull : (load_library_from_memory_linux os mem m).base_addr = 0) :
    (load_library_from_memory_linux os mem m).trace = [] ∨
    (∃ base_addr max_addr, base_addr ≠ 0 ∧
      (load_library_from_memory_linux os mem m).trace =
        [Event.reserve base_addr (max_addr % 2 ^ 32), Event.munmap base_addr max_addr]) := by
  unfold load_library_from_memory_linux at hnull ⊢
  by_cases hid : rd8 m mem ≠ 0x7f ∨ rd8 m (mem + 1) ≠ 69 ∨ rd8 m (mem + 2) ≠ 76 ∨
      rd8 m (mem + 3) ≠ 70 ∨ rd8 m (mem + 4) ≠ 2 ∨ rd8 m (mem + 6) ≠ 1 ∨
      (e_type m mem ≠ ET_DYN ∧ e_type m mem ≠ ET_EXEC) ∨
      e_phentsize m mem = 0 ∨ e_phnum m mem = 0
  · rw [if_pos hid]
    exact Or.inl rfl
  · rw [if_neg hid] at hnull ⊢
    simp only [hdyn, if_false] at hnull ⊢
    generalize page_floor (page_size os) (elf_extent_from m mem (e_phnum m mem) 0
      { min_addr := 2 ^ 64 - 1, max_addr := 0, image_base := 0 }).min_addr = min_addr
      at hnull ⊢
    generalize page_ceil (page_size os) (elf_extent_from m mem (e_phnum m mem) 0
      { min_addr := 2 ^ 64 - 1, max_addr := 0, image_base := 0 }).max_addr = max_addr
      at hnull ⊢
    unfold elf_map_dyn at hnull ⊢
    by_cases hmin : min_addr ≠ 0
    · rw [if_pos hmin]
      exact Or.inl rfl
    · rw [if_neg hmin] at hnull ⊢
      by_cases hb : os.map_memory_32bit (max_addr % 2 ^ 32) = 0
      · rw [if_pos hb]
        exact Or.inl rfl
      · rw [if_neg hb] at hnull ⊢
        rcases elf_map_finish_null _ _ _ _ _ _ _ hnull with h0 | ht
        · exact absurd h0 hb
        · rw [ht]
          exact Or.inr ⟨_, _, hb, rfl⟩

/-- **C10** (code defect, `ET_EXEC` images).  The file `elfFile ET_EXEC _
0x400000` is an executable whose segment lies at `0x400000`; with its tables
the image extends to `0x402000`, and the loader reserves the `0x2000` bytes
from `0x400000`.
* With an unsupported machine (`EM_386 = 3`) `load_library_32bit` returns null
  after `munmap (0x400000, 0x402000)`: the length is `max_addr`, not
  `max_addr - min_addr`.
* When the mapping of the segment fails, `load_library_from_memory_linux`
  returns null after the same `munmap (0x400000, 0x402000)`.
In both cases the range unmapped reaches `0x400000` bytes beyond the end of
the reservation.
* For the same file as a shared object (`ET_DYN`, segment at `0`), the range
  unmapped after either failure is the range reserved. -/
theorem C10_exec_unmaps_beyond_reservation :
    (load_library_32bit_linux demoOs demoTable (fun _ m => m) 100 0x100000 0x1000
        (elfFile ET_EXEC 3 0x400000)).map (fun r => (r.ret, r.trace)) =
      some (0, [Event.reserve 0x400000 0x2000, Event.munmap 0x100000 0x1000,
        Event.munmap 0x400000 0x402000]) ∧
    (load_library_32bit_linux (demoOsNoSegment 0x400000) demoTable (fun _ m => m) 100 0x100000
        0x1000 (elfFile ET_EXEC EM_X86_64 0x400000)).map (fun r => (r.ret, r.trace)) =
      some (0, [Event.reserve 0x400000 0x2000, Event.munmap 0x400000 0x402000,
        Event.munmap 0x100000 0x1000]) ∧
    0x400000 + 0x2000 < 0x400000 + 0x402000 ∧
    (load_library_32bit_linux demoOs demoTable (fun _ m => m) 100 0x100000 0x1000
        (elfFile ET_DYN 3 0)).map (fun r => (r.ret, r.trace)) =
      some (0, [Event.reserve 0x500000 0x1000, Event.munmap 0x100000 0x1000,
        Event.munmap 0x500000 0x1000]) ∧
    (load_library_32bit_linux (demoOsNoSegment 0x500000) demoTable (fun _ m => m) 100 0x100000
        0x1000 (elfFile ET_DYN EM_X86_64 0)).map (fun r => (r.ret, r.trace)) =
      some (0, [Event.reserve 0x500000 0x1000, Event.munmap 0x500000 0x1000,
        Event.munmap 0x100000 0x1000]) :=
  ⟨by decide!, by decide!, by decide, by decide!, by decide!⟩

/-! ## C11: a mapping that lands at another address -/

/-- **C11** (code defect).  The listing shows `[0x110000, 0x200000)` free; the
first attempt asks for `0x1000` bytes at `0x110000` and the system answers with
a mapping at `0x7f0000000000`.  `map_memory_32bit` returns null, but the
`munmap` it issues is `munmap (0x110000, 0x1000)`, for the address it asked
for: the region the system returned stays mapped, and whatever is mapped at
`0x110000` is removed.  This holds for the search of both variants (`indirect`
after a failed `MAP_32BIT` attempt, and `ptrofs` with `pointer_offset = 0`).  In
the `MAP_32BIT` block of the same function a mapping that lands too high is
released at the address the system returned. -/
theorem C11_wrong_address_unmaps_request :
    map_memory_32bit_indirect true demoMapEnv 0x1000 1 =
      { ret := 0,
        trace := [MapEvent.mmap 0 0x1000 MAP_FAILED,
          MapEvent.mmap 0x110000 0x1000 0x7f0000000000, MapEvent.munmap 0x110000 0x1000] } ∧
    map_memory_32bit_ptrofs 0 demoMapEnvHigh 0x1000 1 =
      { ret := 0,
        trace := [MapEvent.mmap 0x110000 0x1000 0x7f0000000000,
          MapEvent.munmap 0x110000 0x1000] } ∧
    (map_memory_32bit_indirect true demoMapEnvHigh 0x1000 1).trace.take 2 =
      [MapEvent.mmap 0 0x1000 0x7f0000000000, MapEvent.munmap 0x7f0000000000 0x1000] := by
  refine ⟨?_, ?_, ?_⟩ <;> decide!

/-! ## C12: where `map_memory_32bit` maps -/

theorem or_le_add_of_disjoint (a b : Nat) (ha : a < 2 ^ 64) (hb : b < 2 ^ 64)
    (h : a &&& b = 0) : a ||| b ≤ a + b := by
  have h1 := BitVec.add_eq_or_of_and_eq_zero (BitVec.ofNat 64 a) (BitVec.ofNat 64 b)
    (by
      apply BitVec.eq_of_toNat_eq
      rw [BitVec.toNat_and, BitVec.toNat_ofNat, BitVec.toNat_ofNat, Nat.mod_eq_of_lt ha,
        Nat.mod_eq_of_lt hb, h]
      rfl)
  have h2 := congrArg BitVec.toNat h1
  rw [BitVec.toNat_add, BitVec.toNat_or, BitVec.toNat_ofNat, BitVec.toNat_ofNat,
    Nat.mod_eq_of_lt ha, Nat.mod_eq_of_lt hb] at h2
  rw [← h2]
  exact Nat.mod_le _ _

/-- Masking with `~(page_size - 1)` takes away less than `page_size`, whatever
the page size is. -/
theorem page_floor_ge (ps y : Nat) (hps : 0 < ps) (hps2 : ps ≤ 2 ^ 64) (hy : y < 2 ^ 64) :
    y ≤ page_floor ps y + (ps - 1) := by
  unfold page_floor
  have hm : ∀ i, (2 ^ 64 - ps).testBit i = (decide (i < 64) && !(ps - 1).testBit i) := by
    intro i
    have := @Nat.testBit_two_pow_sub_succ (ps - 1) 64 (by omega) i
    rwa [show ps - 1 + 1 = ps by omega] at this
  have hor : y = (y &&& (2 ^ 64 - ps)) ||| (y &&& (ps - 1)) := by
    apply Nat.eq_of_testBit_eq
    intro i
    rw [Nat.testBit_or, Nat.testBit_and, Nat.testBit_and, hm]
    by_cases hi : i < 64
    · simp [hi]
      cases y.testBit i <;> cases (ps - 1).testBit i <;> rfl
    · have : y.testBit i = false :=
        Nat.testBit_lt_two_pow (lt_of_lt_of_le hy (Nat.pow_le_pow_right (by norm_num) (by omega)))
      simp [this]
  have hdisj : (y &&& (2 ^ 64 - ps)) &&& (y &&& (ps - 1)) = 0 := by
    apply Nat.eq_of_testBit_eq
    intro i
    simp only [Nat.testBit_and, hm, Nat.zero_testBit]
    cases y.testBit i <;> cases (ps - 1).testBit i <;> simp
  have h1 : y &&& (2 ^ 64 - ps) < 2 ^ 64 := lt_of_le_of_lt Nat.and_le_left hy
  have h2 : y &&& (ps - 1) < 2 ^ 64 := lt_of_le_of_lt Nat.and_le_left hy
  have h3 := or_le_add_of_disjoint _ _ h1 h2 hdisj
  have h4 : y &&& (ps - 1) ≤ ps - 1 := Nat.and_le_right
  omega

theorem page_floor_le (ps y : Nat) : page_floor ps y ≤ y := Nat.and_le_left

theorem le_page_ceil (ps x : Nat) (hps : 0 < ps) (hx : x + ps ≤ 2 ^ 64) :
    x ≤ page_ceil ps x := by
  unfold page_ceil
  have h1 : (x + (ps - 1)) % 2 ^ 64 = x + (ps - 1) := Nat.mod_eq_of_lt (by omega)
  rw [h1]
  have h2 := page_floor_ge ps (x + (ps - 1)) hps (by omega) (by omega)
  omega

theorem map_page_size_pos (env : MapEnv) : 0 < map_page_size env := by
  unfold map_page_size
  split
  · norm_num
  · omega

theorem ScanBound_mono (po size ps num0 next : Nat) (s : Scan) (h : num0 ≤ next)
    (hs : ScanBound po size ps next s) : ScanBound po size ps num0 s :=
  ⟨le_trans h hs.1, fun hw hm => ⟨(hs.2 hw hm).1, fun hlow => (hs.2 hw hm).2 (by omega)⟩⟩

theorem page_floor_big (ps y : Nat) (hps : 2 ^ 64 < ps) : page_floor ps y = 0 := by
  unfold page_floor
  rw [Nat.sub_eq_zero_of_le (le_of_lt hps)]
  exact Nat.and_zero y

theorem map_scan_bound (env : MapEnv) (po size only : Nat) (hpo : po < 2 ^ 63) :
    ∀ (lines : List (Nat × Nat)) (num0 calls : Nat) (trace : List MapEvent),
      ScanBound po size (map_page_size env) num0
        (map_scan env po size only lines num0 calls trace) := by
  have hlim : (po + 0x80000000) % 2 ^ 64 = po + 0x80000000 := Nat.mod_eq_of_lt (by omega)
  have hpos := map_page_size_pos env
  intro lines
  induction lines with
  | nil =>
    intro num0 calls trace
    rw [map_scan]
    exact ⟨le_refl _, fun _ hm => absurd rfl hm⟩
  | cons l rest ih =>
    obtain ⟨n1, n2⟩ := l
    intro num0 calls trace
    rw [map_scan]
    simp only [hlim]
    by_cases h0 : num0 < po + 0x80000000
    · rw [if_pos h0]
      generalize hnum1 : (if n1 % 2 ^ 64 > po + 0x80000000 then po + 0x80000000
        else n1 % 2 ^ 64) = num1
      have hnum1le : num1 ≤ po + 0x80000000 := by
        rw [← hnum1]
        split <;> omega
      generalize hnext : (if n2 % 2 ^ 64 > num0 then n2 % 2 ^ 64 else num0) = next
      have hnextge : num0 ≤ next := by
        rw [← hnext]
        split <;> omega
      by_cases h1 : num0 < num1 ∧ num1 - num0 ≥ size
      · rw [if_pos h1]
        by_cases h2 : map_try env calls num0 size only = num0
        · rw [if_pos h2]
          refine ⟨le_refl _, fun _ _ => ⟨?_, fun hlow => ?_⟩⟩
          · show map_try env calls num0 size only + size ≤ po + 0x80000000
            rw [h2]; omega
          · show po ≤ map_try env calls num0 size only
            rw [h2]; omega
        · rw [if_neg h2]
          by_cases h3 : map_try env calls num0 size only ≠ MAP_FAILED
          · rw [if_pos h3]
            exact ⟨le_refl _, fun hw _ => absurd hw (by simp)⟩
          · rw [if_neg h3]
            by_cases h4 : page_floor (map_page_size env) (num1 - size) ≠ num0
            · rw [if_pos h4]
              by_cases h5 : map_try env (calls + 1) (page_floor (map_page_size env) (num1 - size))
                  size only = page_floor (map_page_size env) (num1 - size)
              · rw [if_pos h5]
                have hle := page_floor_le (map_page_size env) (num1 - size)
                refine ⟨le_refl _, fun _ hm => ⟨?_, fun hlow => ?_⟩⟩
                · show map_try env (calls + 1) _ size only + size ≤ po + 0x80000000
                  rw [h5]; omega
                · show po ≤ map_try env (calls + 1) _ size only
                  rw [h5]
                  by_cases hps : map_page_size env ≤ 2 ^ 64
                  · have hge := page_floor_ge (map_page_size env) (num1 - size) hpos hps
                      (by omega)
                    omega
                  · exfalso
                    apply hm
                    show map_try env (calls + 1) _ size only = 0
                    rw [h5]
                    exact page_floor_big _ _ (by omega)
              · rw [if_neg h5]
                by_cases h6 : map_try env (calls + 1)
                    (page_floor (map_page_size env) (num1 - size)) size only ≠ MAP_FAILED
                · rw [if_pos h6]
                  exact ⟨le_refl _, fun hw _ => absurd hw (by simp)⟩
                · rw [if_neg h6]
                  exact ScanBound_mono _ _ _ _ _ _ hnextge (ih _ _ _)
            · rw [if_neg h4]
              exact ScanBound_mono _ _ _ _ _ _ hnextge (ih _ _ _)
      · rw [if_neg h1]
        exact ScanBound_mono _ _ _ _ _ _ hnextge (ih _ _ _)
    · rw [if_neg h0]
      exact ⟨le_refl _, fun _ hm => absurd rfl hm⟩

theorem psub_of_le (p n : Nat) (hp : p < 2 ^ 64) (hn : n ≤ p) : psub p n = p - n := by
  unfold psub
  have h1 : n % 2 ^ 64 = n := Nat.mod_eq_of_lt (by omega)
  rw [h1]
  omega

theorem map_tail_bound (env : MapEnv) (po size only num0 calls : Nat) (trace : List MapEvent)
    (hpo : po < 2 ^ 63) (hsz : size < 2 ^ 32)
    (hret : (map_tail env po size only num0 calls trace).ret ≠ 0) :
    (map_tail env po size only num0 calls trace).ret + size ≤ po + 0x80000000 ∧
    (po + (map_page_size env - 1) ≤ num0 →
      po ≤ (map_tail env po size only num0 calls trace).ret) := by
  have hlim : (po + 0x80000000) % 2 ^ 64 = po + 0x80000000 := Nat.mod_eq_of_lt (by omega)
  have hpos := map_page_size_pos env
  unfold map_tail at hret ⊢
  simp only [hlim] at hret ⊢
  by_cases h0 : num0 < po + 0x80000000 ∧ (num0 + size) % 2 ^ 64 ≤ po + 0x80000000
  · rw [if_pos h0] at hret ⊢
    have hns : num0 + size ≤ po + 0x80000000 := by
      have : (num0 + size) % 2 ^ 64 = num0 + size := Nat.mod_eq_of_lt (by omega)
      omega
    by_cases h2 : map_try env calls num0 size only = num0
    · rw [if_pos h2]
      refine ⟨?_, fun hlow => ?_⟩
      · show map_try env calls num0 size only + size ≤ po + 0x80000000
        rw [h2]; omega
      · show po ≤ map_try env calls num0 size only
        rw [h2]; omega
    · rw [if_neg h2] at hret ⊢
      by_cases h3 : map_try env calls num0 size only ≠ MAP_FAILED
      · rw [if_pos h3] at hret
        exact absurd rfl hret
      · rw [if_neg h3] at hret ⊢
        have hps : psub (po + 0x80000000) size = po + 0x80000000 - size :=
          psub_of_le _ _ (by omega) (by omega)
        rw [hps] at hret ⊢
        by_cases h4 : page_floor (map_page_size env) (po + 0x80000000 - size) ≠ num0
        · rw [if_pos h4] at hret ⊢
          by_cases h5 : map_try env (calls + 1)
              (page_floor (map_page_size env) (po + 0x80000000 - size)) size only =
              page_floor (map_page_size env) (po + 0x80000000 - size)
          · rw [if_pos h5] at hret ⊢
            have hle := page_floor_le (map_page_size env) (po + 0x80000000 - size)
            refine ⟨?_, fun hlow => ?_⟩
            · show map_try env (calls + 1) _ size only + size ≤ po + 0x80000000
              rw [h5]; omega
            · show po ≤ map_try env (calls + 1) _ size only
              rw [h5]
              by_cases hps : map_page_size env ≤ 2 ^ 64
              · have hge := page_floor_ge (map_page_size env) (po + 0x80000000 - size) hpos hps
                  (by omega)
                omega
              · exfalso
                apply hret
                show map_try env (calls + 1) _ size only = 0
                rw [h5]
                exact page_floor_big _ _ (by omega)
          · rw [if_neg h5] at hret
            by_cases h6 : map_try env (calls + 1)
                (page_floor (map_page_size env) (po + 0x80000000 - size)) size only ≠ MAP_FAILED
            · rw [if_pos h6] at hret
              exact absurd rfl hret
            · rw [if_neg h6] at hret
              exact absurd rfl hret
        · rw [if_neg h4] at hret
          exact absurd rfl hret
  · rw [if_neg h0] at hret
    exact absurd rfl hret

theorem map_search_bound (env : MapEnv) (po size only calls : Nat) (trace : List MapEvent)
    (hpo : po < 2 ^ 63) (hsz : size < 2 ^ 32)
    (hret : (map_search env po size only calls trace).ret ≠ 0) :
    (map_search env po size only calls trace).ret + size ≤ po + 0x80000000 ∧
    (map_page_size env ≤ 0x100000 → po ≤ (map_search env po size only calls trace).ret) := by
  have hpos := map_page_size_pos env
  unfold map_search at hret ⊢
  cases hl : env.listing with
  | none =>
    rw [hl] at hret
    exact absurd rfl hret
  | some lines =>
    rw [hl] at hret
    simp only at hret ⊢
    have hb := map_scan_bound env po size only hpo lines
      (page_ceil (map_page_size env) ((po + 1024 * 1024 + 65536) % 2 ^ 64)) calls trace
    generalize map_scan env po size only lines
      (page_ceil (map_page_size env) ((po + 1024 * 1024 + 65536) % 2 ^ 64)) calls trace = s
      at hret hb ⊢
    have hstart : map_page_size env ≤ 0x100000 → po + (map_page_size env - 1) ≤
        page_ceil (map_page_size env) ((po + 1024 * 1024 + 65536) % 2 ^ 64) := by
      intro hps
      have h1 : (po + 1024 * 1024 + 65536) % 2 ^ 64 = po + 1024 * 1024 + 65536 :=
        Nat.mod_eq_of_lt (by omega)
      rw [h1]
      have h2 := le_page_ceil (map_page_size env) (po + 1024 * 1024 + 65536) hpos (by omega)
      omega
    by_cases hw : s.wrong = true
    · rw [if_pos hw] at hret
      exact absurd rfl hret
    · rw [if_neg hw] at hret ⊢
      by_cases hm : s.mem ≠ 0
      · rw [if_pos hm]
        have := hb.2 (by simpa using hw) hm
        exact ⟨this.1, fun hps => this.2 (hstart hps)⟩
      · rw [if_neg hm] at hret ⊢
        have := map_tail_bound env po size only s.num0 s.calls s.trace hpo hsz hret
        exact ⟨this.1, fun hps => this.2 (le_trans (hstart hps) hb.1)⟩

/-- **C12** (placement of `map_memory_32bit`, Linux path).  For every size
(an `unsigned int`), either value of `only_address_space`, every listing and
every result of the `mmap` calls:
* in `websynth/indirect`, with or without the `MAP_32BIT` block, a non-null
  result `p` has `p + size <= 0x80000000` (and `0 <= p`);
* in `websynth/ptrofs`, for a `pointer_offset` in the lower half of the address
  space and a page size of at most 1 MiB, a non-null result `p` has
  `pointer_offset <= p` and `p + size <= pointer_offset + 0x80000000`;
* `size == 0` yields null without any system call. -/
theorem C12_map_memory_placement :
    (∀ (map32bit : Bool) (env : MapEnv) (size only : Nat), size < 2 ^ 32 →
      (map_memory_32bit_indirect map32bit env size only).ret ≠ 0 →
      0 ≤ (map_memory_32bit_indirect map32bit env size only).ret ∧
      (map_memory_32bit_indirect map32bit env size only).ret + size ≤ 0 + 0x80000000) ∧
    (∀ (pointer_offset : Nat) (env : MapEnv) (size only : Nat), size < 2 ^ 32 →
      pointer_offset < 2 ^ 63 → map_page_size env ≤ 0x100000 →
      (map_memory_32bit_ptrofs pointer_offset env size only).ret ≠ 0 →
      pointer_offset ≤ (map_memory_32bit_ptrofs pointer_offset env size only).ret ∧
      (map_memory_32bit_ptrofs pointer_offset env size only).ret + size ≤
        pointer_offset + 0x80000000) ∧
    (∀ (map32bit : Bool) (pointer_offset : Nat) (env : MapEnv) (only : Nat),
      map_memory_32bit map32bit pointer_offset env 0 only = { ret := 0, trace := [] }) := by
  refine ⟨?_, ?_, ?_⟩
  · intro map32bit env size only hsz hret
    refine ⟨Nat.zero_le _, ?_⟩
    unfold map_memory_32bit_indirect map_memory_32bit at hret ⊢
    by_cases h0 : size = 0
    · rw [if_pos h0] at hret
      exact absurd rfl hret
    · rw [if_neg h0] at hret ⊢
      cases map32bit with
      | false =>
        simp only [Bool.false_eq_true, if_false] at hret ⊢
        exact (map_search_bound env 0 size only 0 [] (by norm_num) hsz hret).1
      | true =>
        simp only [if_true] at hret ⊢
        by_cases h1 : map_try env 0 0 size only ≠ MAP_FAILED
        · rw [if_pos h1] at hret ⊢
          by_cases h2 : map_try env 0 0 size only ≥ 0x80000000 ∨
              size + map_try env 0 0 size only > 0x80000000
          · rw [if_pos h2] at hret ⊢
            exact (map_search_bound env 0 size only 1 _ (by norm_num) hsz hret).1
          · rw [if_neg h2]
            show map_try env 0 0 size only + size ≤ 0 + 0x80000000
            omega
        · rw [if_neg h1] at hret ⊢
          exact (map_search_bound env 0 size only 1 _ (by norm_num) hsz hret).1
  · intro po env size only hsz hpo hps hret
    unfold map_memory_32bit_ptrofs map_memory_32bit at hret ⊢
    by_cases h0 : size = 0
    · rw [if_pos h0] at hret
      exact absurd rfl hret
    · rw [if_neg h0] at hret ⊢
      simp only [Bool.false_eq_true, if_false] at hret ⊢
      have := map_search_bound env po size only 0 [] hpo hsz hret
      exact ⟨this.2 hps, this.1⟩
  · intro map32bit po env only
    simp [map_memory_32bit]

/-- Witness of `C12_map_memory_placement`: with the first request failing and
the system mapping where it is asked to, the `indirect` search returns
`0x1ff000` for a request of `0x1000` bytes (the end of the free block below
`0x200000`), and the `ptrofs` search with `pointer_offset = 0x40000000` returns
`0xbffff000` (the end of the 2 GB above the offset). -/
theorem C12_map_memory_placement_witness :
    ((map_memory_32bit_indirect false demoMapEnvGood 0x1000 0).ret = 0x1ff000 ∧
      0 ≤ (map_memory_32bit_indirect false demoMapEnvGood 0x1000 0).ret ∧
      (map_memory_32bit_indirect false demoMapEnvGood 0x1000 0).ret + 0x1000 ≤
        0 + 0x80000000) ∧
    ((map_memory_32bit_ptrofs 0x40000000 demoMapEnvGood 0x1000 0).ret = 0xbffff000 ∧
      0x40000000 ≤ (map_memory_32bit_ptrofs 0x40000000 demoMapEnvGood 0x1000 0).ret ∧
      (map_memory_32bit_ptrofs 0x40000000 demoMapEnvGood 0x1000 0).ret + 0x1000 ≤
        0x40000000 + 0x80000000) :=
  ⟨⟨by decide!, C12_map_memory_placement.1 false demoMapEnvGood 0x1000 0 (by norm_num)
      (by decide!)⟩,
   ⟨by decide!, C12_map_memory_placement.2.1 0x40000000 demoMapEnvGood 0x1000 0 (by norm_num)
      (by norm_num) (by decide!) (by decide!)⟩⟩

/-! ## C13: what a successful load reserves and what unload gives back -/

theorem iter_done_mono {σ α : Type} (body : σ → Ctl σ α) (a : α) :
    ∀ (f f' : Nat) (s : σ), f ≤ f' → iter body f s = Outcome.done a →
      iter body f' s = Outcome.done a := by
  intro f
  induction f with
  | zero =>
    intro f' s _ h
    simp [iter] at h
  | succ f ih =>
    intro f' s hle h
    obtain ⟨g, rfl⟩ : ∃ g, f' = g + 1 := ⟨f' - 1, by omega⟩
    rw [iter] at h ⊢
    cases hb : body s with
    | next s' =>
      rw [hb] at h
      simp only [hb]
      exact ih g s' (by omega) h
    | stop b =>
      rw [hb] at h
      simp only [hb]
      exact h
    | abort b =>
      rw [hb] at h
      simp at h
    | hang =>
      rw [hb] at h
      simp at h

theorem callFn_trace (exec : Nat → Mem → Mem) (a : Nat) (w : World) :
    (callFn exec a w).trace = w.trace ++ [Event.call a] := rfl

theorem callFn_mem (exec : Nat → Mem → Mem) (a : Nat) (w : World) :
    (callFn exec a w).mem = exec a w.mem := rfl

theorem run_entries_trace (exec : Nat → Mem → Mem) (addr : Nat → Nat) :
    ∀ (n off : Nat) (w : World),
      (run_entries exec addr n off w).trace =
        w.trace ++ (entry_calls exec addr n off w.mem).map Event.call := by
  intro n
  induction n with
  | zero =>
    intro off w
    simp [run_entries, entry_calls]
  | succ n ih =>
    intro off w
    rw [run_entries, entry_calls, ih, callFn_trace, callFn_mem]
    simp

/-- A loop `for (off = 0; off < sz; off += 8) call (*(addr off))` run with
enough fuel calls the `ceil (sz / 8)` entries in ascending order. -/
theorem call_loop_runs (exec : Nat → Mem → Mem) (addr : Nat → Nat) (sz : Nat)
    (body : Nat × World → Ctl (Nat × World) World)
    (hb : ∀ s, body s = if s.1 < sz then
      Ctl.next (padd s.1 8, callFn exec (rd64 s.2.mem (addr s.1)) s.2) else Ctl.stop s.2)
    (hsz : sz + 8 ≤ 2 ^ 64) :
    ∀ (k off fuel : Nat) (w : World), k < fuel → k = (sz - off + 7) / 8 →
      iter body fuel (off, w) = Outcome.done (run_entries exec addr k off w) := by
  intro k
  induction k with
  | zero =>
    intro off fuel w hf hk
    obtain ⟨f, rfl⟩ : ∃ f, fuel = f + 1 := ⟨fuel - 1, by omega⟩
    rw [iter, hb]
    have : ¬ off < sz := by omega
    simp [this, run_entries]
  | succ k ih =>
    intro off fuel w hf hk
    obtain ⟨f, rfl⟩ : ∃ f, fuel = f + 1 := ⟨fuel - 1, by omega⟩
    rw [iter, hb]
    have hlt : off < sz := by omega
    have hp : padd off 8 = off + 8 := by
      unfold padd
      exact Nat.mod_eq_of_lt (by omega)
    simp only [hlt, if_true, hp, run_entries]
    exact ih (off + 8) f _ (by omega) (by omega)

/-- With a size above `2 ^ 64 - 8` the loop never ends: the offset wraps before
it gets to the size. -/
theorem call_loop_spins (exec : Nat → Mem → Mem) (addr : Nat → Nat) (sz : Nat)
    (body : Nat × World → Ctl (Nat × World) World)
    (hb : ∀ s, body s = if s.1 < sz then
      Ctl.next (padd s.1 8, callFn exec (rd64 s.2.mem (addr s.1)) s.2) else Ctl.stop s.2)
    (hsz : 2 ^ 64 < sz + 8) :
    ∀ (fuel off : Nat) (w : World), off % 8 = 0 → off < 2 ^ 64 →
      iter body fuel (off, w) = Outcome.timeout := by
  intro fuel
  induction fuel with
  | zero =>
    intro off w _ _
    rfl
  | succ f ih =>
    intro off w h8 hlt
    rw [iter, hb]
    have hlt2 : off < sz := by omega
    simp only [hlt2, if_true]
    apply ih
    · unfold padd; omega
    · unfold padd; exact Nat.mod_lt _ (by norm_num)

/-- Whenever the loop ends, it has called the `ceil (sz / 8)` entries in
ascending order. -/
theorem call_loop_done (exec : Nat → Mem → Mem) (addr : Nat → Nat) (sz : Nat)
    (body : Nat × World → Ctl (Nat × World) World)
    (hb : ∀ s, body s = if s.1 < sz then
      Ctl.next (padd s.1 8, callFn exec (rd64 s.2.mem (addr s.1)) s.2) else Ctl.stop s.2)
    (fuel : Nat) (w w' : World) (h : iter body fuel (0, w) = Outcome.done w') :
    w' = run_entries exec addr ((sz + 7) / 8) 0 w := by
  by_cases hsz : sz + 8 ≤ 2 ^ 64
  · have h1 := call_loop_runs exec addr sz body hb hsz ((sz + 7) / 8) 0
      (fuel + (sz + 7) / 8 + 1) w (by omega) (by simp)
    have h2 := iter_done_mono body w' fuel (fuel + (sz + 7) / 8 + 1) (0, w) (by omega) h
    rw [h1] at h2
    exact (Outcome.done.inj h2).symm
  · have := call_loop_spins exec addr sz body hb (by omega) fuel 0 w (by norm_num) (by norm_num)
    rw [this] at h
    exact absurd h (by simp)

theorem elf_fini_array_body_eq (exec : Nat → Mem → Mem) (library fini_array fini_arraysz : Nat)
    (s : Nat × World) :
    elf_fini_array_body exec library fini_array fini_arraysz s =
      if s.1 < fini_arraysz then
        Ctl.next (padd s.1 8,
          callFn exec (rd64 s.2.mem ((fun off => (fini_array + off + library) % 2 ^ 64) s.1)) s.2)
      else Ctl.stop s.2 := rfl

theorem elf_init_array_body_eq (exec : Nat → Mem → Mem) (library : Nat) (dyn : Nat → Nat)
    (s : Nat × World) :
    elf_init_array_body exec library dyn s =
      if s.1 < dyn DT_INIT_ARRAYSZ then
        Ctl.next (padd s.1 8,
          callFn exec
            (rd64 s.2.mem ((fun off => padd (padd library (dyn DT_INIT_ARRAY)) off) s.1)) s.2)
      else Ctl.stop s.2 := rfl

/-- Counterexample to C14 as stated.  Loading the image `elfLifeImage` calls
`DT_INIT`, `DT_INIT_ARRAY[0]`, `DT_INIT_ARRAY[1]`; the mirror order of
destruction would be `DT_FINI_ARRAY[1]`, `DT_FINI_ARRAY[0]`, `DT_FINI`, but
unloading it calls `DT_FINI`, `DT_FINI_ARRAY[0]`, `DT_FINI_ARRAY[1]`. -/
theorem C14_counterexample :
    (load_library_32bit_elf Variant.indirect demoTable (fun _ m => m) 100 0x10000 0x1000
      elfLifeImage).map (fun r => callsOf r.trace) = some [0x10500, 0x10540, 0x10550] ∧
    elfFiniOf 100 0x10000 elfLifeImage DT_FINI = 0x520 ∧
    rd64 elfLifeImage (0x10000 + 0x710) = 0x10560 ∧
    rd64 elfLifeImage (0x10000 + 0x718) = 0x10570 ∧
    mirror_destructors 0x10000 0x520 [0x10560, 0x10570] = [0x10570, 0x10560, 0x10520] ∧
    (unload_library_32bit_elf demoOs (fun _ m => m) 100 0x10000 elfLifeImage).map
      (fun w => callsOf w.trace) = some [0x10520, 0x10560, 0x10570] ∧
    (unload_library_32bit_elf demoOs (fun _ m => m) 100 0x10000 elfLifeImage).map
      (fun w => callsOf w.trace) ≠ some (mirror_destructors 0x10000 0x520 [0x10560, 0x10570]) :=
  ⟨by decide!, by decide!, by decide!, by decide!, by decide!, by decide!, by decide!⟩

/-- **C14** (amended).  When `unload_library_32bit` returns for a non-null
`library`, its events are: the call of the `DT_FINI` function if `DT_FINI != 0`;
then, if `DT_FINI_ARRAYSZ != 0` and `DT_FINI_ARRAY != 0`, the calls of the
entries of `DT_FINI_ARRAY` in ascending address order (each read when its turn
comes); and, after every one of these calls, one `munmap`.  The destructors are
the ones of the dynamic section of a shared object; for any other image the
three values are 0 and nothing is called. -/
theorem C14_destructor_order (os : Os) (exec : Nat → Mem → Mem) (fuel library : Nat) (m : Mem)
    (w : World) (hl : library ≠ 0)
    (h : unload_library_32bit_elf os exec fuel library m = some w) :
    w.trace =
      ((if elfFiniOf fuel library m DT_FINI ≠ 0 then
          [(elfFiniOf fuel library m DT_FINI + library) % 2 ^ 64] else []) ++
        (if elfFiniOf fuel library m DT_FINI_ARRAYSZ ≠ 0 ∧
            elfFiniOf fuel library m DT_FINI_ARRAY ≠ 0 then
          entry_calls exec
            (fun off => (elfFiniOf fuel library m DT_FINI_ARRAY + off + library) % 2 ^ 64)
            ((elfFiniOf fuel library m DT_FINI_ARRAYSZ + 7) / 8) 0
            (if elfFiniOf fuel library m DT_FINI ≠ 0 then
              exec ((elfFiniOf fuel library m DT_FINI + library) % 2 ^ 64) m else m)
        else [])).map Event.call ++
      [Event.munmap library (elf_unmap_length os library w.mem)] ∧
    (e_type m library ≠ ET_DYN → ∀ t, elfFiniOf fuel library m t = 0) := by
  refine ⟨?_, fun ht t => by simp [elfFiniOf, ht, Outcome.val]⟩
  unfold elfFiniOf
  unfold unload_library_32bit_elf at h
  rw [if_neg hl] at h
  generalize (if e_type m library = ET_DYN then
      elf_read_tags [DT_FINI, DT_FINI_ARRAY, DT_FINI_ARRAYSZ] fuel library m
    else Outcome.done (fun _ => 0)) = o at h ⊢
  cases o with
  | timeout => simp at h
  | fail d => simp at h
  | done d =>
    simp only [Outcome.val, Option.getD_some] at h ⊢
    unfold elf_destructors at h
    by_cases hf : d DT_FINI ≠ 0
    · simp only [hf, if_true, ne_eq, not_false_eq_true] at h ⊢
      by_cases ha : d DT_FINI_ARRAYSZ ≠ 0 ∧ d DT_FINI_ARRAY ≠ 0
      · rw [if_pos ha] at h ⊢
        cases hi : iter (elf_fini_array_body exec library (d DT_FINI_ARRAY) (d DT_FINI_ARRAYSZ))
            fuel (0, callFn exec ((d DT_FINI + library) % 2 ^ 64) { mem := m, trace := [] }) with
        | timeout => rw [hi] at h; simp at h
        | fail x => rw [hi] at h; simp at h
        | done w' =>
          rw [hi] at h
          simp only [Option.some.injEq] at h
          have hw := call_loop_done exec
            (fun off => (d DT_FINI_ARRAY + off + library) % 2 ^ 64) (d DT_FINI_ARRAYSZ) _
            (elf_fini_array_body_eq exec library (d DT_FINI_ARRAY) (d DT_FINI_ARRAYSZ)) fuel _ w' hi
          subst h
          simp only [hw, run_entries_trace, callFn_trace, callFn_mem]
          simp
      · rw [if_neg ha] at h ⊢
        simp only [Option.some.injEq] at h
        subst h
        simp [callFn_trace]
    · simp only [hf, if_false] at h ⊢
      by_cases ha : d DT_FINI_ARRAYSZ ≠ 0 ∧ d DT_FINI_ARRAY ≠ 0
      · rw [if_pos ha] at h ⊢
        cases hi : iter (elf_fini_array_body exec library (d DT_FINI_ARRAY) (d DT_FINI_ARRAYSZ))
            fuel (0, { mem := m, trace := [] }) with
        | timeout => rw [hi] at h; simp at h
        | fail x => rw [hi] at h; simp at h
        | done w' =>
          rw [hi] at h
          simp only [Option.some.injEq] at h
          have hw := call_loop_done exec
            (fun off => (d DT_FINI_ARRAY + off + library) % 2 ^ 64) (d DT_FINI_ARRAYSZ) _
            (elf_fini_array_body_eq exec library (d DT_FINI_ARRAY) (d DT_FINI_ARRAYSZ)) fuel _ w' hi
          subst h
          simp only [hw, run_entries_trace]
          simp
      · rw [if_neg ha] at h ⊢
        simp only [Option.some.injEq] at h
        subst h
        simp

/-- Witness of `C14_destructor_order`: the unload of `elfLifeImage`. -/
theorem C14_destructor_order_witness :
    demoLifeUnloaded.trace =
      ((if elfFiniOf 100 0x10000 elfLifeImage DT_FINI ≠ 0 then
          [(elfFiniOf 100 0x10000 elfLifeImage DT_FINI + 0x10000) % 2 ^ 64] else []) ++
        (if elfFiniOf 100 0x10000 elfLifeImage DT_FINI_ARRAYSZ ≠ 0 ∧
            elfFiniOf 100 0x10000 elfLifeImage DT_FINI_ARRAY ≠ 0 then
          entry_calls (fun _ m => m)
            (fun off => (elfFiniOf 100 0x10000 elfLifeImage DT_FINI_ARRAY + off + 0x10000) % 2 ^ 64)
            ((elfFiniOf 100 0x10000 elfLifeImage DT_FINI_ARRAYSZ + 7) / 8) 0
            (if elfFiniOf 100 0x10000 elfLifeImage DT_FINI ≠ 0 then
              (fun _ m => m) ((elfFiniOf 100 0x10000 elfLifeImage DT_FINI + 0x10000) % 2 ^ 64)
                elfLifeImage else elfLifeImage)
        else [])).map Event.call ++
      [Event.munmap 0x10000 (elf_unmap_length demoOs 0x10000 demoLifeUnloaded.mem)] ∧
    (e_type elfLifeImage 0x10000 ≠ ET_DYN → ∀ t, elfFiniOf 100 0x10000 elfLifeImage t = 0) :=
  C14_destructor_order demoOs (fun _ m => m) 100 0x10000 elfLifeImage demoLifeUnloaded
    (by decide) (eq_some_getD _ _ (by decide!))

/-- The events of the block headed `run constructors` when it runs to its end:
the call of `DT_INIT` if that is not 0, then the calls of the
`ceil (DT_INIT_ARRAYSZ / 8)` entries of `DT_INIT_ARRAY` in ascending order. -/
theorem elf_constructors_done (exec : Nat → Mem → Mem) (fuel library : Nat) (dyn : Nat → Nat)
    (m : Mem) (w : World)
    (h : elf_constructors exec fuel library dyn { mem := m, trace := [] } = Outcome.done w) :
    w.trace =
      ((if dyn DT_INIT ≠ 0 then [padd library (dyn DT_INIT)] else []) ++
        entry_calls exec (fun off => padd (padd library (dyn DT_INIT_ARRAY)) off)
          ((dyn DT_INIT_ARRAYSZ + 7) / 8) 0
          (if dyn DT_INIT ≠ 0 then exec (padd library (dyn DT_INIT)) m else m)).map
        Event.call := by
  unfold elf_constructors at h
  by_cases hf : dyn DT_INIT ≠ 0
  · simp only [hf, if_true, ne_eq, not_false_eq_true] at h ⊢
    by_cases ha : dyn DT_INIT_ARRAYSZ ≠ 0
    · rw [if_pos ha] at h
      by_cases hz : dyn DT_INIT_ARRAY = 0
      · rw [if_pos hz] at h
        simp at h
      · rw [if_neg hz] at h
        have hw := call_loop_done exec
          (fun off => padd (padd library (dyn DT_INIT_ARRAY)) off) (dyn DT_INIT_ARRAYSZ) _
          (elf_init_array_body_eq exec library dyn) fuel _ w h
        simp only [hw, run_entries_trace, callFn_trace, callFn_mem]
        simp
    · rw [if_neg ha] at h
      simp only [Outcome.done.injEq] at h
      subst h
      have h0 : dyn DT_INIT_ARRAYSZ = 0 := not_not.mp ha
      simp [h0, callFn_trace, entry_calls]
  · simp only [hf, if_false] at h ⊢
    by_cases ha : dyn DT_INIT_ARRAYSZ ≠ 0
    · rw [if_pos ha] at h
      by_cases hz : dyn DT_INIT_ARRAY = 0
      · rw [if_pos hz] at h
        simp at h
      · rw [if_neg hz] at h
        have hw := call_loop_done exec
          (fun off => padd (padd library (dyn DT_INIT_ARRAY)) off) (dyn DT_INIT_ARRAYSZ) _
          (elf_init_array_body_eq exec library dyn) fuel _ w h
        simp only [hw, run_entries_trace]
        simp
    · rw [if_neg ha] at h
      simp only [Outcome.done.injEq] at h
      subst h
      have h0 : dyn DT_INIT_ARRAYSZ = 0 := not_not.mp ha
      simp [h0, entry_calls]

/-- Counterexample to C15 as stated: the image `demoElfInitOdd` has `DT_INIT = 0x500`
and a `DT_INIT_ARRAY` at `+0x700` with `DT_INIT_ARRAYSZ = 12`, which is not a multiple
of 8.  The load succeeds in both variants and calls `DT_INIT` and then two entries of
the array, `0x10540` and `0x10550`, where `DT_INIT_ARRAYSZ / 8` is 1: the loop
`for (offset = 0; offset < init_arraysz; offset += 8)` makes a trip for the entry that
is only partly inside the array. -/
theorem C15_counterexample :
    elfDynOf 100 0x10000 demoElfInitOdd DT_INIT = 0x500 ∧
    elfDynOf 100 0x10000 demoElfInitOdd DT_INIT_ARRAY = 0x700 ∧
    elfDynOf 100 0x10000 demoElfInitOdd DT_INIT_ARRAYSZ = 12 ∧
    elfDynOf 100 0x10000 demoElfInitOdd DT_INIT_ARRAYSZ / 8 = 1 ∧
    rd64 demoElfInitOdd 0x10700 = 0x10540 ∧
    rd64 demoElfInitOdd 0x10708 = 0x10550 ∧
    (load_library_32bit_elf Variant.indirect demoTable (fun _ m => m) 100 0x10000 0x1000
      demoElfInitOdd).map (fun r => (r.ret, callsOf r.trace)) =
        some (0x10000, [0x10500, 0x10540, 0x10550]) ∧
    (load_library_32bit_elf Variant.llasm demoTable (fun _ m => m) 100 0x10000 0x1000
      demoElfInitOdd).map (fun r => (r.ret, callsOf r.trace)) =
        some (0x10000, [0x10500, 0x10540, 0x10550]) :=
  ⟨by decide!, by decide!, by decide!, by decide!, by decide!, by decide!, by decide!,
    by decide!⟩

/-- **C15**, amended (constructors of a successful ELF load).  When
`load_library_32bit` returns the image (a non-null result), then the dynamic section
was read, both relocation passes (`DT_RELA`, then `DT_JMPREL`) ran to their end,
leaving memory `m_rel`, and the events of the call are exactly: the call of
`library + DT_INIT` if `DT_INIT != 0`, followed by the calls of the
`ceil (DT_INIT_ARRAYSZ / 8)` entries of `DT_INIT_ARRAY` in ascending address order
(that is `DT_INIT_ARRAYSZ / 8` entries when the size is a multiple of 8, and one more
otherwise), each read when its turn comes, the first call being made on `m_rel`. -/
theorem C15_constructor_sequence (v : Variant) (tbl : SymbolTable) (exec : Nat → Mem → Mem)
    (fuel library libsize : Nat) (m : Mem) (r : Loaded)
    (h : load_library_32bit_elf v tbl exec fuel library libsize m = some r)
    (hret : r.ret ≠ 0) :
    elf_read_dynamic fuel library m = Outcome.done (elfDynOf fuel library m) ∧
    (∃ m_rel : Mem,
      elf_relocate v tbl fuel library (elfDynOf fuel library m) m = Outcome.done m_rel ∧
      r.trace =
        ((if elfDynOf fuel library m DT_INIT ≠ 0 then
            [padd library (elfDynOf fuel library m DT_INIT)] else []) ++
          entry_calls exec
            (fun off => padd (padd library (elfDynOf fuel library m DT_INIT_ARRAY)) off)
            ((elfDynOf fuel library m DT_INIT_ARRAYSZ + 7) / 8) 0
            (if elfDynOf fuel library m DT_INIT ≠ 0 then
              exec (padd library (elfDynOf fuel library m DT_INIT)) m_rel else m_rel)).map
          Event.call) ∧
    (elfDynOf fuel library m DT_INIT_ARRAYSZ % 8 = 0 →
      (elfDynOf fuel library m DT_INIT_ARRAYSZ + 7) / 8 =
        elfDynOf fuel library m DT_INIT_ARRAYSZ / 8) := by
  have hfail : ∀ w, some (elf_error1 library libsize w) = some r → False := by
    intro w hw
    simp only [Option.some.injEq] at hw
    subst hw
    exact hret rfl
  refine ⟨?_, ?_, fun h8 => by omega⟩
  · unfold elfDynOf
    unfold load_library_32bit_elf at h
    by_cases hm : supportedMachine v (e_machine m library) = true
    · rw [if_pos hm] at h
      cases hd : elf_read_dynamic fuel library m with
      | timeout => rw [hd] at h; simp at h
      | fail x => rw [hd] at h; exact absurd h (fun h => hfail _ h)
      | done dyn => simp only [Outcome.val, Option.getD_some]
    · rw [if_neg hm] at h
      exact absurd h (fun h => hfail _ h)
  · unfold elfDynOf
    unfold load_library_32bit_elf at h
    by_cases hm : supportedMachine v (e_machine m library) = true
    · rw [if_pos hm] at h
      cases hd : elf_read_dynamic fuel library m with
      | timeout => rw [hd] at h; simp at h
      | fail x => rw [hd] at h; exact absurd h (fun h => hfail _ h)
      | done dyn =>
        rw [hd] at h
        simp only [Outcome.val, Option.getD_some] at h ⊢
        unfold elf_link at h
        cases hr : elf_relocate v tbl fuel library dyn m with
        | timeout => rw [hr] at h; simp at h
        | fail x => rw [hr] at h; exact absurd h (fun h => hfail _ h)
        | done m_rel =>
          rw [hr] at h
          simp only at h
          refine ⟨m_rel, rfl, ?_⟩
          cases hc : elf_constructors exec fuel library dyn { mem := m_rel, trace := [] } with
          | timeout => rw [hc] at h; simp at h
          | fail x => rw [hc] at h; exact absurd h (fun h => hfail _ h)
          | done w =>
            rw [hc] at h
            simp only [Option.some.injEq] at h
            subst h
            exact elf_constructors_done exec fuel library dyn m_rel w hc
    · rw [if_neg hm] at h
      exact absurd h (fun h => hfail _ h)

/-- Witness of `C15_constructor_sequence`: the image `elfLifeImage` has
`DT_INIT = 0x500` and two entries in `DT_INIT_ARRAY`, `0x10540` and `0x10550`. -/
theorem C15_constructor_sequence_witness :
    ((load_library_32bit_elf Variant.indirect demoTable (fun _ m => m) 100 0x10000 0x1000
      elfLifeImage).map (fun r => callsOf r.trace) = some [0x10500, 0x10540, 0x10550]) ∧
    (elf_read_dynamic 100 0x10000 elfLifeImage =
        Outcome.done (elfDynOf 100 0x10000 elfLifeImage) ∧
      (∃ m_rel : Mem,
        elf_relocate Variant.indirect demoTable 100 0x10000 (elfDynOf 100 0x10000 elfLifeImage)
          elfLifeImage = Outcome.done m_rel ∧
        ((load_library_32bit_elf Variant.indirect demoTable (fun _ m => m) 100 0x10000 0x1000
          elfLifeImage).getD { ret := 0, mem := elfLifeImage, trace := [] }).trace =
          ((if elfDynOf 100 0x10000 elfLifeImage DT_INIT ≠ 0 then
              [padd 0x10000 (elfDynOf 100 0x10000 elfLifeImage DT_INIT)] else []) ++
            entry_calls (fun _ m => m)
              (fun off => padd (padd 0x10000 (elfDynOf 100 0x10000 elfLifeImage DT_INIT_ARRAY)) off)
              ((elfDynOf 100 0x10000 elfLifeImage DT_INIT_ARRAYSZ + 7) / 8) 0
              (if elfDynOf 100 0x10000 elfLifeImage DT_INIT ≠ 0 then
                (fun _ m => m) (padd 0x10000 (elfDynOf 100 0x10000 elfLifeImage DT_INIT)) m_rel
              else m_rel)).map Event.call) ∧
      (elfDynOf 100 0x10000 elfLifeImage DT_INIT_ARRAYSZ % 8 = 0 →
        (elfDynOf 100 0x10000 elfLifeImage DT_INIT_ARRAYSZ + 7) / 8 =
          elfDynOf 100 0x10000 elfLifeImage DT_INIT_ARRAYSZ / 8)) :=
  ⟨by decide!,
   C15_constructor_sequence Variant.indirect demoTable (fun _ m => m) 100 0x10000 0x1000
    elfLifeImage _ (eq_some_getD _ _ (by decide!)) (by decide!)⟩

/-! ## C16: `find_symbol_32bit` on a shared object -/

theorem find_symbol_body_skip (v : Variant) (base : Nat) (name : List Nat)
    (strtab symtab strsz syment : Nat) (m : Mem) (k : Nat) (hn : nulFree name)
    (hin : st_name m (symbolAt base symtab syment k) < strsz)
    (hmiss : ¬ symbolHit v base name strtab m (symbolAt base symtab syment k)) :
    find_symbol_body v base name strtab symtab strsz syment m ((k * syment) % 2 ^ 64) =
      Ctl.next (((k + 1) * syment) % 2 ^ 64) := by
  have hnext : padd ((k * syment) % 2 ^ 64) syment = ((k + 1) * syment) % 2 ^ 64 := by
    unfold padd
    rw [Nat.add_mul, one_mul]
    omega
  unfold symbolAt at hin hmiss
  unfold find_symbol_body
  simp only [hnext]
  rw [if_neg (by omega)]
  by_cases h1 : st_value m ((symtab + (k * syment) % 2 ^ 64 + base) % 2 ^ 64) = 0
  · rw [if_pos h1]
  · rw [if_neg h1]
    by_cases h2 : v = Variant.indirect ∧
        st_info m ((symtab + (k * syment) % 2 ^ 64 + base) % 2 ^ 64) / 16 ≠ STB_GLOBAL
    · rw [if_pos h2]
    · rw [if_neg h2]
      have h3 : strEq m ((strtab +
          st_name m ((symtab + (k * syment) % 2 ^ 64 + base) % 2 ^ 64) + base) % 2 ^ 64)
          name ≠ true := by
        intro he
        apply hmiss
        refine ⟨h1, fun hv => ?_, (strEq_iff m name _ hn).mp he⟩
        by_contra hg
        exact h2 ⟨hv, hg⟩
      rw [if_neg h3]

theorem find_symbol_body_hit (v : Variant) (base : Nat) (name : List Nat)
    (strtab symtab strsz syment : Nat) (m : Mem) (k : Nat) (hn : nulFree name)
    (hin : st_name m (symbolAt base symtab syment k) < strsz)
    (hhit : symbolHit v base name strtab m (symbolAt base symtab syment k)) :
    find_symbol_body v base name strtab symtab strsz syment m ((k * syment) % 2 ^ 64) =
      Ctl.stop ((st_value m (symbolAt base symtab syment k) + base) % 2 ^ 64) := by
  unfold symbolAt at hin hhit ⊢
  unfold find_symbol_body
  simp only
  rw [if_neg (by omega), if_neg hhit.1]
  have h2 : ¬ (v = Variant.indirect ∧
      st_info m ((symtab + (k * syment) % 2 ^ 64 + base) % 2 ^ 64) / 16 ≠ STB_GLOBAL) :=
    fun h => h.2 (hhit.2.1 h.1)
  rw [if_neg h2]
  have h3 := (strEq_iff m name _ hn).mpr hhit.2.2
  rw [if_pos h3]

theorem find_symbol_body_end (v : Variant) (base : Nat) (name : List Nat)
    (strtab symtab strsz syment : Nat) (m : Mem) (k : Nat)
    (hout : strsz ≤ st_name m (symbolAt base symtab syment k)) :
    find_symbol_body v base name strtab symtab strsz syment m ((k * syment) % 2 ^ 64) =
      Ctl.stop 0 := by
  unfold symbolAt at hout
  unfold find_symbol_body
  simp only
  rw [if_pos hout]

theorem find_symbol_reach (v : Variant) (base : Nat) (name : List Nat)
    (strtab symtab strsz syment : Nat) (m : Mem) (hn : nulFree name) :
    ∀ k : Nat,
      (∀ j, j < k → st_name m (symbolAt base symtab syment j) < strsz ∧
        ¬ symbolHit v base name strtab m (symbolAt base symtab syment j)) →
      reach (find_symbol_body v base name strtab symtab strsz syment m) k 0 =
        some ((k * syment) % 2 ^ 64) := by
  have hgen : ∀ (n i : Nat),
      (∀ j, i ≤ j → j < i + n → st_name m (symbolAt base symtab syment j) < strsz ∧
        ¬ symbolHit v base name strtab m (symbolAt base symtab syment j)) →
      reach (find_symbol_body v base name strtab symtab strsz syment m) n
          ((i * syment) % 2 ^ 64) = some (((i + n) * syment) % 2 ^ 64) := by
    intro n
    induction n with
    | zero =>
      intro i _
      rfl
    | succ n ih =>
      intro i h
      have hi := h i (le_refl _) (by omega)
      rw [reach, find_symbol_body_skip v base name strtab symtab strsz syment m i hn hi.1 hi.2]
      simp only
      rw [ih (i + 1) (fun j h1 h2 => h j (by omega) (by omega))]
      congr 2
      ring
  intro k h
  have := hgen k 0 (fun j _ h2 => h j (by omega))
  simpa using this

/-- The loop of `find_symbol_32bit` (either branch, either variant): when the
entries `0 .. k-1` lie inside the string table and none of them is what is
looked for, the result is decided by entry `k`: its value (plus `base`) if it
lies inside the string table and is what is looked for, null if its `st_name`
is at or beyond `strsz`. -/
theorem find_symbol_first (v : Variant) (base : Nat) (name : List Nat)
    (strtab symtab strsz syment : Nat) (m : Mem) (fuel k : Nat) (hn : nulFree name)
    (hf : k < fuel)
    (hbefore : ∀ j, j < k → st_name m (symbolAt base symtab syment j) < strsz ∧
      ¬ symbolHit v base name strtab m (symbolAt base symtab syment j)) :
    (st_name m (symbolAt base symtab syment k) < strsz →
      symbolHit v base name strtab m (symbolAt base symtab syment k) →
      iter (find_symbol_body v base name strtab symtab strsz syment m) fuel 0 =
        Outcome.done ((st_value m (symbolAt base symtab syment k) + base) % 2 ^ 64)) ∧
    (strsz ≤ st_name m (symbolAt base symtab syment k) →
      iter (find_symbol_body v base name strtab symtab strsz syment m) fuel 0 =
        Outcome.done 0) := by
  have hr := find_symbol_reach v base name strtab symtab strsz syment m hn k hbefore
  exact ⟨fun hin hhit => iter_stop_of_reach _ k 0 _ _ fuel hr
      (find_symbol_body_hit v base name strtab symtab strsz syment m k hn hin hhit) hf,
    fun hout => iter_stop_of_reach _ k 0 _ _ fuel hr
      (find_symbol_body_end v base name strtab symtab strsz syment m k hout) hf⟩

/-- **C16** (code defect, llasm variant).  The dynamic symbol table of
`elfLifeImage` (a shared object) holds, in this order, a defined symbol `foo`
of local binding at `+0x510` and a defined symbol `foo` of global binding at
`+0x530`.  `find_symbol_32bit (library, "foo")` of `websynth/indirect` returns
`library + 0x530`, the first defined global symbol of that name; the function
of `websynth/llasm/indirect`, which has no test on the binding, returns
`library + 0x510`, the local symbol.  Both return null for the undefined symbol
`bar`, for a null handle, a null name and an empty name. -/
theorem C16_llasm_returns_local_symbol :
    e_type elfLifeImage 0x10000 = ET_DYN ∧
    st_info elfLifeImage (symbolAt 0x10000 0x100 24 1) / 16 ≠ STB_GLOBAL ∧
    symbolHit Variant.indirect 0x10000 [102, 111, 111] 0x200 elfLifeImage
      (symbolAt 0x10000 0x100 24 2) ∧
    find_symbol_32bit_elf Variant.indirect demoOs 100 0x10000 (some [102, 111, 111])
      elfLifeImage = some (0x10000 + 0x530) ∧
    find_symbol_32bit_elf Variant.llasm demoOs 100 0x10000 (some [102, 111, 111])
      elfLifeImage = some (0x10000 + 0x510) ∧
    (∀ v : Variant,
      find_symbol_32bit_elf v demoOs 100 0x10000 (some [98, 97, 114]) elfLifeImage = some 0 ∧
      find_symbol_32bit_elf v demoOs 100 0 (some [102, 111, 111]) elfLifeImage = some 0 ∧
      find_symbol_32bit_elf v demoOs 100 0x10000 none elfLifeImage = some 0 ∧
      find_symbol_32bit_elf v demoOs 100 0x10000 (some []) elfLifeImage = some 0) := by
  refine ⟨by decide!, by decide!, ⟨by decide!, fun _ => by decide!, ?_⟩, by decide!, by decide!,
    ?_⟩
  · exact (strEq_iff elfLifeImage [102, 111, 111] _ (by unfold nulFree; decide)).mp (by decide!)
  · intro v
    cases v <;> exact ⟨by decide!, by decide!, by decide!, by decide!⟩

/-! ## C17: segments that are copied -/

theorem x86_initialize_cpu_ready (b : Build) (s : Host Cpu) (h : s.thread_ctx ≠ 0) :
    x86_initialize_cpu b s = Except.ok (s.thread_ctx, s) := by
  unfold x86_initialize_cpu
  simp only []
  rw [if_pos h]

theorem x86_initialize_stack_ready (b : Build) (s : Host Stack) (h : s.thread_ctx ≠ 0) :
    x86_initialize_stack b s = Except.ok (s.thread_ctx, s) := by
  unfold x86_initialize_stack
  simp only []
  rw [if_pos h]

/-- A first call of `x86_initialize_cpu` that gets its block: the context lies
`1024 * 1022` bytes into the block, the emulated stack pointer is the low half of
`stack_top`, and nothing is called. -/
theorem x86_initialize_cpu_fresh (b : Build) (s : Host Cpu) (h : s.thread_ctx = 0)
    (ha : b.alloc s.allocated.length ≠ 0) :
    ∃ s1, x86_initialize_cpu b s
        = Except.ok ((1024 * 1022 + b.alloc s.allocated.length) % 2 ^ 64, s1) ∧
      s1.thread_ctx = (1024 * 1022 + b.alloc s.allocated.length) % 2 ^ 64 ∧
      s1.invoked = s.invoked ∧ s1.library = s.library ∧ s1.mem = s.mem ∧
      s1.allocated = s.allocated ++ [b.alloc s.allocated.length] := by
  unfold x86_initialize_cpu
  simp only []
  rw [if_neg (by simp [h]), if_neg ha]
  refine ⟨_, rfl, rfl, ?_, ?_, ?_, ?_⟩ <;> cases b.indirect64 <;> simp [ctx_update]

theorem x86_initialize_stack_fresh (b : Build) (s : Host Stack) (h : s.thread_ctx = 0)
    (ha : b.alloc s.allocated.length ≠ 0) :
    ∃ s1, x86_initialize_stack b s
        = Except.ok ((1024 * 1022 + b.alloc s.allocated.length) % 2 ^ 64, s1) ∧
      s1.thread_ctx = (1024 * 1022 + b.alloc s.allocated.length) % 2 ^ 64 ∧
      s1.invoked = s.invoked ∧ s1.library = s.library ∧ s1.mem = s.mem ∧
      s1.allocated = s.allocated ++ [b.alloc s.allocated.length] := by
  unfold x86_initialize_stack
  simp only []
  rw [if_neg (by simp [h]), if_neg ha]
  exact ⟨_, rfl, rfl, rfl, rfl, rfl, rfl⟩

theorem x86_initialize_cpu_ctx (b : Build) (s : Host Cpu) (p : Nat) (s1 : Host Cpu)
    (h : x86_initialize_cpu b s = Except.ok (p, s1)) : s1.thread_ctx = p := by
  by_cases h0 : s.thread_ctx = 0
  · by_cases ha : b.alloc s.allocated.length = 0
    · unfold x86_initialize_cpu at h
      simp only [] at h
      rw [if_neg (by simp [h0]), if_pos ha] at h
      cases h
    · obtain ⟨s2, h2, h3, -⟩ := x86_initialize_cpu_fresh b s h0 ha
      rw [h2] at h
      cases h
      exact h3
  · rw [x86_initialize_cpu_ready b s h0] at h
    cases h
    rfl

theorem x86_initialize_stack_ctx (b : Build) (s : Host Stack) (p : Nat) (s1 : Host Stack)
    (h : x86_initialize_stack b s = Except.ok (p, s1)) : s1.thread_ctx = p := by
  by_cases h0 : s.thread_ctx = 0
  · by_cases ha : b.alloc s.allocated.length = 0
    · unfold x86_initialize_stack at h
      simp only [] at h
      rw [if_neg (by simp [h0]), if_pos ha] at h
      cases h
    · obtain ⟨s2, h2, h3, -⟩ := x86_initialize_stack_fresh b s h0 ha
      rw [h2] at h
      cases h
      exact h3
  · rw [x86_initialize_stack_ready b s h0] at h
    cases h
    rfl

/-- C18: `x86_initialize_cpu` and `x86_initialize_stack` are idempotent. On a thread
that has a context (`thread_cpu`, respectively `thread_stack`, is not `NULL`) the call
returns that pointer and leaves the whole state as it was: no block is allocated, no
member of the context is written. Hence, when a call has returned a pointer that is
not `NULL`, the next call returns the same pointer and changes nothing. -/
theorem C18_initialize_idempotent (b : Build) (s : Host Cpu) (t : Host Stack)
    (hs : s.thread_ctx ≠ 0) (ht : t.thread_ctx ≠ 0) :
    x86_initialize_cpu b s = Except.ok (s.thread_ctx, s) ∧
    x86_initialize_stack b t = Except.ok (t.thread_ctx, t) ∧
    (∀ (s0 s1 : Host Cpu) (p : Nat), x86_initialize_cpu b s0 = Except.ok (p, s1) → p ≠ 0 →
      x86_initialize_cpu b s1 = Except.ok (p, s1)) ∧
    (∀ (t0 t1 : Host Stack) (p : Nat), x86_initialize_stack b t0 = Except.ok (p, t1) → p ≠ 0 →
      x86_initialize_stack b t1 = Except.ok (p, t1)) := by
  refine ⟨x86_initialize_cpu_ready b s hs, x86_initialize_stack_ready b t ht, ?_, ?_⟩
  · intro s0 s1 p h hp
    have hc := x86_initialize_cpu_ctx b s0 p s1 h
    have := x86_initialize_cpu_ready b s1 (by rw [hc]; exact hp)
    rw [hc] at this
    exact this
  · intro t0 t1 p h hp
    have hc := x86_initialize_stack_ctx b t0 p t1 h
    have := x86_initialize_stack_ready b t1 (by rw [hc]; exact hp)
    rw [hc] at this
    exact this

/-- Witness of `C18_initialize_idempotent`: the example thread after its first call,
whose context lies at `0x200ff800`. -/
theorem C18_initialize_idempotent_witness :
    demoHostReady.thread_ctx = 0x200ff800 ∧ demoHostReadyX64.thread_ctx = 0x200ff800 ∧
    (x86_initialize_cpu demoBuild demoHostReady
        = Except.ok (demoHostReady.thread_ctx, demoHostReady) ∧
     x86_initialize_stack demoBuild demoHostReadyX64
        = Except.ok (demoHostReadyX64.thread_ctx, demoHostReadyX64) ∧
     (∀ (s0 s1 : Host Cpu) (p : Nat), x86_initialize_cpu demoBuild s0 = Except.ok (p, s1) →
        p ≠ 0 → x86_initialize_cpu demoBuild s1 = Except.ok (p, s1)) ∧
     (∀ (t0 t1 : Host Stack) (p : Nat), x86_initialize_stack demoBuild t0 = Except.ok (p, t1) →
        p ≠ 0 → x86_initialize_stack demoBuild t1 = Except.ok (p, t1))) :=
  ⟨by decide, by decide,
   C18_initialize_idempotent demoBuild demoHostReady demoHostReadyX64
    (by decide) (by decide)⟩

theorem CHECK_LIBRARY_loaded {κ : Type} (b : Build) (s : Host κ)
    (h : b.indirect64 = true → s.library ≠ 0) : CHECK_LIBRARY b s = false := by
  unfold CHECK_LIBRARY
  cases hb : b.indirect64
  · rfl
  · simp [h hb]

theorem block_ctx_ne_zero (a : Nat) (h : a + 2 ^ 20 ≤ 2 ^ 64) :
    (1024 * 1022 + a) % 2 ^ 64 ≠ 0 := by
  omega

/-- Function `D77_GetRenderedSamplesPerCall` reads the variable of the image and
leaves the state of the thread as it finds it. -/
theorem D77_GetRenderedSamplesPerCall_state {κ : Type} (b : Build) (s : Host κ)
    (h : b.indirect64 = true → s.library ≠ 0) :
    D77_GetRenderedSamplesPerCall b s
      = Except.ok (rd32 s.mem b.dwRenderedSamplesPerCall_asm, s) := by
  unfold D77_GetRenderedSamplesPerCall
  rw [CHECK_LIBRARY_loaded b s h]
  rfl

/-- Counterexample of C19 as stated: with the library loaded and no context on the
thread, `D77_GetRenderedSamplesPerCall` returns, in `functions-llasm.c` and in
`functions-x64.c`, and the thread has no context afterwards. -/
theorem C19_counterexample :
    (demoHost Cpu demoCpu).library ≠ 0 ∧ ¬ Ready (demoHost Cpu demoCpu) ∧
    (∃ s1, facade_llasm demoBuild demoImageAsm FacadeCall.GetRenderedSamplesPerCall
        (demoHost Cpu demoCpu) = Except.ok s1 ∧ ¬ Ready s1) ∧
    (∃ t1, facade_x64 demoBuild demoImageX64 FacadeCall.GetRenderedSamplesPerCall
        (demoHost Stack ⟨0, 0, 0⟩) = Except.ok t1 ∧ ¬ Ready t1) :=
  ⟨by decide, by decide, ⟨_, rfl, by decide⟩, ⟨_, rfl, by decide⟩⟩

theorem x64_enter_ready (b : Build) (img : ImageX64) (fn : ImageFn) (args : List Nat)
    (t : Host Stack) (p : Nat) (t0 : Host Stack)
    (hlib : b.indirect64 = true → t.library ≠ 0)
    (h0 : x86_initialize_stack b t = Except.ok (p, t0)) :
    ∃ t1, (x64_enter b img fn args t).map Prod.snd = Except.ok t1 ∧ t1.thread_ctx = p := by
  unfold x64_enter
  rw [CHECK_LIBRARY_loaded b t hlib, h0]
  exact ⟨_, rfl, x86_initialize_stack_ctx b t p t0 h0⟩

theorem facade_llasm_ready (b : Build) (img : ImageAsm) (call : FacadeCall)
    (s : Host Cpu) (p : Nat) (s0 : Host Cpu)
    (hcall : call ≠ FacadeCall.GetRenderedSamplesPerCall)
    (hlib : b.indirect64 = true → s.library ≠ 0)
    (h0 : x86_initialize_cpu b s = Except.ok (p, s0)) :
    ∃ s1, facade_llasm b img call s = Except.ok s1 ∧ s1.thread_ctx = p := by
  have hc := x86_initialize_cpu_ctx b s p s0 h0
  have hl := CHECK_LIBRARY_loaded b s hlib
  cases call <;>
    first
    | exact absurd rfl hcall
    | (simp only [facade_llasm, D77_ValidateSettings, D77_InitializeDataFile,
        D77_InitializeSynth, D77_InitializeUnknown, D77_InitializeEffect,
        D77_InitializeCpuLoad, D77_InitializeParameters, D77_InitializeMasterVolume,
        D77_MidiMessageShort, D77_MidiMessageLong, D77_RenderSamples, hl, h0]
       exact ⟨_, rfl, hc⟩)

theorem facade_x64_ready (b : Build) (img : ImageX64) (call : FacadeCall)
    (t : Host Stack) (p : Nat) (t0 : Host Stack)
    (hcall : call ≠ FacadeCall.GetRenderedSamplesPerCall)
    (hlib : b.indirect64 = true → t.library ≠ 0)
    (h0 : x86_initialize_stack b t = Except.ok (p, t0)) :
    ∃ t1, facade_x64 b img call t = Except.ok t1 ∧ t1.thread_ctx = p := by
  cases call <;>
    first
    | exact absurd rfl hcall
    | exact x64_enter_ready b img _ _ t p t0 hlib h0

/-- C19, amended: every function of the facade other than
`D77_GetRenderedSamplesPerCall`, called with the library loaded on a thread without
a context, returns and leaves the thread Ready, in `functions-llasm.c` and in
`functions-x64.c`, provided the allocation of the 1 MiB block succeeds (otherwise
`x86_initialize_cpu` ends the process with `exit(2)`) and the block lies inside the
address space. -/
theorem C19_facade_initializes (b : Build) (img : ImageAsm) (img64 : ImageX64)
    (call : FacadeCall) (s : Host Cpu) (t : Host Stack)
    (hcall : call ≠ FacadeCall.GetRenderedSamplesPerCall)
    (hlib : b.indirect64 = true → s.library ≠ 0)
    (hlib64 : b.indirect64 = true → t.library ≠ 0)
    (hs : ¬ Ready s) (ht : ¬ Ready t)
    (ha : b.alloc s.allocated.length ≠ 0 ∧ b.alloc s.allocated.length + 2 ^ 20 ≤ 2 ^ 64)
    (ha64 : b.alloc t.allocated.length ≠ 0 ∧
      b.alloc t.allocated.length + 2 ^ 20 ≤ 2 ^ 64) :
    (∃ s1, facade_llasm b img call s = Except.ok s1 ∧ Ready s1) ∧
    (∃ t1, facade_x64 b img64 call t = Except.ok t1 ∧ Ready t1) := by
  have hs0 : s.thread_ctx = 0 := by
    unfold Ready at hs
    exact not_not.mp hs
  have ht0 : t.thread_ctx = 0 := by
    unfold Ready at ht
    exact not_not.mp ht
  obtain ⟨s0, h0, -⟩ := x86_initialize_cpu_fresh b s hs0 ha.1
  obtain ⟨t0, g0, -⟩ := x86_initialize_stack_fresh b t ht0 ha64.1
  obtain ⟨s1, h1, h2⟩ := facade_llasm_ready b img call s _ s0 hcall hlib h0
  obtain ⟨t1, g1, g2⟩ := facade_x64_ready b img64 call t _ t0 hcall hlib64 g0
  refine ⟨⟨s1, h1, ?_⟩, ⟨t1, g1, ?_⟩⟩
  · unfold Ready
    rw [h2]
    exact block_ctx_ne_zero _ ha.2
  · unfold Ready
    rw [g2]
    exact block_ctx_ne_zero _ ha64.2

/-- Witness of `C19_facade_initializes`: `D77_RenderSamples` on the example thread. -/
theorem C19_facade_initializes_witness :
    (∃ s1, facade_llasm demoBuild demoImageAsm (FacadeCall.RenderSamples 0x30000000)
        (demoHost Cpu demoCpu) = Except.ok s1 ∧ Ready s1) ∧
    (∃ t1, facade_x64 demoBuild demoImageX64 (FacadeCall.RenderSamples 0x30000000)
        (demoHost Stack ⟨0, 0, 0⟩) = Except.ok t1 ∧ Ready t1) :=
  C19_facade_initializes demoBuild demoImageAsm demoImageX64
    (FacadeCall.RenderSamples 0x30000000) (demoHost Cpu demoCpu)
    (demoHost Stack ⟨0, 0, 0⟩) (by decide) (by decide) (by decide) (by decide)
    (by decide) (by decide) (by decide)

theorem x86_initialize_cpu_returns (b : Build) (s : Host Cpu)
    (h : s.thread_ctx ≠ 0 ∨ b.alloc s.allocated.length ≠ 0) :
    ∃ cpu s0, x86_initialize_cpu b s = Except.ok (cpu, s0) := by
  by_cases h0 : s.thread_ctx = 0
  · rcases h with h | h
    · exact absurd h0 h
    · obtain ⟨s1, h1, -⟩ := x86_initialize_cpu_fresh b s h0 h
      exact ⟨_, s1, h1⟩
  · exact ⟨_, s, x86_initialize_cpu_ready b s h0⟩

theorem push_esp (e : Nat) :
    (((e + (2 ^ 32 - 4)) % 2 ^ 32 : Nat) : Int) = ((e : Int) - 4) % 2 ^ 32 := by
  norm_num
  omega

/-- C20: with the library loaded and a context at hand (the thread has one, or the
allocation of a first one succeeds), `D77_InitializeSynth(f, p, t)` returns after one
call of `c_InitializeSynth_asm` with the context of the thread, which the callee
enters with `ecx = f`, `edx = p`, `esp` four less (modulo `2 ^ 32`) than
`x86_initialize_cpu` has returned it, and the word `t` at `REG2PTR(esp)`; the value
returned is the `eax` the callee leaves. `D77_MidiMessageLong(lpMessage, len)` does the
same with `c_MidiMessageLong_asm`, the low 32 bits of `lpMessage` in `ecx`, `len` in
`edx` and the word `0` pushed. -/
theorem C20_fastcall_marshalling (b : Build) (img : ImageAsm)
    (f p t lpMessage len : Nat) (s : Host Cpu)
    (hf : f < 2 ^ 32) (hp : p < 2 ^ 32) (ht : t < 2 ^ 32) (hlen : len < 2 ^ 32)
    (hlib : b.indirect64 = true → s.library ≠ 0)
    (hctx : s.thread_ctx ≠ 0 ∨ b.alloc s.allocated.length ≠ 0) :
    ∃ cpu s0, x86_initialize_cpu b s = Except.ok (cpu, s0) ∧
      (∃ ret s1 c, D77_InitializeSynth b img f p t s = Except.ok (ret, s1) ∧
        s1.invoked = s0.invoked ++ [c] ∧ c.fn = ImageFn.InitializeSynth ∧ c.ctx = cpu ∧
        c.regs.ecx = f ∧ c.regs.edx = p ∧
        (c.regs.esp : Int) = (((s0.ctx_at cpu).esp : Int) - 4) % 2 ^ 32 ∧
        rd32 c.mem (b.reg2ptr c.regs.esp) = t ∧
        s1.ctx_at cpu = (img ImageFn.InitializeSynth cpu c.regs c.mem).1 ∧
        ret = (s1.ctx_at cpu).eax) ∧
      (∃ ret s1 c, D77_MidiMessageLong b img lpMessage len s = Except.ok (ret, s1) ∧
        s1.invoked = s0.invoked ++ [c] ∧ c.fn = ImageFn.MidiMessageLong ∧ c.ctx = cpu ∧
        c.regs.ecx = lpMessage % 2 ^ 32 ∧ c.regs.edx = len ∧
        (c.regs.esp : Int) = (((s0.ctx_at cpu).esp : Int) - 4) % 2 ^ 32 ∧
        rd32 c.mem (b.reg2ptr c.regs.esp) = 0 ∧
        s1.ctx_at cpu = (img ImageFn.MidiMessageLong cpu c.regs c.mem).1 ∧
        ret = (s1.ctx_at cpu).eax) := by
  obtain ⟨cpu, s0, h0⟩ := x86_initialize_cpu_returns b s hctx
  have hl := CHECK_LIBRARY_loaded b s hlib
  refine ⟨cpu, s0, h0, ?_, ?_⟩
  · refine ⟨((call_asm img ImageFn.InitializeSynth cpu
        (push32 b cpu t (ctx_update (ctx_update s0 cpu (fun c => { c with ecx := f % 2 ^ 32 })) cpu
        (fun c => { c with edx := p % 2 ^ 32 })))).ctx_at cpu).eax,
      call_asm img ImageFn.InitializeSynth cpu
        (push32 b cpu t (ctx_update (ctx_update s0 cpu (fun c => { c with ecx := f % 2 ^ 32 })) cpu
        (fun c => { c with edx := p % 2 ^ 32 }))),
      ⟨ImageFn.InitializeSynth, cpu,
        Host.ctx_at (push32 b cpu t (ctx_update (ctx_update s0 cpu (fun c => { c with ecx := f % 2 ^ 32 })) cpu
        (fun c => { c with edx := p % 2 ^ 32 }))) cpu,
        Host.mem (push32 b cpu t (ctx_update (ctx_update s0 cpu (fun c => { c with ecx := f % 2 ^ 32 })) cpu
        (fun c => { c with edx := p % 2 ^ 32 }))), []⟩,
      ?_, rfl, rfl, rfl, ?_, ?_, ?_, ?_, ?_, rfl⟩
    · simp only [D77_InitializeSynth, hl, h0]
      rfl
    · simp only [push32, ctx_update, if_true]
      exact Nat.mod_eq_of_lt hf
    · simp only [push32, ctx_update, if_true]
      exact Nat.mod_eq_of_lt hp
    · simp only [push32, ctx_update, if_true]
      exact push_esp _
    · simp only [push32, ctx_update, if_true]
      rw [rd32_wr32, Nat.mod_eq_of_lt ht]
    · simp [call_asm]
  · refine ⟨((call_asm img ImageFn.MidiMessageLong cpu
        (push32 b cpu 0 (ctx_update (ctx_update s0 cpu (fun c => { c with ecx := lpMessage % 2 ^ 32 }))
        cpu (fun c => { c with edx := len % 2 ^ 32 })))).ctx_at cpu).eax,
      call_asm img ImageFn.MidiMessageLong cpu
        (push32 b cpu 0 (ctx_update (ctx_update s0 cpu (fun c => { c with ecx := lpMessage % 2 ^ 32 }))
        cpu (fun c => { c with edx := len % 2 ^ 32 }))),
      ⟨ImageFn.MidiMessageLong, cpu,
        Host.ctx_at (push32 b cpu 0 (ctx_update (ctx_update s0 cpu (fun c => { c with ecx := lpMessage % 2 ^ 32 }))
        cpu (fun c => { c with edx := len % 2 ^ 32 }))) cpu,
        Host.mem (push32 b cpu 0 (ctx_update (ctx_update s0 cpu (fun c => { c with ecx := lpMessage % 2 ^ 32 }))
        cpu (fun c => { c with edx := len % 2 ^ 32 }))), []⟩,
      ?_, rfl, rfl, rfl, ?_, ?_, ?_, ?_, ?_, rfl⟩
    · simp only [D77_MidiMessageLong, hl, h0]
      rfl
    · simp [push32, ctx_update]
    · simp only [push32, ctx_update, if_true]
      exact Nat.mod_eq_of_lt hlen
    · simp only [push32, ctx_update, if_true]
      exact push_esp _
    · simp only [push32, ctx_update, if_true]
      rw [rd32_wr32]
      rfl
    · simp [call_asm]

/-- Witness of `C20_fastcall_marshalling`: the example thread, sampling frequency
44100, polyphony 64, time resolution 80, and a message of 16 bytes at
`0x120000040`. -/
theorem C20_fastcall_marshalling_witness :
    ∃ cpu s0, x86_initialize_cpu demoBuild (demoHost Cpu demoCpu) = Except.ok (cpu, s0) ∧
      (∃ ret s1 c, D77_InitializeSynth demoBuild demoImageAsm 44100 64 80
          (demoHost Cpu demoCpu) = Except.ok (ret, s1) ∧
        s1.invoked = s0.invoked ++ [c] ∧ c.fn = ImageFn.InitializeSynth ∧ c.ctx = cpu ∧
        c.regs.ecx = 44100 ∧ c.regs.edx = 64 ∧
        (c.regs.esp : Int) = (((s0.ctx_at cpu).esp : Int) - 4) % 2 ^ 32 ∧
        rd32 c.mem (demoBuild.reg2ptr c.regs.esp) = 80 ∧
        s1.ctx_at cpu = (demoImageAsm ImageFn.InitializeSynth cpu c.regs c.mem).1 ∧
        ret = (s1.ctx_at cpu).eax) ∧
      (∃ ret s1 c, D77_MidiMessageLong demoBuild demoImageAsm 0x120000040 16
          (demoHost Cpu demoCpu) = Except.ok (ret, s1) ∧
        s1.invoked = s0.invoked ++ [c] ∧ c.fn = ImageFn.MidiMessageLong ∧ c.ctx = cpu ∧
        c.regs.ecx = 0x120000040 % 2 ^ 32 ∧ c.regs.edx = 16 ∧
        (c.regs.esp : Int) = (((s0.ctx_at cpu).esp : Int) - 4) % 2 ^ 32 ∧
        rd32 c.mem (demoBuild.reg2ptr c.regs.esp) = 0 ∧
        s1.ctx_at cpu = (demoImageAsm ImageFn.MidiMessageLong cpu c.regs c.mem).1 ∧
        ret = (s1.ctx_at cpu).eax) :=
  C20_fastcall_marshalling demoBuild demoImageAsm 44100 64 80 0x120000040 16
    (demoHost Cpu demoCpu) (by decide) (by decide) (by decide) (by decide) (by decide)
    (Or.inr (by decide))

/-! ## C21, C22 and C23: the facade at its boundary -/

/-- C21: when the function `c_MidiMessageShort_asm` of the image leaves in `eax` the
`ecx` it is entered with, `D77_MidiMessageShort (m)` returns `m` for every 32-bit
`m`, on a thread that has a context and on one that gets its context in the call
(provided the library is loaded and the allocation of the block succeeds). -/
theorem C21_midi_short_round_trip (b : Build) (img : ImageAsm) (m : Nat) (s : Host Cpu)
    (hm : m < 2 ^ 32)
    (hstub : ∀ (cpu : Nat) (c : Cpu) (mem : Mem),
      (img ImageFn.MidiMessageShort cpu c mem).1.eax = c.ecx)
    (hlib : b.indirect64 = true → s.library ≠ 0)
    (hctx : s.thread_ctx ≠ 0 ∨ b.alloc s.allocated.length ≠ 0) :
    ∃ s1, D77_MidiMessageShort b img m s = Except.ok (m, s1) := by
  obtain ⟨cpu, s0, h0⟩ := x86_initialize_cpu_returns b s hctx
  have hl := CHECK_LIBRARY_loaded b s hlib
  simp only [D77_MidiMessageShort, hl, h0, Bool.false_eq_true, if_false]
  refine ⟨_, congrArg Except.ok (Prod.ext ?_ rfl)⟩
  simp only [call_asm, ctx_update, if_true, hstub]
  exact Nat.mod_eq_of_lt hm

/-- Witness of `C21_midi_short_round_trip`: the two boundary values, `0x7fffffff` on
the example thread without a context and `0` on the example thread with one. -/
theorem C21_midi_short_round_trip_witness :
    (∃ s1, D77_MidiMessageShort demoBuild demoImageStub 0x7fffffff (demoHost Cpu demoCpu)
      = Except.ok (0x7fffffff, s1)) ∧
    (∃ s1, D77_MidiMessageShort demoBuild demoImageStub 0 demoHostReady
      = Except.ok (0, s1)) :=
  ⟨C21_midi_short_round_trip demoBuild demoImageStub 0x7fffffff (demoHost Cpu demoCpu)
      (by decide) (fun _ _ _ => rfl) (by decide) (Or.inr (by decide)),
   C21_midi_short_round_trip demoBuild demoImageStub 0 demoHostReady
      (by decide) (fun _ _ _ => rfl) (by decide) (Or.inl (by decide))⟩

theorem CHECK_LIBRARY_unloaded {κ : Type} (b : Build) (s : Host κ)
    (hb : b.indirect64 = true) (h : s.library = 0) : CHECK_LIBRARY b s = true := by
  unfold CHECK_LIBRARY
  simp [hb, h]

/-- C22: with `INDIRECT_64BIT` defined and no library loaded, each of the twelve
functions of the facade, in `functions-llasm.c` and in `functions-x64.c`, ends the
process with `exit (3)` in the state it was called in: no block has been allocated,
the thread has got no context, and no function of the image has been called. -/
theorem C22_no_library_exits (b : Build) (img : ImageAsm) (img64 : ImageX64)
    (call : FacadeCall) (s : Host Cpu) (t : Host Stack)
    (hb : b.indirect64 = true) (hs : s.library = 0) (ht : t.library = 0) :
    facade_llasm b img call s = Except.error { status := 3, host := s } ∧
    facade_x64 b img64 call t = Except.error { status := 3, host := t } := by
  have h1 := CHECK_LIBRARY_unloaded b s hb hs
  have h2 := CHECK_LIBRARY_unloaded b t hb ht
  constructor
  · cases call <;>
      simp only [facade_llasm, D77_ValidateSettings, D77_InitializeDataFile,
        D77_InitializeSynth, D77_InitializeUnknown, D77_InitializeEffect,
        D77_InitializeCpuLoad, D77_InitializeParameters, D77_InitializeMasterVolume,
        D77_GetRenderedSamplesPerCall, D77_MidiMessageShort, D77_MidiMessageLong,
        D77_RenderSamples, h1, if_true] <;> rfl
  · cases call <;>
      simp only [facade_x64, x64_enter, D77_GetRenderedSamplesPerCall, h2, if_true] <;> rfl

/-- Witness of `C22_no_library_exits`: `D77_RenderSamples` on the example thread with
no library loaded. -/
theorem C22_no_library_exits_witness :
    facade_llasm demoBuild demoImageAsm (FacadeCall.RenderSamples 0x30000000)
        (demoHostUnloaded Cpu demoCpu)
      = Except.error { status := 3, host := demoHostUnloaded Cpu demoCpu } ∧
    facade_x64 demoBuild demoImageX64 (FacadeCall.RenderSamples 0x30000000)
        (demoHostUnloaded Stack ⟨0, 0, 0⟩)
      = Except.error { status := 3, host := demoHostUnloaded Stack ⟨0, 0, 0⟩ } :=
  C22_no_library_exits demoBuild demoImageAsm demoImageX64
    (FacadeCall.RenderSamples 0x30000000) (demoHostUnloaded Cpu demoCpu)
    (demoHostUnloaded Stack ⟨0, 0, 0⟩) rfl rfl rfl

theorem facadeSymbols_complete (sym : FacadeSymbol) : sym ∈ facadeSymbols := by
  cases sym with
  | fn f => cases f <;> decide
  | dwRenderedSamplesPerCall_asm => decide

theorem facadeSymbols_any (p : FacadeSymbol → Nat) :
    facadeSymbols.any (fun sym => decide (p sym = 0)) = true ↔ ∃ sym, p sym = 0 := by
  rw [List.any_eq_true]
  constructor
  · rintro ⟨sym, -, h⟩
    exact ⟨sym, of_decide_eq_true h⟩
  · rintro ⟨sym, h⟩
    exact ⟨sym, facadeSymbols_complete sym, decide_eq_true h⟩

/-- What `D77_LoadLibrary` does in each of its four ways out. -/
theorem D77_LoadLibrary_cases {κ : Type} (b : Build) (libpath : Nat) (s : Host κ) :
    (s.library ≠ 0 ∧ D77_LoadLibrary b libpath s = (0, s)) ∨
    (s.library = 0 ∧ b.load_library_32bit s.loader.length libpath = 0 ∧
      (D77_LoadLibrary b libpath s).1 = 0 ∧ (D77_LoadLibrary b libpath s).2.library = 0) ∨
    (s.library = 0 ∧ b.load_library_32bit s.loader.length libpath ≠ 0 ∧
      (∃ sym, b.find_symbol_32bit (b.load_library_32bit s.loader.length libpath) sym = 0) ∧
      (D77_LoadLibrary b libpath s).1 = 0 ∧ (D77_LoadLibrary b libpath s).2.library = 0 ∧
      (D77_LoadLibrary b libpath s).2.loader =
        s.loader ++ [LoaderCall.load libpath (b.load_library_32bit s.loader.length libpath)] ++
          facadeSymbols.map (fun sym =>
            LoaderCall.find (b.load_library_32bit s.loader.length libpath) sym
              (b.find_symbol_32bit (b.load_library_32bit s.loader.length libpath) sym)) ++
          [LoaderCall.unload (b.load_library_32bit s.loader.length libpath)]) ∨
    (s.library = 0 ∧ b.load_library_32bit s.loader.length libpath ≠ 0 ∧
      (∀ sym, b.find_symbol_32bit (b.load_library_32bit s.loader.length libpath) sym ≠ 0) ∧
      (D77_LoadLibrary b libpath s).1 = 1 ∧
      (D77_LoadLibrary b libpath s).2.library =
        b.load_library_32bit s.loader.length libpath ∧
      (D77_LoadLibrary b libpath s).2.resolved =
        fun sym => b.find_symbol_32bit (b.load_library_32bit s.loader.length libpath) sym) := by
  by_cases h0 : s.library ≠ 0
  · left
    refine ⟨h0, ?_⟩
    unfold D77_LoadLibrary
    rw [if_pos h0]
  · right
    have h0' : s.library = 0 := not_not.mp h0
    by_cases h1 : b.load_library_32bit s.loader.length libpath = 0
    · left
      have e : D77_LoadLibrary b libpath s =
          (0, { s with
            library := b.load_library_32bit s.loader.length libpath
            loader := s.loader ++
              [LoaderCall.load libpath (b.load_library_32bit s.loader.length libpath)] }) := by
        unfold D77_LoadLibrary
        rw [if_neg h0]
        simp only []
        rw [if_pos h1]
      rw [e]
      exact ⟨h0', h1, rfl, h1⟩
    · right
      by_cases h2 : ∃ sym,
          b.find_symbol_32bit (b.load_library_32bit s.loader.length libpath) sym = 0
      · left
        have ha := (facadeSymbols_any (fun sym =>
          b.find_symbol_32bit (b.load_library_32bit s.loader.length libpath) sym)).mpr h2
        have e : D77_LoadLibrary b libpath s =
            (0, { s with
              library := 0
              resolved := fun sym =>
                b.find_symbol_32bit (b.load_library_32bit s.loader.length libpath) sym
              loader := s.loader ++
                [LoaderCall.load libpath (b.load_library_32bit s.loader.length libpath)] ++
                facadeSymbols.map (fun sym =>
                  LoaderCall.find (b.load_library_32bit s.loader.length libpath) sym
                    (b.find_symbol_32bit (b.load_library_32bit s.loader.length libpath) sym)) ++
                [LoaderCall.unload (b.load_library_32bit s.loader.length libpath)] }) := by
          unfold D77_LoadLibrary
          rw [if_neg h0]
          simp only []
          rw [if_neg h1, if_pos ha]
        rw [e]
        exact ⟨h0', h1, h2, rfl, rfl, rfl⟩
      · right
        have ha : facadeSymbols.any (fun sym => decide
            (b.find_symbol_32bit (b.load_library_32bit s.loader.length libpath) sym = 0))
            = false := by
          rw [Bool.eq_false_iff]
          intro h
          exact h2 ((facadeSymbols_any _).mp h)
        have e : D77_LoadLibrary b libpath s =
            (1, { s with
              library := b.load_library_32bit s.loader.length libpath
              resolved := fun sym =>
                b.find_symbol_32bit (b.load_library_32bit s.loader.length libpath) sym
              loader := s.loader ++
                [LoaderCall.load libpath (b.load_library_32bit s.loader.length libpath)] ++
                facadeSymbols.map (fun sym =>
                  LoaderCall.find (b.load_library_32bit s.loader.length libpath) sym
                    (b.find_symbol_32bit (b.load_library_32bit s.loader.length libpath)
                      sym)) }) := by
          unfold D77_LoadLibrary
          rw [if_neg h0]
          simp only []
          rw [if_neg h1, if_neg (by rw [ha]; decide)]
        rw [e]
        exact ⟨h0', h1, fun sym hs => h2 ⟨sym, hs⟩, rfl, rfl, rfl⟩

theorem D77_LoadLibrary_invariant {κ : Type} (b : Build) (libpath : Nat) (s : Host κ)
    (h : s.library ≠ 0 → ∀ sym, s.resolved sym ≠ 0) :
    (D77_LoadLibrary b libpath s).2.library ≠ 0 →
      ∀ sym, (D77_LoadLibrary b libpath s).2.resolved sym ≠ 0 := by
  rcases D77_LoadLibrary_cases b libpath s with ⟨-, h1⟩ | ⟨-, -, -, h1⟩ |
    ⟨-, -, -, -, h1, -⟩ | ⟨-, -, h1, -, -, h2⟩
  · rw [h1]
    exact h
  · intro hl
    exact absurd h1 hl
  · intro hl
    exact absurd h1 hl
  · intro _ sym
    rw [h2]
    exact h1 sym

theorem D77_FreeLibrary_library {κ : Type} (s : Host κ) : (D77_FreeLibrary s).library = 0 := by
  unfold D77_FreeLibrary
  by_cases h : s.library ≠ 0
  · rw [if_pos h]
  · rw [if_neg h]
    exact not_not.mp h

theorem library_calls_invariant {κ : Type} (b : Build) :
    ∀ (ops : List LibraryCall) (s : Host κ),
      (s.library ≠ 0 → ∀ sym, s.resolved sym ≠ 0) →
      (library_calls b ops s).library ≠ 0 → ∀ sym, (library_calls b ops s).resolved sym ≠ 0 := by
  intro ops
  induction ops with
  | nil =>
    intro s h
    exact h
  | cons op rest ih =>
    intro s h
    cases op with
    | load libpath =>
      exact ih _ (D77_LoadLibrary_invariant b libpath s h)
    | free =>
      exact ih _ (fun hl => absurd (D77_FreeLibrary_library s) hl)

/-- C23: `D77_LoadLibrary` returns 1 exactly when no library was loaded before the
call, `load_library_32bit` returns an image, and `find_symbol_32bit` finds each of the
twelve names; it returns 0 otherwise. When the image loads and a name is missing, the
calls of the loader are the load, the twelve lookups and the unload of that image, and
the handle is null afterwards. From a state in which a non-null handle comes with
twelve non-null pointers (as at the start of the process, where the handle is null),
every sequence of calls of `D77_LoadLibrary` and `D77_FreeLibrary` leads to such a
state. -/
theorem C23_load_library {κ : Type} (b : Build) (libpath : Nat) (s : Host κ)
    (ops : List LibraryCall) (hinv : s.library ≠ 0 → ∀ sym, s.resolved sym ≠ 0) :
    ((D77_LoadLibrary b libpath s).1 = 1 ↔
      s.library = 0 ∧ b.load_library_32bit s.loader.length libpath ≠ 0 ∧
      ∀ sym, b.find_symbol_32bit (b.load_library_32bit s.loader.length libpath) sym ≠ 0) ∧
    ((D77_LoadLibrary b libpath s).1 = 0 ∨ (D77_LoadLibrary b libpath s).1 = 1) ∧
    (s.library = 0 → b.load_library_32bit s.loader.length libpath ≠ 0 →
      (∃ sym, b.find_symbol_32bit (b.load_library_32bit s.loader.length libpath) sym = 0) →
      (D77_LoadLibrary b libpath s).2.library = 0 ∧
      (D77_LoadLibrary b libpath s).2.loader =
        s.loader ++ [LoaderCall.load libpath (b.load_library_32bit s.loader.length libpath)] ++
          facadeSymbols.map (fun sym =>
            LoaderCall.find (b.load_library_32bit s.loader.length libpath) sym
              (b.find_symbol_32bit (b.load_library_32bit s.loader.length libpath) sym)) ++
          [LoaderCall.unload (b.load_library_32bit s.loader.length libpath)]) ∧
    ((library_calls b ops s).library ≠ 0 →
      ∀ sym, (library_calls b ops s).resolved sym ≠ 0) := by
  refine ⟨?_, ?_, ?_, library_calls_invariant b ops s hinv⟩
  · rcases D77_LoadLibrary_cases b libpath s with ⟨h0, h1⟩ | ⟨-, h0, h1, -⟩ |
      ⟨-, -, ⟨sym, h0⟩, h1, -⟩ | ⟨h0, h1, h2, h3, -⟩
    · rw [h1]
      exact ⟨fun h => absurd (show (0 : Nat) = 1 from h) (by decide), fun h => absurd h.1 h0⟩
    · rw [h1]
      exact ⟨fun h => absurd h (by decide), fun h => absurd h0 h.2.1⟩
    · rw [h1]
      exact ⟨fun h => absurd h (by decide), fun h => absurd h0 (h.2.2 sym)⟩
    · exact ⟨fun _ => ⟨h0, h1, h2⟩, fun _ => h3⟩
  · rcases D77_LoadLibrary_cases b libpath s with ⟨-, h1⟩ | ⟨-, -, h1, -⟩ |
      ⟨-, -, -, h1, -⟩ | ⟨-, -, -, h1, -⟩
    · rw [h1]
      exact Or.inl rfl
    · exact Or.inl h1
    · exact Or.inl h1
    · exact Or.inr h1
  · intro h0 h1 h2
    rcases D77_LoadLibrary_cases b libpath s with ⟨g0, -⟩ | ⟨-, g1, -⟩ |
      ⟨-, -, -, -, g1, g2⟩ | ⟨-, -, g1, -⟩
    · exact absurd h0 g0
    · exact absurd g1 h1
    · exact ⟨g1, g2⟩
    · obtain ⟨sym, hs⟩ := h2
      exact absurd hs (g1 sym)

/-- Witness of `C23_load_library`: on the example thread with no library loaded, a
load from an image that lacks `c_RenderSamples_asm`, and the sequence load, free,
load, load. -/
theorem C23_load_library_witness :
    (D77_LoadLibrary demoBuildMissing 0x5000 (demoHostUnloaded Cpu demoCpu)).1 = 0 ∧
    (D77_LoadLibrary demoBuild 0x5000 (demoHostUnloaded Cpu demoCpu)).1 = 1 ∧
    (((D77_LoadLibrary demoBuildMissing 0x5000 (demoHostUnloaded Cpu demoCpu)).1 = 1 ↔
      (demoHostUnloaded Cpu demoCpu).library = 0 ∧
      demoBuildMissing.load_library_32bit (demoHostUnloaded Cpu demoCpu).loader.length 0x5000
        ≠ 0 ∧
      ∀ sym, demoBuildMissing.find_symbol_32bit (demoBuildMissing.load_library_32bit
        (demoHostUnloaded Cpu demoCpu).loader.length 0x5000) sym ≠ 0) ∧
    ((D77_LoadLibrary demoBuildMissing 0x5000 (demoHostUnloaded Cpu demoCpu)).1 = 0 ∨
      (D77_LoadLibrary demoBuildMissing 0x5000 (demoHostUnloaded Cpu demoCpu)).1 = 1) ∧
    ((demoHostUnloaded Cpu demoCpu).library = 0 →
      demoBuildMissing.load_library_32bit (demoHostUnloaded Cpu demoCpu).loader.length 0x5000
        ≠ 0 →
      (∃ sym, demoBuildMissing.find_symbol_32bit (demoBuildMissing.load_library_32bit
        (demoHostUnloaded Cpu demoCpu).loader.length 0x5000) sym = 0) →
      (D77_LoadLibrary demoBuildMissing 0x5000 (demoHostUnloaded Cpu demoCpu)).2.library = 0 ∧
      (D77_LoadLibrary demoBuildMissing 0x5000 (demoHostUnloaded Cpu demoCpu)).2.loader =
        (demoHostUnloaded Cpu demoCpu).loader ++
          [LoaderCall.load 0x5000 (demoBuildMissing.load_library_32bit
            (demoHostUnloaded Cpu demoCpu).loader.length 0x5000)] ++
          facadeSymbols.map (fun sym =>
            LoaderCall.find (demoBuildMissing.load_library_32bit
              (demoHostUnloaded Cpu demoCpu).loader.length 0x5000) sym
              (demoBuildMissing.find_symbol_32bit (demoBuildMissing.load_library_32bit
                (demoHostUnloaded Cpu demoCpu).loader.length 0x5000) sym)) ++
          [LoaderCall.unload (demoBuildMissing.load_library_32bit
            (demoHostUnloaded Cpu demoCpu).loader.length 0x5000)]) ∧
    ((library_calls demoBuildMissing
        [LibraryCall.load 0x5000, LibraryCall.free, LibraryCall.load 0x5000,
          LibraryCall.load 0x5000] (demoHostUnloaded Cpu demoCpu)).library ≠ 0 →
      ∀ sym, (library_calls demoBuildMissing
        [LibraryCall.load 0x5000, LibraryCall.free, LibraryCall.load 0x5000,
          LibraryCall.load 0x5000] (demoHostUnloaded Cpu demoCpu)).resolved sym ≠ 0)) :=
  ⟨by decide, by decide,
   C23_load_library demoBuildMissing 0x5000 (demoHostUnloaded Cpu demoCpu)
    [LibraryCall.load 0x5000, LibraryCall.free, LibraryCall.load 0x5000,
      LibraryCall.load 0x5000] (fun h => absurd rfl h)⟩


/-! ## C24: the values `read_uleb128` can return -/

theorem shl32_lt (ub : Nat → Nat → Nat) (x s : Nat) : shl32 ub x s < 2 ^ 32 := by
  unfold shl32
  split <;> exact Nat.mod_lt _ (by norm_num)

theorem read_uleb128_loop_lt (ub : Nat → Nat → Nat) (m : Mem) :
    ∀ (fuel ptr result shift r q : Nat), result < 2 ^ 32 →
      read_uleb128_loop ub m fuel ptr result shift = some (r, q) → r < 2 ^ 32 := by
  intro fuel
  induction fuel with
  | zero =>
    intro ptr result shift r q _ h
    simp [read_uleb128_loop] at h
  | succ f ih =>
    intro ptr result shift r q hr h
    have hor : result ||| shl32 ub (rd8 m ptr % 128) shift < 2 ^ 32 :=
      Nat.or_lt_two_pow hr (shl32_lt ub _ _)
    rw [read_uleb128_loop] at h
    by_cases hc : 128 ≤ rd8 m ptr
    · rw [if_pos hc] at h
      exact ih _ _ _ r q hor h
    · rw [if_neg hc] at h
      simp only [Option.some.injEq, Prod.mk.injEq] at h
      rw [← h.1]
      exact hor

/-- C24 (code defect). The five bytes `80 80 80 80 10` are the ULEB128 encoding of
`2 ^ 32`; on them `read_uleb128` returns 0 and advances the cursor by 5, whatever the
platform does on an over-wide shift. In general the value `read_uleb128` returns is
below `2 ^ 32`: each group of seven bits is shifted as an `unsigned int` before it is
or-ed into the 64-bit result. -/
theorem C24_read_uleb128_truncates :
    uleb128 (2 ^ 32) = [0x80, 0x80, 0x80, 0x80, 0x10] ∧
    (∀ (ub : Nat → Nat → Nat) (m : Mem) (p : Nat), holdsBytes m p (uleb128 (2 ^ 32)) →
      read_uleb128 ub 10 m p = some (0, p + 5)) ∧
    (∀ (ub : Nat → Nat → Nat) (fuel : Nat) (m : Mem) (p r q : Nat),
      read_uleb128 ub fuel m p = some (r, q) → r < 2 ^ 32) := by
  refine ⟨by decide, ?_, ?_⟩
  · intro ub m p h
    have e : uleb128 (2 ^ 32) = [0x80, 0x80, 0x80, 0x80, 0x10] := by decide
    rw [e] at h
    simp only [holdsBytes] at h
    obtain ⟨h0, h1, h2, h3, h4, -⟩ := h
    simp [read_uleb128, read_uleb128_loop, h0, h1, h2, h3, h4, shl32]
  · intro ub fuel m p r q h
    exact read_uleb128_loop_lt ub m fuel p 0 0 r q (by norm_num) h

/-! ## C26 and C27: the bind interpreter -/

theorem bind_body_do_bind (ub : Nat → Nat → Nat) (tbl : SymbolTable)
    (fuel library bind_end : Nat) (s : BindState) (m' : Mem)
    (hop : opcodeOf (rd8 s.mem s.bind) = BIND_OPCODE_DO_BIND)
    (hb : bind_here tbl s s.address s.mem = some m') :
    bind_body ub tbl fuel library bind_end s =
      Ctl.next { s with bind := s.bind + 1, address := padd s.address 8, mem := m' } := by
  simp [bind_body, hop, hb, BIND_OPCODE_DONE, BIND_OPCODE_SET_DYLIB_ORDINAL_IMM,
    BIND_OPCODE_SET_DYLIB_ORDINAL_ULEB, BIND_OPCODE_SET_DYLIB_SPECIAL_IMM,
    BIND_OPCODE_SET_SYMBOL_TRAILING_FLAGS_IMM, BIND_OPCODE_SET_TYPE_IMM,
    BIND_OPCODE_SET_ADDEND_SLEB, BIND_OPCODE_SET_SEGMENT_AND_OFFSET_ULEB,
    BIND_OPCODE_ADD_ADDR_ULEB, BIND_OPCODE_DO_BIND]

theorem bind_body_do_bind_uleb (ub : Nat → Nat → Nat) (tbl : SymbolTable)
    (fuel library bind_end : Nat) (s : BindState) (m' : Mem) (n q : Nat)
    (hop : opcodeOf (rd8 s.mem s.bind) = BIND_OPCODE_DO_BIND_ADD_ADDR_ULEB)
    (hb : bind_here tbl s s.address s.mem = some m')
    (hu : read_uleb128 ub fuel m' (s.bind + 1) = some (n, q)) :
    bind_body ub tbl fuel library bind_end s =
      Ctl.next { s with bind := q, address := padd s.address (padd n 8), mem := m' } := by
  simp [bind_body, hop, hb, hu, BIND_OPCODE_DONE, BIND_OPCODE_SET_DYLIB_ORDINAL_IMM,
    BIND_OPCODE_SET_DYLIB_ORDINAL_ULEB, BIND_OPCODE_SET_DYLIB_SPECIAL_IMM,
    BIND_OPCODE_SET_SYMBOL_TRAILING_FLAGS_IMM, BIND_OPCODE_SET_TYPE_IMM,
    BIND_OPCODE_SET_ADDEND_SLEB, BIND_OPCODE_SET_SEGMENT_AND_OFFSET_ULEB,
    BIND_OPCODE_ADD_ADDR_ULEB, BIND_OPCODE_DO_BIND, BIND_OPCODE_DO_BIND_ADD_ADDR_ULEB]

theorem bind_body_do_bind_scaled (ub : Nat → Nat → Nat) (tbl : SymbolTable)
    (fuel library bind_end : Nat) (s : BindState) (m' : Mem)
    (hop : opcodeOf (rd8 s.mem s.bind) = BIND_OPCODE_DO_BIND_ADD_ADDR_IMM_SCALED)
    (hb : bind_here tbl s s.address s.mem = some m') :
    bind_body ub tbl fuel library bind_end s =
      Ctl.next { s with bind := s.bind + 1,
                        address := padd s.address (immOf (rd8 s.mem s.bind) * 8),
                        mem := m' } := by
  simp [bind_body, hop, hb, BIND_OPCODE_DONE, BIND_OPCODE_SET_DYLIB_ORDINAL_IMM,
    BIND_OPCODE_SET_DYLIB_ORDINAL_ULEB, BIND_OPCODE_SET_DYLIB_SPECIAL_IMM,
    BIND_OPCODE_SET_SYMBOL_TRAILING_FLAGS_IMM, BIND_OPCODE_SET_TYPE_IMM,
    BIND_OPCODE_SET_ADDEND_SLEB, BIND_OPCODE_SET_SEGMENT_AND_OFFSET_ULEB,
    BIND_OPCODE_ADD_ADDR_ULEB, BIND_OPCODE_DO_BIND, BIND_OPCODE_DO_BIND_ADD_ADDR_ULEB,
    BIND_OPCODE_DO_BIND_ADD_ADDR_IMM_SCALED]

theorem bind_body_set_addend (ub : Nat → Nat → Nat) (tbl : SymbolTable)
    (fuel library bind_end : Nat) (s : BindState) (n q : Nat)
    (hop : opcodeOf (rd8 s.mem s.bind) = BIND_OPCODE_SET_ADDEND_SLEB)
    (hu : read_uleb128 ub fuel s.mem (s.bind + 1) = some (n, q)) :
    bind_body ub tbl fuel library bind_end s =
      Ctl.next { s with bind := q, addend := n } := by
  simp [bind_body, hop, hu, BIND_OPCODE_DONE, BIND_OPCODE_SET_DYLIB_ORDINAL_IMM,
    BIND_OPCODE_SET_DYLIB_ORDINAL_ULEB, BIND_OPCODE_SET_DYLIB_SPECIAL_IMM,
    BIND_OPCODE_SET_SYMBOL_TRAILING_FLAGS_IMM, BIND_OPCODE_SET_TYPE_IMM,
    BIND_OPCODE_SET_ADDEND_SLEB]

/-- C26 (code defect). After a successful bind the opcodes `DO_BIND` and
`DO_BIND_ADD_ADDR_ULEB` move the address on by 8, respectively by the operand plus 8,
and each trip of `DO_BIND_ULEB_TIMES_SKIPPING_ULEB` by the skip plus 8; the opcode
`DO_BIND_ADD_ADDR_IMM_SCALED` moves it on by 8 times the immediate only. In the example
the stream binds `_foo` at `0x31010` with that opcode and immediate 0, sets the addend
5 and binds again: the second bind is made at `0x31010` too, the word there ends as
`0x7005`, and the slot at `0x31018` is never written. -/
theorem C26_scaled_bind_stays :
    (∀ (ub : Nat → Nat → Nat) (tbl : SymbolTable) (fuel library bind_end : Nat)
        (s : BindState) (m' : Mem),
      bind_here tbl s s.address s.mem = some m' →
      (opcodeOf (rd8 s.mem s.bind) = BIND_OPCODE_DO_BIND →
        bind_body ub tbl fuel library bind_end s =
          Ctl.next { s with bind := s.bind + 1, address := padd s.address 8, mem := m' }) ∧
      (opcodeOf (rd8 s.mem s.bind) = BIND_OPCODE_DO_BIND_ADD_ADDR_ULEB →
        ∀ n q, read_uleb128 ub fuel m' (s.bind + 1) = some (n, q) →
        bind_body ub tbl fuel library bind_end s =
          Ctl.next { s with bind := q, address := padd s.address (padd n 8), mem := m' }) ∧
      (opcodeOf (rd8 s.mem s.bind) = BIND_OPCODE_DO_BIND_ADD_ADDR_IMM_SCALED →
        bind_body ub tbl fuel library bind_end s =
          Ctl.next { s with bind := s.bind + 1,
                            address := padd s.address (immOf (rd8 s.mem s.bind) * 8),
                            mem := m' }) ∧
      (∀ skip times, bind_times tbl s skip (times + 1) s.address s.mem =
        bind_times tbl s skip times (padd s.address (padd skip 8)) m')) ∧
    rd8 demoMachoScaled 0x32109 = BIND_OPCODE_DO_BIND_ADD_ADDR_IMM_SCALED + 0 ∧
    (machoBindAt (fun _ _ => 0) demoTable 100 0x30000 demoMachoScaled 3).bind = 0x32109 ∧
    (machoBindAt (fun _ _ => 0) demoTable 100 0x30000 demoMachoScaled 3).address = 0x31010 ∧
    rd8 demoMachoScaled 0x3210c = BIND_OPCODE_DO_BIND ∧
    (machoBindAt (fun _ _ => 0) demoTable 100 0x30000 demoMachoScaled 5).bind = 0x3210c ∧
    (machoBindAt (fun _ _ => 0) demoTable 100 0x30000 demoMachoScaled 5).address = 0x31010 ∧
    (load_library_32bit_macho (fun _ _ => 0) demoTable (fun _ m => m) (fun _ => true) 100
      0x30000 0x3000 demoMachoScaled).map
        (fun r => (r.ret, rd64 r.mem 0x31010, rd64 r.mem 0x31018)) =
      some (0x30000, 0x7005, 0) ∧
    rd64 demoMachoScaled 0x31018 = 0 := by
  refine ⟨?_, by decide!, by decide!, by decide!, by decide!, by decide!, by decide!,
    by decide!, by decide!⟩
  intro ub tbl fuel library bind_end s m' hb
  refine ⟨fun h => bind_body_do_bind ub tbl fuel library bind_end s m' h hb,
    fun h n q hu => bind_body_do_bind_uleb ub tbl fuel library bind_end s m' n q h hb hu,
    fun h => bind_body_do_bind_scaled ub tbl fuel library bind_end s m' h hb, ?_⟩
  intro skip times
  rw [bind_times, hb]

/-- C27 (code defect). The operand of `BIND_OPCODE_SET_ADDEND_SLEB` is read with
`read_uleb128`: the addend it sets is the unsigned value of the operand, which is
below `2 ^ 32`, never a negative number. In the example the operand is the byte
`0x7f`, the signed LEB128 encoding of `-1`; the addend becomes 127 and the bind of
`_foo` (at `0x7000` in the table) stores `0x707f`, not `0x6fff`. -/
theorem C27_addend_read_unsigned :
    (∀ (ub : Nat → Nat → Nat) (tbl : SymbolTable) (fuel library bind_end : Nat)
        (s : BindState) (n q : Nat),
      opcodeOf (rd8 s.mem s.bind) = BIND_OPCODE_SET_ADDEND_SLEB →
      read_uleb128 ub fuel s.mem (s.bind + 1) = some (n, q) →
      bind_body ub tbl fuel library bind_end s = Ctl.next { s with bind := q, addend := n } ∧
      n < 2 ^ 32) ∧
    rd8 demoMachoAddend 0x32107 = BIND_OPCODE_SET_ADDEND_SLEB ∧
    rd8 demoMachoAddend 0x32108 = 0x7f ∧
    (machoBindAt (fun _ _ => 0) demoTable 100 0x30000 demoMachoAddend 2).bind = 0x32107 ∧
    (machoBindAt (fun _ _ => 0) demoTable 100 0x30000 demoMachoAddend 3).addend = 127 ∧
    (load_library_32bit_macho (fun _ _ => 0) demoTable (fun _ m => m) (fun _ => true) 100
      0x30000 0x3000 demoMachoAddend).map (fun r => (r.ret, rd64 r.mem 0x31010)) =
      some (0x30000, 0x7000 + 127) ∧
    (0x7000 + 127 : Nat) ≠ (0x7000 + 2 ^ 64 - 1) % 2 ^ 64 := by
  refine ⟨?_, by decide!, by decide!, by decide!, by decide!, by decide!, by decide⟩
  intro ub tbl fuel library bind_end s n q hop hu
  exact ⟨bind_body_set_addend ub tbl fuel library bind_end s n q hop hu,
    read_uleb128_loop_lt ub s.mem fuel (s.bind + 1) 0 0 n q (by norm_num) hu⟩

/-! ## C28: constructors of an image that fails to load -/

theorem iter_not_fail {σ α : Type} (body : σ → Ctl σ α)
    (hbody : ∀ s a, body s ≠ Ctl.abort a) :
    ∀ (fuel : Nat) (s : σ) (a : α), iter body fuel s ≠ Outcome.fail a := by
  intro fuel
  induction fuel with
  | zero =>
    intro s a h
    simp [iter] at h
  | succ f ih =>
    intro s a h
    rw [iter] at h
    cases hb : body s with
    | next s' => rw [hb] at h; exact ih s' a h
    | stop x => rw [hb] at h; simp at h
    | abort x => exact hbody s x hb
    | hang => rw [hb] at h; simp at h

theorem callsOf_snoc_munmap (t : List Event) (a b : Nat) :
    callsOf (t ++ [Event.munmap a b]) = callsOf t := by
  rw [callsOf_append]
  simp [callsOf]

/-- The constructors that have run when the ELF branch of `load_library_32bit`
returns null: none, unless the image has `DT_INIT` and a `DT_INIT_ARRAYSZ` without a
`DT_INIT_ARRAY`, in which case `DT_INIT` has run. -/
theorem elf_null_constructors (v : Variant) (tbl : SymbolTable) (exec : Nat → Mem → Mem)
    (fuel library libsize : Nat) (m : Mem) (r : Loaded) (hl : library ≠ 0)
    (h : load_library_32bit_elf v tbl exec fuel library libsize m = some r)
    (hret : r.ret = 0) :
    callsOf r.trace = [] ∨
    (elfDynOf fuel library m DT_INIT ≠ 0 ∧ elfDynOf fuel library m DT_INIT_ARRAYSZ ≠ 0 ∧
      elfDynOf fuel library m DT_INIT_ARRAY = 0 ∧
      callsOf r.trace = [padd library (elfDynOf fuel library m DT_INIT)]) := by
  have hfail : ∀ m', some (elf_error1 library libsize { mem := m', trace := [] }) = some r →
      callsOf r.trace = [] := by
    intro m' hw
    simp only [Option.some.injEq] at hw
    subst hw
    simp [elf_error1, callsOf]
  unfold elfDynOf
  unfold load_library_32bit_elf at h
  by_cases hm : supportedMachine v (e_machine m library) = true
  · rw [if_pos hm] at h
    cases hd : elf_read_dynamic fuel library m with
    | timeout => rw [hd] at h; simp at h
    | fail x => rw [hd] at h; exact Or.inl (hfail _ h)
    | done dyn =>
      rw [hd] at h
      simp only [Outcome.val, Option.getD_some] at h ⊢
      unfold elf_link at h
      cases hr : elf_relocate v tbl fuel library dyn m with
      | timeout => rw [hr] at h; simp at h
      | fail x => rw [hr] at h; exact Or.inl (hfail _ h)
      | done m_rel =>
        rw [hr] at h
        simp only at h
        cases hc : elf_constructors exec fuel library dyn { mem := m_rel, trace := [] } with
        | timeout => rw [hc] at h; simp at h
        | done w =>
          rw [hc] at h
          simp only [Option.some.injEq] at h
          subst h
          exact absurd hret hl
        | fail w =>
          rw [hc] at h
          simp only [Option.some.injEq] at h
          subst h
          unfold elf_constructors at hc
          simp only [] at hc
          by_cases hsz : dyn DT_INIT_ARRAYSZ ≠ 0
          · rw [if_pos hsz] at hc
            by_cases ha : dyn DT_INIT_ARRAY = 0
            · rw [if_pos ha] at hc
              simp only [Outcome.fail.injEq] at hc
              subst hc
              by_cases hi : dyn DT_INIT ≠ 0
              · right
                refine ⟨hi, hsz, ha, ?_⟩
                simp [elf_error1, callsOf_snoc_munmap, hi, callFn_trace, callsOf]
              · left
                simp [elf_error1, callsOf_snoc_munmap, hi, callsOf]
            · rw [if_neg ha] at hc
              exfalso
              refine iter_not_fail (elf_init_array_body exec library dyn) ?_ fuel _ w hc
              intro s a hs
              rw [elf_init_array_body_eq] at hs
              split at hs <;> simp at hs
          · rw [if_neg hsz] at hc
            simp at hc
  · rw [if_neg hm] at h
    exact Or.inl (hfail _ h)


/-- C28 (code defect). The image `demoElfInitOnly` has `DT_INIT = 0x500`,
`DT_INIT_ARRAYSZ = 8` and no `DT_INIT_ARRAY`. In both variants `load_library_32bit`
calls the `DT_INIT` function at `0x10500`, then finds the array missing, unmaps the
image and returns null. This is the only way to a null result with a constructor run:
a load that returns null has called nothing, unless `DT_INIT != 0`,
`DT_INIT_ARRAYSZ != 0` and `DT_INIT_ARRAY == 0`, in which case it has called `DT_INIT`
and no entry of the array. -/
theorem C28_constructor_before_failure :
    elfDynOf 100 0x10000 demoElfInitOnly DT_INIT = 0x500 ∧
    elfDynOf 100 0x10000 demoElfInitOnly DT_INIT_ARRAYSZ = 8 ∧
    elfDynOf 100 0x10000 demoElfInitOnly DT_INIT_ARRAY = 0 ∧
    (∀ v : Variant,
      (load_library_32bit_elf v demoTable (fun _ m => m) 100 0x10000 0x1000
        demoElfInitOnly).map (fun r => (r.ret, r.trace)) =
          some (0, [Event.call 0x10500, Event.munmap 0x10000 0x1000])) ∧
    (∀ (v : Variant) (tbl : SymbolTable) (exec : Nat → Mem → Mem)
        (fuel library libsize : Nat) (m : Mem) (r : Loaded), library ≠ 0 →
      load_library_32bit_elf v tbl exec fuel library libsize m = some r → r.ret = 0 →
      callsOf r.trace = [] ∨
      (elfDynOf fuel library m DT_INIT ≠ 0 ∧ elfDynOf fuel library m DT_INIT_ARRAYSZ ≠ 0 ∧
        elfDynOf fuel library m DT_INIT_ARRAY = 0 ∧
        callsOf r.trace = [padd library (elfDynOf fuel library m DT_INIT)])) := by
  refine ⟨by decide!, by decide!, by decide!, ?_, ?_⟩
  · intro v
    cases v <;> decide!
  · intro v tbl exec fuel library libsize m r hl h hret
    exact elf_null_constructors v tbl exec fuel library libsize m r hl h hret


/-! ## C25: room for the headers of a PE image -/

theorem align_down32_le (x a : Nat) : align_down32 x a ≤ x := by
  unfold align_down32
  exact Nat.and_le_left

theorem pe_extent_from_le (m : Mem) (sec_headers : Nat) :
    ∀ (n index : Nat) (e : Nat × Nat),
      (pe_extent_from m sec_headers n index e).1 ≤ e.1 ∧
      ∀ i, index ≤ i → i < index + n →
        (pe_extent_from m sec_headers n index e).1 ≤
          VirtualAddress m (pe_section sec_headers i) := by
  intro n
  induction n with
  | zero =>
    intro index e
    exact ⟨Nat.le_refl _, fun i h1 h2 => absurd h2 (by omega)⟩
  | succ k ih =>
    intro index e
    rw [pe_extent_from]
    obtain ⟨h1, h2⟩ := ih (index + 1)
      (if VirtualAddress m (pe_section sec_headers index) < e.1 then
          VirtualAddress m (pe_section sec_headers index) else e.1,
        if (VirtualAddress m (pe_section sec_headers index) +
            VirtualSize m (pe_section sec_headers index)) % 2 ^ 32 > e.2 then
          (VirtualAddress m (pe_section sec_headers index) +
            VirtualSize m (pe_section sec_headers index)) % 2 ^ 32
        else e.2)
    simp only [] at h1 h2 ⊢
    have hmin : (if VirtualAddress m (pe_section sec_headers index) < e.1 then
        VirtualAddress m (pe_section sec_headers index) else e.1) ≤ e.1 ∧
        (if VirtualAddress m (pe_section sec_headers index) < e.1 then
        VirtualAddress m (pe_section sec_headers index) else e.1) ≤
          VirtualAddress m (pe_section sec_headers index) := by
      split <;> omega
    refine ⟨le_trans h1 hmin.1, fun i hi1 hi2 => ?_⟩
    by_cases hi : i = index
    · rw [hi]
      exact le_trans h1 hmin.2
    · exact h2 i (by omega) (by omega)

theorem load_windows_ok (w : Win) (mem : Nat) (m : Mem)
    (h : (load_library_from_memory_windows w mem m).ret ≠ 0) :
    ¬ (pe_extent m mem).1 < pe_header_size m mem ∧
    (load_library_from_memory_windows w mem m).ret = pe_mapped_addr w m mem ∧
    pe_header_dest w mem m ≠ 0 ∧
    (load_library_from_memory_windows w mem m).mem =
      pe_copy_headers (pe_nt_headers m mem) (pe_sec_headers m (pe_nt_headers m mem))
        (NumberOfSections m (pe_nt_headers m mem)) (pe_header_dest w mem m)
        (pe_min_addr w m mem) (pe_map_size w m mem) (pe_before_headers w mem m) ∧
    (load_library_from_memory_windows w mem m).trace =
      [Event.reserve (pe_mapped_addr w m mem) (pe_map_size w m mem)] := by
  unfold load_library_from_memory_windows at h ⊢
  unfold pe_header_dest pe_before_headers
  by_cases h1 : rd16 m mem ≠ IMAGE_DOS_SIGNATURE
  · rw [if_pos h1] at h
    exact absurd rfl h
  rw [if_neg h1] at h ⊢
  simp only [] at h ⊢
  by_cases h2 : pe_headers_ok m (pe_nt_headers m mem) = false
  · rw [if_pos h2] at h
    exact absurd rfl h
  rw [if_neg h2] at h ⊢
  by_cases h3 : (pe_extent m mem).1 < pe_header_size m mem
  · rw [if_pos h3] at h
    exact absurd rfl h
  rw [if_neg h3] at h ⊢
  by_cases h4 : pe_mapped_addr w m mem = 0
  · rw [if_pos h4] at h
    exact absurd rfl h
  rw [if_neg h4] at h ⊢
  by_cases h5 : (pe_sections_mapped w mem m).1 = false
  · rw [if_pos h5] at h
    exact absurd rfl h
  rw [if_neg h5] at h ⊢
  by_cases h6 : ((pe_extent m mem).1 + (2 ^ 32 - pe_min_addr w m mem)) % 2 ^ 32 ≥ w.dwPageSize
  · rw [if_pos h6] at h ⊢
    rw [if_pos h6, if_pos h6]
    by_cases h7 : w.VirtualAlloc (NumberOfSections m (pe_nt_headers m mem))
        (pe_mapped_addr w m mem) (pe_header_size m mem) = 0
    · rw [if_pos h7] at h
      exact absurd rfl h
    · rw [if_neg h7]
      exact ⟨h3, rfl, h7, rfl, rfl⟩
  · rw [if_neg h6] at h ⊢
    rw [if_neg h6, if_neg h6]
    exact ⟨h3, rfl, h4, rfl, rfl⟩

theorem load_windows_reject (w : Win) (mem : Nat) (m : Mem)
    (h : (pe_extent m mem).1 < pe_header_size m mem) :
    (load_library_from_memory_windows w mem m).ret = 0 ∧
    (load_library_from_memory_windows w mem m).trace = [] := by
  unfold load_library_from_memory_windows
  by_cases h1 : rd16 m mem ≠ IMAGE_DOS_SIGNATURE
  · rw [if_pos h1]
    exact ⟨rfl, rfl⟩
  rw [if_neg h1]
  simp only []
  by_cases h2 : pe_headers_ok m (pe_nt_headers m mem) = false
  · rw [if_pos h2]
    exact ⟨rfl, rfl⟩
  rw [if_neg h2, if_pos h]
  exact ⟨rfl, rfl⟩

theorem memcpy_outside (m : Mem) (dst src n x : Nat) (h : x < dst ∨ dst + n ≤ x) :
    memcpy m dst src n x = m x := by
  unfold memcpy
  rw [if_neg (by omega)]

theorem wr16_outside (m : Mem) (a v x : Nat) (h : x < a ∨ a + 2 ≤ x) :
    wr16 m a v x = m x := by
  unfold wr16
  rw [wr8_other _ _ _ _ (by omega), wr8_other _ _ _ _ (by omega)]

theorem rd32_congr (m1 m2 : Mem) (a : Nat) (h : ∀ x, a ≤ x → x < a + 4 → m1 x = m2 x) :
    rd32 m1 a = rd32 m2 a := by
  unfold rd32 rd16 rd8
  rw [h a (by omega) (by omega), h (a + 1) (by omega) (by omega),
    h (a + 2) (by omega) (by omega), h (a + 2 + 1) (by omega) (by omega)]

/-- The header copy of the Windows loader writes the `264 + 40 * n` bytes at
`section` and nothing else. -/
theorem pe_copy_headers_outside (nt_headers sec_headers n sect min_addr size : Nat) (m : Mem)
    (x : Nat) (hs : sect + 264 + n * 40 < 2 ^ 64)
    (h : x < sect ∨ sect + (264 + n * 40) ≤ x) :
    pe_copy_headers nt_headers sec_headers n sect min_addr size m x = m x := by
  unfold pe_copy_headers
  have hp : padd sect 264 = sect + 264 := by
    unfold padd
    exact Nat.mod_eq_of_lt (by omega)
  rw [hp, wr32_outside _ _ _ _ (by omega), wr32_outside _ _ _ _ (by omega),
    wr32_outside _ _ _ _ (by omega), wr16_outside _ _ _ _ (by omega),
    memcpy_outside _ _ _ _ _ (by omega), memcpy_outside _ _ _ _ _ (by omega)]

/-- The header copy of the Windows loader leaves `min_addr` in the field
`DataDirectory[15].VirtualAddress` of the copy. -/
theorem pe_copy_headers_dir15 (nt_headers sec_headers n sect min_addr size : Nat) (m : Mem)
    (hmin : min_addr < 2 ^ 32) :
    dirVA (pe_copy_headers nt_headers sec_headers n sect min_addr size m) sect 15 =
      min_addr := by
  unfold dirVA pe_copy_headers
  rw [rd32_congr _ _ _ (fun x h1 h2 => wr32_outside _ _ _ x (by omega)), rd32_wr32]
  exact Nat.mod_eq_of_lt hmin

theorem pe_header_size_lt (m : Mem) (mem : Nat) : pe_header_size m mem < 2 ^ 32 := by
  unfold pe_header_size NumberOfSections
  have : rd16 m (pe_nt_headers m mem + 6) < 65536 := by
    unfold rd16 rd8
    omega
  omega

theorem pe_base_of_section (mapped min_addr va : Nat) (hfit : mapped + 2 ^ 32 < 2 ^ 64)
    (h1 : min_addr ≤ va) (h2 : va < 2 ^ 32) :
    padd (psub mapped min_addr) va = mapped + (va - min_addr) := by
  unfold padd psub
  have e : min_addr % 2 ^ 64 = min_addr := Nat.mod_eq_of_lt (by omega)
  rw [e]
  norm_num at hfit h2 ⊢
  omega

/-- C25: when the lowest section RVA `first` is below `H = sizeof (IMAGE_NT_HEADERS64) +
n * sizeof (IMAGE_SECTION_HEADER)`, `load_library_from_memory_windows` returns null
without reserving anything. When it returns an image (at an address that leaves room
for 4 GB above it, and with the `VirtualAlloc` for the headers, where it is called,
returning the address it is given): `H <= first`; the rounded `min_addr` has
`min_addr + H <= first`; every section starts at `base_addr + VirtualAddress` with
`base_addr = mapped_addr - min_addr`, which is at or above the end `mapped_addr + H`
of the header copy, and the header copy changes no byte from there on; and the field
`DataDirectory[15].VirtualAddress` of the returned headers holds `min_addr`, so that
`library - DataDirectory[15].VirtualAddress`, as `find_symbol_32bit` and
`unload_library_32bit` compute it, is `base_addr`. -/
theorem C25_pe_header_room (w : Win) (mem : Nat) (m : Mem)
    (hfit : pe_mapped_addr w m mem + 2 ^ 32 < 2 ^ 64)
    (hva : pe_header_dest w mem m ≠ 0 → pe_header_dest w mem m = pe_mapped_addr w m mem) :
    ((pe_extent m mem).1 < pe_header_size m mem →
      (load_library_from_memory_windows w mem m).ret = 0 ∧
      (load_library_from_memory_windows w mem m).trace = []) ∧
    ((load_library_from_memory_windows w mem m).ret ≠ 0 →
      pe_header_size m mem ≤ (pe_extent m mem).1 ∧
      pe_min_addr w m mem + pe_header_size m mem ≤ (pe_extent m mem).1 ∧
      (load_library_from_memory_windows w mem m).ret = pe_mapped_addr w m mem ∧
      (∀ i, i < NumberOfSections m (pe_nt_headers m mem) →
        (pe_extent m mem).1 ≤
          VirtualAddress m (pe_section (pe_sec_headers m (pe_nt_headers m mem)) i) ∧
        (load_library_from_memory_windows w mem m).ret + pe_header_size m mem ≤
          padd (psub (load_library_from_memory_windows w mem m).ret (pe_min_addr w m mem))
            (VirtualAddress m (pe_section (pe_sec_headers m (pe_nt_headers m mem)) i))) ∧
      (∀ x, (load_library_from_memory_windows w mem m).ret + pe_header_size m mem ≤ x →
        (load_library_from_memory_windows w mem m).mem x = pe_before_headers w mem m x) ∧
      dirVA (load_library_from_memory_windows w mem m).mem
        (load_library_from_memory_windows w mem m).ret 15 = pe_min_addr w m mem ∧
      pe_base_addr (load_library_from_memory_windows w mem m).mem
          (load_library_from_memory_windows w mem m).ret =
        psub (load_library_from_memory_windows w mem m).ret (pe_min_addr w m mem)) := by
  refine ⟨load_windows_reject w mem m, fun h => ?_⟩
  obtain ⟨h3, hret, hdest, hmem, -⟩ := load_windows_ok w mem m h
  have hd := hva hdest
  rw [hd] at hmem
  have hH := pe_header_size_lt m mem
  have hfirst : (pe_extent m mem).1 ≤ 0xffffffff :=
    (pe_extent_from_le m _ _ 0 (0xffffffff, 0)).1
  have hmin : pe_min_addr w m mem ≤ (pe_extent m mem).1 - pe_header_size m mem := by
    unfold pe_min_addr
    refine le_trans (align_down32_le _ _) ?_
    exact Nat.mod_le _ _
  have hsec : ∀ i, i < NumberOfSections m (pe_nt_headers m mem) →
      (pe_extent m mem).1 ≤
        VirtualAddress m (pe_section (pe_sec_headers m (pe_nt_headers m mem)) i) :=
    fun i hi => (pe_extent_from_le m _ _ 0 (0xffffffff, 0)).2 i (Nat.zero_le _) (by omega)
  rw [hret, hmem]
  refine ⟨by omega, by omega, rfl, fun i hi => ⟨hsec i hi, ?_⟩, fun x hx => ?_, ?_, ?_⟩
  · have hv := hsec i hi
    have hlt : VirtualAddress m (pe_section (pe_sec_headers m (pe_nt_headers m mem)) i)
        < 2 ^ 32 := rd32_lt _ _
    rw [pe_base_of_section _ _ _ hfit (by omega) hlt]
    omega
  · apply pe_copy_headers_outside
    · unfold pe_header_size at hH
      omega
    · right
      unfold pe_header_size at hx
      exact hx
  · exact pe_copy_headers_dir15 _ _ _ _ _ _ _ (by omega)
  · unfold pe_base_addr
    rw [pe_copy_headers_dir15 _ _ _ _ _ _ _ (by omega)]

/-- Witness of `C25_pe_header_room`: the example file has two sections, the lower one
at `0x11000`; `H = 344`, the reservation starts at the virtual address `0x10000`, is
made at `0x400000`, and the image base comes out as `0x3f0000`. -/
theorem C25_pe_header_room_witness :
    pe_header_size demoPeFile 0x50000 = 344 ∧ (pe_extent demoPeFile 0x50000).1 = 0x11000 ∧
    pe_min_addr demoWin demoPeFile 0x50000 = 0x10000 ∧
    (load_library_from_memory_windows demoWin 0x50000 demoPeFile).ret = 0x400000 ∧
    pe_base_addr (load_library_from_memory_windows demoWin 0x50000 demoPeFile).mem
      (load_library_from_memory_windows demoWin 0x50000 demoPeFile).ret = 0x3f0000 ∧
    (((pe_extent demoPeFile 0x50000).1 < pe_header_size demoPeFile 0x50000 →
      (load_library_from_memory_windows demoWin 0x50000 demoPeFile).ret = 0 ∧
      (load_library_from_memory_windows demoWin 0x50000 demoPeFile).trace = []) ∧
    ((load_library_from_memory_windows demoWin 0x50000 demoPeFile).ret ≠ 0 →
      pe_header_size demoPeFile 0x50000 ≤ (pe_extent demoPeFile 0x50000).1 ∧
      pe_min_addr demoWin demoPeFile 0x50000 + pe_header_size demoPeFile 0x50000 ≤
        (pe_extent demoPeFile 0x50000).1 ∧
      (load_library_from_memory_windows demoWin 0x50000 demoPeFile).ret =
        pe_mapped_addr demoWin demoPeFile 0x50000 ∧
      (∀ i, i < NumberOfSections demoPeFile (pe_nt_headers demoPeFile 0x50000) →
        (pe_extent demoPeFile 0x50000).1 ≤
          VirtualAddress demoPeFile
            (pe_section (pe_sec_headers demoPeFile (pe_nt_headers demoPeFile 0x50000)) i) ∧
        (load_library_from_memory_windows demoWin 0x50000 demoPeFile).ret +
            pe_header_size demoPeFile 0x50000 ≤
          padd (psub (load_library_from_memory_windows demoWin 0x50000 demoPeFile).ret
              (pe_min_addr demoWin demoPeFile 0x50000))
            (VirtualAddress demoPeFile
              (pe_section (pe_sec_headers demoPeFile (pe_nt_headers demoPeFile 0x50000)) i))) ∧
      (∀ x, (load_library_from_memory_windows demoWin 0x50000 demoPeFile).ret +
          pe_header_size demoPeFile 0x50000 ≤ x →
        (load_library_from_memory_windows demoWin 0x50000 demoPeFile).mem x =
          pe_before_headers demoWin 0x50000 demoPeFile x) ∧
      dirVA (load_library_from_memory_windows demoWin 0x50000 demoPeFile).mem
        (load_library_from_memory_windows demoWin 0x50000 demoPeFile).ret 15 =
          pe_min_addr demoWin demoPeFile 0x50000 ∧
      pe_base_addr (load_library_from_memory_windows demoWin 0x50000 demoPeFile).mem
          (load_library_from_memory_windows demoWin 0x50000 demoPeFile).ret =
        psub (load_library_from_memory_windows demoWin 0x50000 demoPeFile).ret
          (pe_min_addr demoWin demoPeFile 0x50000))) :=
  ⟨by decide!, by decide!, by decide!, by decide!, by decide!,
   C25_pe_header_room demoWin 0x50000 demoPeFile (by decide!) (fun _ => by decide!)⟩


/-! ## C29: segments that share a page, and segments that do not -/

theorem and_7fff (x : Nat) : x &&& 0x7fff = x % 32768 := by
  have h := Nat.and_pow_two_sub_one_eq_mod x 15
  norm_num at h
  exact h

theorem top_byte_zero (w : Nat) (h : w < 2 ^ 24) : w &&& 0xff000000 = 0 := by
  have h1 : (w &&& 0xff000000) % 2 ^ 24 = 0 := by
    rw [← Nat.and_pow_two_sub_one_eq_mod, Nat.and_assoc]
    have e : (0xff000000 &&& (2 ^ 24 - 1) : Nat) = 0 := by decide
    rw [e, Nat.and_zero]
  have h2 : w &&& 0xff000000 ≤ w := Nat.and_le_left
  omega

theorem header_top_byte (len : Nat) (h : len < 2 ^ 24) :
    (0xff000000 + len) &&& 0xff000000 ≠ 0 := by
  intro h0
  have h1 : ((0xff000000 + len) &&& 0xff000000).testBit 31 = true := by
    rw [Nat.testBit_and, Nat.testBit_to_div_mod, Nat.testBit_to_div_mod]
    have e : (0xff000000 + len) / 2 ^ 31 % 2 = 1 := by omega
    rw [e]
    decide
  rw [h0] at h1
  simp at h1

theorem header_or (len : Nat) (h : len < 2 ^ 24) : 0xff000000 ||| len = 0xff000000 + len := by
  have h1 := Nat.mul_add_lt_is_or h 255
  norm_num at h1
  exact h1.symm

theorem header_length (len : Nat) (h : len < 2 ^ 24) :
    (0xff000000 + len) &&& 0x00ffffff = len := by
  have h1 := Nat.and_pow_two_sub_one_eq_mod (0xff000000 + len) 24
  norm_num at h1 ⊢
  rw [h1]
  omega

theorem bytes_at_congr (b1 b2 : Mem) (p n : Nat)
    (h : ∀ x, p ≤ x → x < p + n → b1 x = b2 x) : bytes_at b1 p n = bytes_at b2 p n := by
  unfold bytes_at
  apply List.map_congr_left
  intro k hk
  rw [List.mem_range] at hk
  exact rd8_congr _ _ _ (h _ (by omega) (by omega))

theorem bytes_at_write_bytes (b : Mem) (p : Nat) (event : List Nat)
    (h : ∀ x ∈ event, x < 256) : bytes_at (write_bytes b p event) p event.length = event := by
  apply List.ext_getElem
  · simp [bytes_at]
  · intro k h1 h2
    have h3 : event[k] < 256 := h _ (List.getElem_mem h2)
    simp only [bytes_at, List.getElem_map, List.getElem_range, rd8, write_bytes]
    rw [if_pos (by omega)]
    have e : p + k - p = k := by omega
    rw [e, List.getD_eq_getElem _ _ h2]
    omega

theorem write_bytes_outside (b : Mem) (p : Nat) (event : List Nat) (x : Nat)
    (h : x < p ∨ p + event.length ≤ x) : write_bytes b p event x = b x := by
  unfold write_bytes
  rw [if_neg (by omega)]

theorem next_pos_short (P w : Nat) : next_pos P (MidiCall.short w) = P + 1 := rfl

theorem next_pos_long (P : Nat) (message : List Nat) :
    next_pos P (MidiCall.long message) =
      if P + 1 < 32768 ∧ 32768 < P + 1 + (message.length + 3) / 4 then 32768
      else P + 1 + (message.length + 3) / 4 := rfl

theorem next_pos_gt (P : Nat) (c : MidiCall) : P < next_pos P c := by
  cases c with
  | short w => rw [next_pos_short]; omega
  | long message =>
    rw [next_pos_long]
    by_cases hc : P + 1 < 32768 ∧ 32768 < P + 1 + (message.length + 3) / 4
    · rw [if_pos hc]; omega
    · rw [if_neg hc]; omega

theorem Chain_le (b : Mem) : ∀ (cs : List MidiCall) (P W : Nat), Chain b P cs W → P ≤ W := by
  intro cs
  induction cs with
  | nil => intro P W h; unfold Chain at h; omega
  | cons c cs ih =>
    intro P W h
    unfold Chain at h
    have := next_pos_gt P c
    omega

theorem Chain_append (b : Mem) : ∀ (cs ds : List MidiCall) (P W W2 : Nat),
    Chain b P cs W → Chain b W ds W2 → Chain b P (cs ++ ds) W2 := by
  intro cs
  induction cs with
  | nil =>
    intro ds P W W2 h1 h2
    unfold Chain at h1
    subst h1
    exact h2
  | cons c cs ih =>
    intro ds P W W2 h1 h2
    unfold Chain at h1
    obtain ⟨hs, hn, hc⟩ := h1
    have hle := Chain_le b ds W W2 h2
    show Chain b P (c :: (cs ++ ds)) W2
    unfold Chain
    exact ⟨hs, by omega, ih ds _ W W2 hc h2⟩

theorem Stored_frame (b b2 : Mem) (r P W : Nat) (c : MidiCall) (hr : r ≤ P)
    (hW : W ≤ r + 32767) (hr2 : r < 32768) (hn : next_pos P c ≤ W) (hs : Stored b P c)
    (h : ∀ x, Occ r W x → b2 x = b x) : Stored b2 P c := by
  cases c with
  | short w =>
    unfold Stored at hs ⊢
    rw [next_pos_short] at hn
    rw [rd32_congr b2 b _ (fun x h1 h2 => h x (by unfold Occ; omega))]
    exact hs
  | long message =>
    unfold Stored at hs ⊢
    obtain ⟨h1, h2, h3⟩ := hs
    have hgt := next_pos_gt P (MidiCall.long message)
    refine ⟨?_, h2, ?_⟩
    · rw [rd32_congr b2 b _ (fun x h1 h2 => h x (by unfold Occ; omega))]
      exact h1
    · rw [bytes_at_congr b2 b _ _ (fun x h4 h5 => h x ?_)]
      · exact h3
      · rw [next_pos_long] at hn
        unfold Occ
        by_cases hc : P + 1 < 32768 ∧ 32768 < P + 1 + (message.length + 3) / 4
        · rw [if_pos hc] at hn; omega
        · rw [if_neg hc] at hn; omega

theorem Chain_frame (b b2 : Mem) (r W : Nat) (hW : W ≤ r + 32767) (hr2 : r < 32768)
    (h : ∀ x, Occ r W x → b2 x = b x) :
    ∀ (cs : List MidiCall) (P : Nat), r ≤ P → Chain b P cs W → Chain b2 P cs W := by
  intro cs
  induction cs with
  | nil => intro P _ hc; unfold Chain at hc ⊢; exact hc
  | cons c cs ih =>
    intro P hr hc
    unfold Chain at hc ⊢
    obtain ⟨hs, hn, hc⟩ := hc
    have hgt := next_pos_gt P c
    exact ⟨Stored_frame b b2 r P W c hr hW hr2 hn hs h, hn, ih _ (by omega) hc⟩

theorem Occ_mono (r W W2 x : Nat) (hr : r ≤ W) (h : W ≤ W2) (h2 : W2 ≤ r + 32767)
    (ho : Occ r W x) : Occ r W2 x := by
  unfold Occ at ho ⊢
  omega

theorem free_space_eq (r W : Nat) (hr : r < 32768) (h1 : r ≤ W) (h2 : W ≤ r + 32767) :
    free_space r (W % 32768) = r + 32767 - W := by
  unfold free_space
  norm_num
  by_cases hc : r ≤ W % 32768
  · rw [if_pos hc]; omega
  · rw [if_neg hc]; omega

theorem write_words_spec : ∀ (es : List Nat) (V : Nat) (b : Mem), V + es.length < 65536 →
    es.length ≤ 32767 → (∀ w ∈ es, w < 2 ^ 24) →
    (write_words es (V % 32768) b).1 = (V + es.length) % 32768 ∧
    (∀ x, ¬ Reg V (V + es.length) x → (write_words es (V % 32768) b).2 x = b x) ∧
    Chain (write_words es (V % 32768) b).2 V (es.map MidiCall.short) (V + es.length) := by
  intro es
  induction es with
  | nil =>
    intro V b _ _ _
    refine ⟨rfl, fun x _ => rfl, ?_⟩
    show Chain b V [] (V + 0)
    unfold Chain
    rfl
  | cons e es ih =>
    intro V b h1 h2 h3
    have hl : (e :: es).length = es.length + 1 := rfl
    rw [hl] at h1 h2 ⊢
    have hstep : write_words (e :: es) (V % 32768) b =
        write_words es ((V + 1) % 32768) (wr32 b (4 * (V % 32768)) e) := by
      show write_words es ((V % 32768 + 1) &&& 0x7fff) (wr32 b (4 * (V % 32768)) e) = _
      rw [and_7fff]
      have e1 : (V % 32768 + 1) % 32768 = (V + 1) % 32768 := by omega
      rw [e1]
    rw [hstep]
    obtain ⟨i1, i2, i3⟩ := ih (V + 1) (wr32 b (4 * (V % 32768)) e) (by omega) (by omega)
      (fun w hw => h3 w (List.mem_cons_of_mem _ hw))
    have he : e < 2 ^ 24 := h3 e (List.mem_cons_self _ _)
    have e2 : V + (es.length + 1) = V + 1 + es.length := by omega
    rw [e2]
    refine ⟨i1, ?_, ?_⟩
    · intro x hx
      rw [i2 x (by unfold Reg at hx ⊢; omega)]
      exact wr32_outside _ _ _ _ (by unfold Reg at hx; omega)
    · show Chain _ V (MidiCall.short e :: es.map MidiCall.short) _
      unfold Chain
      refine ⟨?_, ?_, i3⟩
      · unfold Stored
        refine ⟨?_, he⟩
        rw [rd32_congr _ (wr32 b (4 * (V % 32768)) e) _
          (fun x h4 h5 => i2 x (by unfold Reg; omega)), rd32_wr32]
        omega
      · rw [next_pos_short]; omega

theorem write_short_step (r W : Nat) (s : EventRing) (cs : List MidiCall) (events : List Nat)
    (hinv : RingInv r W s cs) (hlen : events.length < 2 ^ 32) (hw : ∀ w ∈ events, w < 2 ^ 24)
    (hacc : ¬ events.length % 2 ^ 32 > free_space s.event_read_index s.event_write_index) :
    RingInv r (W + events.length) (write_short_events events s)
        (cs ++ events.map MidiCall.short) ∧
      ∀ x, 196608 ≤ x → (write_short_events events s).event_buffer x = s.event_buffer x := by
  obtain ⟨h1, h2, h3, h4, h5, h6⟩ := hinv
  have hs : write_short_events events s =
      { event_buffer := (write_words events (W % 32768) s.event_buffer).2,
        event_read_index := s.event_read_index,
        event_write_index := (write_words events (W % 32768) s.event_buffer).1,
        midi_event_written := 1 } := by
    unfold write_short_events
    simp only []
    rw [if_neg hacc, h5]
  rw [h1, h5, free_space_eq r W h2 h3 h4, Nat.mod_eq_of_lt hlen] at hacc
  obtain ⟨i1, i2, i3⟩ := write_words_spec events W s.event_buffer (by omega) (by omega) hw
  rw [hs]
  refine ⟨⟨h1, h2, by omega, by omega, i1, ?_⟩, ?_⟩
  · exact Chain_append _ cs _ r W _
      (Chain_frame s.event_buffer _ r W h4 h2
        (fun x hx => i2 x (by unfold Occ at hx; unfold Reg; omega)) cs r (le_refl _) h6) i3
  · intro x hx
    exact i2 x (by unfold Reg; omega)

theorem write_long_event_eq (r W : Nat) (s : EventRing) (event : List Nat)
    (h1 : s.event_read_index = r) (h5 : s.event_write_index = W % 32768) (h2 : r < 32768)
    (h3 : r ≤ W) (h4 : W ≤ r + 32767) (hl : event.length < 65536)
    (hfree : 1 + (event.length + 3) / 4 ≤ r + 32767 - W) :
    write_long_event event s =
      { event_buffer := write_bytes
          (wr32 s.event_buffer (4 * (W % 32768)) (0xff000000 + event.length))
          (4 * ((W + 1) % 32768)) event,
        event_read_index := r,
        event_write_index := next_pos W (MidiCall.long event) % 32768,
        midi_event_written := 1 } := by
  unfold write_long_event
  simp only []
  have e0 : event.length % 2 ^ 32 = event.length := Nat.mod_eq_of_lt (by omega)
  have e1 : (event.length + 3) % 2 ^ 32 = event.length + 3 := Nat.mod_eq_of_lt (by omega)
  have e2 : (1 + (event.length + 3) / 4) % 2 ^ 32 = 1 + (event.length + 3) / 4 :=
    Nat.mod_eq_of_lt (by omega)
  have e3 : (W % 32768 + 1) % 32768 = (W + 1) % 32768 := by omega
  rw [h1, h5, free_space_eq r W h2 h3 h4, e0, e1, e2, if_neg (by omega), and_7fff, e3,
    header_or _ (by omega), next_pos_long]
  by_cases hc : W + 1 < 32768 ∧ 32768 < W + 1 + (event.length + 3) / 4
  · rw [if_pos hc, if_pos (by omega)]
  · rw [if_neg hc, if_neg (by omega), and_7fff]
    have e4 : ((W + 1) % 32768 + (event.length + 3) / 4) % 2 ^ 32 % 32768 =
        (W + 1 + (event.length + 3) / 4) % 32768 := by omega
    rw [e4]

theorem write_long_step (r W : Nat) (s : EventRing) (cs : List MidiCall) (event : List Nat)
    (hinv : RingInv r W s cs) (hlen : event.length < 2 ^ 32) (hb : ∀ x ∈ event, x < 256)
    (hacc : ¬ ((1 + (event.length % 2 ^ 32 + 3) % 2 ^ 32 / 4) % 2 ^ 32 >
        free_space s.event_read_index s.event_write_index ∨ event.length % 2 ^ 32 ≥ 65536)) :
    RingInv r (next_pos W (MidiCall.long event)) (write_long_event event s)
        (cs ++ [MidiCall.long event]) ∧
      ∀ x, 196608 ≤ x → (write_long_event event s).event_buffer x = s.event_buffer x := by
  obtain ⟨h1, h2, h3, h4, h5, h6⟩ := hinv
  rw [h1, h5, free_space_eq r W h2 h3 h4, Nat.mod_eq_of_lt hlen] at hacc
  have hl : event.length < 65536 := by omega
  have hfree : 1 + (event.length + 3) / 4 ≤ r + 32767 - W := by omega
  rw [write_long_event_eq r W s event h1 h5 h2 h3 h4 hl hfree]
  have hgt := next_pos_gt W (MidiCall.long event)
  have hnext : next_pos W (MidiCall.long event) ≤ r + 32767 := by
    rw [next_pos_long]
    by_cases hc : W + 1 < 32768 ∧ 32768 < W + 1 + (event.length + 3) / 4
    · rw [if_pos hc]; omega
    · rw [if_neg hc]; omega
  have hout : ∀ x, Occ r W x ∨ 196608 ≤ x →
      write_bytes (wr32 s.event_buffer (4 * (W % 32768)) (0xff000000 + event.length))
        (4 * ((W + 1) % 32768)) event x = s.event_buffer x := by
    intro x hx
    unfold Occ at hx
    rw [write_bytes_outside _ _ _ _ (by omega), wr32_outside _ _ _ _ (by omega)]
  refine ⟨⟨rfl, h2, by omega, hnext, rfl, ?_⟩, fun x hx => hout x (Or.inr hx)⟩
  refine Chain_append _ cs _ r W _
    (Chain_frame s.event_buffer _ r W h4 h2 (fun x hx => hout x (Or.inl hx)) cs r
      (le_refl _) h6) ?_
  unfold Chain
  refine ⟨?_, le_refl _, ?_⟩
  · unfold Stored
    refine ⟨?_, hl, bytes_at_write_bytes _ _ _ hb⟩
    rw [rd32_congr _ (wr32 s.event_buffer (4 * (W % 32768)) (0xff000000 + event.length)) _
      (fun x h7 h8 => write_bytes_outside _ _ _ _ (by omega)), rd32_wr32]
    omega
  · unfold Chain
    rfl

theorem write_event_rejected (e : MidiWrite) (s : EventRing) (h : overflows e s) :
    write_event e s = s := by
  cases e with
  | short events =>
    show write_short_events events s = s
    unfold write_short_events
    exact if_pos h
  | long event =>
    show write_long_event event s = s
    unfold write_long_event
    exact if_pos h

theorem write_event_step (r W : Nat) (s : EventRing) (cs : List MidiCall) (e : MidiWrite)
    (hinv : RingInv r W s cs) (hwf : well_formed e) (hacc : ¬ overflows e s) :
    RingInv r (pos_after W e) (write_event e s) (cs ++ calls_of e) ∧
      (∀ x, 196608 ≤ x → (write_event e s).event_buffer x = s.event_buffer x) ∧
      (calls_of e ≠ [] → W < pos_after W e) := by
  cases e with
  | short events =>
    obtain ⟨a1, a2⟩ := write_short_step r W s cs events hinv hwf.1 hwf.2 hacc
    refine ⟨a1, a2, ?_⟩
    intro hne
    show W < W + events.length
    cases events with
    | nil => exact absurd rfl hne
    | cons x xs => simp
  | long event =>
    obtain ⟨a1, a2⟩ := write_long_step r W s cs event hinv hwf.1 hwf.2 hacc
    exact ⟨a1, a2, fun _ => next_pos_gt W (MidiCall.long event)⟩

theorem write_events_spec (r : Nat) : ∀ (es : List MidiWrite) (s : EventRing)
    (cs : List MidiCall) (W : Nat), RingInv r W s cs → (∀ e ∈ es, well_formed e) →
    ∃ W2, RingInv r W2 (write_events es s) (cs ++ accepted_calls es s) := by
  intro es
  induction es with
  | nil =>
    intro s cs W hinv _
    refine ⟨W, ?_⟩
    show RingInv r W s (cs ++ [])
    rw [List.append_nil]
    exact hinv
  | cons e es ih =>
    intro s cs W hinv hwf
    show ∃ W2, RingInv r W2 (write_events es (write_event e s))
      (cs ++ ((if overflows e s then [] else calls_of e) ++ accepted_calls es (write_event e s)))
    by_cases ho : overflows e s
    · rw [if_pos ho, write_event_rejected e s ho, List.nil_append]
      exact ih s cs W hinv (fun x hx => hwf x (List.mem_cons_of_mem _ hx))
    · rw [if_neg ho, ← List.append_assoc]
      exact ih _ _ _ (write_event_step r W s cs e hinv (hwf e (List.mem_cons_self _ _)) ho).1
        (fun x hx => hwf x (List.mem_cons_of_mem _ hx))

theorem write_events_append (pre post : List MidiWrite) : ∀ (s : EventRing),
    write_events (pre ++ post) s = write_events post (write_events pre s) := by
  induction pre with
  | nil => intro s; rfl
  | cons e pre ih => intro s; exact ih (write_event e s)

theorem render_step_spec (b : Mem) (r P W : Nat) (c : MidiCall) (hr : r ≤ P) (hr2 : r < 32768)
    (hW : W ≤ r + 32767) (hs : Stored b P c) (hn : next_pos P c ≤ W) :
    render_step b (W % 32768) (P % 32768) = (next_pos P c % 32768, c) := by
  have e : (P % 32768 + 1) % 32768 = (P + 1) % 32768 := by omega
  cases c with
  | short w =>
    unfold Stored at hs
    obtain ⟨h1, h2⟩ := hs
    unfold render_step
    simp only []
    rw [h1, top_byte_zero w h2, if_neg (by simp), and_7fff, e, next_pos_short]
  | long message =>
    unfold Stored at hs
    obtain ⟨h1, h2, h3⟩ := hs
    unfold render_step
    simp only []
    rw [h1, if_pos (header_top_byte _ (by omega)), header_length _ (by omega), and_7fff, e, h3]
    rw [next_pos_long] at hn ⊢
    by_cases hc : P + 1 < 32768 ∧ 32768 < P + 1 + (message.length + 3) / 4
    · rw [if_pos hc] at hn ⊢
      rw [if_pos (by omega)]
    · rw [if_neg hc] at hn ⊢
      rw [if_neg (by omega), and_7fff]
      have e4 : ((P + 1) % 32768 + (message.length + 3) / 4) % 32768 =
          (P + 1 + (message.length + 3) / 4) % 32768 := by omega
      rw [e4]

theorem render_loop_spec (b : Mem) (r W : Nat) (hr2 : r < 32768) (hW : W ≤ r + 32767) :
    ∀ (cs : List MidiCall) (c : MidiCall) (P p fuel : Nat), r ≤ P → p = P % 32768 →
      Chain b P (c :: cs) W → cs.length + 1 ≤ fuel →
      render_loop b (W % 32768) fuel p = some (W % 32768, c :: cs) := by
  intro cs
  induction cs with
  | nil =>
    intro c P p fuel hP hp hc hf
    subst hp
    unfold Chain at hc
    obtain ⟨hs, hn, hc⟩ := hc
    unfold Chain at hc
    cases fuel with
    | zero => simp at hf
    | succ fuel =>
      unfold render_loop
      simp only []
      rw [render_step_spec b r P W c hP hr2 hW hs hn, hc]
      dsimp only
      rw [if_neg (by simp)]
  | cons c2 cs ih =>
    intro c P p fuel hP hp hc hf
    subst hp
    unfold Chain at hc
    obtain ⟨hs, hn, hc⟩ := hc
    have hc2 := hc
    unfold Chain at hc2
    obtain ⟨_, hn2, _⟩ := hc2
    have g1 := next_pos_gt P c
    have g2 := next_pos_gt (next_pos P c) c2
    cases fuel with
    | zero => simp at hf
    | succ fuel =>
      unfold render_loop
      simp only []
      rw [render_step_spec b r P W c hP hr2 hW hs hn]
      dsimp only
      rw [if_pos (by omega),
        ih c2 (next_pos P c) _ fuel (by omega) rfl hc (by simpa using hf)]

theorem render_spec (r W : Nat) (s : EventRing) (cs : List MidiCall) (hinv : RingInv r W s cs)
    (fuel : Nat) (hf : cs.length ≤ fuel) :
    render_subbuffer fuel s =
      some ({ s with event_read_index := s.event_write_index }, cs) := by
  obtain ⟨h1, h2, h3, h4, h5, h6⟩ := hinv
  unfold render_subbuffer
  simp only []
  cases cs with
  | nil =>
    unfold Chain at h6
    have e : s.event_read_index = s.event_write_index := by rw [h1, h5, ← h6]; omega
    rw [if_neg (by rw [e]; simp)]
    cases s
    simp only at e
    rw [e]
  | cons c cs =>
    have g1 := next_pos_gt r c
    have hc := h6
    unfold Chain at hc
    obtain ⟨_, hn, _⟩ := hc
    rw [if_pos (by rw [h1, h5]; omega), h5,
      render_loop_spec s.event_buffer r W h2 h4 cs c r _ fuel (le_refl _)
        (by rw [h1]; omega) h6 (by simpa using hf)]

theorem write_events_cons (e : MidiWrite) (es : List MidiWrite) (s : EventRing) :
    write_events (e :: es) s = write_events es (write_event e s) := rfl

theorem accepted_calls_cons (e : MidiWrite) (es : List MidiWrite) (s : EventRing) :
    accepted_calls (e :: es) s =
      (if overflows e s then [] else calls_of e) ++ accepted_calls es (write_event e s) := rfl

theorem overflows_long (event : List Nat) (s : EventRing) (h : 65536 ≤ event.length % 2 ^ 32) :
    overflows (MidiWrite.long event) s := Or.inr h

theorem demoWrites_accepted :
    accepted_calls demoWrites demoRing =
        [MidiCall.short 0x7f3c90, MidiCall.long [0xf0, 0x41, 0x10, 0x42, 0x12, 0xf7],
          MidiCall.short 0x3c80, MidiCall.short 0x7f3e90] ∧
      (write_events demoWrites demoRing).event_write_index = 2 ∧
      (write_events demoWrites demoRing).event_read_index = 32765 ∧
      rd32 (write_events demoWrites demoRing).event_buffer (4 * 32766) = 0xff000006 ∧
      bytes_at (write_events demoWrites demoRing).event_buffer (4 * 32767) 6 =
        [0xf0, 0x41, 0x10, 0x42, 0x12, 0xf7] := by
  have hrej : ∀ s, overflows (MidiWrite.long (List.replicate 65536 0)) s :=
    fun s => overflows_long _ s (by rw [List.length_replicate]; decide)
  have hw : write_events demoWrites demoRing =
      write_events [MidiWrite.short [0x3c80, 0x7f3e90]]
        (write_events [MidiWrite.short [0x7f3c90],
          MidiWrite.long [0xf0, 0x41, 0x10, 0x42, 0x12, 0xf7]] demoRing) := by
    rw [demoWrites, write_events_cons, write_events_cons, write_events_cons,
      write_event_rejected _ _ (hrej _), write_events_cons, write_events_cons]
    rfl
  have ha : accepted_calls demoWrites demoRing =
      accepted_calls [MidiWrite.short [0x7f3c90],
          MidiWrite.long [0xf0, 0x41, 0x10, 0x42, 0x12, 0xf7]] demoRing ++
        accepted_calls [MidiWrite.short [0x3c80, 0x7f3e90]]
          (write_events [MidiWrite.short [0x7f3c90],
            MidiWrite.long [0xf0, 0x41, 0x10, 0x42, 0x12, 0xf7]] demoRing) := by
    rw [demoWrites, accepted_calls_cons, accepted_calls_cons, accepted_calls_cons,
      if_pos (hrej _), write_event_rejected _ _ (hrej _), accepted_calls_cons,
      accepted_calls_cons, write_events_cons, write_events_cons]
    simp only [accepted_calls, write_events, List.append_nil, List.nil_append, List.append_assoc]
  rw [hw, ha]
  exact ⟨by decide, by decide, by decide, by decide, by decide⟩

theorem RingInv_empty (s0 : EventRing) (hempty : s0.event_read_index = s0.event_write_index)
    (hidx : s0.event_read_index < 32768) :
    RingInv s0.event_read_index s0.event_read_index s0 [] := by
  refine ⟨rfl, hidx, le_refl _, by omega, ?_, ?_⟩
  · rw [← hempty]; omega
  · unfold Chain
    rfl

/-- C30: the MIDI event buffer of `d77_alsadrv.c`. From a state with
`event_read_index == event_write_index` (an index of the ring), let the writers
`write_short_events` and `write_long_event` be called any number of times, with short
event words whose top byte is zero. Then for every one of these calls: a call that is
rejected as an overflow leaves the whole state as it was; a call that is not rejected
and has a payload leaves `event_write_index != event_read_index`, and a
`render_subbuffer` right after it delivers the payloads of all the calls accepted so
far, this one in full at the end; and no call changes a byte at or behind
`&event_buffer[32768 + 16384]`. After all the calls `render_subbuffer` ends (the loop
makes one trip for each call it delivers), passes to `D77_MidiMessageShort` and
`D77_MidiMessageLong` exactly the accepted payloads in order, one call for each short
word and one call with all the bytes, in one piece, for each long event, and leaves
`event_read_index == event_write_index`. -/
theorem C30_event_ring (s0 : EventRing) (es : List MidiWrite)
    (hempty : s0.event_read_index = s0.event_write_index)
    (hidx : s0.event_read_index < 32768) (hwf : ∀ e ∈ es, well_formed e) :
    (∀ pre e post, es = pre ++ e :: post →
      (overflows e (write_events pre s0) →
        write_event e (write_events pre s0) = write_events pre s0) ∧
      (¬ overflows e (write_events pre s0) →
        (calls_of e ≠ [] →
          (write_event e (write_events pre s0)).event_write_index ≠
            (write_event e (write_events pre s0)).event_read_index) ∧
        ∀ fuel, (accepted_calls pre s0 ++ calls_of e).length ≤ fuel →
          ∃ s, render_subbuffer fuel (write_event e (write_events pre s0)) =
            some (s, accepted_calls pre s0 ++ calls_of e)) ∧
      ∀ x, 4 * (32768 + 16384) ≤ x →
        (write_event e (write_events pre s0)).event_buffer x =
          (write_events pre s0).event_buffer x) ∧
    (∀ fuel, (accepted_calls es s0).length ≤ fuel →
      render_subbuffer fuel (write_events es s0) =
        some ({ write_events es s0 with
          event_read_index := (write_events es s0).event_write_index },
          accepted_calls es s0)) ∧
    (write_events es s0).event_write_index < 32768 := by
  have h0 := RingInv_empty s0 hempty hidx
  refine ⟨?_, ?_⟩
  · intro pre e post hes
    have hpre : ∀ x ∈ pre, well_formed x :=
      fun x hx => hwf x (by rw [hes]; exact List.mem_append_left _ hx)
    have he : well_formed e :=
      hwf e (by rw [hes]; exact List.mem_append_right _ (List.mem_cons_self _ _))
    obtain ⟨W, hinv⟩ := write_events_spec _ pre s0 [] _ h0 hpre
    rw [List.nil_append] at hinv
    refine ⟨write_event_rejected e _, ?_, ?_⟩
    · intro hacc
      obtain ⟨a1, _, a3⟩ := write_event_step _ W _ _ e hinv he hacc
      refine ⟨?_, fun fuel hf => ⟨_, render_spec _ _ _ _ a1 fuel hf⟩⟩
      intro hne
      have hlt := a3 hne
      obtain ⟨b1, b2, _, b4, b5, _⟩ := a1
      obtain ⟨_, _, c3, _, _, _⟩ := hinv
      rw [b1, b5]
      omega
    · intro x hx
      by_cases hacc : overflows e (write_events pre s0)
      · rw [write_event_rejected e _ hacc]
      · exact (write_event_step _ W _ _ e hinv he hacc).2.1 x (by omega)
  · obtain ⟨W, hinv⟩ := write_events_spec _ es s0 [] _ h0 hwf
    rw [List.nil_append] at hinv
    refine ⟨fun fuel hf => render_spec _ _ _ _ hinv fuel hf, ?_⟩
    obtain ⟨_, _, _, _, b5, _⟩ := hinv
    rw [b5]
    omega

theorem C30_event_ring_witness :
    (∀ e ∈ demoWrites, well_formed e) ∧
      ∀ fuel, (accepted_calls demoWrites demoRing).length ≤ fuel →
        render_subbuffer fuel (write_events demoWrites demoRing) =
          some ({ write_events demoWrites demoRing with
            event_read_index := (write_events demoWrites demoRing).event_write_index },
            accepted_calls demoWrites demoRing) :=
  have hwf : ∀ e ∈ demoWrites, well_formed e := by
    intro e he
    simp only [demoWrites, List.mem_cons, List.mem_singleton, List.not_mem_nil, or_false] at he
    rcases he with rfl | rfl | rfl | rfl
    · exact ⟨by decide, by decide⟩
    · exact ⟨by decide, by decide⟩
    · refine ⟨by rw [List.length_replicate]; decide, fun x hx => ?_⟩
      rw [List.eq_of_mem_replicate hx]
      decide
    · exact ⟨by decide, by decide⟩
  ⟨hwf, (C30_event_ring demoRing demoWrites rfl (by decide) hwf).2.1⟩

end WebSynth
